import Mathlib

/-!
# LibRaw, Fuji private metadata decoder (`src/metadata/fuji.cpp`)

A shallow embedding of the Fuji makernote decoder of LibRaw and theorems about it.

Conventions of the embedding.

* Bytes are `UInt8`; a C pointer into a byte array is a function `Nat → UInt8`
  (index `i` is the byte `p[i]`).
* 32-bit `unsigned` arithmetic is arithmetic on `Nat` followed by `u32` (reduction
  modulo `2 ^ 32`).  A C `int` is represented by its 32-bit pattern as well, so a
  negative `int` is a pattern `≥ 2 ^ 31`.
* The exception thrown by the bounds-checked buffer is the value `Exn.OutOfRange`;
  code that may throw while it mutates the `LibRaw` object returns an `Outcome`,
  which records the object as it stands when the code finishes or when the
  exception leaves it.
* Single-precision results are kept as the expression that computes them
  (`FloatExpr`).  A converted integer `float(n)` is the integer value of the
  single-precision number it is rounded to (`float_of_int n`), which is `n` itself up to
  `2 ^ 24` in magnitude, so for every 16-bit value.
-/

/-! ## Machine words and byte order -/

/-- Reduction of a natural number to an unsigned 32-bit word. -/
def u32 (n : Nat) : Nat := n % 2 ^ 32

/-- The value `(short) v` of a 16-bit pattern `v`. -/
def toShort (v : Nat) : Int := if v % 65536 < 32768 then (v % 65536 : Nat) else (v % 65536 : Nat) - 65536

/-- The exception of the bounds-checked reader (`LIBRAW_EXCEPTION_IO_EOF` in C++). -/
inductive Exn where
  | OutOfRange
  deriving DecidableEq, Repr

deriving instance DecidableEq for Except

/-- Modelled from the spec: `libraw_sget2_static(order, s)`, the helper behind
`LibRaw::sget2` and `checked_buffer_t::sget2`, is declared outside `src/`.  Every
multi-byte read applies the current byte order; order `0x4949` ("II") is
little-endian (spec 4.4 step 1), any other order is read big-endian. -/
def libraw_sget2_static (order : Nat) (s : Nat → UInt8) : Nat :=
  if order = 0x4949 then (s 0).toNat + 256 * (s 1).toNat
  else 256 * (s 0).toNat + (s 1).toNat

/-- Modelled from the spec: `libraw_sget4_static(order, s)`, declared outside `src/`;
the 32-bit companion of `libraw_sget2_static`. -/
def libraw_sget4_static (order : Nat) (s : Nat → UInt8) : Nat :=
  if order = 0x4949 then
    (s 0).toNat + 256 * (s 1).toNat + 65536 * (s 2).toNat + 16777216 * (s 3).toNat
  else
    16777216 * (s 0).toNat + 65536 * (s 1).toNat + 256 * (s 2).toNat + (s 3).toNat

/-! ## The bounds-checked buffer -/

/-- The class `checked_buffer_t` (its declaration is outside `src/`): a byte array, the
byte order used by its reads and the declared length. -/
structure checked_buffer_t where
  _order : Nat
  _data : Nat → UInt8
  _len : Nat

namespace checked_buffer_t

/-- Pointer `data() + off` into the buffer. -/
def data (b : checked_buffer_t) (off : Nat) : Nat → UInt8 := fun i => b._data (off + i)

/-- Modelled from the spec: `checked_buffer_t::checkoffset` is defined outside `src/`.
Its argument is the offset plus the access width (call sites: `checkoffset(pos + 8)`);
it fails with OutOfRange when that exceeds the declared length. -/
def checkoffset (b : checked_buffer_t) (off : Nat) : Except Exn Unit :=
  if off > b._len then .error .OutOfRange else .ok ()

/-- Modelled from the spec: `checked_buffer_t::sget2` is defined outside `src/`.  The
bounds check for a 2-byte access comes first, then the read in the buffer's order. -/
def sget2 (b : checked_buffer_t) (offset : Nat) : Except Exn Nat :=
  match b.checkoffset (offset + 2) with
  | .error e => .error e
  | .ok _ => .ok (libraw_sget2_static b._order (b.data offset))

/-- Modelled from the spec: `checked_buffer_t::sget4` is defined outside `src/`.  The
bounds check for a 4-byte access comes first, then the read in the buffer's order. -/
def sget4 (b : checked_buffer_t) (offset : Nat) : Except Exn Nat :=
  match b.checkoffset (offset + 4) with
  | .error e => .error e
  | .ok _ => .ok (libraw_sget4_static b._order (b.data offset))

/-- The method `fuji_wb_checked_buffer_t::set_order`. -/
def set_order (b : checked_buffer_t) (o : Nat) : checked_buffer_t := { b with _order := o }

end checked_buffer_t

/-- Short-circuit conjunction `x && y` of two expressions that may throw. -/
def andAlso (x y : Except Exn Bool) : Except Exn Bool :=
  match x with
  | .error e => .error e
  | .ok false => .ok false
  | .ok true => y

/-- A test `r(x)` on one read. -/
def test1 (r : Nat → Bool) (x : Except Exn Nat) : Except Exn Bool :=
  match x with
  | .error e => .error e
  | .ok a => .ok (r a)

/-- A comparison `r(x, y)` of two reads; it throws when either read throws. -/
def test2 (r : Nat → Nat → Bool) (x y : Except Exn Nat) : Except Exn Bool :=
  match x, y with
  | .ok a, .ok c => .ok (r a c)
  | _, _ => .error .OutOfRange

/-- The method `fuji_wb_checked_buffer_t::isWB(unsigned offset)`: the seventeen
conjuncts in source order; `offset + k` is unsigned 32-bit arithmetic. -/
def checked_buffer_t.isWB (b : checked_buffer_t) (offset : Nat) : Except Exn Bool :=
  let v : Nat → Except Exn Nat := fun k => b.sget2 (u32 (offset + k))
  andAlso (test1 (fun a => a != 0) (v 0)) <|
  andAlso (test1 (fun a => a != 0) (v 2)) <|
  andAlso (test1 (fun a => a != 0) (v 4)) <|
  andAlso (test1 (fun a => a != 0) (v 6)) <|
  andAlso (test1 (fun a => a != 0) (v 8)) <|
  andAlso (test1 (fun a => a != 0) (v 10)) <|
  andAlso (test1 (fun a => a != 0xff) (v 0)) <|
  andAlso (test1 (fun a => a != 0xff) (v 2)) <|
  andAlso (test1 (fun a => a != 0xff) (v 4)) <|
  andAlso (test1 (fun a => a != 0xff) (v 6)) <|
  andAlso (test1 (fun a => a != 0xff) (v 8)) <|
  andAlso (test1 (fun a => a != 0xff) (v 10)) <|
  andAlso (test2 (fun a c => a == c) (v 0) (v 6)) <|
  andAlso (test2 (fun a c => decide (a < c)) (v 0) (v 2)) <|
  andAlso (test2 (fun a c => decide (a < c)) (v 0) (v 4)) <|
  andAlso (test2 (fun a c => decide (a < c)) (v 0) (v 8)) <|
  (test2 (fun a c => decide (a < c)) (v 0) (v 10))

/-! ## The decoder object -/

/-- A single-precision value, kept as the expression that computes it: the number `n`,
the quotient `a / b`, a sum, and `logf(float(s2) / float(s1)) / logf(2.f)`. -/
inductive FloatExpr where
  | given (n : Nat)
  | quot (a : Int) (b : Nat)
  | sum (x y : FloatExpr)
  | log2quot (s2 s1 : Nat)
  deriving DecidableEq, Repr

/-- The fields of the `LibRaw` object that the Fuji decoder reads or writes.
`model` and `RAFVersion` are C strings (the bytes before the first NUL);
`icWBC slot c` is `icWBC[slot][c]`, `icWBCCTC i j` is `icWBCCTC[i][j]`
(a converted integer `float(n)` is kept as the integer value of that float),
`BlackLevel i` is `imFuji.BlackLevel[i]`.
The fields from `raw_height` on are written by `parse_fuji` only: `ctop`, `cleft`,
`cheight` and `cwidth` are those of `imgdata.sizes.raw_inset_crops[0]`, `xtrans_abs i` is
the flat entry `(&xtrans_abs[0][0])[i]`, `PARSEFUJI_PROCESSED` is the bit
`LIBRAW_WARN_PARSEFUJI_PROCESSED` of `imgdata.process_warnings`.  `xmplen` and `xmpdata`
are written by `parse_fuji_thumbnail` only; `xmpdata` holds the bytes before the NUL that
the function stores behind them. -/
structure LibRaw where
  order : Nat
  model : List Nat
  RAFVersion : List Nat
  RAFDataGeneration : Nat
  RAFDataVersion : Nat
  BlackLevel : Nat → Nat
  ExpoMidPointShift : FloatExpr
  ExposureCalibrationShift : FloatExpr
  icWBC : Nat → Nat → Int
  icWBCCTC : Nat → Nat → Int
  cam_mul : Nat → Int
  raw_height : Nat := 0
  raw_width : Nat := 0
  height : Nat := 0
  width : Nat := 0
  ctop : Nat := 0
  cleft : Nat := 0
  cheight : Nat := 0
  cwidth : Nat := 0
  raw_aspect : Nat := 0
  fuji_layout : Int := 0
  fuji_width : Nat := 0
  filters : Nat := 0
  xtrans_abs : Nat → Nat := fun _ => 0
  cblack : Nat → Nat := fun _ => 0
  BrightnessCompensation : FloatExpr := .given 0
  posRAFData : Nat := 0
  lenRAFData : Nat := 0
  RAFData_ImageSizeTable : Nat → Nat := fun _ => 0
  PARSEFUJI_PROCESSED : Bool := false
  xmplen : Nat := 0
  xmpdata : List UInt8 := []

namespace LibRaw

/-- The member `LibRaw::sget2(uchar *)`: a read in the global byte order. -/
def sget2 (self : LibRaw) (s : Nat → UInt8) : Nat := libraw_sget2_static self.order s

/-- The member `LibRaw::sget4(uchar *)`: a read in the global byte order. -/
def sget4 (self : LibRaw) (s : Nat → UInt8) : Nat := libraw_sget4_static self.order s

/-- The function `LibRaw::guess_RAFDataGeneration(uchar *RAFData_start)`: the updated
object and the returned `offsetWH_inRAFData`. -/
def guess_RAFDataGeneration (self : LibRaw) (RAFData_start : Nat → UInt8) : LibRaw × Nat :=
  let b01 := self.sget2 RAFData_start
  let b23 := self.sget2 (fun i => RAFData_start (2 + i))
  let is_WRTS := self.sget4 (fun i => RAFData_start (4 + i)) == 0x53545257
  if b01 ≠ 0 ∧ b23 = 0 ∧ b01 < 10000 then
    ({ self with RAFDataGeneration := 1 }, 0)
  else if b01 > 10000 ∧ b23 = 0 then
    ({ self with RAFDataGeneration := 2, RAFDataVersion := b01 }, 4)
  else if b01 = 0 then
    if !is_WRTS then
      ({ self with RAFDataGeneration := 3, RAFDataVersion := b23 }, 4)
    else
      ({ self with RAFDataGeneration := 4, RAFDataVersion := b23 }, 8)
  else
    (self, 0)

end LibRaw

/-- The decision tree of `guess_RAFDataGeneration` (source lines 76-100) on given values of
`b01`, `b23` and `is_WRTS`. -/
def RAFData_rule (b01 b23 : Nat) (is_WRTS : Bool) (self : LibRaw) : LibRaw × Nat :=
  if b01 ≠ 0 ∧ b23 = 0 ∧ b01 < 10000 then
    ({ self with RAFDataGeneration := 1 }, 0)
  else if b01 > 10000 ∧ b23 = 0 then
    ({ self with RAFDataGeneration := 2, RAFDataVersion := b01 }, 4)
  else if b01 = 0 then
    if !is_WRTS then
      ({ self with RAFDataGeneration := 3, RAFDataVersion := b23 }, 4)
    else
      ({ self with RAFDataGeneration := 4, RAFDataVersion := b23 }, 8)
  else
    (self, 0)

/-- The statements `order = 0x4949; ... offsetWH_inRAFData =
guess_RAFDataGeneration(RAFDataHeader)` of the tag `0xc000` handler of `parse_fuji`
(source lines 1287-1294); `RAFDataHeader` holds the 16 bytes read by `fread`. -/
def LibRaw.parse_fuji_guess (self : LibRaw) (RAFDataHeader : Nat → UInt8) : LibRaw × Nat :=
  ({ self with order := 0x4949 }).guess_RAFDataGeneration RAFDataHeader

/-! ## Declarations from outside `src/` -/

/-- The double constants `wbR_corr` and `wbB_corr` of the legacy white-balance correction:
`1.0`, the pair of the S2Pro family and the pair of the DBP family. -/
inductive WBcorr where
  | one
  | R_S2Pro
  | B_S2Pro
  | R_DBP
  | B_DBP
  deriving DecidableEq, Repr

/-- Constants, tables and macros that the decoder uses and that are declared outside
`src/` (`libraw_const.h`, `dcraw_defs.h`, the white-balance tables), taken as
parameters: the indices `LIBRAW_WBI_*`, the tables `Fuji_wb_list1`, `Fuji_wb_list2`
and `FujiCCT_K`, the macro `GRGB_2_RGBG`, `truncMul x k`, the value
`int(x * k)` computed in double precision, the aspect codes `LIBRAW_IMAGE_ASPECT_*` and
the number of entries of `imFuji.RAFData_ImageSizeTable`. -/
structure Decls where
  LIBRAW_WBI_Auto : Nat
  LIBRAW_WBI_AsShot : Nat
  LIBRAW_WBI_Custom1 : Nat
  LIBRAW_WBI_FineWeather : Nat
  LIBRAW_WBI_Shade : Nat
  LIBRAW_WBI_FL_D : Nat
  LIBRAW_WBI_FL_N : Nat
  LIBRAW_WBI_FL_W : Nat
  LIBRAW_WBI_FL_WW : Nat
  LIBRAW_WBI_FL_L : Nat
  LIBRAW_WBI_Tungsten : Nat
  LIBRAW_WBI_Flash : Nat
  Fuji_wb_list1 : List Nat
  Fuji_wb_list2 : List Int
  FujiCCT_K : Nat → Int
  GRGB_2_RGBG : Nat → Nat
  truncMul : Int → WBcorr → Int
  LIBRAW_IMAGE_ASPECT_3to2 : Nat
  LIBRAW_IMAGE_ASPECT_4to3 : Nat
  LIBRAW_IMAGE_ASPECT_16to9 : Nat
  LIBRAW_IMAGE_ASPECT_1to1 : Nat
  RAFData_ImageSizeTable_size : Nat

/-- The table `tag2wbtable`: tag and white-balance index of each entry. -/
def tag2wbtable (d : Decls) : List (Nat × Nat) :=
  [(0x2000, d.LIBRAW_WBI_Auto),
   (0x2100, d.LIBRAW_WBI_FineWeather),
   (0x2200, d.LIBRAW_WBI_Shade),
   (0x2300, d.LIBRAW_WBI_FL_D),
   (0x2301, d.LIBRAW_WBI_FL_N),
   (0x2302, d.LIBRAW_WBI_FL_W),
   (0x2310, d.LIBRAW_WBI_FL_WW),
   (0x2311, d.LIBRAW_WBI_FL_L),
   (0x2400, d.LIBRAW_WBI_Tungsten),
   (0x2410, d.LIBRAW_WBI_Flash)]

/-- A string literal as a C string: the list of its character codes. -/
def cstr (s : String) : List Nat := s.toList.map Char.toNat

/-- The C string stored in a character array: the bytes before the first NUL. -/
def cstring (bytes : List UInt8) : List Nat := (bytes.map UInt8.toNat).takeWhile (fun c => c != 0)

/-- Whether the list `n` starts the list `h`. -/
def startsWith : List Nat → List Nat → Bool
  | _, [] => true
  | [], _ :: _ => false
  | a :: h, c :: n => a == c && startsWith h n

/-- The test `strstr(h, n) != NULL`: the C string `n` occurs in `h`. -/
def strstr : List Nat → List Nat → Bool
  | [], n => startsWith [] n
  | a :: h, n => startsWith (a :: h) n || strstr h n

/-- The value of a 32-bit pattern read as a C `int`. -/
def toInt32 (v : Nat) : Int := if v % 2 ^ 32 < 2 ^ 31 then (v % 2 ^ 32 : Nat) else (v % 2 ^ 32 : Nat) - 2 ^ 32

/-! ## Outcomes and the activation record of `parseAdobeRAFMakernote` -/

/-- How a piece of code ends: normally (`done`, with its result) or by the OutOfRange
exception (`raised`); the exception destroys the locals, what remains is the `LibRaw`
object as it stands at the throw. -/
inductive Outcome (α : Type) where
  | done (a : α)
  | raised (self : LibRaw)

namespace Outcome

/-- Whether the outcome is an exception. -/
def isRaised {α : Type} : Outcome α → Bool
  | done _ => false
  | raised _ => true

/-- Sequencing: the second piece of code runs only when the first ends normally. -/
def bind {α β : Type} (o : Outcome α) (f : α → Outcome β) : Outcome β :=
  match o with
  | done a => f a
  | raised s => raised s

end Outcome

/-- The object and the locals of `parseAdobeRAFMakernote` that live across records. -/
structure Frame where
  self : LibRaw
  PrivateMknBuf : checked_buffer_t
  posPrivateMknBuf : Nat
  wb_section_offset : Nat
  posWB : Nat

/-- The `LibRaw` object an outcome of the record code ends with. -/
def Outcome.obj : Outcome Frame → LibRaw
  | .done fr => fr.self
  | .raised s => s

/-- The statement `lhs = read`: the read comes first; when it throws, nothing is written. -/
def assignRead (r : Except Exn Nat) (w : Nat → Frame → Frame) (fr : Frame) : Outcome Frame :=
  match r with
  | .ok v => .done (w v fr)
  | .error _ => .raised fr.self

/-- The loop `FORC4 body`, that is `for (c = 0; c < 4; c++) body`. -/
def FORC4 (body : Nat → Frame → Outcome Frame) (fr : Frame) : Outcome Frame :=
  (((body 0 fr).bind (body 1)).bind (body 2)).bind (body 3)

/-- Locals of `parseAdobeRAFMakernote` that are fixed before the record loop starts. -/
structure Ctx where
  PrivateOrder : Nat
  use_WBcorr_coeffs : Bool
  wbR_corr : WBcorr
  wbB_corr : WBcorr

namespace Frame

/-- The assignment `icWBC[slot][c] = v`. -/
def setWBC (fr : Frame) (slot c : Nat) (v : Int) : Frame :=
  { fr with self := { fr.self with
      icWBC := fun s k => if s = slot ∧ k = c then v else fr.self.icWBC s k } }

/-- The assignment `icWBCCTC[i][j] = v`. -/
def setCCT (fr : Frame) (i j : Nat) (v : Int) : Frame :=
  { fr with self := { fr.self with
      icWBCCTC := fun a k => if a = i ∧ k = j then v else fr.self.icWBCCTC a k } }

/-- The assignment `imFuji.BlackLevel[i] = v`. -/
def setBlackLevel (fr : Frame) (i v : Nat) : Frame :=
  { fr with self := { fr.self with
      BlackLevel := fun k => if k = i then v else fr.self.BlackLevel k } }

/-- The assignment `cam_mul[c] = v`. -/
def setCamMul (fr : Frame) (c : Nat) (v : Int) : Frame :=
  { fr with self := { fr.self with
      cam_mul := fun k => if k = c then v else fr.self.cam_mul k } }

/-- The pair `PrivateMknBuf.set_order(o); order = o`. -/
def setOrders (fr : Frame) (o : Nat) : Frame :=
  { fr with PrivateMknBuf := fr.PrivateMknBuf.set_order o, self := { fr.self with order := o } }

/-- The block `if (use_WBcorr_coeffs) { ... }` applied to the slot `wb`. -/
def applyWBcorr (d : Decls) (cx : Ctx) (wb : Nat) (fr : Frame) : Frame :=
  if cx.use_WBcorr_coeffs then
    let fr1 := fr.setWBC wb 0 (d.truncMul (fr.self.icWBC wb 0) cx.wbR_corr)
    fr1.setWBC wb 2 (d.truncMul (fr1.self.icWBC wb 2) cx.wbB_corr)
  else fr

end Frame

/-- The local `average_WBData` of both decoders. -/
def average_WBData : Nat := 1

/-- The macro `get_average_WB(wb_index)` of `parseAdobeRAFMakernote`. -/
def get_average_WB (d : Decls) (cx : Ctx) (PrivateTagBytes wb_index : Nat) (fr : Frame) :
    Outcome Frame :=
  (FORC4 (fun c f => assignRead (f.PrivateMknBuf.sget2 (u32 (f.posPrivateMknBuf + 2 * c)))
      (fun v g => g.setWBC wb_index (d.GRGB_2_RGBG c) v) f) fr).bind fun fr1 =>
  (if PrivateTagBytes = 16 ∧ average_WBData ≠ 0 then
    FORC4 (fun c f => assignRead (f.PrivateMknBuf.sget2 (u32 (f.posPrivateMknBuf + 2 * c + 8)))
      (fun v g => g.setWBC wb_index (d.GRGB_2_RGBG c)
        (Int.tdiv (g.self.icWBC wb_index (d.GRGB_2_RGBG c) + v) 2)) f) fr1
   else .done fr1).bind fun fr2 =>
  .done (fr2.applyWBcorr d cx wb_index)

/-- The scan `for (q = 0; q < tag2wbtable_size; q++) if (tag2wbtable[q].tag == tag) ...`:
the index of the first entry with the tag. -/
def tag2wb_lookup : List (Nat × Nat) → Nat → Option Nat
  | [], _ => none
  | (t, wb) :: rest, tag => if t = tag then some wb else tag2wb_lookup rest tag

/-- One custom white-balance record of the tag `0x2f00` handler (the body of its loop). -/
def custom_WB_record (d : Decls) (cx : Ctx) (PrivateTagBytes nWBs wb_ind : Nat) (fr : Frame) :
    Outcome Frame :=
  (FORC4 (fun c f => assignRead (f.PrivateMknBuf.sget2 (f.posWB + 2 * c))
      (fun v g => g.setWBC wb_ind (d.GRGB_2_RGBG c) v) f) fr).bind fun fr1 =>
  (if PrivateTagBytes ≥ u32 (4 + 16 * nWBs) ∧ average_WBData ≠ 0 then
    FORC4 (fun c f => assignRead (f.PrivateMknBuf.sget2 (f.posWB + 2 * c))
      (fun v g => g.setWBC wb_ind (d.GRGB_2_RGBG c)
        (Int.tdiv (g.self.icWBC wb_ind (d.GRGB_2_RGBG c) + v) 2)) f)
      { fr1 with posWB := fr1.posWB + 8 }
   else .done fr1).bind fun fr2 =>
  let fr3 := fr2.applyWBcorr d cx wb_ind
  .done { fr3 with posWB := fr3.posWB + 8 }

/-- The loop `for (wb_ind = first; wb_ind < first + n; wb_ind++)` of the tag `0x2f00` handler. -/
def custom_WB_loop (d : Decls) (cx : Ctx) (PrivateTagBytes nWBs : Nat) :
    Nat → Nat → Frame → Outcome Frame
  | 0, _, fr => .done fr
  | n + 1, wb_ind, fr =>
    (custom_WB_record d cx PrivateTagBytes nWBs wb_ind fr).bind
      (custom_WB_loop d cx PrivateTagBytes nWBs n (wb_ind + 1))

/-- The handler of tag `0x2f00` in `parseAdobeRAFMakernote`. -/
def handle_2f00 (d : Decls) (cx : Ctx) (PrivateTagBytes : Nat) (fr : Frame) : Outcome Frame :=
  match fr.PrivateMknBuf.sget4 fr.posPrivateMknBuf with
  | .error _ => .raised fr.self
  | .ok n =>
    let nWBs := min n 6
    custom_WB_loop d cx PrivateTagBytes nWBs nWBs d.LIBRAW_WBI_Custom1
      { fr with posWB := u32 (fr.posPrivateMknBuf + 4) }

/-- The handler of tag `0x2ff0` in `parseAdobeRAFMakernote`. -/
def handle_2ff0 (d : Decls) (cx : Ctx) (PrivateTagBytes : Nat) (fr : Frame) : Outcome Frame :=
  (get_average_WB d cx PrivateTagBytes d.LIBRAW_WBI_AsShot fr).bind fun fr1 =>
  FORC4 (fun c f => .done (f.setCamMul c (f.self.icWBC d.LIBRAW_WBI_AsShot c))) fr1

/-- The handler of tag `0x4000` (lengths 8 and 16) in `parseAdobeRAFMakernote`. -/
def handle_4000 (d : Decls) (PrivateTagBytes : Nat) (fr : Frame) : Outcome Frame :=
  let fr0 := fr.setBlackLevel 0 (PrivateTagBytes / 2)
  (FORC4 (fun c f => assignRead (f.PrivateMknBuf.sget2 (u32 (f.posPrivateMknBuf + 2 * c)))
      (fun v g => g.setBlackLevel (d.GRGB_2_RGBG c + 1) v) f) fr0).bind fun fr1 =>
  if fr1.self.BlackLevel 0 = 8 then
    FORC4 (fun c f => assignRead (f.PrivateMknBuf.sget2 (u32 (f.posPrivateMknBuf + 2 * c + 8)))
      (fun v g => g.setBlackLevel (d.GRGB_2_RGBG c + 5) v) f) fr1
  else .done fr1

/-- The handler of tag `0x9650` in `parseAdobeRAFMakernote`; `fMAX(1.0f, x)` of an
unsigned 16-bit `x` is `max 1 x`. -/
def handle_9650 (fr : Frame) : Outcome Frame :=
  match fr.PrivateMknBuf.sget2 fr.posPrivateMknBuf,
        fr.PrivateMknBuf.sget2 (u32 (fr.posPrivateMknBuf + 2)) with
  | .ok a, .ok b =>
    let shift := FloatExpr.quot (toShort a) (max 1 b)
    .done { fr with self := { fr.self with
      ExpoMidPointShift := shift,
      ExposureCalibrationShift := .sum fr.self.ExposureCalibrationShift shift } }
  | _, _ => .raised fr.self

/-! ## The structured calibration block (tag `0xc000`, length other than 4096) -/

/-- The test `!strcmp(a, s)`. -/
def streq (a : List Nat) (s : String) : Bool := a == cstr s

/-- The test `!memcmp(PrivateMknBuf.data() + posWB, "TSNERDTS", 8)`. -/
def is_TSNERDTS (b : checked_buffer_t) (posWB : Nat) : Bool :=
  (List.range 8).map (fun i => (b.data posWB i).toNat) == cstr "TSNERDTS"

/-- The three assignments of `icWBC[wb]` from the 6-byte triple at `fr.posWB`: the first
value into channels 3 and 1, the second into channel 0, the third into channel 2. -/
def read_WB_triple (wb : Nat) (fr : Frame) : Outcome Frame :=
  (assignRead (fr.PrivateMknBuf.sget2 fr.posWB)
      (fun v g => (g.setWBC wb 3 v).setWBC wb 1 v) fr).bind fun f1 =>
  (assignRead (f1.PrivateMknBuf.sget2 (f1.posWB + 2)) (fun v g => g.setWBC wb 0 v) f1).bind fun f2 =>
  assignRead (f2.PrivateMknBuf.sget2 (f2.posWB + 4)) (fun v g => g.setWBC wb 2 v) f2

/-- The marker scan `for (posWB = 0; posWB < (int)PrivateTagBytes - 16; posWB++)`; the
first argument is the number of positions still to visit, the current position is
`fr.posWB`. -/
def marker_scan (d : Decls) : Nat → Frame → Outcome Frame
  | 0, fr => .done fr
  | n + 1, fr =>
    match fr.PrivateMknBuf.checkoffset (fr.posWB + 12) with
    | .error _ => .raised fr.self
    | .ok _ =>
      match andAlso (.ok (is_TSNERDTS fr.PrivateMknBuf fr.posWB))
          (test1 (fun g => decide (g > 125)) (fr.PrivateMknBuf.sget2 (fr.posWB + 10))) with
      | .error _ => .raised fr.self
      | .ok true => read_WB_triple d.LIBRAW_WBI_Auto { fr with posWB := fr.posWB + 10 }
      | .ok false => marker_scan d n { fr with posWB := fr.posWB + 1 }

/-- The flag `is34` of the structured block. -/
def is34 (self : LibRaw) : Bool :=
  let v := self.RAFDataVersion
  let m := self.model
  v == 0x0260 || v == 0x0261 || v == 0x0262 || v == 0x0263 || v == 0x0264 ||
  v == 0x0265 || v == 0x0266 || v == 0x0267 || v == 0x0369 ||
  streq m "X-Pro3" ||
  streq m "GFX 100 II" || streq m "GFX100 II" ||
  streq m "GFX 100S" || streq m "GFX100S" ||
  streq m "GFX 50S II" || streq m "GFX50S II" ||
  streq m "X100VI" ||
  streq m "X100V" ||
  streq m "X-H2" ||
  streq m "X-H2S" ||
  streq m "X-T4" ||
  streq m "X-T5" ||
  streq m "X-E4" ||
  streq m "X-T30 II" ||
  streq m "X-S10"

/-- The pattern `if (isWB(pos + a)) wb_section_offset = a; else if (isWB(pos + a2)) ...`:
the first candidate accepted by `isWB`, the current value when none is. -/
def pickWB (b : checked_buffer_t) (pos : Nat) : List Nat → Nat → Except Exn Nat
  | [], cur => .ok cur
  | a :: rest, cur =>
    match b.isWB (u32 (pos + a)) with
    | .error e => .error e
    | .ok true => .ok a
    | .ok false => pickWB b pos rest cur

/-- The part of the offset chain keyed by `imFuji.RAFDataVersion` (source lines 379-516):
`none` when no version branch is taken, otherwise the new `wb_section_offset`. -/
def version_keyed_offset (fr : Frame) : Option (Except Exn Nat) :=
  let v := fr.self.RAFDataVersion
  let m := fr.self.model
  let cur := fr.wb_section_offset
  let pick := pickWB fr.PrivateMknBuf fr.posPrivateMknBuf
  if v = 0x4500 then some (.ok 0x13ac)
  else if v = 0x0146 ∨ v = 0x0149 ∨ v = 0x0249 then some (.ok 0x1410)
  else if v = 0x014d ∨ v = 0x014e then some (.ok 0x1474)
  else if v = 0x014f ∨ v = 0x024f ∨ v = 0x025d ∨ v = 0x035d then some (.ok 0x1480)
  else if v = 0x0150 then some (.ok 0x1414)
  else if v = 0x0151 ∨ v = 0x0251 ∨ v = 0x0351 ∨ v = 0x0451 ∨ v = 0x0551 then some (.ok 0x14b0)
  else if v = 0x0152 ∨ v = 0x0153 then some (.ok 0x1444)
  else if v = 0x0154 then some (.ok 0x1824)
  else if v = 0x0155 then some (.ok 0x17b4)
  else if v = 0x0255 ∨ v = 0x0455 then some (.ok 0x135c)
  else if v = 0x0258 ∨ v = 0x025b then some (.ok 0x13dc)
  else if v = 0x0259 then some (.ok 0x1370)
  else if v = 0x025a ∨ v = 0x045a then some (.ok 0x1424)
  else if v = 0x025c then some (.ok 0x141c)
  else if v = 0x025e then some (.ok 0x2014)
  else if v = 0x025f then
    some (if streq m "X-T30" then pick [0x20b8, 0x20c8] cur
      else if streq m "GFX 50R" then .ok 0x1424
      else if streq m "GFX 100" then .ok 0x20e4
      else .ok cur)
  else if v = 0x0260 then
    some (if streq m "X-Pro3" then .ok 0x20e8
      else if streq m "GFX 100S" || streq m "GFX100S" then .ok 0x2108
      else .ok cur)
  else if v = 0x0261 then
    some (if streq m "X100V" then .ok 0x2078
      else if streq m "GFX 50S II" || streq m "GFX50S II" then .ok 0x214c
      else .ok cur)
  else if v = 0x0262 then some (pick [0x21c8, 0x21cc] cur)
  else if v = 0x0263 then some (.ok 0x0b40)
  else if v = 0x0264 then
    some (if streq m "X-S10" then .ok 0x21de
      else if streq m "X-H2" then .ok 0x0b3e
      else .ok cur)
  else if v = 0x0265 ∨ v = 0x0266 then
    some (if streq m "X-T5" || streq m "X-S20" then .ok 0x0c72 else .ok 0x21cc)
  else if v = 0x0267 then some (.ok 0x0cae)
  else if v = 0x0355 then some (.ok 0x1840)
  else if v = 0x0369 then some (.ok 0x0c5a)
  else none

/-- The rest of the offset chain (source lines 519-743), keyed by the model name alone and,
for the models without a RAFData version, by `imFuji.RAFVersion`: the new
`wb_section_offset`. -/
def model_keyed_offset (fr : Frame) : Except Exn Nat :=
  let m := fr.self.model
  let rv := fr.self.RAFVersion
  let cur := fr.wb_section_offset
  let pick := pickWB fr.PrivateMknBuf fr.posPrivateMknBuf
  if streq m "X-Pro2" then pick [0x135c] cur
  else if streq m "X100F" then pick [0x1370] cur
  else if streq m "X-E1" then pick [0x13ac] cur
  else if streq m "X-T2" || streq m "X-T20" then pick [0x13dc] cur
  else if streq m "X20" || streq m "X100S" then pick [0x1410] cur
  else if streq m "XQ1" || streq m "XQ2" then pick [0x1414] cur
  else if streq m "X-E3" then pick [0x141c] cur
  else if streq m "GFX 50S" || streq m "GFX 50R" then pick [0x1424] cur
  else if streq m "GFX 50S II" || streq m "GFX50S II" then pick [0x214c] cur
  else if streq m "X30" || streq m "X100T" then pick [0x1444] cur
  else if streq m "X-M1" || streq m "X-A1" || streq m "X-A2" then pick [0x1474] cur
  else if streq m "X-E2" || streq m "X-H1" then pick [0x1480] cur
  else if streq m "X-T1" then pick [0x14b0] cur
  else if streq m "X70" then pick [0x17b4] cur
  else if streq m "X-T10" then pick [0x1824] cur
  else if streq m "X-E2S" then pick [0x1840] cur
  else if streq m "X-T3" then pick [0x2014] cur
  else if streq m "X100VI" then pick [0x0c5a] cur
  else if streq m "X100V" then pick [0x2078] cur
  else if streq m "X-T30" then pick [0x20b8, 0x20c8] cur
  else if streq m "GFX 100" then pick [0x20e4] cur
  else if streq m "X-Pro3" then pick [0x20e8] cur
  else if streq m "GFX100S" || streq m "GFX 100S" then pick [0x2108] cur
  else if streq m "X-T4" then pick [0x21c8, 0x21cc] cur
  else if streq m "X-E4" || streq m "X-T30 II" then pick [0x21cc] cur
  else if streq m "X-S10" then pick [0x21de] cur
  else if streq m "X-H2" then pick [0x0b3e] cur
  else if streq m "X-H2S" then pick [0x0b40] cur
  else if streq m "X-T5" || streq m "X-S20" then pick [0x0c72] cur
  else if streq m "GFX 100 II" || streq m "GFX100 II" then pick [0x0cae] cur
  else if streq m "FinePix X100" then
    if streq rv "0069" then .ok 0x19e8
    else if streq rv "0100" || streq rv "0110" then .ok 0x19f0
    else pick [0x19e8, 0x19f0] cur
  else if streq m "X-Pro1" then
    if streq rv "0100" || streq rv "0101" || streq rv "0204" then .ok 0x13a4
    else pick [0x13a4] cur
  else if streq m "XF1" then
    if streq rv "0100" then .ok 0x138c
    else pick [0x138c] cur
  else if streq m "X-S1" then
    if streq rv "0100" then .ok 0x1284
    else pick [0x1284] cur
  else if streq m "X10" then
    if streq rv "0100" || streq rv "0102" then .ok 0x1280
    else if streq rv "0103" then .ok 0x12d4
    else pick [0x1280, 0x12d4] cur
  else if streq m "XF1" then
    if streq rv "0100" then .ok 0x138c
    else pick [0x138c] cur
  else .ok cur

/-- The whole offset chain `if (imFuji.RAFDataVersion == 0x4500) ... else if ...`
(source lines 379-743): the value of `wb_section_offset` after it. -/
def resolve_wb_section_offset (fr : Frame) : Except Exn Nat :=
  match version_keyed_offset fr with
  | some r => r
  | none => model_keyed_offset fr

/-- The preset loop `for (wb_ind = 0; wb_ind < Fuji_wb_list1.size(); posWB += 6, wb_ind++)`
over the entries of the table still to do. -/
def preset_loop : List Nat → Frame → Outcome Frame
  | [], fr => .done fr
  | wb :: rest, fr =>
    (read_WB_triple wb fr).bind fun f1 => preset_loop rest { f1 with posWB := f1.posWB + 6 }

/-- The loop `for (posEndCCTsection = posWB; posEndCCTsection < posWB + 30;
posEndCCTsection += 6)`: the first position whose value differs from `Gval`; the first
argument is the number of positions still to visit. -/
def cct_end_scan (b : checked_buffer_t) (Gval : Nat) : Nat → Nat → Except Exn (Option Nat)
  | 0, _ => .ok none
  | n + 1, posEndCCTsection =>
    match b.sget2 posEndCCTsection with
    | .error e => .error e
    | .ok g => if g ≠ Gval then .ok (some posEndCCTsection)
               else cct_end_scan b Gval n (posEndCCTsection + 6)

/-- The loop `for (iCCT = 0; iCCT < 31; iCCT++)` that fills `icWBCCTC`; the first argument
is the number of entries still to do. -/
def cct_fill (d : Decls) : Nat → Nat → Frame → Outcome Frame
  | 0, _, fr => .done fr
  | n + 1, iCCT, fr =>
    let f0 := fr.setCCT iCCT 0 (d.FujiCCT_K iCCT)
    (assignRead (f0.PrivateMknBuf.sget2 (u32 (f0.wb_section_offset + iCCT * 6 + 2)))
        (fun v g => g.setCCT iCCT 1 v) f0).bind fun f1 =>
    (assignRead (f1.PrivateMknBuf.sget2 (u32 (f1.wb_section_offset + iCCT * 6)))
        (fun v g => (g.setCCT iCCT 4 v).setCCT iCCT 2 v) f1).bind fun f2 =>
    (assignRead (f2.PrivateMknBuf.sget2 (u32 (f2.wb_section_offset + iCCT * 6 + 4)))
        (fun v g => g.setCCT iCCT 3 v) f2).bind fun f3 =>
    cct_fill d n (iCCT + 1) f3

/-- The statements behind the preset loop (source lines 763-791): the skip of `0xc0` bytes
(and `0x30` more when `is34`), the search for the first green value that differs from
`Gval`, the computation of the start of the CCT table and the CCT loop. -/
def cct_stage (d : Decls) (is34 : Bool) (f2 : Frame) : Outcome Frame :=
  let f3 := { f2 with posWB := (if is34 then f2.posWB + 0x30 else f2.posWB) + 0xc0 }
  match f3.PrivateMknBuf.sget2 f3.posWB with
  | .error _ => .raised f3.self
  | .ok Gval =>
    match cct_end_scan f3.PrivateMknBuf Gval 5 f3.posWB with
    | .error _ => .raised f3.self
    | .ok none => .done f3
    | .ok (some posEndCCTsection) =>
      let start := u32 (posEndCCTsection + (2 ^ 32 - (if is34 then 34 * 3 * 2 else 31 * 3 * 2)))
      cct_fill d 31 0 { f3 with wb_section_offset := start }

/-- The body of `if (wb_section_offset && isWB(posPrivateMknBuf + wb_section_offset))`
(source lines 746-792): the Auto triple before the table when the version is 0, the
preset table, the search for the end of the CCT section and the CCT table. -/
def decode_wb_table (d : Decls) (is34 : Bool) (fr : Frame) : Outcome Frame :=
  (if fr.self.RAFDataVersion = 0 then
    read_WB_triple d.LIBRAW_WBI_Auto
      { fr with posWB := u32 (fr.posPrivateMknBuf + fr.wb_section_offset + (2 ^ 32 - 6)) }
   else .done fr).bind fun f1 =>
  (preset_loop d.Fuji_wb_list1
      { f1 with posWB := u32 (f1.posPrivateMknBuf + f1.wb_section_offset) }).bind
    (cct_stage d is34)

/-- The statement `guess_RAFDataGeneration(PrivateMknBuf.data() + posPrivateMknBuf)` of the
structured block; the returned offset is not used there. -/
def Frame.guess (fr : Frame) : Frame :=
  { fr with self :=
      (fr.self.guess_RAFDataGeneration (fr.PrivateMknBuf.data fr.posPrivateMknBuf)).1 }

/-- The structured block up to the test of
`if (wb_section_offset && isWB(posPrivateMknBuf + wb_section_offset))` (source lines
329-745): the bounds check, the classification, the marker scan, `is34`, the offset chain
and the test.  The result is the frame, `is34` and the value of the test. -/
def locate_wb_table (d : Decls) (PrivateTagBytes : Nat) (fr : Frame) :
    Outcome (Frame × Bool × Bool) :=
  match fr.PrivateMknBuf.checkoffset (u32 (fr.posPrivateMknBuf + 8)) with
  | .error _ => .raised fr.self
  | .ok _ =>
    (marker_scan d (PrivateTagBytes - 16) { fr.guess with posWB := 0 }).bind fun f2 =>
    let is34 := is34 f2.self
    match resolve_wb_section_offset f2 with
    | .error _ => .raised f2.self
    | .ok wbo =>
      let f3 := { f2 with wb_section_offset := wbo }
      match andAlso (.ok (decide (f3.wb_section_offset ≠ 0)))
          (f3.PrivateMknBuf.isWB (u32 (f3.posPrivateMknBuf + f3.wb_section_offset))) with
      | .error _ => .raised f3.self
      | .ok valid => .done (f3, is34, valid)

/-- The branch `if (PrivateTagBytes != 4096) { ... }` of the tag `0xc000` handler
(source lines 329-793), entered after the byte order was set to `0x4949`. -/
def structured_block (d : Decls) (PrivateTagBytes : Nat) (fr : Frame) : Outcome Frame :=
  (locate_wb_table d PrivateTagBytes fr).bind fun r =>
    if r.2.2 then decode_wb_table d r.2.1 r.1 else .done r.1

/-! ## The fixed grid (tag `0xc000`, length 4096) -/

/-- The scan `for (pWB = 1; pWB < Fuji_wb_list2.size(); pWB += 2)` over the flattened pairs
`slot, presetId`: the slot of the first pair whose preset id is `nWB`. -/
def Fuji_wb_list2_lookup : List Int → Int → Option Int
  | slot :: presetId :: rest, nWB =>
    if presetId = nWB then some slot else Fuji_wb_list2_lookup rest nWB
  | _, _ => none

/-- The assignment `icWBC[slot][c] = v` on the object. -/
def LibRaw.setWBC (self : LibRaw) (slot c : Nat) (v : Int) : LibRaw :=
  { self with icWBC := fun s k => if s = slot ∧ k = c then v else self.icWBC s k }

/-- The assignment `icWBCCTC[i][j] = v` on the object. -/
def LibRaw.setCCT (self : LibRaw) (i j : Nat) (v : Int) : LibRaw :=
  { self with icWBCCTC := fun a k => if a = i ∧ k = j then v else self.icWBCCTC a k }

/-- The number of low bits a magnitude loses when it is cut to 24 significant bits; the
first argument bounds the result (8 for a 32-bit magnitude). -/
def dropped_bits : Nat → Nat → Nat
  | 0, _ => 0
  | fuel + 1, a => if a < 2 ^ 24 then 0 else 1 + dropped_bits fuel (a / 2)

/-- A magnitude without its `s` low bits, rounded to nearest and to the even neighbour in a
tie, as a number again. -/
def round_bits (a s : Nat) : Nat :=
  (if 2 * (a % 2 ^ s) > 2 ^ s ∨ (2 * (a % 2 ^ s) = 2 ^ s ∧ a / 2 ^ s % 2 = 1) then
    a / 2 ^ s + 1
  else a / 2 ^ s) * 2 ^ s

/-- The conversion `float(n)` of a C `int`: the value of the single-precision number
nearest to `n` (24 significant bits, ties to even, the default rounding of IEEE 754
arithmetic), which is an integer again. -/
def float_of_int (n : Int) : Int :=
  n.sign * (round_bits n.natAbs (dropped_bits 8 n.natAbs) : Nat)

/-- What one record of the grid does to the object once its six fields are read (the same
statements in both decoders): `nWB`, `tWB` and `wb[0..3]` are C `int`s, stored into
`icWBCCTC` as `float(tWB)` and `float(wb[c])` and into `icWBC` as they are; the result
carries the new `iCCT`. -/
def LibRaw.fixed4096_store (self : LibRaw) (d : Decls) (nWB tWB : Int) (wb : Nat → Int)
    (iCCT : Nat) : LibRaw × Nat :=
  let r1 : LibRaw × Nat :=
    if tWB ≠ 0 ∧ iCCT < 64 then
      (((((self.setCCT iCCT 0 (float_of_int tWB)).setCCT iCCT 1
        (float_of_int (wb 0))).setCCT iCCT 2 (float_of_int (wb 1))).setCCT iCCT 3
        (float_of_int (wb 2))).setCCT iCCT 4 (float_of_int (wb 3)), iCCT + 1)
    else (self, iCCT)
  if nWB ≠ 0x46 then
    match Fuji_wb_list2_lookup d.Fuji_wb_list2 nWB with
    | some slot =>
      ((((r1.1.setWBC slot.toNat 0 (wb 0)).setWBC slot.toNat 1 (wb 1)).setWBC slot.toNat 2
        (wb 2)).setWBC slot.toNat 3 (wb 3), r1.2)
    | none => r1
  else r1

/-- The array `wb[4]` of one record of the grid, from the fields read third to sixth:
`wb[0] = field << 1`, `wb[1] = field`, `wb[3] = field`, `wb[2] = field << 1`. -/
def fixed4096_wb (w0 w1 w3 w2 : Nat) : Nat → Int := fun c =>
  if c = 0 then toInt32 (u32 (2 * w0)) else if c = 1 then toInt32 w1
  else if c = 2 then toInt32 (u32 (2 * w2)) else toInt32 w3

/-- What one record of the grid does once its six fields are read, in the frame of
`parseAdobeRAFMakernote`. -/
def fixed4096_store (d : Decls) (nWB tWB : Int) (wb : Nat → Int) (iCCT : Nat) (fr : Frame) :
    Frame × Nat :=
  ({ fr with self := (fr.self.fixed4096_store d nWB tWB wb iCCT).1 },
    (fr.self.fixed4096_store d nWB tWB wb iCCT).2)

/-- One iteration of `for (wb_ind = 0; wb_ind < 42; wb_ind++)`: six 32-bit reads at
`fr.posWB`, each followed by `posWB += 4`, then the stores. -/
def fixed4096_record (d : Decls) (iCCT : Nat) (fr : Frame) : Outcome (Frame × Nat) :=
  let b := fr.PrivateMknBuf
  let p := fr.posWB
  match b.sget4 p with
  | .error _ => .raised fr.self
  | .ok nWB =>
  match b.sget4 (p + 4) with
  | .error _ => .raised fr.self
  | .ok tWB =>
  match b.sget4 (p + 8) with
  | .error _ => .raised fr.self
  | .ok w0 =>
  match b.sget4 (p + 12) with
  | .error _ => .raised fr.self
  | .ok w1 =>
  match b.sget4 (p + 16) with
  | .error _ => .raised fr.self
  | .ok w3 =>
  match b.sget4 (p + 20) with
  | .error _ => .raised fr.self
  | .ok w2 =>
    .done (fixed4096_store d (toInt32 nWB) (toInt32 tWB) (fixed4096_wb w0 w1 w3 w2) iCCT
      { fr with posWB := p + 24 })

/-- The loop `for (wb_ind = 0; wb_ind < 42; wb_ind++)`; the first argument is the number of
records still to do. -/
def fixed4096_loop (d : Decls) : Nat → Nat → Frame → Outcome Frame
  | 0, _, fr => .done fr
  | n + 1, iCCT, fr =>
    (fixed4096_record d iCCT fr).bind fun r => fixed4096_loop d n r.2 r.1

/-- The branch `else // process 4K raf data` of the tag `0xc000` handler. -/
def fixed4096_block (d : Decls) (fr : Frame) : Outcome Frame :=
  fixed4096_loop d 42 0
    { fr with self := { fr.self with RAFDataGeneration := 4096 },
              posWB := u32 (fr.posPrivateMknBuf + 0x200) }

/-! ## The record loop and `parseAdobeRAFMakernote` -/

/-- The handler of tag `0xc000` in `parseAdobeRAFMakernote`. -/
def handle_c000 (d : Decls) (PrivateTagBytes : Nat) (fr : Frame) : Outcome Frame :=
  let f := fr.setOrders 0x4949
  if PrivateTagBytes ≠ 4096 then structured_block d PrivateTagBytes f
  else fixed4096_block d f

/-- The `if ... else if ...` chain that dispatches one record on its tag. -/
def dispatch (d : Decls) (cx : Ctx) (PrivateTagID PrivateTagBytes : Nat) (fr : Frame) :
    Outcome Frame :=
  if PrivateTagID ≥ 0x2000 ∧ PrivateTagID ≤ 0x2410 then
    match tag2wb_lookup (tag2wbtable d) PrivateTagID with
    | some wb => get_average_WB d cx PrivateTagBytes wb fr
    | none => .done fr
  else if PrivateTagID = 0x2f00 then handle_2f00 d cx PrivateTagBytes fr
  else if PrivateTagID = 0x2ff0 then handle_2ff0 d cx PrivateTagBytes fr
  else if PrivateTagID = 0x4000 ∧ (PrivateTagBytes = 8 ∨ PrivateTagBytes = 16) then
    handle_4000 d PrivateTagBytes fr
  else if PrivateTagID = 0x9650 then handle_9650 fr
  else if PrivateTagID = 0xc000 ∧ PrivateTagBytes > 3 ∧ PrivateTagBytes < 10240000 then
    handle_c000 d PrivateTagBytes fr
  else .done fr

/-- The frame at the payload of a record: after the header was read in order `0x4d4d`,
`posPrivateMknBuf += 4` and both byte orders were set to `PrivateOrder`. -/
def Frame.at_payload (fr : Frame) (PrivateOrder : Nat) : Frame :=
  ({ fr.setOrders 0x4d4d with
      posPrivateMknBuf := u32 ((fr.setOrders 0x4d4d).posPrivateMknBuf + 4) }).setOrders PrivateOrder

/-- The body of `while (PrivateEntries--)`: the 4-byte record header read big-endian, the
dispatch in the block's own order, the step to the next record. -/
def one_record (d : Decls) (cx : Ctx) (fr : Frame) : Outcome Frame :=
  let f0 := fr.setOrders 0x4d4d
  match f0.PrivateMknBuf.sget2 f0.posPrivateMknBuf with
  | .error _ => .raised f0.self
  | .ok PrivateTagID =>
    match f0.PrivateMknBuf.sget2 (u32 (f0.posPrivateMknBuf + 2)) with
    | .error _ => .raised f0.self
    | .ok PrivateTagBytes =>
      (dispatch d cx PrivateTagID PrivateTagBytes (fr.at_payload cx.PrivateOrder)).bind fun f3 =>
        .done { f3 with posPrivateMknBuf := u32 (f3.posPrivateMknBuf + PrivateTagBytes) }

/-- The loop `while (PrivateEntries--)`. -/
def record_loop (d : Decls) (cx : Ctx) : Nat → Frame → Outcome Frame
  | 0, fr => .done fr
  | n + 1, fr => (one_record d cx fr).bind (record_loop d cx n)

/-- The directory header of the block (source lines 228-246): `PrivateOrder`, the
directory chosen by the shot-select logic and its `PrivateEntries`, as
`(PrivateOrder, ifd_start, PrivateEntries)`. -/
def read_directory (b : checked_buffer_t) (PrivateMknLength FujiShotSelect : Nat) :
    Except Exn (Nat × Nat × Nat) := do
  let PrivateOrder ← b.sget2 0
  let s := u32 ((← b.sget4 2) + 6)
  let l ← b.sget4 s
  let z ← b.sget4 (u32 (s + l + 4))
  let FujiShotSelect := if z = 0 then 0 else FujiShotSelect
  let ifd_start ←
    if FujiShotSelect = 1 ∧ PrivateMknLength > u32 (l * 2) then do
      let ifd_start := u32 (s + u32 (l + 4))
      let ifd_len ← b.sget4 ifd_start
      pure (if u32 (ifd_start + ifd_len) > PrivateMknLength then s else ifd_start)
    else pure s
  let PrivateEntries ← b.sget4 (u32 (ifd_start + 4))
  pure (PrivateOrder, ifd_start, PrivateEntries)

/-- The legacy-correction setup at the head of both decoders: `use_WBcorr_coeffs`,
`wbR_corr` and `wbB_corr` for a model string. -/
def WBcorr_setup (model : List Nat) : Bool × WBcorr × WBcorr :=
  if strstr model (cstr "S2Pro") || strstr model (cstr "S20Pro") || strstr model (cstr "F700")
      || strstr model (cstr "S5000") || strstr model (cstr "S7000") then
    (true, .R_S2Pro, .B_S2Pro)
  else if strstr model (cstr "DBP") || strstr model (cstr "DX-2000") then
    (true, .R_DBP, .B_DBP)
  else (false, .one, .one)

/-- The object once the block is in `PrivateMknBuf`: `order = 0x4d4d`, and `model` and
`imFuji.RAFVersion` copied from the offsets `0x12` and `0x32` of the block. -/
def LibRaw.load_block (self : LibRaw) (data : Nat → UInt8) : LibRaw :=
  { self with
    order := 0x4d4d,
    model := cstring ((List.range 0x20).map fun i => data (0x12 + i)),
    RAFVersion := cstring ((List.range 4).map fun i => data (0x32 + i)) }

/-- The locals that are fixed when the record loop starts; the correction setup uses the
model string the object had on entry. -/
def block_ctx (self : LibRaw) (PrivateOrder : Nat) : Ctx :=
  ⟨PrivateOrder, (WBcorr_setup self.model).1, (WBcorr_setup self.model).2.1,
    (WBcorr_setup self.model).2.2⟩

/-- The frame when the record loop starts: the buffer `PrivateMknBuf(order,
PrivateMknLength + 1024)` filled by `fread`, `posPrivateMknBuf = ifd_start + 8` and
`wb_section_offset = 0`. -/
def first_frame (self : LibRaw) (PrivateMknLength : Nat) (data : Nat → UInt8)
    (ifd_start : Nat) : Frame :=
  ⟨self.load_block data, ⟨0x4d4d, data, PrivateMknLength + 1024⟩, u32 (ifd_start + 8), 0, 0⟩

/-- The function `LibRaw::parseAdobeRAFMakernote()`.  `PrivateMknLength` is the value
returned by `get4()`, `data` the content of `PrivateMknBuf` after the `fread`,
`shot_select` the user parameter of that name.  The serial-number fields
(`SerialSignature`, `SensorID`, `CamID`) are not part of the embedding. -/
def LibRaw.parseAdobeRAFMakernote (self : LibRaw) (d : Decls) (shot_select PrivateMknLength : Nat)
    (data : Nat → UInt8) : Outcome LibRaw :=
  let FujiShotSelect := max 0 (min shot_select 1)
  if PrivateMknLength ≥ 0x36 ∧ PrivateMknLength < 10240000 then
    match read_directory ⟨0x4d4d, data, PrivateMknLength + 1024⟩ PrivateMknLength
        FujiShotSelect with
    | .error _ => .raised (self.load_block data)
    | .ok (PrivateOrder, ifd_start, PrivateEntries) =>
      if PrivateEntries > 1000 ∨ (PrivateOrder ≠ 0x4d4d ∧ PrivateOrder ≠ 0x4949) then
        .done (self.load_block data)
      else
        match record_loop d (block_ctx self PrivateOrder) PrivateEntries
            (first_frame self PrivateMknLength data ifd_start) with
        | .done fr => .done fr.self
        | .raised s => .raised s
  else .done { self with order := 0x4d4d }

/-! ## Sample inputs -/

/-- A byte array given by the list of its first bytes; every later byte is zero. -/
def bytesOf (l : List Nat) : Nat → UInt8 := fun i => UInt8.ofNat (l.getD i 0)

/-- An object with every numeric field zero and empty strings. -/
def LibRaw.blank : LibRaw :=
  { order := 0, model := [], RAFVersion := [], RAFDataGeneration := 0, RAFDataVersion := 0,
    BlackLevel := fun _ => 0, ExpoMidPointShift := .given 0,
    ExposureCalibrationShift := .given 0, icWBC := fun _ _ => 0, icWBCCTC := fun _ _ => 0,
    cam_mul := fun _ => 0 }

/-- Sample values for the declarations outside `src/`: white-balance indices in the
numbering of `libraw_const.h`, a preset table of six illuminants, pairs `slot, presetId`
for `Fuji_wb_list2`, a temperature ladder, the permutation `q ^ 1` for `GRGB_2_RGBG`,
the identity in place of the double-precision products, aspect codes and a size table of
32 entries. -/
def sampleDecls : Decls :=
  { LIBRAW_WBI_Auto := 82, LIBRAW_WBI_AsShot := 81, LIBRAW_WBI_Custom1 := 90,
    LIBRAW_WBI_FineWeather := 9, LIBRAW_WBI_Shade := 11, LIBRAW_WBI_FL_D := 12,
    LIBRAW_WBI_FL_N := 13, LIBRAW_WBI_FL_W := 14, LIBRAW_WBI_FL_WW := 15,
    LIBRAW_WBI_FL_L := 16, LIBRAW_WBI_Tungsten := 3, LIBRAW_WBI_Flash := 4,
    Fuji_wb_list1 := [9, 11, 12, 13, 14, 3],
    Fuji_wb_list2 := [82, 0, 9, 1, 11, 2, 3, 6],
    FujiCCT_K := fun i => 2500 + 250 * i,
    GRGB_2_RGBG := fun q => if q = 0 then 1 else if q = 1 then 0 else if q = 2 then 3 else 2,
    truncMul := fun x _ => x,
    LIBRAW_IMAGE_ASPECT_3to2 := 1500, LIBRAW_IMAGE_ASPECT_4to3 := 1333,
    LIBRAW_IMAGE_ASPECT_16to9 := 1777, LIBRAW_IMAGE_ASPECT_1to1 := 1000,
    RAFData_ImageSizeTable_size := 32 }

/-- The first `0x3e` bytes of a sample makernote block: byte-order mark `II`, directory at
`0x36`, an empty serial signature, the model name, the RAF version `0100`, directory
length 0 and the entry count. -/
def sampleHeader (model : String) (entries : Nat) : List Nat :=
  [0x49, 0x49, 0, 0, 0, 0x30] ++ List.replicate 12 0 ++
  (cstr model ++ List.replicate (32 - model.length) 0) ++ cstr "0100" ++
  [0, 0, 0, 0] ++ [0, 0, 0, entries]

/-- A sample block with one record: tag `0xc000`, length 20, payload starting with the
bytes `11 27 00 00`. -/
def sampleBlock_gen2 : List Nat :=
  sampleHeader "X-M5" 1 ++ [0xc0, 0x00, 0x00, 0x14] ++
  [0x11, 0x27, 0, 0] ++ List.replicate 16 0

/-- The `LibRaw` object `parseAdobeRAFMakernote` ends with, normally or not. -/
def Outcome.final : Outcome LibRaw → LibRaw
  | .done s => s
  | .raised s => s

/-- The 16-bit value stored at `offset` of the buffer, in the buffer's byte order (what
`sget2(offset)` returns when the bounds check passes). -/
def checked_buffer_t.peek2 (b : checked_buffer_t) (offset : Nat) : Nat :=
  libraw_sget2_static b._order (b.data offset)

/-- The bytes of a list of 16-bit values stored little-endian. -/
def le16 : List Nat → List Nat
  | [] => []
  | v :: rest => v % 256 :: v / 256 % 256 :: le16 rest

/-- A little-endian buffer that holds exactly the given 16-bit values. -/
def windowBuf (vals : List Nat) : checked_buffer_t :=
  ⟨0x4949, bytesOf (le16 vals), 2 * vals.length⟩

/-- The relation between the object before and after a piece of code that may touch the
white-balance slot `auto` but no other slot of `icWBC` and no entry of `icWBCCTC`. -/
def OnlyAutoChanged (auto : Nat) (a b : LibRaw) : Prop :=
  (∀ s c, s ≠ auto → b.icWBC s c = a.icWBC s c) ∧ b.icWBCCTC = a.icWBCCTC

/-- The object an outcome of `locate_wb_table` ends with. -/
def Outcome.located : Outcome (Frame × Bool × Bool) → LibRaw
  | .done r => r.1.self
  | .raised s => s

/-- A sample block of 198 bytes with two records.  The first has tag `0xc000` and length
120; its payload (at offset 66) is a Gen3 header with version `0x0262`, the marker
`TSNERDTS` at payload offset 8 and, ten bytes behind the start of the marker, the values
302, 600, 700.  The second has tag `0x4000`, length 8 and four black levels. -/
def sampleBlock_marker : List Nat :=
  sampleHeader "X-T4" 2 ++ [0xc0, 0x00, 0x00, 120] ++
  ([0, 0, 0x62, 0x02, 0, 0, 0, 0] ++ cstr "TSNERDTS" ++ [0, 0] ++ le16 [302, 600, 700] ++
    List.replicate 96 0) ++
  [0x40, 0x00, 0x00, 0x08] ++ le16 [1000, 1001, 1002, 1003]

/-- The frame of `parseAdobeRAFMakernote` on `sampleBlock_marker` when the structured block
of the first record is entered. -/
def sampleFrame_marker : Frame :=
  { self := { LibRaw.blank with order := 0x4949, model := cstr "X-T4", RAFVersion := cstr "0100" },
    PrivateMknBuf := ⟨0x4949, bytesOf sampleBlock_marker, 198 + 1024⟩,
    posPrivateMknBuf := 66, wb_section_offset := 0, posWB := 0 }

/-- A sample block of 98 bytes with two records: tag `0xc000`, length 20, a Gen3 header with
version `0x0259`; then tag `0x4000`, length 8 and four black levels. -/
def sampleBlock_short : List Nat :=
  sampleHeader "X100F" 2 ++ [0xc0, 0x00, 0x00, 20] ++
  ([0, 0, 0x59, 0x02] ++ List.replicate 16 0) ++
  [0x40, 0x00, 0x00, 0x08] ++ le16 [1000, 1001, 1002, 1003]

/-- A sample block of 74 bytes with the single record of tag `0x4000` and length 8. -/
def sampleBlock_black : List Nat :=
  sampleHeader "X100F" 1 ++ [0x40, 0x00, 0x00, 0x08] ++ le16 [1000, 1001, 1002, 1003]

/-! ## The standalone dialect: `parse_fuji` -/

/-- The input file `ifp`: its bytes and its size.  A position at or behind `size` is the end
of file for `fgetc`; the multi-byte reads take the bytes `bytes p` at every position. -/
structure datastream where
  bytes : Nat → UInt8
  size : Nat

namespace datastream

/-- Modelled from the spec: `get2()` is defined outside `src/`; the 16-bit value at the
file position `p` in the global byte order `order` (the position then advances by 2). -/
def get2 (ifp : datastream) (order p : Nat) : Nat :=
  libraw_sget2_static order (fun i => ifp.bytes (p + i))

/-- Modelled from the spec: `get4()` is defined outside `src/`; the 32-bit value at the
file position `p` in the global byte order `order` (the position then advances by 4). -/
def get4 (ifp : datastream) (order p : Nat) : Nat :=
  libraw_sget4_static order (fun i => ifp.bytes (p + i))

/-- Modelled from the spec: `fgetc(ifp)` is defined outside `src/`; the byte at the file
position `p`, or `EOF = -1` at the end of the file. -/
def fgetc (ifp : datastream) (p : Nat) : Int :=
  if p < ifp.size then ((ifp.bytes p).toNat : Int) else -1

end datastream

/-- The activation of `parse_fuji` between two records: the object, the file position and
the local `raw_inset_present`. -/
structure FujiState where
  self : LibRaw
  pos : Nat
  raw_inset_present : Bool

/-- The block `if (use_WBcorr_coeffs) { ... }` of `parse_fuji` applied to the slot `wb`. -/
def LibRaw.applyWBcorr (self : LibRaw) (d : Decls) (corr : Bool × WBcorr × WBcorr) (wb : Nat) :
    LibRaw :=
  if corr.1 then
    let s1 := self.setWBC wb 0 (d.truncMul (self.icWBC wb 0) corr.2.1)
    s1.setWBC wb 2 (d.truncMul (s1.icWBC wb 2) corr.2.2)
  else self

/-- The loop `FORC4 icWBC[wb][GRGB_2_RGBG(c)] = get2()` of `parse_fuji`, reading at `p`,
`p + 2`, `p + 4`, `p + 6`. -/
def LibRaw.read_WB_quad (self : LibRaw) (d : Decls) (ifp : datastream) (wb p : Nat) : LibRaw :=
  (((self.setWBC wb (d.GRGB_2_RGBG 0) (ifp.get2 self.order p)).setWBC wb (d.GRGB_2_RGBG 1)
    (ifp.get2 self.order (p + 2))).setWBC wb (d.GRGB_2_RGBG 2)
    (ifp.get2 self.order (p + 4))).setWBC wb (d.GRGB_2_RGBG 3) (ifp.get2 self.order (p + 6))

/-- One step `icWBC[wb][GRGB_2_RGBG(c)] = (icWBC[wb][GRGB_2_RGBG(c)] + get2()) / 2`. -/
def LibRaw.average_WB_step (self : LibRaw) (d : Decls) (ifp : datastream) (wb p c : Nat) :
    LibRaw :=
  self.setWBC wb (d.GRGB_2_RGBG c)
    (Int.tdiv (self.icWBC wb (d.GRGB_2_RGBG c) + ifp.get2 self.order (p + 2 * c)) 2)

/-- The loop `FORC4 icWBC[wb][GRGB_2_RGBG(c)] = (icWBC[wb][GRGB_2_RGBG(c)] + get2()) / 2`
of `parse_fuji`, reading at `p`, `p + 2`, `p + 4`, `p + 6`. -/
def LibRaw.average_WB_quad (self : LibRaw) (d : Decls) (ifp : datastream) (wb p : Nat) :
    LibRaw :=
  (((self.average_WB_step d ifp wb p 0).average_WB_step d ifp wb p 1).average_WB_step d ifp
    wb p 2).average_WB_step d ifp wb p 3

/-- The macro `get_average_WB(wb_index)` of `parse_fuji`; `save` is the file position of the
payload. -/
def LibRaw.pf_get_average_WB (self : LibRaw) (d : Decls) (corr : Bool × WBcorr × WBcorr)
    (ifp : datastream) (len wb_index save : Nat) : LibRaw :=
  let s1 := self.read_WB_quad d ifp wb_index save
  let s2 := if len = 16 ∧ average_WBData ≠ 0 then s1.average_WB_quad d ifp wb_index (save + 8)
            else s1
  s2.applyWBcorr d corr wb_index

/-- The loop `for (wb_ind = LIBRAW_WBI_Custom1; wb_ind < LIBRAW_WBI_Custom1 + nWBs;
wb_ind++)` of the tag `0x2f00` handler of `parse_fuji`; the first argument is the number
of records still to do, `p` the file position.  The correction is applied to the slot
`LIBRAW_WBI_Custom1 + wb_ind`, as in the source. -/
def pf_custom_WB_loop (d : Decls) (corr : Bool × WBcorr × WBcorr) (ifp : datastream)
    (len : Nat) (nWBs : Int) : Nat → Nat → Nat → LibRaw → LibRaw
  | 0, _, _, self => self
  | n + 1, wb_ind, p, self =>
    let s1 := self.read_WB_quad d ifp wb_ind p
    let double := decide ((len : Int) ≥ (4 + 16 * nWBs) % 2 ^ 32 ∧ average_WBData ≠ 0)
    let s2 := if double then s1.average_WB_quad d ifp wb_ind (p + 8) else s1
    let s3 := s2.applyWBcorr d corr (d.LIBRAW_WBI_Custom1 + wb_ind)
    pf_custom_WB_loop d corr ifp len nWBs n (wb_ind + 1) (if double then p + 16 else p + 8) s3

/-- The handler of tag `0x2f00` in `parse_fuji`: `int nWBs = get4(); nWBs = MIN(nWBs, 6);`
compares signed numbers. -/
def LibRaw.pf_handle_2f00 (self : LibRaw) (d : Decls) (corr : Bool × WBcorr × WBcorr)
    (ifp : datastream) (len save : Nat) : LibRaw :=
  let nWBs : Int := min (toInt32 (ifp.get4 self.order save)) 6
  pf_custom_WB_loop d corr ifp len nWBs nWBs.toNat d.LIBRAW_WBI_Custom1 (save + 4) self

/-- The handler of tag `0x4000` (lengths 8 and 16) in `parse_fuji`. -/
def LibRaw.pf_handle_4000 (self : LibRaw) (d : Decls) (ifp : datastream) (len save : Nat) :
    LibRaw :=
  let setBL (s : LibRaw) (i v : Nat) : LibRaw :=
    { s with BlackLevel := fun k => if k = i then v else s.BlackLevel k }
  let setCB (s : LibRaw) (i v : Nat) : LibRaw :=
    { s with cblack := fun k => if k = i then v else s.cblack k }
  let s0 := setBL self 0 (len / 2)
  let s1 := setBL (setBL (setBL (setBL s0 (d.GRGB_2_RGBG 0 + 1) (ifp.get2 self.order save))
    (d.GRGB_2_RGBG 1 + 1) (ifp.get2 self.order (save + 2)))
    (d.GRGB_2_RGBG 2 + 1) (ifp.get2 self.order (save + 4)))
    (d.GRGB_2_RGBG 3 + 1) (ifp.get2 self.order (save + 6))
  let s2 := if s1.BlackLevel 0 = 8 then
      setBL (setBL (setBL (setBL s1 (d.GRGB_2_RGBG 0 + 5) (ifp.get2 self.order (save + 8)))
        (d.GRGB_2_RGBG 1 + 5) (ifp.get2 self.order (save + 10)))
        (d.GRGB_2_RGBG 2 + 5) (ifp.get2 self.order (save + 12)))
        (d.GRGB_2_RGBG 3 + 5) (ifp.get2 self.order (save + 14))
    else s1
  if s2.BlackLevel 0 = 4 then
    setCB (setCB (setCB (setCB s2 0 (s2.BlackLevel 1)) 1 (s2.BlackLevel 2)) 2
      (s2.BlackLevel 3)) 3 (s2.BlackLevel 4)
  else if s2.BlackLevel 0 = 8 then
    setCB (setCB (setCB (setCB s2 0 ((s2.BlackLevel 1 + s2.BlackLevel 5) / 2))
      1 ((s2.BlackLevel 2 + s2.BlackLevel 6) / 2))
      2 ((s2.BlackLevel 3 + s2.BlackLevel 7) / 2))
      3 ((s2.BlackLevel 4 + s2.BlackLevel 8) / 2)
  else s2

/-- One iteration of the loop over the 42 records of the grid in `parse_fuji`: six `get4()`
at the file position `p`, then the stores. -/
def LibRaw.pf_fixed4096_record (self : LibRaw) (d : Decls) (ifp : datastream) (iCCT p : Nat) :
    LibRaw × Nat :=
  self.fixed4096_store d (toInt32 (ifp.get4 self.order p)) (toInt32 (ifp.get4 self.order (p + 4)))
    (fixed4096_wb (ifp.get4 self.order (p + 8)) (ifp.get4 self.order (p + 12))
      (ifp.get4 self.order (p + 16)) (ifp.get4 self.order (p + 20))) iCCT

/-- The loop `for (wb_ind = 0; wb_ind < 42; wb_ind++)` of `parse_fuji`; the first argument
is the number of records still to do. -/
def pf_fixed4096_loop (d : Decls) (ifp : datastream) : Nat → Nat → Nat → LibRaw → LibRaw
  | 0, _, _, self => self
  | n + 1, iCCT, p, self =>
    pf_fixed4096_loop d ifp n (self.pf_fixed4096_record d ifp iCCT p).2 (p + 24)
      (self.pf_fixed4096_record d ifp iCCT p).1

/-- The loop that fills `imFuji.RAFData_ImageSizeTable` with `get4()`; the first argument is
the number of entries still to do. -/
def pf_size_table_loop (ifp : datastream) : Nat → Nat → Nat → LibRaw → LibRaw
  | 0, _, _, self => self
  | n + 1, i, p, self =>
    pf_size_table_loop ifp n (i + 1) (p + 4)
      { self with RAFData_ImageSizeTable :=
          fun k => if k = i then ifp.get4 self.order p else self.RAFData_ImageSizeTable k }

/-- The handler of tag `0xc000` in `parse_fuji` (source lines 1283-1348). -/
def LibRaw.pf_handle_c000 (self : LibRaw) (d : Decls) (ifp : datastream) (len save : Nat) :
    LibRaw :=
  let save_order := self.order
  let s0 := { self with order := 0x4949 }
  let s1 :=
    if len > 20000 then
      let s2 := { s0 with posRAFData := save, lenRAFData := len / 2 }
      let r := s2.parse_fuji_guess (fun i => ifp.bytes (save + i))
      pf_size_table_loop ifp d.RAFData_ImageSizeTable_size 0 (save + 16 + r.2 - 16) r.1
    else if len = 4096 then
      pf_fixed4096_loop d ifp 42 0 (save + 0x200) { s0 with RAFDataGeneration := 4096 }
    else s0
  { s1 with order := save_order }

/-- The first `if ... else if` chain of the record loop of `parse_fuji` (source lines
1170-1256). -/
def pf_first_chain (d : Decls) (corr : Bool × WBcorr × WBcorr) (ifp : datastream)
    (tag len save : Nat) (st : FujiState) : FujiState :=
  let s := st.self
  let o := s.order
  if tag = 0x0100 then
    { st with self := { s with raw_height := ifp.get2 o save, raw_width := ifp.get2 o (save + 2) },
              raw_inset_present := true }
  else if tag = 0x0110 ∧ st.raw_inset_present then
    { st with self := { s with ctop := ifp.get2 o save, cleft := ifp.get2 o (save + 2) } }
  else if tag = 0x0111 ∧ st.raw_inset_present then
    { st with self := { s with cheight := ifp.get2 o save, cwidth := ifp.get2 o (save + 2) } }
  else if tag = 0x0115 ∧ st.raw_inset_present then
    let a := ifp.get2 o save
    let b := ifp.get2 o (save + 2)
    if a * b = 6 then { st with self := { s with raw_aspect := d.LIBRAW_IMAGE_ASPECT_3to2 } }
    else if a * b = 12 then { st with self := { s with raw_aspect := d.LIBRAW_IMAGE_ASPECT_4to3 } }
    else if a * b = 144 then
      { st with self := { s with raw_aspect := d.LIBRAW_IMAGE_ASPECT_16to9 } }
    else if a * b = 1 then { st with self := { s with raw_aspect := d.LIBRAW_IMAGE_ASPECT_1to1 } }
    else st
  else if tag = 0x0121 then
    let w := ifp.get2 o (save + 2)
    { st with self := { s with height := ifp.get2 o save, width := if w = 4284 then w + 3 else w } }
  else if tag = 0x0130 then
    let q1 := ifp.fgetc save
    let q2 := ifp.fgetc (save + 1)
    { st with self := { s with
        fuji_layout := Int.fdiv q1 128,
        fuji_width := if q2 < 0 ∨ q2.toNat / 8 % 2 = 1 then 0 else 1 } }
  else if tag = 0x0131 then
    { st with self := { s with
        filters := 9,
        xtrans_abs := fun k =>
          if k < 36 then (max 0 (min (ifp.fgetc (save + (35 - k))) 2)).toNat
          else s.xtrans_abs k } }
  else if tag = 0x2ff0 then
    let s1 := s.pf_get_average_WB d corr ifp len d.LIBRAW_WBI_AsShot save
    { st with self := { s1 with
        cam_mul := fun c => if c < 4 then s1.icWBC d.LIBRAW_WBI_AsShot c else s1.cam_mul c } }
  else if tag = 0x4000 ∧ (len = 8 ∨ len = 16) then
    { st with self := s.pf_handle_4000 d ifp len save }
  else if tag = 0x9200 then
    let s1 := ifp.get2 o save
    let s2 := ifp.get2 o (save + 2)
    let bc : FloatExpr :=
      if s1 = s2 ∨ s1 = 0 then .given 0
      else if s1 * 4 = s2 then .given 2
      else if s1 * 16 = s2 then .given 4
      else .log2quot s2 s1
    { st with self := { s with BrightnessCompensation := bc } }
  else if tag = 0x9650 then
    let shift := FloatExpr.quot (toShort (ifp.get2 o save)) (max 1 (ifp.get2 o (save + 2)))
    { st with self := { s with
        ExpoMidPointShift := shift,
        ExposureCalibrationShift := .sum s.ExposureCalibrationShift shift } }
  else st

/-- The second `if ... else if` chain of the record loop of `parse_fuji` (source lines
1257-1348). -/
def pf_second_chain (d : Decls) (corr : Bool × WBcorr × WBcorr) (ifp : datastream)
    (tag len save : Nat) (self : LibRaw) : LibRaw :=
  if tag ≥ 0x2000 ∧ tag ≤ 0x2410 then
    match tag2wb_lookup (tag2wbtable d) tag with
    | some wb => self.pf_get_average_WB d corr ifp len wb save
    | none => self
  else if tag = 0x2f00 then self.pf_handle_2f00 d corr ifp len save
  else if tag = 0xc000 then self.pf_handle_c000 d ifp len save
  else self

/-- The body of `while (entries--)` in `parse_fuji`: `tag = get2(); len = get2();
save = ftell(ifp);`, the two chains, and `fseek(ifp, save + len, SEEK_SET)`. -/
def pf_one_record (d : Decls) (corr : Bool × WBcorr × WBcorr) (ifp : datastream)
    (st : FujiState) : FujiState :=
  let tag := ifp.get2 st.self.order st.pos
  let len := ifp.get2 st.self.order (st.pos + 2)
  let save := st.pos + 4
  let st1 := pf_first_chain d corr ifp tag len save st
  { st1 with self := pf_second_chain d corr ifp tag len save st1.self, pos := save + len }

/-- The loop `while (entries--)` of `parse_fuji`. -/
def pf_record_loop (d : Decls) (corr : Bool × WBcorr × WBcorr) (ifp : datastream) :
    Nat → FujiState → FujiState
  | 0, st => st
  | n + 1, st => pf_record_loop d corr ifp n (pf_one_record d corr ifp st)

/-- The function `LibRaw::parse_fuji(INT64 offset)`.  The correction setup uses the model
string of the object; `ilm.CamID = unique_id` is not part of the embedding.  The last
statements shift the 16-bit `height` left and `width` right by `fuji_layout` when no
RAFData generation was found. -/
def LibRaw.parse_fuji (self : LibRaw) (d : Decls) (ifp : datastream) (offset : Nat) : LibRaw :=
  let entries := ifp.get4 self.order offset
  if entries > 255 then self
  else
    let s0 := { self with PARSEFUJI_PROCESSED := true }
    let st := pf_record_loop d (WBcorr_setup self.model) ifp entries ⟨s0, offset + 4, false⟩
    if st.self.RAFDataGeneration = 0 then
      { st.self with
        height := st.self.height * 2 ^ st.self.fuji_layout.toNat % 65536,
        width := st.self.width / 2 ^ st.self.fuji_layout.toNat }
    else st.self

/-- Modelled from the spec: the macro `GRGB_2_RGBG` is defined outside `src/`; the spec calls
it the fixed GRGB-to-RGBG permutation, that is a permutation of the four channel positions
`0 .. 3`. -/
def Decls.GRGB_is_permutation (d : Decls) : Prop :=
  (∀ c, c < 4 → d.GRGB_2_RGBG c < 4) ∧
  (∀ a b, a < 4 → b < 4 → d.GRGB_2_RGBG a = d.GRGB_2_RGBG b → a = b)

/-- A sample frame over a little-endian buffer that holds exactly the given 16-bit values,
positioned at its start. -/
def sampleFrame_values (vals : List Nat) : Frame :=
  { self := { LibRaw.blank with order := 0x4949 }, PrivateMknBuf := windowBuf vals,
    posPrivateMknBuf := 0, wb_section_offset := 0, posWB := 0 }

/-- A sample file that holds exactly the given 16-bit values, little-endian. -/
def sampleFile_values (vals : List Nat) : datastream :=
  ⟨bytesOf (le16 vals), 2 * vals.length⟩

/-- The relation between the object before and after code that writes to `icWBC` and
`icWBCCTC` only: every other field is the same. -/
def SameExceptWB (a b : LibRaw) : Prop :=
  b = { a with icWBC := b.icWBC, icWBCCTC := b.icWBCCTC }

/-- The entry `icWBCCTC[i][c]` that the CCT loop writes for a table that starts at `start`:
the ladder value, then red (at `+2`), green (at `+0`), blue (at `+4`) and green again. -/
def cct_entry (d : Decls) (b : checked_buffer_t) (start i c : Nat) : Int :=
  if c = 0 then d.FujiCCT_K i
  else if c = 1 then b.peek2 (start + i * 6 + 2)
  else if c = 3 then b.peek2 (start + i * 6 + 4)
  else b.peek2 (start + i * 6)

/-- The frame after one iteration of the CCT loop whose three reads succeed. -/
def cct_fill_one (d : Decls) (iCCT : Nat) (fr : Frame) : Frame :=
  (((((fr.setCCT iCCT 0 (d.FujiCCT_K iCCT)).setCCT iCCT 1
    (fr.PrivateMknBuf.peek2 (fr.wb_section_offset + iCCT * 6 + 2))).setCCT iCCT 4
    (fr.PrivateMknBuf.peek2 (fr.wb_section_offset + iCCT * 6))).setCCT iCCT 2
    (fr.PrivateMknBuf.peek2 (fr.wb_section_offset + iCCT * 6))).setCCT iCCT 3
    (fr.PrivateMknBuf.peek2 (fr.wb_section_offset + iCCT * 6 + 4)))

/-- A sample of 111 16-bit values for the CCT section: the triple `300, 400, 500` at byte
offset 18, the green value 500 at the byte offsets 192 and 198 and the value 777 at 204. -/
def sampleValues_cct : List Nat :=
  List.replicate 9 0 ++ [300, 400, 500] ++ List.replicate 84 0 ++
  [500, 0, 0, 500, 0, 0, 777, 0, 0, 0, 0, 0, 0, 0, 0]

/-- A sample payload of a tag `0x2f00` record of 52 bytes, as 16-bit values stored
little-endian: the count field holds the bytes `00 00 00 80`, the number `0x80000000`,
and six records of four values follow. -/
def sampleValues_2f00 : List Nat :=
  [0, 0x8000] ++ [10, 20, 30, 40] ++ [11, 21, 31, 41] ++ [12, 22, 32, 42] ++
  [13, 23, 33, 43] ++ [14, 24, 34, 44] ++ [15, 25, 35, 45]

/-- A byte array that holds the given 16-bit values, little-endian, from offset `off` on and
zeros before it. -/
def valuesAt (off : Nat) (vals : List Nat) : Nat → UInt8 :=
  fun i => if i < off then 0 else bytesOf (le16 vals) (i - off)

/-- The 32-bit value stored at `offset` of the buffer, in the buffer's byte order (what
`sget4(offset)` returns when the bounds check passes). -/
def checked_buffer_t.peek4 (b : checked_buffer_t) (offset : Nat) : Nat :=
  libraw_sget4_static b._order (b.data offset)

/-- The variables `nWB`, `tWB` and `wb[0..3]` after the six reads of the grid record at
position `p`, for a reader `get4` of 32-bit values. -/
def grid_record (get4 : Nat → Nat) (p : Nat) : Int × Int × (Nat → Int) :=
  (toInt32 (get4 p), toInt32 (get4 (p + 4)),
    fixed4096_wb (get4 (p + 8)) (get4 (p + 12)) (get4 (p + 16)) (get4 (p + 20)))

/-- The records of the grid in record order: `n` records of 24 bytes from position `p`. -/
def grid_records (get4 : Nat → Nat) : Nat → Nat → List (Int × Int × (Nat → Int))
  | 0, _ => []
  | n + 1, p => grid_record get4 p :: grid_records get4 n (p + 24)

/-- The stores of the grid loop applied to a list of records, from the CCT index `iCCT`. -/
def fixed4096_fold (d : Decls) : List (Int × Int × (Nat → Int)) → Nat → LibRaw → LibRaw × Nat
  | [], iCCT, self => (self, iCCT)
  | r :: rest, iCCT, self =>
    fixed4096_fold d rest (self.fixed4096_store d r.1 r.2.1 r.2.2 iCCT).2
      (self.fixed4096_store d r.1 r.2.1 r.2.2 iCCT).1

/-- The CCT sequence the claim describes for a grid: the records with a non-zero
temperature, in record order. -/
def grid_cct (get4 : Nat → Nat) (p : Nat) : List (Int × Int × (Nat → Int)) :=
  (grid_records get4 42 p).filter (fun r => decide (r.2.1 ≠ 0))

/-- The CCT entry of a record: `float(tWB)`, then `float(wb[0..3])`. -/
def cct_of_record (r : Int × Int × (Nat → Int)) (c : Nat) : Int :=
  float_of_int (if c = 0 then r.2.1 else r.2.2 (c - 1))

/-- The first two records of a sample grid, as 16-bit values stored little-endian (each
32-bit field is its low half followed by 0): preset id 1, temperature 0 and the values
`r = 10, g = 25, g-dup = 26, b = 30`; then the preset id `0x46`, temperature 5000 and the
values `r = 100, g = 300, g-dup = 301, b = 200`.  The other records are zero. -/
def sampleValues_grid : List Nat :=
  [1, 0, 0, 0, 10, 0, 25, 0, 26, 0, 30, 0] ++ [0x46, 0, 5000, 0, 100, 0, 300, 0, 301, 0, 200, 0]

/-- A sample frame whose payload of 4096 bytes starts at offset 0 and holds the sample grid
at offset `0x200`; the byte order on entry is big-endian. -/
def sampleFrame_grid : Frame :=
  { self := { LibRaw.blank with order := 0x4d4d },
    PrivateMknBuf := ⟨0x4d4d, valuesAt 0x200 sampleValues_grid, 4096⟩,
    posPrivateMknBuf := 0, wb_section_offset := 0, posWB := 0 }

/-- A sample file whose record payload of 4096 bytes starts at offset 0 and holds the sample
grid at offset `0x200`. -/
def sampleFile_grid : datastream :=
  ⟨valuesAt 0x200 sampleValues_grid, 4096⟩

/-- A grid whose first record has the temperature `0x01000001` (16777217) and the values
`r = 0x00800001, g = 0x01000003, g-dup = 7, b = 5`, as 16-bit halves stored little-endian;
the other records are zero. -/
def sampleValues_grid_wide : List Nat :=
  [1, 0, 1, 0x0100, 1, 0x0080, 3, 0x0100, 7, 0, 5, 0]

/-- A sample frame whose payload of 4096 bytes starts at offset 0 and holds the grid with
the wide fields at offset `0x200`. -/
def sampleFrame_grid_wide : Frame :=
  { self := { LibRaw.blank with order := 0x4d4d },
    PrivateMknBuf := ⟨0x4d4d, valuesAt 0x200 sampleValues_grid_wide, 4096⟩,
    posPrivateMknBuf := 0, wb_section_offset := 0, posWB := 0 }

/-- A sample file whose record payload of 4096 bytes starts at offset 0 and holds the grid
with the wide fields at offset `0x200`. -/
def sampleFile_grid_wide : datastream :=
  ⟨valuesAt 0x200 sampleValues_grid_wide, 4096⟩

/-- A sample block of 74 bytes with the byte-order mark `0x1234` whose directory offset (the
bytes `ff ff ff 00` at offset 2) points far behind the buffer; a record of tag `0x4000`
follows the header as in `sampleBlock_black`. -/
def sampleBlock_badmark_far : List Nat :=
  [0x12, 0x34, 0xff, 0xff, 0xff, 0x00] ++ sampleBlock_black.drop 6

/-- A sample block of 74 bytes whose directory declares 1024 entries (the bytes `00 00 04 00`
at offset `0x3a`), followed by a record of tag `0x4000` and length 8. -/
def sampleBlock_many : List Nat :=
  (sampleHeader "X100F" 0).take 0x3a ++ [0, 0, 4, 0] ++
  [0x40, 0x00, 0x00, 0x08] ++ le16 [1000, 1001, 1002, 1003]

/-- The value a 6-byte triple at `p` puts into channel `c` of its slot: the second value
into channel 0 (red), the third into channel 2 (blue), the first into the green channels
1 and 3. -/
def triple_entry (b : checked_buffer_t) (p c : Nat) : Int :=
  if c = 0 then b.peek2 (p + 2) else if c = 2 then b.peek2 (p + 4) else b.peek2 p

/-- The bytes of a sample payload of generation 3: `b01 = 0`, `b23 = 0x0259`, zeros up to
offset `0x1370` and the given 16-bit values, little-endian, from there on. -/
def sampleData_0259 (vals : List Nat) : Nat → UInt8 :=
  fun i => if i < 4 then bytesOf [0, 0, 0x59, 0x02] i else valuesAt 0x1370 vals i

/-- A sample frame at the payload of a tag `0xc000` record of length 8192 that starts at
offset 0 of a block of 8192 bytes; the byte order on entry is big-endian. -/
def sampleFrame_0259 (vals : List Nat) : Frame :=
  let s : LibRaw := { LibRaw.blank with order := 0x4d4d, model := cstr "X100F" }
  { self := s, PrivateMknBuf := ⟨0x4d4d, sampleData_0259 vals, 8192 + 1024⟩,
    posPrivateMknBuf := 0, wb_section_offset := 0, posWB := 0 }

/-- Sample values behind offset `0x1370`: an accepted window, zeros up to the scan for the
end of the CCT section (which starts at value 114) and the value 9 at its second stride. -/
def sampleValues_cct_0259 : List Nat :=
  [100, 200, 300, 100, 400, 500] ++ List.replicate 111 0 ++ [9]

/-- A sample buffer of 80 bytes with three occurrences of the marker: at 0 with the values
`100, 1, 1` ten bytes behind its start, at 20 with `300, 600, 700` and at 40 with
`400, 800, 900`. -/
def sampleFrame_markers : Frame :=
  { self := { LibRaw.blank with order := 0x4949 },
    PrivateMknBuf := ⟨0x4949, bytesOf (
      cstr "TSNERDTS" ++ [0, 0] ++ le16 [100, 1, 1] ++ [0, 0, 0, 0] ++
      cstr "TSNERDTS" ++ [0, 0] ++ le16 [300, 600, 700] ++ [0, 0, 0, 0] ++
      cstr "TSNERDTS" ++ [0, 0] ++ le16 [400, 800, 900] ++ [0, 0, 0, 0]), 80⟩,
    posPrivateMknBuf := 0, wb_section_offset := 0, posWB := 0 }

/-- A sample buffer of 40 bytes with the marker at 0, the value 200 eight bytes behind its
start and the values `100, 600, 700` ten bytes behind its start. -/
def sampleFrame_guard : Frame :=
  { self := { LibRaw.blank with order := 0x4949 },
    PrivateMknBuf :=
      ⟨0x4949, bytesOf (cstr "TSNERDTS" ++ le16 [200] ++ le16 [100, 600, 700]), 40⟩,
    posPrivateMknBuf := 0, wb_section_offset := 0, posWB := 0 }

/-- The shot-select logic of the directory header (source lines 229-244): the directory
start `ifd_start` and the value of the local `FujiShotSelect` behind it. -/
def shot_select_logic (b : checked_buffer_t) (PrivateMknLength FujiShotSelect : Nat) :
    Except Exn (Nat × Nat) := do
  let s := u32 ((← b.sget4 2) + 6)
  let l ← b.sget4 s
  let z ← b.sget4 (u32 (s + l + 4))
  let FujiShotSelect := if z = 0 then 0 else FujiShotSelect
  if FujiShotSelect = 1 ∧ PrivateMknLength > u32 (l * 2) then do
    let ifd_start := u32 (s + u32 (l + 4))
    let ifd_len ← b.sget4 ifd_start
    pure (if u32 (ifd_start + ifd_len) > PrivateMknLength then (s, 0) else (ifd_start, 1))
  else pure (s, 0)

/-- A sample block of 82 bytes with two directories.  The primary one, at `0x36`, has the
length 16 and one record (tag `0x4000`, length 8, four black levels); the alternate one,
at `0x4a`, has the given length and entry-count bytes. -/
def sampleBlock_shots (alt_len alt_entries : List Nat) : List Nat :=
  (sampleHeader "X100F" 1).take 0x36 ++ [0, 0, 0, 16] ++ [0, 0, 0, 1] ++
  [0x40, 0x00, 0x00, 0x08] ++ le16 [1000, 1001, 1002, 1003] ++ alt_len ++ alt_entries

/-- A sample frame at the payload of a tag `0xc000` record of length 8192 whose first four
bytes `01 00 01 00` match no rule of the classifier (`b01 = 1`, `b23 = 1`), with an
accepted window at offset `0x1370`; the object has the model `X100F` and no RAFData
version. -/
def sampleFrame_unclassified : Frame :=
  let s : LibRaw := { LibRaw.blank with order := 0x4d4d, model := cstr "X100F" }
  { self := s,
    PrivateMknBuf := ⟨0x4d4d, fun i => if i < 4 then bytesOf [1, 0, 1, 0] i
      else valuesAt 0x1370 [100, 200, 300, 100, 400, 500] i, 8192 + 1024⟩,
    posPrivateMknBuf := 0, wb_section_offset := 0, posWB := 0 }

/-- The property of a piece of record code that the global byte order is `ord` whenever it
ends normally. -/
def KeepsOrder (o : Outcome Frame) (ord : Nat) : Prop :=
  ∀ f, o = .done f → f.self.order = ord

/-- The global byte order a record leaves behind: `0x4949` for a tag `0xc000` record of a
length the handler accepts, the block's declared order for every other record. -/
def order_after_record (PrivateOrder PrivateTagID PrivateTagBytes : Nat) : Nat :=
  if PrivateTagID = 0xc000 ∧ PrivateTagBytes > 3 ∧ PrivateTagBytes < 10240000 then 0x4949
  else PrivateOrder

/-- The value of a single-precision expression that is computed without rounding, as an
integer: a number below `2 ^ 24`, a quotient whose divisor divides the dividend, a sum of
two such values that stays below `2 ^ 24` in magnitude (integers of that size are
single-precision numbers and the correctly rounded result of the operation is the exact
one).  Other expressions get no value here. -/
def FloatExpr.exact : FloatExpr → Option Int
  | .given n => if n < 2 ^ 24 then some n else none
  | .quot a b => if b ≠ 0 ∧ a % b = 0 then some (a / b) else none
  | .sum x y =>
    match x.exact, y.exact with
    | some u, some v => if (u + v).natAbs < 2 ^ 24 then some (u + v) else none
    | _, _ => none
  | .log2quot _ _ => none

/-- A sample block of 70 bytes with the single record of tag `0x9650` and length 4: the
values `a = 1` and `b = 1`, little-endian. -/
def sampleBlock_9650 : List Nat :=
  sampleHeader "X100F" 1 ++ [0x96, 0x50, 0x00, 0x04] ++ le16 [1, 1]

/-- The frame of `parseAdobeRAFMakernote` on `sampleBlock_9650` at the payload of its
record. -/
def sampleFrame_9650 : Frame :=
  { self := { LibRaw.blank with order := 0x4949, model := cstr "X100F", RAFVersion := cstr "0100" },
    PrivateMknBuf := ⟨0x4949, bytesOf sampleBlock_9650, 70 + 1024⟩,
    posPrivateMknBuf := 66, wb_section_offset := 0, posWB := 0 }

/-- A sample file of 12 bytes, big-endian: the entry count 1 and the record of tag `0x9650`
and length 4 with the values `a = 1` and `b = 1`. -/
def sampleFile_9650 : datastream :=
  ⟨bytesOf [0, 0, 0, 1, 0x96, 0x50, 0, 4, 0, 1, 0, 1], 12⟩

/-- The sample declarations with the products of the legacy correction computed in exact
arithmetic and truncated toward zero: `10.0 / 17.0 / 0.652941` and
`2.0 / 3.0 / (3.0 / 4.0 + 1.0 / 300.0)` for the S2Pro family, `0.7632653061` and
`0.8591549296` for the DBP family. -/
def sampleDecls_corr : Decls :=
  { sampleDecls with
    truncMul := fun x k =>
      match k with
      | .one => x
      | .R_S2Pro => Int.tdiv (x * 10000000) (17 * 652941)
      | .B_S2Pro => Int.tdiv (x * 100) 113
      | .R_DBP => Int.tdiv (x * 7632653061) 10000000000
      | .B_DBP => Int.tdiv (x * 8591549296) 10000000000 }

/-- A sample block of 74 bytes of the model `S2Pro` with the single record of tag `0x2000`
(the Auto white balance) and length 8: four values 1000, little-endian. -/
def sampleBlock_legacy : List Nat :=
  sampleHeader "S2Pro" 1 ++ [0x20, 0x00, 0x00, 0x08] ++ le16 [1000, 1000, 1000, 1000]

/-! ## The thumbnail scan: `parse_fuji_thumbnail` -/

/-- The array `uchar xmpmarker[] = "http://ns.adobe.com/xap/1.0/"`: the 28 characters and
the terminating NUL. -/
def xmpmarker : List Nat := cstr "http://ns.adobe.com/xap/1.0/" ++ [0]

/-- The local `int xmpsz = sizeof(xmpmarker)`. -/
def xmpsz : Nat := 29

/-- Modelled from the spec: `fread` is defined outside `src/`; the number of bytes
`fread(buf, 1, n, ifp)` delivers at the file position `p`: the bytes before the end of
the file, at most `n`. -/
def datastream.fread_count (ifp : datastream) (p n : Nat) : Nat := min n (ifp.size - p)

/-- Modelled from the spec: `get2()` is defined outside `src/`.  It presets its two-byte
buffer to `ff ff` and `fread` delivers no byte at or behind the end of the file, so in a
file of `size` bytes every position at or behind `size` reads as `0xff`. -/
def datastream.at_eof_ff (ifp : datastream) : Prop :=
  ∀ p, ifp.size ≤ p → ifp.bytes p = 0xff

/-- The test `(fread(buf, 1, xmpsz, ifp) == xmpsz) && !memcmp(buf, xmpmarker, xmpsz)` at the
file position `p`. -/
def xmp_matches (ifp : datastream) (p : Nat) : Bool :=
  decide (ifp.fread_count p xmpsz = xmpsz) &&
    (List.range xmpsz).all fun i => (ifp.bytes (p + i)).toNat == xmpmarker.getD i 0

/-- How one pass of the body of `while (1)` in `parse_fuji_thumbnail` ends: by a `break`
(with the object as it then stands) or by `fseek(ifp, tpos + len, SEEK_SET)` (with the new
file position). -/
inductive APP_result where
  | stop (self : LibRaw)
  | next (pos : Nat)

/-- The body of `while (1)` in `parse_fuji_thumbnail` at the file position `p`. -/
def APP_body (ifp : datastream) (self : LibRaw) (p : Nat) : APP_result :=
  let tag := ifp.get2 self.order p
  if tag ≠ 0xFFE1 ∧ tag ≠ 0xFFE2 then .stop self
  else
    let tpos := p + 2
    let len := ifp.get2 self.order tpos
    if len > xmpsz + 2 ∧ xmp_matches ifp (tpos + 2) = true then
      let xmplen := len - xmpsz - 2
      let br := ifp.fread_count (tpos + 2 + xmpsz) xmplen
      .stop { self with
        xmplen := xmplen,
        xmpdata := (List.range br).map fun i => ifp.bytes (tpos + 2 + xmpsz + i) }
    else .next (tpos + len)

/-- The loop `while (1)` of `parse_fuji_thumbnail`, run for at most `fuel` passes from the
file position `p`; `none` when the passes are used up. -/
def APP_loop (ifp : datastream) : Nat → LibRaw → Nat → Option LibRaw
  | 0, _, _ => none
  | fuel + 1, self, p =>
    match APP_body ifp self p with
    | .stop s => some s
    | .next q => APP_loop ifp fuel self q

/-- The function `LibRaw::parse_fuji_thumbnail(INT64 offset)` with at most `fuel` passes
of its loop.  The file position is saved on entry and restored on return; it is not part
of the object. -/
def LibRaw.parse_fuji_thumbnail (self : LibRaw) (ifp : datastream) (offset fuel : Nat) :
    Option LibRaw :=
  let s_order := self.order
  let s0 := { self with order := 0x4a4a }
  let r :=
    if ifp.get2 s0.order offset = 0xFFD8 then APP_loop ifp fuel s0 (offset + 2)
    else some s0
  r.map fun s => { s with order := s_order }

/-- A sample thumbnail of 10 bytes that ends inside a chain of APP segments: the SOI marker
and two APP1 segments of length 2; every position behind the file reads as `0xff`. -/
def sampleFile_thumb_cut : datastream :=
  ⟨fun i => if i < 10 then bytesOf [0xff, 0xd8, 0xff, 0xe1, 0, 2, 0xff, 0xe1, 0, 2] i
    else 0xff, 10⟩

/-- A sample payload of a tag `0x2f00` record of 12 bytes, as 16-bit values stored
little-endian: the count 1 and one record of four values 1000. -/
def sampleValues_custom : List Nat := [1, 0, 1000, 1000, 1000, 1000]

/-- A sample object in little-endian order whose white-balance slot 180 holds 500 in every
channel and whose other slots hold 0. -/
def sampleObject_slot180 : LibRaw :=
  { LibRaw.blank with order := 0x4949, icWBC := fun s _ => if s = 180 then 500 else 0 }

/-- Sample values of a tag `0x4000` record of 16 bytes: two sets of four black levels. -/
def sampleValues_black16 : List Nat := [1000, 1001, 1002, 1003, 1010, 1011, 1012, 1013]

/-- The relation between the object before and after code that writes to `imFuji.BlackLevel`
only: every other field is the same. -/
def SameExceptBlackLevel (a b : LibRaw) : Prop :=
  b = { a with BlackLevel := b.BlackLevel }

/-- A piece of record code that, when it ends normally, has written to `icWBC` and
`icWBCCTC` only, starting from the object `a`. -/
def WritesWBOnly (o : Outcome Frame) (a : LibRaw) : Prop :=
  ∀ f, o = .done f → SameExceptWB a f.self

/-- A sample frame at the payload (offset 0) of a tag `0xc000` record of length 32 whose
first bytes are `64 00 00 00` (`b01 = 100`, `b23 = 0`: the Gen1 rule); the object holds the
version `0x4500` of an earlier classification. -/
def sampleFrame_gen1 : Frame :=
  let s : LibRaw :=
    { LibRaw.blank with order := 0x4949, RAFDataGeneration := 3, RAFDataVersion := 0x4500 }
  { self := s,
    PrivateMknBuf := ⟨0x4949, bytesOf [100, 0, 0, 0], 32 + 1024⟩,
    posPrivateMknBuf := 0, wb_section_offset := 0, posWB := 0 }

/-- A sample frame over a buffer of 64 bytes with the payload of a tag `0xc000` record of
length 40 at offset 24; the marker is at the absolute position 4, in front of the payload,
with the values `300, 600, 700` ten bytes behind its start. -/
def sampleFrame_before : Frame :=
  { self := { LibRaw.blank with order := 0x4949 },
    PrivateMknBuf := ⟨0x4949, bytesOf (
      [0, 0, 0, 0] ++ cstr "TSNERDTS" ++ [0, 0] ++ le16 [300, 600, 700]), 64⟩,
    posPrivateMknBuf := 24, wb_section_offset := 0, posWB := 0 }

/-- A sample frame over a buffer of 64 bytes with the payload of a tag `0xc000` record of
length 40 at offset 24; the marker is at the absolute position 30, inside the payload, with
the values `300, 600, 700` ten bytes behind its start. -/
def sampleFrame_inside : Frame :=
  { self := { LibRaw.blank with order := 0x4949 },
    PrivateMknBuf := ⟨0x4949, bytesOf (
      List.replicate 30 0 ++ cstr "TSNERDTS" ++ [0, 0] ++ le16 [300, 600, 700]), 64⟩,
    posPrivateMknBuf := 24, wb_section_offset := 0, posWB := 0 }

/-- A sample frame behind a successful validation: the version is 0, the Auto slot holds 7
in every channel (as a marker scan could have left it), the resolved offset is 6 and the
buffer of 308 bytes holds the triple `111, 222, 333` in front of the table and zeros
elsewhere. -/
def sampleFrame_auto : Frame :=
  { self := { LibRaw.blank with order := 0x4949, icWBC := fun s _ => if s = 82 then 7 else 0 },
    PrivateMknBuf := ⟨0x4949, valuesAt 0 [111, 222, 333], 308⟩,
    posPrivateMknBuf := 0, wb_section_offset := 6, posWB := 0 }

/-- A sample file of 9 bytes, big-endian: the header of a record of tag `0x0131` and declared
length 36, and the five payload bytes `0, 1, 2, 3, 200`; the file ends there. -/
def sampleFile_xtrans : datastream :=
  ⟨bytesOf [0x01, 0x31, 0, 36, 0, 1, 2, 3, 200], 9⟩

/-! ## Post-processing: `scale_colors` and `convert_to_rgb` -/

/-- The index `6 + c / 2 % cblack[4] * cblack[5] + c % 2 % cblack[5]` of `scale_colors`, in
unsigned 32-bit arithmetic; `none` when one of the two divisors is zero, where the remainder
is undefined. -/
def fold_index (cblack : Nat → Nat) (c : Nat) : Option Nat :=
  if cblack 4 = 0 ∨ cblack 5 = 0 then none
  else some (u32 (u32 (6 + u32 (c / 2 % cblack 4 * cblack 5)) + c % 2 % cblack 5))

/-- One pass of `FORC4 cblack[FC(c / 2, c % 2)] += cblack[6 + ...]`.  The macro `FC` is
declared outside `src/` and taken as a parameter. -/
def fold_step (FC : Nat → Nat → Nat) (c : Nat) (cblack : Nat → Nat) : Option (Nat → Nat) :=
  (fold_index cblack c).map fun i =>
    fun k => if k = FC (c / 2) (c % 2) then u32 (cblack k + cblack i) else cblack k

/-- The passes `c = 0 .. n - 1` of the loop `FORC4 cblack[FC(c / 2, c % 2)] += ...`. -/
def fold_passes (FC : Nat → Nat → Nat) : Nat → (Nat → Nat) → Option (Nat → Nat)
  | 0, cblack => some cblack
  | n + 1, cblack => (fold_passes FC n cblack).bind (fold_step FC n)

/-- The guard `filters > 1000 && (cblack[4] + 1) / 2 == 1 && (cblack[5] + 1) / 2 == 1` of
`scale_colors`, on unsigned 32-bit values. -/
def fold_guard (filters : Nat) (cblack : Nat → Nat) : Prop :=
  filters > 1000 ∧ u32 (cblack 4 + 1) / 2 = 1 ∧ u32 (cblack 5 + 1) / 2 = 1

/-- The guard is a conjunction of comparisons of numbers. -/
instance fold_guard_decidable (filters : Nat) (cblack : Nat → Nat) :
    Decidable (fold_guard filters cblack) := by
  unfold fold_guard
  infer_instance

/-- The statement `if (filters > 1000 && ...) { FORC4 cblack[FC(c / 2, c % 2)] += ...;
cblack[4] = cblack[5] = 0; }` of `LibRaw::scale_colors` (source lines 214-219): the array
`cblack` behind it, or `none` when a remainder by zero is computed. -/
def scale_colors_fold (FC : Nat → Nat → Nat) (filters : Nat) (cblack : Nat → Nat) :
    Option (Nat → Nat) :=
  if fold_guard filters cblack then
    (fold_passes FC 4 cblack).map fun cb k => if k = 4 ∨ k = 5 then 0 else cb k
  else some cblack

/-- A sample for the macro `FC(row, col)`: the 2-bit field of `filters` at bit position
`(((row << 1) & 14) | (col & 1)) << 1`. -/
def sampleFC (filters row col : Nat) : Nat :=
  (filters >>> ((((row <<< 1) &&& 14) ||| (col &&& 1)) <<< 1)) &&& 3

/-- A sample array `cblack`: the per-channel levels 100, a `2 x 2` pattern (`cblack[4] =
cblack[5] = 2`) and the pattern values 1, 2, 3, 4 in `cblack[6..9]`. -/
def sampleCblack : Nat → Nat := fun k =>
  if k < 4 then 100 else if k = 4 ∨ k = 5 then 2 else if k < 10 then k - 5 else 0

/-- The array `phead` of `convert_to_rgb`. -/
def phead : List Nat :=
  [1024, 0, 0x2100000, 0x6d6e7472, 0x52474220, 0x58595a20, 0,
   0, 0, 0x61637370, 0, 0, 0x6e6f6e65, 0,
   0, 0, 0, 0xf6d6, 0x10000, 0xd32d]

/-- The array `pbody` of `convert_to_rgb` as it is initialised: the tag count, then the
signature, the offset (0 so far) and the length of each tag. -/
def pbody : List Nat :=
  [10, 0x63707274, 0, 36,
   0x64657363, 0, 60,
   0x77747074, 0, 20,
   0x626b7074, 0, 20,
   0x72545243, 0, 14,
   0x67545243, 0, 14,
   0x62545243, 0, 14,
   0x7258595a, 0, 20,
   0x6758595a, 0, 20,
   0x6258595a, 0, 20]

/-- One pass of the layout loop of `convert_to_rgb` on the words of `oprof` and the array
`pbody`: the type signature is stored at the data offset, the offset is recorded in `pbody`
and `oprof[0]` advances by the tag length rounded up with `& -4`. -/
def layout_step (i : Nat) (st : (Nat → Nat) × List Nat) : (Nat → Nat) × List Nat :=
  let sig := if i ≠ 0 then (if i > 1 then 0x58595a20 else 0x64657363) else 0x74657874
  let oprof1 : Nat → Nat := fun k => if k = st.1 0 / 4 then sig else st.1 k
  let pbody1 := st.2.set (i * 3 + 2) (oprof1 0)
  let step := u32 (pbody1.getD (i * 3 + 3) 0 + 3) &&& 0xFFFFFFFC
  (fun k => if k = 0 then u32 (oprof1 0 + step) else oprof1 k, pbody1)

/-- The loop `for (i = 0; i < (int)pbody[0]; i++)` of `convert_to_rgb`; the first argument is
the number of passes still to do. -/
def layout_loop : Nat → Nat → (Nat → Nat) × List Nat → (Nat → Nat) × List Nat
  | 0, _, st => st
  | n + 1, i, st => layout_loop n (i + 1) (layout_step i st)

/-- The statements of `convert_to_rgb` from `oprof = (unsigned *)calloc(phead[0], 1)` to the
end of the layout loop (source lines 68-78): the words of `oprof` and the array `pbody`. -/
def convert_to_rgb_layout (output_color : Nat) : (Nat → Nat) × List Nat :=
  let oprof0 : Nat → Nat := fun k => phead.getD k 0
  let oprof1 : Nat → Nat :=
    if output_color = 5 then fun k => if k = 4 then oprof0 5 else oprof0 k else oprof0
  let oprof2 : Nat → Nat := fun k => if k = 0 then u32 (132 + 12 * pbody.getD 0 0) else oprof1 k
  layout_loop (pbody.getD 0 0) 0 (oprof2, pbody)

/-- The data offset of tag `i` after the layout loop: `pbody[i * 3 + 2]`. -/
def tag_offset (output_color i : Nat) : Nat :=
  (convert_to_rgb_layout output_color).2.getD (i * 3 + 2) 0

/-- The length of tag `i`: `pbody[i * 3 + 3]`. -/
def tag_length (output_color i : Nat) : Nat :=
  (convert_to_rgb_layout output_color).2.getD (i * 3 + 3) 0

/-! # Theorems -/

/-! ## The generation classifier -/

/-- The classifier is the decision tree `RAFData_rule` run on the values it reads in the
global byte order. -/
theorem guess_RAFDataGeneration_eq_rule (self : LibRaw) (p : Nat → UInt8) :
    self.guess_RAFDataGeneration p =
      RAFData_rule (self.sget2 p) (self.sget2 (fun i => p (2 + i)))
        (self.sget4 (fun i => p (4 + i)) == 0x53545257) self := rfl

/-- C1: for every block start `p`, with `b01` and `b23` the 16-bit values of bytes 0-1 and
2-3 and the marker test on the 32-bit value at offset 4: the Gen1 rule gives generation 1
and offset 0; otherwise the Gen2 rule gives generation 2, version `b01` and offset 4;
otherwise `b01 = 0` gives version `b23` and generation 3 with offset 4 when the marker does
not match, generation 4 with offset 8 when it does. -/
theorem guess_RAFDataGeneration_decision_tree (self : LibRaw) (p : Nat → UInt8) :
    (self.sget2 p ≠ 0 ∧ self.sget2 (fun i => p (2 + i)) = 0 ∧ self.sget2 p < 10000 →
      (self.guess_RAFDataGeneration p).1.RAFDataGeneration = 1 ∧
      (self.guess_RAFDataGeneration p).2 = 0) ∧
    (¬ (self.sget2 p ≠ 0 ∧ self.sget2 (fun i => p (2 + i)) = 0 ∧ self.sget2 p < 10000) ∧
      self.sget2 p > 10000 ∧ self.sget2 (fun i => p (2 + i)) = 0 →
      (self.guess_RAFDataGeneration p).1.RAFDataGeneration = 2 ∧
      (self.guess_RAFDataGeneration p).1.RAFDataVersion = self.sget2 p ∧
      (self.guess_RAFDataGeneration p).2 = 4) ∧
    (self.sget2 p = 0 ∧ self.sget4 (fun i => p (4 + i)) ≠ 0x53545257 →
      (self.guess_RAFDataGeneration p).1.RAFDataGeneration = 3 ∧
      (self.guess_RAFDataGeneration p).1.RAFDataVersion = self.sget2 (fun i => p (2 + i)) ∧
      (self.guess_RAFDataGeneration p).2 = 4) ∧
    (self.sget2 p = 0 ∧ self.sget4 (fun i => p (4 + i)) = 0x53545257 →
      (self.guess_RAFDataGeneration p).1.RAFDataGeneration = 4 ∧
      (self.guess_RAFDataGeneration p).1.RAFDataVersion = self.sget2 (fun i => p (2 + i)) ∧
      (self.guess_RAFDataGeneration p).2 = 8) := by
  refine ⟨?_, ?_, ?_, ?_⟩
  · intro h
    simp [LibRaw.guess_RAFDataGeneration, h]
  · rintro ⟨h1, h2, h3⟩
    have h4 : self.sget2 p ≠ 0 := by omega
    have h5 : ¬ self.sget2 p < 10000 := by omega
    simp [LibRaw.guess_RAFDataGeneration, h3, h4, h5, h2]
  · rintro ⟨h1, h2⟩
    simp [LibRaw.guess_RAFDataGeneration, h1, h2]
  · rintro ⟨h1, h2⟩
    simp [LibRaw.guess_RAFDataGeneration, h1, h2]

/-- C1, at four concrete block starts read little-endian: `b01 = 1`, `b01 = 10001`,
`b01 = 0` without the marker, `b01 = 0` with the marker `WRTS`. -/
theorem guess_RAFDataGeneration_decision_tree_witness :
    ((({ LibRaw.blank with order := 0x4949 }).guess_RAFDataGeneration
        (bytesOf [1, 0, 0, 0, 0, 0, 0, 0])).1.RAFDataGeneration = 1 ∧
      (({ LibRaw.blank with order := 0x4949 }).guess_RAFDataGeneration
        (bytesOf [1, 0, 0, 0, 0, 0, 0, 0])).2 = 0) ∧
    ((({ LibRaw.blank with order := 0x4949 }).guess_RAFDataGeneration
        (bytesOf [0x11, 0x27, 0, 0, 0, 0, 0, 0])).1.RAFDataGeneration = 2 ∧
      (({ LibRaw.blank with order := 0x4949 }).guess_RAFDataGeneration
        (bytesOf [0x11, 0x27, 0, 0, 0, 0, 0, 0])).1.RAFDataVersion = 10001) ∧
    ((({ LibRaw.blank with order := 0x4949 }).guess_RAFDataGeneration
        (bytesOf [0, 0, 0x59, 0x02, 0, 0, 0, 0])).1.RAFDataGeneration = 3 ∧
      (({ LibRaw.blank with order := 0x4949 }).guess_RAFDataGeneration
        (bytesOf [0, 0, 0x59, 0x02, 0, 0, 0, 0])).1.RAFDataVersion = 0x0259) ∧
    ((({ LibRaw.blank with order := 0x4949 }).guess_RAFDataGeneration
        (bytesOf [0, 0, 0x62, 0x02, 0x57, 0x52, 0x54, 0x53])).1.RAFDataGeneration = 4 ∧
      (({ LibRaw.blank with order := 0x4949 }).guess_RAFDataGeneration
        (bytesOf [0, 0, 0x62, 0x02, 0x57, 0x52, 0x54, 0x53])).2 = 8) :=
  ⟨⟨((guess_RAFDataGeneration_decision_tree _ _).1 (by decide)).1,
    ((guess_RAFDataGeneration_decision_tree _ _).1 (by decide)).2⟩,
   ⟨((guess_RAFDataGeneration_decision_tree _ _).2.1 (by decide)).1,
    ((guess_RAFDataGeneration_decision_tree _ _).2.1 (by decide)).2.1⟩,
   ⟨((guess_RAFDataGeneration_decision_tree _ _).2.2.1 (by decide)).1,
    ((guess_RAFDataGeneration_decision_tree _ _).2.2.1 (by decide)).2.1⟩,
   ⟨((guess_RAFDataGeneration_decision_tree _ _).2.2.2 (by decide)).1,
    ((guess_RAFDataGeneration_decision_tree _ _).2.2.2 (by decide)).2.2⟩⟩

/-- C2, counterexample: the block start `10 27 00 00` read little-endian has
`b01 = 10000` and `b23 = 0`; on an object whose generation is 0 the classifier leaves the
generation at 0, it does not set generation 1. -/
theorem guess_b01_10000_is_not_Gen1 :
    ({ LibRaw.blank with order := 0x4949 }).sget2 (bytesOf [0x10, 0x27, 0, 0, 0, 0, 0, 0]) = 10000 ∧
    ({ LibRaw.blank with order := 0x4949 }).sget2
      (fun i => bytesOf [0x10, 0x27, 0, 0, 0, 0, 0, 0] (2 + i)) = 0 ∧
    (({ LibRaw.blank with order := 0x4949 }).guess_RAFDataGeneration
      (bytesOf [0x10, 0x27, 0, 0, 0, 0, 0, 0])).1.RAFDataGeneration = 0 ∧
    (({ LibRaw.blank with order := 0x4949 }).guess_RAFDataGeneration
      (bytesOf [0x10, 0x27, 0, 0, 0, 0, 0, 0])).1.RAFDataGeneration ≠ 1 := by
  decide

/-- C2, amended: for a block start with `b01` exactly 10000 and `b23 = 0` neither the Gen1
rule nor the Gen2 rule applies: the object is returned unchanged (generation and version
keep their values) with dimension offset 0. -/
theorem guess_b01_10000_unchanged (self : LibRaw) (p : Nat → UInt8)
    (h01 : self.sget2 p = 10000) (h23 : self.sget2 (fun i => p (2 + i)) = 0) :
    self.guess_RAFDataGeneration p = (self, 0) ∧
    (self.guess_RAFDataGeneration p).1.RAFDataGeneration = self.RAFDataGeneration ∧
    ((self.guess_RAFDataGeneration p).1.RAFDataGeneration = 2 → self.RAFDataGeneration = 2) := by
  have h : self.guess_RAFDataGeneration p = (self, 0) := by
    simp [LibRaw.guess_RAFDataGeneration, h01, h23]
  simp [h]

/-- C2, amended, at the block start `10 27 00 00` read little-endian. -/
theorem guess_b01_10000_unchanged_witness :
    ({ LibRaw.blank with order := 0x4949 }).guess_RAFDataGeneration
        (bytesOf [0x10, 0x27, 0, 0, 0, 0, 0, 0]) = ({ LibRaw.blank with order := 0x4949 }, 0) :=
  (guess_b01_10000_unchanged _ _ (by decide) (by decide)).1

/-- C3, counterexample: the block start `01 00 01 00` (little-endian `b01 = 1`, `b23 = 1`)
matches none of the four rules; on an object whose generation is 3 the generation after
the call is 3, not 0. -/
theorem guess_unmatched_is_not_reset :
    ({ LibRaw.blank with order := 0x4949, RAFDataGeneration := 3 }).sget2
      (bytesOf [1, 0, 1, 0, 0, 0, 0, 0]) ≠ 0 ∧
    ({ LibRaw.blank with order := 0x4949, RAFDataGeneration := 3 }).sget2
      (fun i => bytesOf [1, 0, 1, 0, 0, 0, 0, 0] (2 + i)) ≠ 0 ∧
    (({ LibRaw.blank with order := 0x4949, RAFDataGeneration := 3 }).guess_RAFDataGeneration
      (bytesOf [1, 0, 1, 0, 0, 0, 0, 0])).1.RAFDataGeneration = 3 := by
  decide

/-- C3, amended: the classifier is a total function, its returned offset is always 0, 4 or
8, and for a block start that matches none of the four rules (`b01 ≠ 0` and either
`b23 ≠ 0` or `b01 = 10000`) it returns the object unchanged with offset 0: the generation
keeps the value stored before the call, so it is 0 after the call exactly when it was 0
before. -/
theorem guess_unmatched_keeps_object (self : LibRaw) (p : Nat → UInt8) :
    ((self.guess_RAFDataGeneration p).2 = 0 ∨ (self.guess_RAFDataGeneration p).2 = 4 ∨
      (self.guess_RAFDataGeneration p).2 = 8) ∧
    (self.sget2 p ≠ 0 ∧ (self.sget2 (fun i => p (2 + i)) ≠ 0 ∨ self.sget2 p = 10000) →
      self.guess_RAFDataGeneration p = (self, 0) ∧
      ((self.guess_RAFDataGeneration p).1.RAFDataGeneration = 0 ↔ self.RAFDataGeneration = 0)) := by
  constructor
  · unfold LibRaw.guess_RAFDataGeneration
    simp only []
    split_ifs <;> simp
  · rintro ⟨h1, h2⟩
    have h : self.guess_RAFDataGeneration p = (self, 0) := by
      unfold LibRaw.guess_RAFDataGeneration
      simp only []
      rcases h2 with h2 | h2
      · simp [h1, h2]
      · simp [h2]
    simp [h]

/-- C3, amended, at the block start `01 00 01 00` on an object whose generation is 3. -/
theorem guess_unmatched_keeps_object_witness :
    ({ LibRaw.blank with order := 0x4949, RAFDataGeneration := 3 }).guess_RAFDataGeneration
        (bytesOf [1, 0, 1, 0, 0, 0, 0, 0]) =
      ({ LibRaw.blank with order := 0x4949, RAFDataGeneration := 3 }, 0) :=
  ((guess_unmatched_keeps_object _ _).2 (by decide)).1

/-- C4, counterexample: with the header bytes `11 27 00 00 ...` the call in `parse_fuji`
classifies the block as generation 2 with version `10001 = 0x11 + 256 * 0x27`, and
so does `parseAdobeRAFMakernote` on a block whose `0xc000` payload starts with these
bytes; the big-endian value `256 * 0x11 + 0x27 = 4391` would have been below 10000. -/
theorem guess_calls_are_not_big_endian :
    (LibRaw.blank.parse_fuji_guess (bytesOf [0x11, 0x27, 0, 0, 0, 0, 0, 0])).1.RAFDataGeneration = 2 ∧
    (LibRaw.blank.parse_fuji_guess (bytesOf [0x11, 0x27, 0, 0, 0, 0, 0, 0])).1.RAFDataVersion = 10001 ∧
    (LibRaw.blank.parseAdobeRAFMakernote sampleDecls 0 86 (bytesOf sampleBlock_gen2)).isRaised = false ∧
    (LibRaw.blank.parseAdobeRAFMakernote sampleDecls 0 86
      (bytesOf sampleBlock_gen2)).final.RAFDataGeneration = 2 ∧
    (LibRaw.blank.parseAdobeRAFMakernote sampleDecls 0 86
      (bytesOf sampleBlock_gen2)).final.RAFDataVersion = 10001 ∧
    (10001 : Nat) ≠ 256 * 0x11 + 0x27 := by
  decide

/-- C4, amended: at both calls of `guess_RAFDataGeneration` the byte order has just been set
to `0x4949`, so `b01`, `b23` and the marker word are decoded little-endian: the call in
`parse_fuji` and the call in the structured block of `parseAdobeRAFMakernote` run the
decision tree on `b01 = byte0 + 256 * byte1` and `b23 = byte2 + 256 * byte3`. -/
theorem guess_calls_decode_little_endian (self : LibRaw) (hdr : Nat → UInt8) (d : Decls)
    (PrivateTagBytes : Nat) (fr : Frame) :
    self.parse_fuji_guess hdr =
      RAFData_rule ((hdr 0).toNat + 256 * (hdr 1).toNat) ((hdr 2).toNat + 256 * (hdr 3).toNat)
        ((hdr 4).toNat + 256 * (hdr 5).toNat + 65536 * (hdr 6).toNat +
          16777216 * (hdr 7).toNat == 0x53545257)
        { self with order := 0x4949 } ∧
    (PrivateTagBytes ≠ 4096 →
      handle_c000 d PrivateTagBytes fr = structured_block d PrivateTagBytes (fr.setOrders 0x4949)) ∧
    (fr.setOrders 0x4949).guess.self =
      (RAFData_rule
        ((fr.PrivateMknBuf._data (fr.posPrivateMknBuf + 0)).toNat +
          256 * (fr.PrivateMknBuf._data (fr.posPrivateMknBuf + 1)).toNat)
        ((fr.PrivateMknBuf._data (fr.posPrivateMknBuf + 2)).toNat +
          256 * (fr.PrivateMknBuf._data (fr.posPrivateMknBuf + 3)).toNat)
        ((fr.PrivateMknBuf._data (fr.posPrivateMknBuf + 4)).toNat +
          256 * (fr.PrivateMknBuf._data (fr.posPrivateMknBuf + 5)).toNat +
          65536 * (fr.PrivateMknBuf._data (fr.posPrivateMknBuf + 6)).toNat +
          16777216 * (fr.PrivateMknBuf._data (fr.posPrivateMknBuf + 7)).toNat == 0x53545257)
        { fr.self with order := 0x4949 }).1 := by
  refine ⟨?_, ?_, ?_⟩
  · simp [LibRaw.parse_fuji_guess, guess_RAFDataGeneration_eq_rule, LibRaw.sget2, LibRaw.sget4,
      libraw_sget2_static, libraw_sget4_static]
  · intro h
    simp [handle_c000, h]
  · simp [Frame.guess, Frame.setOrders, checked_buffer_t.set_order,
      guess_RAFDataGeneration_eq_rule, LibRaw.sget2, LibRaw.sget4,
      libraw_sget2_static, libraw_sget4_static, checked_buffer_t.data, Nat.add_assoc]

/-- C4, amended, at the header bytes `11 27 00 00 ...`: the call in `parse_fuji` runs the
decision tree on `b01 = 0x11 + 256 * 0x27 = 10001`. -/
theorem guess_calls_decode_little_endian_witness :
    LibRaw.blank.parse_fuji_guess (bytesOf [0x11, 0x27, 0, 0, 0, 0, 0, 0]) =
      RAFData_rule 10001 0 false { LibRaw.blank with order := 0x4949 } :=
  (guess_calls_decode_little_endian LibRaw.blank (bytesOf [0x11, 0x27, 0, 0, 0, 0, 0, 0])
    sampleDecls 20 ⟨LibRaw.blank, ⟨0, bytesOf [], 0⟩, 0, 0, 0⟩).1

/-! ## The bounds-checked buffer and the structural validator -/

/-- A 16-bit read is below `2 ^ 16`. -/
theorem libraw_sget2_static_lt (order : Nat) (s : Nat → UInt8) :
    libraw_sget2_static order s < 65536 := by
  have h0 := UInt8.toNat_lt_size (s 0)
  have h1 := UInt8.toNat_lt_size (s 1)
  simp only [UInt8.size] at h0 h1
  unfold libraw_sget2_static
  split <;> omega

/-- An in-range 16-bit read succeeds with the stored value. -/
theorem sget2_in_range (b : checked_buffer_t) (offset : Nat) (h : offset + 2 ≤ b._len) :
    b.sget2 offset = .ok (b.peek2 offset) := by
  have h1 : ¬ (offset + 2 > b._len) := by omega
  simp [checked_buffer_t.sget2, checked_buffer_t.checkoffset, h1, checked_buffer_t.peek2]

/-- A 16-bit read that does not fit in the declared length raises OutOfRange. -/
theorem sget2_out_of_range (b : checked_buffer_t) (offset : Nat) (h : b._len < offset + 2) :
    b.sget2 offset = .error .OutOfRange := by
  simp [checked_buffer_t.sget2, checked_buffer_t.checkoffset, h]

/-- The conjunction of two tests that do not throw. -/
theorem andAlso_ok (a c : Bool) : andAlso (.ok a) (.ok c) = .ok (a && c) := by
  cases a <;> rfl

/-- The validator on a window whose six reads succeed with the values `v0 .. v5`. -/
theorem isWB_of_reads (b : checked_buffer_t) (o v0 v1 v2 v3 v4 v5 : Nat)
    (h0 : b.sget2 (u32 (o + 0)) = .ok v0) (h1 : b.sget2 (u32 (o + 2)) = .ok v1)
    (h2 : b.sget2 (u32 (o + 4)) = .ok v2) (h3 : b.sget2 (u32 (o + 6)) = .ok v3)
    (h4 : b.sget2 (u32 (o + 8)) = .ok v4) (h5 : b.sget2 (u32 (o + 10)) = .ok v5) :
    b.isWB o = .ok (decide (v0 ≠ 0 ∧ v1 ≠ 0 ∧ v2 ≠ 0 ∧ v3 ≠ 0 ∧ v4 ≠ 0 ∧ v5 ≠ 0 ∧
      v0 ≠ 0xff ∧ v1 ≠ 0xff ∧ v2 ≠ 0xff ∧ v3 ≠ 0xff ∧ v4 ≠ 0xff ∧ v5 ≠ 0xff ∧
      v0 = v3 ∧ v0 < v1 ∧ v0 < v2 ∧ v0 < v4 ∧ v0 < v5)) := by
  simp only [checked_buffer_t.isWB, h0, h1, h2, h3, h4, h5, test1, test2, andAlso_ok]
  congr 1
  rw [Bool.eq_iff_iff]
  simp

/-- The validator on a window that lies inside the declared length. -/
theorem isWB_in_range (b : checked_buffer_t) (o : Nat) (hin : o + 12 ≤ b._len)
    (hlen : b._len < 2 ^ 32) :
    b.isWB o = .ok (decide (b.peek2 o ≠ 0 ∧ b.peek2 (o + 2) ≠ 0 ∧ b.peek2 (o + 4) ≠ 0 ∧
      b.peek2 (o + 6) ≠ 0 ∧ b.peek2 (o + 8) ≠ 0 ∧ b.peek2 (o + 10) ≠ 0 ∧
      b.peek2 o ≠ 0xff ∧ b.peek2 (o + 2) ≠ 0xff ∧ b.peek2 (o + 4) ≠ 0xff ∧
      b.peek2 (o + 6) ≠ 0xff ∧ b.peek2 (o + 8) ≠ 0xff ∧ b.peek2 (o + 10) ≠ 0xff ∧
      b.peek2 o = b.peek2 (o + 6) ∧ b.peek2 o < b.peek2 (o + 2) ∧
      b.peek2 o < b.peek2 (o + 4) ∧ b.peek2 o < b.peek2 (o + 8) ∧
      b.peek2 o < b.peek2 (o + 10))) := by
  have u : ∀ k, k ≤ 10 → u32 (o + k) = o + k := fun k hk => by
    unfold u32; exact Nat.mod_eq_of_lt (by omega)
  have r : ∀ k, k ≤ 10 → b.sget2 (u32 (o + k)) = .ok (b.peek2 (o + k)) := fun k hk => by
    rw [u k hk]; exact sget2_in_range b _ (by omega)
  exact isWB_of_reads b o _ _ _ _ _ _ (r 0 (by omega)) (r 2 (by omega)) (r 4 (by omega))
    (r 6 (by omega)) (r 8 (by omega)) (r 10 (by omega))

/-- C5: for every buffer and every offset `o` whose 12-byte window lies inside the declared
length, `isWB(o)` does not throw and is true exactly when the six 16-bit values `v0 .. v5`
at `o, o+2, .., o+10` are all non-zero, none of them equals `0xff`, `v0 = v3`, and `v0` is
strictly smaller than `v1`, `v2`, `v4` and `v5`; so a window with a zero value is
rejected. -/
theorem isWB_true_iff (b : checked_buffer_t) (o : Nat) (hin : o + 12 ≤ b._len)
    (hlen : b._len < 2 ^ 32) :
    (∃ r, b.isWB o = .ok r) ∧
    (b.isWB o = .ok true ↔
      (b.peek2 o ≠ 0 ∧ b.peek2 (o + 2) ≠ 0 ∧ b.peek2 (o + 4) ≠ 0 ∧
       b.peek2 (o + 6) ≠ 0 ∧ b.peek2 (o + 8) ≠ 0 ∧ b.peek2 (o + 10) ≠ 0) ∧
      (b.peek2 o ≠ 0xff ∧ b.peek2 (o + 2) ≠ 0xff ∧ b.peek2 (o + 4) ≠ 0xff ∧
       b.peek2 (o + 6) ≠ 0xff ∧ b.peek2 (o + 8) ≠ 0xff ∧ b.peek2 (o + 10) ≠ 0xff) ∧
      b.peek2 o = b.peek2 (o + 6) ∧
      (b.peek2 o < b.peek2 (o + 2) ∧ b.peek2 o < b.peek2 (o + 4) ∧
       b.peek2 o < b.peek2 (o + 8) ∧ b.peek2 o < b.peek2 (o + 10))) ∧
    ((b.peek2 o = 0 ∨ b.peek2 (o + 2) = 0 ∨ b.peek2 (o + 4) = 0 ∨ b.peek2 (o + 6) = 0 ∨
      b.peek2 (o + 8) = 0 ∨ b.peek2 (o + 10) = 0) → b.isWB o = .ok false) := by
  rw [isWB_in_range b o hin hlen]
  refine ⟨⟨_, rfl⟩, ?_, ?_⟩
  · simp only [Except.ok.injEq, decide_eq_true_eq]
    tauto
  · intro h
    simp only [Except.ok.injEq, decide_eq_false_iff_not]
    tauto

/-- C5, at two concrete windows: the values `100, 200, 300, 100, 400, 500` are accepted and
the all-zero window is rejected. -/
theorem isWB_true_iff_witness :
    (windowBuf [100, 200, 300, 100, 400, 500]).isWB 0 = .ok true ∧
    (windowBuf [0, 0, 0, 0, 0, 0]).isWB 0 = .ok false :=
  ⟨(isWB_true_iff (windowBuf [100, 200, 300, 100, 400, 500]) 0 (by decide) (by decide)).2.1.2
      (by decide),
   (isWB_true_iff (windowBuf [0, 0, 0, 0, 0, 0]) 0 (by decide) (by decide)).2.2 (by decide)⟩

/-- C6, counterexample: the window `1, 0xFFFF, 0xFFFF, 1, 0xFFFF, 0xFFFF` holds four
saturated values and is accepted by the validator. -/
theorem isWB_accepts_saturated_values :
    (windowBuf [1, 0xFFFF, 0xFFFF, 1, 0xFFFF, 0xFFFF]).peek2 2 = 0xFFFF ∧
    (windowBuf [1, 0xFFFF, 0xFFFF, 1, 0xFFFF, 0xFFFF]).peek2 4 = 0xFFFF ∧
    (windowBuf [1, 0xFFFF, 0xFFFF, 1, 0xFFFF, 0xFFFF]).peek2 8 = 0xFFFF ∧
    (windowBuf [1, 0xFFFF, 0xFFFF, 1, 0xFFFF, 0xFFFF]).peek2 10 = 0xFFFF ∧
    (windowBuf [1, 0xFFFF, 0xFFFF, 1, 0xFFFF, 0xFFFF]).isWB 0 = .ok true := by
  decide

/-- C6, amended: the sentinel the validator compares with is `0xff` (255): it rejects every
in-range window in which any of the six 16-bit values equals `0xff`.  A saturated value
`0xFFFF` is rejected in positions 0 and 3 only (`v0` has to be strictly below another
16-bit value and equal to `v3`). -/
theorem isWB_rejects_0xff (b : checked_buffer_t) (o : Nat) (hin : o + 12 ≤ b._len)
    (hlen : b._len < 2 ^ 32) :
    ((b.peek2 o = 0xff ∨ b.peek2 (o + 2) = 0xff ∨ b.peek2 (o + 4) = 0xff ∨
      b.peek2 (o + 6) = 0xff ∨ b.peek2 (o + 8) = 0xff ∨ b.peek2 (o + 10) = 0xff) →
      b.isWB o = .ok false) ∧
    ((b.peek2 o = 0xFFFF ∨ b.peek2 (o + 6) = 0xFFFF) → b.isWB o = .ok false) := by
  rw [isWB_in_range b o hin hlen]
  have h2 : b.peek2 (o + 2) < 65536 := libraw_sget2_static_lt _ _
  constructor
  · intro h
    simp only [Except.ok.injEq, decide_eq_false_iff_not]
    tauto
  · intro h
    simp only [Except.ok.injEq, decide_eq_false_iff_not]
    intro hc
    omega

/-- C6, amended, at the windows `1, 2, 255, 1, 2, 2` and
`0xFFFF, 0xFFFF, 0xFFFF, 0xFFFF, 0xFFFF, 0xFFFF`: both are rejected. -/
theorem isWB_rejects_0xff_witness :
    (windowBuf [1, 2, 255, 1, 2, 2]).isWB 0 = .ok false ∧
    (windowBuf [0xFFFF, 0xFFFF, 0xFFFF, 0xFFFF, 0xFFFF, 0xFFFF]).isWB 0 = .ok false :=
  ⟨(isWB_rejects_0xff (windowBuf [1, 2, 255, 1, 2, 2]) 0 (by decide) (by decide)).1 (by decide),
   (isWB_rejects_0xff (windowBuf [0xFFFF, 0xFFFF, 0xFFFF, 0xFFFF, 0xFFFF, 0xFFFF]) 0
      (by decide) (by decide)).2 (by decide)⟩

/-- C7: for every checked buffer of declared length `N` and every offset `o ≥ N`, the reads
`sget2(o)` and `sget4(o)` raise OutOfRange, the check `checkoffset(o + w)` for an access of
any width `w ≥ 1` at `o` raises OutOfRange, and so does `isWB(o)` (whose argument is a
32-bit unsigned): no read at such an offset returns data. -/
theorem reads_beyond_length_raise (b : checked_buffer_t) (o : Nat) (h : b._len ≤ o) :
    b.sget2 o = .error .OutOfRange ∧
    b.sget4 o = .error .OutOfRange ∧
    (∀ w, 1 ≤ w → b.checkoffset (o + w) = .error .OutOfRange) ∧
    (o < 2 ^ 32 → b.isWB o = .error .OutOfRange) := by
  have h2 : b.sget2 o = .error .OutOfRange := sget2_out_of_range b o (by omega)
  refine ⟨h2, ?_, ?_, ?_⟩
  · have : o + 4 > b._len := by omega
    simp [checked_buffer_t.sget4, checked_buffer_t.checkoffset, this]
  · intro w hw
    have : o + w > b._len := by omega
    simp [checked_buffer_t.checkoffset, this]
  · intro ho
    have hu : u32 o = o := by unfold u32; exact Nat.mod_eq_of_lt (by omega)
    simp [checked_buffer_t.isWB, hu, h2, test1, andAlso]

/-- C7, on a buffer of declared length 12 at the offset 12. -/
theorem reads_beyond_length_raise_witness :
    (windowBuf [100, 200, 300, 100, 400, 500]).sget2 12 = .error .OutOfRange ∧
    (windowBuf [100, 200, 300, 100, 400, 500]).sget4 12 = .error .OutOfRange ∧
    (windowBuf [100, 200, 300, 100, 400, 500]).checkoffset (12 + 2) = .error .OutOfRange ∧
    (windowBuf [100, 200, 300, 100, 400, 500]).isWB 12 = .error .OutOfRange :=
  ⟨(reads_beyond_length_raise _ 12 (by decide)).1,
   (reads_beyond_length_raise _ 12 (by decide)).2.1,
   (reads_beyond_length_raise _ 12 (by decide)).2.2.1 2 (by decide),
   (reads_beyond_length_raise _ 12 (by decide)).2.2.2 (by decide)⟩

/-! ## The structured calibration block -/

/-- Code that writes nothing changes at most the Auto slot. -/
theorem OnlyAutoChanged.refl (auto : Nat) (a : LibRaw) : OnlyAutoChanged auto a a :=
  ⟨fun _ _ _ => rfl, rfl⟩

/-- Two pieces of code that change at most the Auto slot do so when run in sequence. -/
theorem OnlyAutoChanged.trans {auto : Nat} {a b c : LibRaw} (h1 : OnlyAutoChanged auto a b)
    (h2 : OnlyAutoChanged auto b c) : OnlyAutoChanged auto a c :=
  ⟨fun s k hs => (h2.1 s k hs).trans (h1.1 s k hs), h2.2.trans h1.2⟩

/-- An assignment to the slot `auto` of `icWBC` changes nothing else. -/
theorem setWBC_onlyAuto (auto : Nat) (fr : Frame) (c : Nat) (v : Int) :
    OnlyAutoChanged auto fr.self (fr.setWBC auto c v).self := by
  refine ⟨fun s k hs => ?_, rfl⟩
  simp [Frame.setWBC, hs]

/-- What `read_WB_triple` leaves behind: the locals and the buffer are untouched, and of the
object only the slot it writes can change. -/
theorem read_WB_triple_frame (wb : Nat) (fr : Frame) :
    (∀ f, read_WB_triple wb fr = .done f →
      f.PrivateMknBuf = fr.PrivateMknBuf ∧ f.posPrivateMknBuf = fr.posPrivateMknBuf ∧
      f.wb_section_offset = fr.wb_section_offset ∧ f.posWB = fr.posWB) ∧
    OnlyAutoChanged wb fr.self (read_WB_triple wb fr).obj := by
  unfold read_WB_triple
  cases h1 : fr.PrivateMknBuf.sget2 fr.posWB with
  | error e => simp [assignRead, Outcome.bind, Outcome.obj, OnlyAutoChanged.refl]
  | ok v1 =>
    simp only [assignRead, Outcome.bind, Frame.setWBC]
    cases h2 : fr.PrivateMknBuf.sget2 (fr.posWB + 2) with
    | error e =>
      simp only [Outcome.obj]
      refine ⟨(by intro f hf; cases hf), ⟨fun s k hs => ?_, rfl⟩⟩
      simp [hs]
    | ok v2 =>
      simp only []
      cases h3 : fr.PrivateMknBuf.sget2 (fr.posWB + 4) with
      | error e =>
        simp only [Outcome.obj]
        refine ⟨(by intro f hf; cases hf), ⟨fun s k hs => ?_, rfl⟩⟩
        simp [hs]
      | ok v3 =>
        simp only [Outcome.obj]
        refine ⟨?_, ⟨fun s k hs => ?_, rfl⟩⟩
        · intro f hf
          cases hf
          simp
        · simp [hs]

/-- What the marker scan leaves behind: the buffer, `posPrivateMknBuf` and
`wb_section_offset` are untouched, and of the object only the Auto slot can change. -/
theorem marker_scan_frame (d : Decls) (n : Nat) (fr : Frame) :
    (∀ f, marker_scan d n fr = .done f →
      f.PrivateMknBuf = fr.PrivateMknBuf ∧ f.posPrivateMknBuf = fr.posPrivateMknBuf ∧
      f.wb_section_offset = fr.wb_section_offset) ∧
    OnlyAutoChanged d.LIBRAW_WBI_Auto fr.self (marker_scan d n fr).obj := by
  induction n generalizing fr with
  | zero => simp [marker_scan, Outcome.obj, OnlyAutoChanged.refl]
  | succ n ih =>
    unfold marker_scan
    cases hc : fr.PrivateMknBuf.checkoffset (fr.posWB + 12) with
    | error e => simp [Outcome.obj, OnlyAutoChanged.refl]
    | ok u =>
      simp only []
      cases hm : andAlso (.ok (is_TSNERDTS fr.PrivateMknBuf fr.posWB))
          (test1 (fun g => decide (g > 125)) (fr.PrivateMknBuf.sget2 (fr.posWB + 10))) with
      | error e => simp [Outcome.obj, OnlyAutoChanged.refl]
      | ok found =>
        cases found with
        | true =>
          simp only []
          have h := read_WB_triple_frame d.LIBRAW_WBI_Auto { fr with posWB := fr.posWB + 10 }
          refine ⟨fun f hf => ?_, h.2⟩
          have := h.1 f hf
          simpa using ⟨this.1, this.2.1, this.2.2.1⟩
        | false =>
          simp only []
          have h := ih { fr with posWB := fr.posWB + 1 }
          exact ⟨fun f hf => by simpa using h.1 f hf, h.2⟩

/-- The classifier touches neither `icWBC` nor `icWBCCTC`. -/
theorem guess_frame (auto : Nat) (fr : Frame) :
    OnlyAutoChanged auto fr.self fr.guess.self := by
  unfold Frame.guess LibRaw.guess_RAFDataGeneration
  simp only []
  split_ifs <;> exact ⟨fun _ _ _ => rfl, rfl⟩

/-- The value of the test of the structured block, when it does not throw. -/
theorem validation_value (f : Frame) (valid : Bool)
    (h : andAlso (.ok (decide (f.wb_section_offset ≠ 0)))
      (f.PrivateMknBuf.isWB (u32 (f.posPrivateMknBuf + f.wb_section_offset))) = .ok valid) :
    valid = true ↔ (f.wb_section_offset ≠ 0 ∧
      f.PrivateMknBuf.isWB (u32 (f.posPrivateMknBuf + f.wb_section_offset)) = .ok true) := by
  by_cases h0 : f.wb_section_offset = 0
  · simp [andAlso, h0] at h
    simp [h0, ← h]
  · simp only [andAlso, ne_eq, h0, not_false_eq_true, decide_True] at h
    simp [h0, h]

/-- What the structured block has done when it reaches its test: only the Auto slot of the
white-balance tables can have changed, the buffer and `posPrivateMknBuf` are as before,
and the test is true exactly when the resolved offset is non-zero and `isWB` accepts the
window at `posPrivateMknBuf + wb_section_offset`. -/
theorem locate_wb_table_frame (d : Decls) (PrivateTagBytes : Nat) (fr : Frame) :
    OnlyAutoChanged d.LIBRAW_WBI_Auto fr.self (locate_wb_table d PrivateTagBytes fr).located ∧
    (∀ f is34 valid, locate_wb_table d PrivateTagBytes fr = .done (f, is34, valid) →
      f.PrivateMknBuf = fr.PrivateMknBuf ∧ f.posPrivateMknBuf = fr.posPrivateMknBuf ∧
      (valid = true ↔ (f.wb_section_offset ≠ 0 ∧
        f.PrivateMknBuf.isWB (u32 (f.posPrivateMknBuf + f.wb_section_offset)) = .ok true))) := by
  unfold locate_wb_table
  cases hc : fr.PrivateMknBuf.checkoffset (u32 (fr.posPrivateMknBuf + 8)) with
  | error e => simp [Outcome.located, OnlyAutoChanged.refl]
  | ok u =>
    simp only []
    have hs := marker_scan_frame d (PrivateTagBytes - 16) { fr.guess with posWB := 0 }
    have hg : OnlyAutoChanged d.LIBRAW_WBI_Auto fr.self fr.guess.self := guess_frame _ fr
    cases hm : marker_scan d (PrivateTagBytes - 16) { fr.guess with posWB := 0 } with
    | raised s =>
      rw [hm] at hs
      simp only [Outcome.bind, Outcome.located]
      exact ⟨hg.trans hs.2, by intro f i v hf; cases hf⟩
    | done f2 =>
      rw [hm] at hs
      have hl := hs.1 f2 rfl
      have hr : OnlyAutoChanged d.LIBRAW_WBI_Auto fr.self f2.self := hg.trans hs.2
      simp only [Outcome.bind]
      cases hres : resolve_wb_section_offset f2 with
      | error e => exact ⟨hr, by intro f i v hf; cases hf⟩
      | ok wbo =>
        simp only []
        cases hv : andAlso (.ok (decide (wbo ≠ 0)))
            (f2.PrivateMknBuf.isWB (u32 (f2.posPrivateMknBuf + wbo))) with
        | error e => exact ⟨hr, by intro f i v hf; cases hf⟩
        | ok valid =>
          refine ⟨hr, ?_⟩
          intro f i v hf
          cases hf
          refine ⟨by simpa [Frame.guess] using hl.1, by simpa [Frame.guess] using hl.2.1, ?_⟩
          exact validation_value { f2 with wb_section_offset := wbo } valid hv

/-- C8: in the structured-block branch of `parseAdobeRAFMakernote` the preset table and the
CCT table are decoded only if `isWB` holds at payload start + resolved offset.  Either the
block reaches its test with a non-zero resolved offset accepted by `isWB` (and then runs the
table decode), or it ends, normally or by the exception, with every white-balance slot
other than Auto and every CCT entry unmodified: only the marker scan may have supplied
calibration data (Auto). -/
theorem structured_block_decodes_only_validated (d : Decls) (PrivateTagBytes : Nat)
    (fr : Frame) :
    (∃ f is34, locate_wb_table d PrivateTagBytes fr = .done (f, is34, true) ∧
      f.wb_section_offset ≠ 0 ∧
      f.PrivateMknBuf.isWB (u32 (f.posPrivateMknBuf + f.wb_section_offset)) = .ok true ∧
      structured_block d PrivateTagBytes fr = decode_wb_table d is34 f) ∨
    ((∀ s c, s ≠ d.LIBRAW_WBI_Auto →
        (structured_block d PrivateTagBytes fr).obj.icWBC s c = fr.self.icWBC s c) ∧
      (∀ wb, wb ∈ d.Fuji_wb_list1 → wb ≠ d.LIBRAW_WBI_Auto → ∀ c,
        (structured_block d PrivateTagBytes fr).obj.icWBC wb c = fr.self.icWBC wb c) ∧
      (structured_block d PrivateTagBytes fr).obj.icWBCCTC = fr.self.icWBCCTC) := by
  have h := locate_wb_table_frame d PrivateTagBytes fr
  unfold structured_block
  cases hl : locate_wb_table d PrivateTagBytes fr with
  | raised s =>
    rw [hl] at h
    right
    simp only [Outcome.bind, Outcome.obj]
    exact ⟨h.1.1, fun wb _ hwb c => h.1.1 wb c hwb, h.1.2⟩
  | done r =>
    obtain ⟨f, is34, valid⟩ := r
    rw [hl] at h
    cases valid with
    | true =>
      left
      have hv := (h.2 f is34 true rfl).2.2.1 rfl
      exact ⟨f, is34, rfl, hv.1, hv.2, by simp [Outcome.bind]⟩
    | false =>
      right
      simp only [Outcome.bind, Outcome.obj]
      exact ⟨h.1.1, fun wb _ hwb c => h.1.1 wb c hwb, h.1.2⟩

/-! ## No read fails after a successful validation -/

/-- A short-circuit conjunction is true exactly when both operands are evaluated to true. -/
theorem andAlso_eq_true_iff (x y : Except Exn Bool) :
    andAlso x y = .ok true ↔ x = .ok true ∧ y = .ok true := by
  cases x with
  | error e => simp [andAlso]
  | ok a => cases a <;> simp [andAlso]

/-- A test on a read is true exactly when the read succeeds with a value that passes it. -/
theorem test1_eq_true_iff (r : Nat → Bool) (x : Except Exn Nat) :
    test1 r x = .ok true ↔ ∃ a, x = .ok a ∧ r a = true := by
  cases x with
  | error e => simp [test1]
  | ok a => simp [test1]

/-- A successful 16-bit read lies inside the declared length and returns the stored value. -/
theorem sget2_eq_ok (b : checked_buffer_t) (offset v : Nat) (h : b.sget2 offset = .ok v) :
    offset + 2 ≤ b._len ∧ v = b.peek2 offset := by
  by_cases hr : offset + 2 ≤ b._len
  · rw [sget2_in_range b offset hr] at h
    exact ⟨hr, by cases h; rfl⟩
  · rw [sget2_out_of_range b offset (by omega)] at h
    cases h

/-- The value stored at an offset is zero when both of its bytes are zero. -/
theorem peek2_zero (b : checked_buffer_t) (offset : Nat) (h0 : b._data offset = 0)
    (h1 : b._data (offset + 1) = 0) : b.peek2 offset = 0 := by
  simp [checked_buffer_t.peek2, libraw_sget2_static, checked_buffer_t.data, h0, h1]

/-- A window accepted by the validator starts inside the declared length and its last value
is not zero. -/
theorem isWB_true_reads (b : checked_buffer_t) (o : Nat) (h : b.isWB o = .ok true) :
    (∃ v0, b.sget2 (u32 (o + 0)) = .ok v0) ∧
    (∃ v5, b.sget2 (u32 (o + 10)) = .ok v5 ∧ v5 ≠ 0) := by
  simp only [checked_buffer_t.isWB, andAlso_eq_true_iff, test1_eq_true_iff] at h
  obtain ⟨⟨v0, h0, -⟩, -, -, -, -, ⟨v5, h5, n5⟩, -⟩ := h
  exact ⟨⟨v0, h0⟩, ⟨v5, h5, by simpa using n5⟩⟩

/-- In a buffer whose bytes from `L` on are zero, a window accepted by the validator ends
at most one byte behind `L`. -/
theorem isWB_true_inside (b : checked_buffer_t) (o L : Nat) (ho : o < 2 ^ 32)
    (hlen : b._len < 2 ^ 31) (hpad : ∀ i, L ≤ i → b._data i = 0)
    (h : b.isWB o = .ok true) : o + 11 ≤ L := by
  obtain ⟨⟨v0, h0⟩, ⟨v5, h5, n5⟩⟩ := isWB_true_reads b o h
  have u0 : u32 (o + 0) = o := by unfold u32; exact Nat.mod_eq_of_lt (by omega)
  rw [u0] at h0
  have r0 := (sget2_eq_ok b o v0 h0).1
  have u5 : u32 (o + 10) = o + 10 := by unfold u32; exact Nat.mod_eq_of_lt (by omega)
  rw [u5] at h5
  have r5 := (sget2_eq_ok b _ v5 h5).2
  by_contra hc
  have z : b.peek2 (o + 10) = 0 := peek2_zero b _ (hpad _ (by omega)) (hpad _ (by omega))
  omega

/-- The triple read does not throw when its six bytes lie inside the declared length. -/
theorem read_WB_triple_done (wb : Nat) (fr : Frame) (h : fr.posWB + 6 ≤ fr.PrivateMknBuf._len) :
    ∃ f, read_WB_triple wb fr = .done f ∧ f.PrivateMknBuf = fr.PrivateMknBuf ∧
      f.wb_section_offset = fr.wb_section_offset ∧ f.posWB = fr.posWB := by
  unfold read_WB_triple
  rw [sget2_in_range _ _ (by omega)]
  simp only [assignRead, Outcome.bind, Frame.setWBC]
  rw [sget2_in_range _ _ (by simpa using (by omega : fr.posWB + 2 + 2 ≤ fr.PrivateMknBuf._len))]
  simp only []
  rw [sget2_in_range _ _ (by simpa using (by omega : fr.posWB + 4 + 2 ≤ fr.PrivateMknBuf._len))]
  exact ⟨_, rfl, rfl, rfl, rfl⟩

/-- The preset loop does not throw when the whole table lies inside the declared length. -/
theorem preset_loop_done (l : List Nat) (fr : Frame)
    (h : fr.posWB + 6 * l.length ≤ fr.PrivateMknBuf._len) :
    ∃ f, preset_loop l fr = .done f ∧ f.PrivateMknBuf = fr.PrivateMknBuf ∧
      f.wb_section_offset = fr.wb_section_offset ∧ f.posWB = fr.posWB + 6 * l.length := by
  induction l generalizing fr with
  | nil => exact ⟨fr, rfl, rfl, rfl, rfl⟩
  | cons wb rest ih =>
    simp only [List.length_cons] at h
    obtain ⟨f1, e1, b1, w1, p1⟩ := read_WB_triple_done wb fr (by omega)
    obtain ⟨f2, e2, b2, w2, p2⟩ := ih { f1 with posWB := f1.posWB + 6 }
      (by simp only [b1, p1]; omega)
    refine ⟨f2, ?_, ?_, ?_, ?_⟩
    · simp [preset_loop, e1, Outcome.bind, e2]
    · simpa [b1] using b2
    · simpa [w1] using w2
    · simp only [p2, p1, List.length_cons]; omega

/-- The search for the end of the CCT section does not throw when its positions lie inside
the declared length; a position it returns lies between the first and the last one. -/
theorem cct_end_scan_ok (b : checked_buffer_t) (Gval : Nat) (n p : Nat)
    (h : p + 6 * n ≤ b._len + 4) :
    ∃ r, cct_end_scan b Gval n p = .ok r ∧
      ∀ q, r = some q → p ≤ q ∧ q + 6 ≤ p + 6 * n := by
  induction n generalizing p with
  | zero => exact ⟨none, rfl, by intro q hq; cases hq⟩
  | succ n ih =>
    unfold cct_end_scan
    rw [sget2_in_range b p (by omega)]
    simp only []
    by_cases hg : b.peek2 p ≠ Gval
    · refine ⟨some p, by simp [hg], ?_⟩
      intro q hq
      cases hq
      omega
    · obtain ⟨r, hr, hq⟩ := ih (p + 6) (by omega)
      refine ⟨r, by simp [hg, hr], ?_⟩
      intro q hq'
      have := hq q hq'
      omega

/-- The CCT loop does not throw when every entry it reads lies inside the declared
length. -/
theorem cct_fill_done (d : Decls) (n iCCT : Nat) (fr : Frame)
    (h : fr.wb_section_offset + (iCCT + n) * 6 ≤ fr.PrivateMknBuf._len)
    (hlen : fr.PrivateMknBuf._len < 2 ^ 32) :
    (cct_fill d n iCCT fr).isRaised = false := by
  induction n generalizing iCCT fr with
  | zero => rfl
  | succ n ih =>
    have u : ∀ k, k ≤ 4 → u32 (fr.wb_section_offset + iCCT * 6 + k) =
        fr.wb_section_offset + iCCT * 6 + k := fun k hk => by
      unfold u32; exact Nat.mod_eq_of_lt (by omega)
    have u0 := u 0 (by omega)
    simp only [Nat.add_zero] at u0
    unfold cct_fill
    simp only [Frame.setCCT, assignRead, Outcome.bind]
    rw [u 2 (by omega), sget2_in_range _ _ (by omega)]
    simp only []
    rw [u0, sget2_in_range _ _ (by omega)]
    simp only []
    rw [u 4 (by omega), sget2_in_range _ _ (by omega)]
    simp only []
    exact ih (iCCT + 1) _ (by simp only []; omega) (by simpa using hlen)

/-- The first stage of the table decode (the Auto triple in front of the table, read when
the version is 0) leaves the locals and the buffer untouched and can change the Auto slot
only. -/
theorem auto_triple_frame (d : Decls) (f : Frame) (p : Nat) :
    (∀ f1, (if f.self.RAFDataVersion = 0 then
        read_WB_triple d.LIBRAW_WBI_Auto { f with posWB := p } else Outcome.done f) = .done f1 →
      f1.PrivateMknBuf = f.PrivateMknBuf ∧ f1.posPrivateMknBuf = f.posPrivateMknBuf ∧
      f1.wb_section_offset = f.wb_section_offset) ∧
    OnlyAutoChanged d.LIBRAW_WBI_Auto f.self
      (if f.self.RAFDataVersion = 0 then
        read_WB_triple d.LIBRAW_WBI_Auto { f with posWB := p } else Outcome.done f).obj := by
  by_cases hv : f.self.RAFDataVersion = 0
  · simp only [hv, if_true]
    have h := read_WB_triple_frame d.LIBRAW_WBI_Auto { f with posWB := p }
    exact ⟨fun f1 h1 => ⟨(h.1 f1 h1).1, (h.1 f1 h1).2.1, (h.1 f1 h1).2.2.1⟩, h.2⟩
  · simp only [hv, if_false]
    exact ⟨fun f1 h1 => by cases h1; exact ⟨rfl, rfl, rfl⟩, OnlyAutoChanged.refl _ _⟩

/-- In a buffer of declared length `L + 1024` whose bytes from `L` on are zero, the table
decode that follows a successful validation can throw in its first stage only, the read of
the Auto triple in front of the table: an exception leaves every slot other than Auto and
every CCT entry as it was. -/
theorem decode_wb_table_raise (d : Decls) (is34 : Bool) (f : Frame) (L : Nat)
    (hlen : f.PrivateMknBuf._len = L + 1024) (hL : L + 1024 < 2 ^ 31)
    (hpad : ∀ i, L ≤ i → f.PrivateMknBuf._data i = 0)
    (hlist : d.Fuji_wb_list1.length ≤ 128)
    (hv : f.PrivateMknBuf.isWB (u32 (f.posPrivateMknBuf + f.wb_section_offset)) = .ok true)
    (hr : (decode_wb_table d is34 f).isRaised = true) :
    OnlyAutoChanged d.LIBRAW_WBI_Auto f.self (decode_wb_table d is34 f).obj := by
  have hw32 : u32 (f.posPrivateMknBuf + f.wb_section_offset) < 2 ^ 32 := Nat.mod_lt _ (by norm_num)
  have hw := isWB_true_inside f.PrivateMknBuf _ L hw32 (by omega) hpad hv
  have hA := auto_triple_frame d f (u32 (f.posPrivateMknBuf + f.wb_section_offset + (2 ^ 32 - 6)))
  unfold decode_wb_table at hr ⊢
  cases hstage : (if f.self.RAFDataVersion = 0 then read_WB_triple d.LIBRAW_WBI_Auto
      { f with posWB := u32 (f.posPrivateMknBuf + f.wb_section_offset + (2 ^ 32 - 6)) }
      else Outcome.done f) with
  | raised s =>
    rw [hstage] at hA
    simpa [Outcome.bind, Outcome.obj] using hA.2
  | done f1 =>
    exfalso
    rw [hstage] at hA hr
    obtain ⟨b1, p1, w1⟩ := hA.1 f1 rfl
    obtain ⟨f2, e2, b2, w2, p2⟩ := preset_loop_done d.Fuji_wb_list1
      { f1 with posWB := u32 (f1.posPrivateMknBuf + f1.wb_section_offset) }
      (by simp only [b1, p1, w1, hlen]; omega)
    simp only [Outcome.bind, e2, cct_stage] at hr
    simp only [b1, p1, w1] at b2 w2 p2
    have hG : (if is34 = true then f2.posWB + 48 else f2.posWB) + 192 + 2 ≤
        f2.PrivateMknBuf._len := by
      rw [b2, hlen, p2]; split <;> omega
    rw [sget2_in_range _ _ hG] at hr
    simp only [] at hr
    obtain ⟨r, er, hq⟩ := cct_end_scan_ok f2.PrivateMknBuf
      (f2.PrivateMknBuf.peek2 ((if is34 = true then f2.posWB + 48 else f2.posWB) + 192)) 5
      ((if is34 = true then f2.posWB + 48 else f2.posWB) + 192)
      (by rw [b2, hlen, p2]; split <;> omega)
    rw [er] at hr
    cases r with
    | none => simp [Outcome.isRaised] at hr
    | some q =>
      simp only [] at hr
      have hq' := hq q rfl
      have hfill := cct_fill_done d 31 0
        { f2 with
          posWB := (if is34 = true then f2.posWB + 48 else f2.posWB) + 192,
          wb_section_offset :=
            u32 (q + (2 ^ 32 - (if is34 = true then 34 * 3 * 2 else 31 * 3 * 2))) }
        (by
          simp only [b2, hlen, u32]
          rw [p2] at hq'
          split at hq' <;> simp_all <;> omega)
        (by simp only [b2, hlen]; omega)
      rw [hfill] at hr
      cases hr

/-- C8, on the sample block whose offset chain throws: the first alternative is excluded,
so every slot other than Auto and every CCT entry is unmodified. -/
theorem structured_block_decodes_only_validated_witness :
    (∀ s c, s ≠ sampleDecls.LIBRAW_WBI_Auto →
      (structured_block sampleDecls 120 sampleFrame_marker).obj.icWBC s c =
        sampleFrame_marker.self.icWBC s c) ∧
    (structured_block sampleDecls 120 sampleFrame_marker).obj.icWBCCTC =
      sampleFrame_marker.self.icWBCCTC :=
  have h := (structured_block_decodes_only_validated sampleDecls 120
    sampleFrame_marker).resolve_left (fun ⟨_, _, hl, _⟩ => by
      have hr : (locate_wb_table sampleDecls 120 sampleFrame_marker).isRaised = true := by decide
      rw [hl] at hr
      cases hr)
  ⟨h.1, h.2.2⟩

/-- An outcome that is an exception is `raised` with the object it ends with. -/
theorem Outcome.eq_raised_of_isRaised (o : Outcome Frame) (h : o.isRaised = true) :
    o = .raised o.obj := by
  cases o with
  | done f => cases h
  | raised s => rfl

/-- Every byte behind the listed ones is zero. -/
theorem bytesOf_beyond (l : List Nat) (i : Nat) (h : l.length ≤ i) : bytesOf l i = 0 := by
  have hn : l[i]? = none := List.getElem?_eq_none h
  simp [bytesOf, hn]

/-- C9, counterexample: on the sample block whose `0xc000` record (version `0x0262`) holds
the marker `TSNERDTS`, the marker scan stores the Auto triple, then the validator read of
the offset chain at payload + `0x21c8` is out of range: `parseAdobeRAFMakernote` ends by
the exception with the Auto slot, the generation and the version already modified by the
branch; nothing is rolled back. -/
theorem structured_block_commits_before_raise :
    (structured_block sampleDecls 120 sampleFrame_marker).isRaised = true ∧
    (structured_block sampleDecls 120 sampleFrame_marker).obj.icWBC 82 1 = 302 ∧
    sampleFrame_marker.self.icWBC 82 1 = 0 ∧
    (LibRaw.blank.parseAdobeRAFMakernote sampleDecls 0 198
      (bytesOf sampleBlock_marker)).isRaised = true ∧
    (LibRaw.blank.parseAdobeRAFMakernote sampleDecls 0 198
      (bytesOf sampleBlock_marker)).final.icWBC sampleDecls.LIBRAW_WBI_Auto 0 = 600 ∧
    (LibRaw.blank.parseAdobeRAFMakernote sampleDecls 0 198
      (bytesOf sampleBlock_marker)).final.icWBC sampleDecls.LIBRAW_WBI_Auto 1 = 302 ∧
    (LibRaw.blank.parseAdobeRAFMakernote sampleDecls 0 198
      (bytesOf sampleBlock_marker)).final.icWBC sampleDecls.LIBRAW_WBI_Auto 2 = 700 ∧
    (LibRaw.blank.parseAdobeRAFMakernote sampleDecls 0 198
      (bytesOf sampleBlock_marker)).final.icWBC sampleDecls.LIBRAW_WBI_Auto 3 = 302 ∧
    LibRaw.blank.icWBC sampleDecls.LIBRAW_WBI_Auto 1 = 0 ∧
    (LibRaw.blank.parseAdobeRAFMakernote sampleDecls 0 198
      (bytesOf sampleBlock_marker)).final.RAFDataGeneration = 3 ∧
    (LibRaw.blank.parseAdobeRAFMakernote sampleDecls 0 198
      (bytesOf sampleBlock_marker)).final.RAFDataVersion = 0x0262 := by
  decide

/-- C9, amended: when a read in the structured calibration block signals OutOfRange, a
failure up to and including the validation of the resolved offset leaves every
white-balance slot other than Auto and every CCT entry unmodified; and when the buffer has
the declared length `L + 1024` with zero bytes from `L` on (the block of `L` bytes and its
padding) and the preset list has at most 128 entries, no read after a successful
validation fails except in the Auto triple in front of the table, so every exception
leaves the slots other than Auto and the CCT entries unmodified: the preset table is
fully written or untouched and the CCT curve holds all its entries or none. -/
theorem structured_block_raise_keeps_tables (d : Decls) (PrivateTagBytes : Nat) (fr : Frame)
    (hr : (structured_block d PrivateTagBytes fr).isRaised = true) :
    ((locate_wb_table d PrivateTagBytes fr).isRaised = true →
      OnlyAutoChanged d.LIBRAW_WBI_Auto fr.self (structured_block d PrivateTagBytes fr).obj) ∧
    (∀ L, fr.PrivateMknBuf._len = L + 1024 → L + 1024 < 2 ^ 31 →
      (∀ i, L ≤ i → fr.PrivateMknBuf._data i = 0) → d.Fuji_wb_list1.length ≤ 128 →
      OnlyAutoChanged d.LIBRAW_WBI_Auto fr.self (structured_block d PrivateTagBytes fr).obj) := by
  have h := locate_wb_table_frame d PrivateTagBytes fr
  unfold structured_block at hr ⊢
  cases hl : locate_wb_table d PrivateTagBytes fr with
  | raised s =>
    rw [hl] at h
    simp only [Outcome.bind, Outcome.obj]
    exact ⟨fun _ => h.1, fun _ _ _ _ _ => h.1⟩
  | done r =>
    obtain ⟨f, is34, valid⟩ := r
    rw [hl] at h hr
    have hf := h.2 f is34 valid rfl
    cases valid with
    | false => simp [Outcome.bind, Outcome.isRaised] at hr
    | true =>
      simp only [Outcome.bind, if_true] at hr ⊢
      refine ⟨fun hc => by simp [Outcome.isRaised] at hc, ?_⟩
      intro L hlen hL hpad hlist
      have hv := hf.2.2.1 rfl
      exact h.1.trans (decode_wb_table_raise d is34 f L (by rw [hf.1]; exact hlen) hL
        (by rw [hf.1]; exact hpad) hlist hv.2 hr)

/-- C9, amended, on the sample block: the exception of the structured block leaves every
slot other than Auto and every CCT entry as it was. -/
theorem structured_block_raise_keeps_tables_witness :
    OnlyAutoChanged sampleDecls.LIBRAW_WBI_Auto sampleFrame_marker.self
      (structured_block sampleDecls 120 sampleFrame_marker).obj :=
  (structured_block_raise_keeps_tables sampleDecls 120 sampleFrame_marker (by decide)).2 198
    rfl (by decide) (fun i hi => bytesOf_beyond sampleBlock_marker i hi) (by decide)

/-! ## Exceptions leave the record loop -/

/-- Once a record has thrown, the loop is over: the records behind it are not decoded. -/
theorem record_loop_raise (d : Decls) (cx : Ctx) (k m : Nat) (fr fk : Frame) (s : LibRaw)
    (hpre : record_loop d cx k fr = .done fk) (hrec : one_record d cx fk = .raised s) :
    record_loop d cx (k + (m + 1)) fr = .raised s := by
  induction k generalizing fr with
  | zero =>
    simp only [record_loop] at hpre
    cases hpre
    simp [record_loop, hrec, Outcome.bind]
  | succ k ih =>
    have e : k + 1 + (m + 1) = (k + (m + 1)) + 1 := by omega
    rw [e]
    simp only [record_loop] at hpre ⊢
    cases h1 : one_record d cx fr with
    | raised s1 => rw [h1] at hpre; cases hpre
    | done f1 =>
      rw [h1] at hpre
      simp only [Outcome.bind] at hpre ⊢
      exact ih f1 hpre

/-- A record of tag `0xc000` whose structured block throws makes `one_record` throw. -/
theorem one_record_c000_raise (d : Decls) (cx : Ctx) (fk : Frame) (PrivateTagBytes : Nat)
    (s : LibRaw)
    (htag : (fk.setOrders 0x4d4d).PrivateMknBuf.sget2 fk.posPrivateMknBuf = .ok 0xc000)
    (hlen : (fk.setOrders 0x4d4d).PrivateMknBuf.sget2 (u32 (fk.posPrivateMknBuf + 2)) =
      .ok PrivateTagBytes)
    (h3 : 3 < PrivateTagBytes) (h4096 : PrivateTagBytes ≠ 4096)
    (hraise : structured_block d PrivateTagBytes
      ((fk.at_payload cx.PrivateOrder).setOrders 0x4949) = .raised s) :
    one_record d cx fk = .raised s := by
  have hb : PrivateTagBytes < 10240000 := by
    have := (sget2_eq_ok _ _ _ hlen).2
    have := libraw_sget2_static_lt (fk.setOrders 0x4d4d).PrivateMknBuf._order
      ((fk.setOrders 0x4d4d).PrivateMknBuf.data (u32 (fk.posPrivateMknBuf + 2)))
    simp only [checked_buffer_t.peek2] at *
    omega
  have hpos : (fk.setOrders 0x4d4d).posPrivateMknBuf = fk.posPrivateMknBuf := rfl
  unfold one_record
  simp only [hpos, htag, hlen]
  simp [dispatch, handle_c000, h3, hb, h4096, hraise, Outcome.bind]

/-- C10, counterexample: on the sample block whose `0xc000` record (version `0x0259`,
length 20) makes the validator read at payload + `0x1370` fall out of range,
`parseAdobeRAFMakernote` ends by the exception and the record of tag `0x4000` behind it is
not decoded (`BlackLevel[0]` stays 0), although the same record is decoded
(`BlackLevel[0] = 4`) in a block where it is reached. -/
theorem c000_raise_is_not_recovered :
    (LibRaw.blank.parseAdobeRAFMakernote sampleDecls 0 98
      (bytesOf sampleBlock_short)).isRaised = true ∧
    (LibRaw.blank.parseAdobeRAFMakernote sampleDecls 0 98
      (bytesOf sampleBlock_short)).final.BlackLevel 0 = 0 ∧
    (LibRaw.blank.parseAdobeRAFMakernote sampleDecls 0 98
      (bytesOf sampleBlock_short)).final.BlackLevel 1 = 0 ∧
    (LibRaw.blank.parseAdobeRAFMakernote sampleDecls 0 74
      (bytesOf sampleBlock_black)).isRaised = false ∧
    (LibRaw.blank.parseAdobeRAFMakernote sampleDecls 0 74
      (bytesOf sampleBlock_black)).final.BlackLevel 0 = 4 ∧
    (LibRaw.blank.parseAdobeRAFMakernote sampleDecls 0 74
      (bytesOf sampleBlock_black)).final.BlackLevel 1 = 1001 := by
  decide

/-- C10, amended: if a read in the structured calibration block of the record with index `k`
is out of range, the exception is not caught in `parseAdobeRAFMakernote`: the function ends
by the exception with the object as it stood at the failing read, and the records behind
the `0xc000` record are not decoded. -/
theorem c000_raise_leaves_parseAdobeRAFMakernote (self : LibRaw) (d : Decls)
    (shot_select PrivateMknLength : Nat) (data : Nat → UInt8)
    (PrivateOrder ifd_start PrivateEntries k PrivateTagBytes : Nat) (fk : Frame) (s : LibRaw)
    (hL : 0x36 ≤ PrivateMknLength ∧ PrivateMknLength < 10240000)
    (hdir : read_directory ⟨0x4d4d, data, PrivateMknLength + 1024⟩ PrivateMknLength
      (max 0 (min shot_select 1)) = .ok (PrivateOrder, ifd_start, PrivateEntries))
    (hent : PrivateEntries ≤ 1000) (hord : PrivateOrder = 0x4d4d ∨ PrivateOrder = 0x4949)
    (hk : k < PrivateEntries)
    (hpre : record_loop d (block_ctx self PrivateOrder) k
      (first_frame self PrivateMknLength data ifd_start) = .done fk)
    (htag : (fk.setOrders 0x4d4d).PrivateMknBuf.sget2 fk.posPrivateMknBuf = .ok 0xc000)
    (hlen : (fk.setOrders 0x4d4d).PrivateMknBuf.sget2 (u32 (fk.posPrivateMknBuf + 2)) =
      .ok PrivateTagBytes)
    (h3 : 3 < PrivateTagBytes) (h4096 : PrivateTagBytes ≠ 4096)
    (hraise : structured_block d PrivateTagBytes
      ((fk.at_payload PrivateOrder).setOrders 0x4949) = .raised s) :
    self.parseAdobeRAFMakernote d shot_select PrivateMknLength data = .raised s := by
  have hrec := one_record_c000_raise d (block_ctx self PrivateOrder) fk PrivateTagBytes s
    htag hlen h3 h4096 hraise
  obtain ⟨m, hm⟩ : ∃ m, PrivateEntries = k + (m + 1) := ⟨PrivateEntries - k - 1, by omega⟩
  have hloop := record_loop_raise d (block_ctx self PrivateOrder) k m _ fk s hpre hrec
  have hno : ¬ (PrivateEntries > 1000 ∨ (PrivateOrder ≠ 0x4d4d ∧ PrivateOrder ≠ 0x4949)) := by
    rcases hord with h | h <;> simp [h] <;> omega
  unfold LibRaw.parseAdobeRAFMakernote
  simp only [ge_iff_le, hL, and_self, if_true, hdir, hno, if_false]
  rw [hm, hloop]

/-- C10, amended, on the sample block: the exception of the first record's structured block
is the outcome of `parseAdobeRAFMakernote`. -/
theorem c000_raise_leaves_parseAdobeRAFMakernote_witness :
    LibRaw.blank.parseAdobeRAFMakernote sampleDecls 0 98 (bytesOf sampleBlock_short) =
      .raised (structured_block sampleDecls 20
        (((first_frame LibRaw.blank 98 (bytesOf sampleBlock_short) 0x36).at_payload
          0x4949).setOrders 0x4949)).obj :=
  c000_raise_leaves_parseAdobeRAFMakernote LibRaw.blank sampleDecls 0 98
    (bytesOf sampleBlock_short) 0x4949 0x36 2 0 20
    (first_frame LibRaw.blank 98 (bytesOf sampleBlock_short) 0x36) _
    (by decide) (by decide) (by decide) (by decide) (by decide) rfl (by decide) (by decide)
    (by decide) (by decide)
    (Outcome.eq_raised_of_isRaised _ (by decide))

/-! ## The per-tag white-balance decode -/

/-- Truncated halving of a sum of two unsigned values. -/
theorem tdiv_two_cast (a b : Nat) : Int.tdiv ((a : Int) + (b : Int)) 2 = ((a + b) / 2 : Nat) := by
  rw [Int.tdiv_eq_ediv (by omega) (by omega)]
  omega

@[simp] theorem Frame.setWBC_buf (fr : Frame) (s c : Nat) (v : Int) :
    (fr.setWBC s c v).PrivateMknBuf = fr.PrivateMknBuf := rfl

@[simp] theorem Frame.setWBC_pos (fr : Frame) (s c : Nat) (v : Int) :
    (fr.setWBC s c v).posPrivateMknBuf = fr.posPrivateMknBuf := rfl

@[simp] theorem Frame.setWBC_posWB (fr : Frame) (s c : Nat) (v : Int) :
    (fr.setWBC s c v).posWB = fr.posWB := rfl

theorem Frame.setWBC_icWBC (fr : Frame) (s c : Nat) (v : Int) (s1 c1 : Nat) :
    (fr.setWBC s c v).self.icWBC s1 c1 =
      if s1 = s ∧ c1 = c then v else fr.self.icWBC s1 c1 := rfl

/-- A `FORC4` loop of reads that all succeed: the four assignments happen in order. -/
theorem FORC4_reads (fr : Frame) (rd : Nat → Frame → Except Exn Nat)
    (w : Nat → Nat → Frame → Frame) (x : Nat → Nat)
    (hw : ∀ c v g, (w c v g).PrivateMknBuf = g.PrivateMknBuf ∧
      (w c v g).posPrivateMknBuf = g.posPrivateMknBuf ∧ (w c v g).posWB = g.posWB)
    (hr : ∀ c g, c < 4 → g.PrivateMknBuf = fr.PrivateMknBuf →
      g.posPrivateMknBuf = fr.posPrivateMknBuf → g.posWB = fr.posWB → rd c g = .ok (x c)) :
    FORC4 (fun c f => assignRead (rd c f) (w c) f) fr =
      .done (w 3 (x 3) (w 2 (x 2) (w 1 (x 1) (w 0 (x 0) fr)))) := by
  have e0 := hr 0 fr (by omega) rfl rfl rfl
  have h0 := hw 0 (x 0) fr
  have e1 := hr 1 _ (by omega) h0.1 h0.2.1 h0.2.2
  have h1 := hw 1 (x 1) (w 0 (x 0) fr)
  have e2 := hr 2 _ (by omega) (h1.1.trans h0.1) (h1.2.1.trans h0.2.1) (h1.2.2.trans h0.2.2)
  have h2 := hw 2 (x 2) (w 1 (x 1) (w 0 (x 0) fr))
  have e3 := hr 3 _ (by omega) (h2.1.trans (h1.1.trans h0.1))
    (h2.2.1.trans (h1.2.1.trans h0.2.1)) (h2.2.2.trans (h1.2.2.trans h0.2.2))
  simp only [FORC4, assignRead, e0, Outcome.bind, e1, e2, e3]

/-- Sequencing behind code that ended normally. -/
theorem Outcome.bind_done {α β : Type} (a : α) (f : α → Outcome β) :
    (Outcome.done a).bind f = f a := rfl

/-- The macro `get_average_WB` of `parseAdobeRAFMakernote` on a record that lies inside the
declared length, without the legacy correction: the frame it ends with. -/
theorem get_average_WB_done (d : Decls) (cx : Ctx) (PrivateTagBytes wb : Nat) (fr : Frame)
    (hcorr : cx.use_WBcorr_coeffs = false) (hlen : fr.PrivateMknBuf._len < 2 ^ 32)
    (hin : fr.posPrivateMknBuf + 8 ≤ fr.PrivateMknBuf._len)
    (hin16 : PrivateTagBytes = 16 → fr.posPrivateMknBuf + 16 ≤ fr.PrivateMknBuf._len) :
    get_average_WB d cx PrivateTagBytes wb fr =
      .done (
        let x : Nat → Nat := fun k => fr.PrivateMknBuf.peek2 (fr.posPrivateMknBuf + 2 * k)
        let f1 := (((fr.setWBC wb (d.GRGB_2_RGBG 0) (x 0)).setWBC wb (d.GRGB_2_RGBG 1)
          (x 1)).setWBC wb (d.GRGB_2_RGBG 2) (x 2)).setWBC wb (d.GRGB_2_RGBG 3) (x 3)
        let av : Nat → Frame → Frame := fun c g => g.setWBC wb (d.GRGB_2_RGBG c)
          (Int.tdiv (g.self.icWBC wb (d.GRGB_2_RGBG c) + x (c + 4)) 2)
        if PrivateTagBytes = 16 then av 3 (av 2 (av 1 (av 0 f1))) else f1) := by
  have u : ∀ n, n + 2 ≤ fr.PrivateMknBuf._len → u32 n = n := fun n hn => by
    unfold u32; exact Nat.mod_eq_of_lt (by omega)
  have h1 := FORC4_reads fr
    (fun c f => f.PrivateMknBuf.sget2 (u32 (f.posPrivateMknBuf + 2 * c)))
    (fun c v g => g.setWBC wb (d.GRGB_2_RGBG c) v)
    (fun k => fr.PrivateMknBuf.peek2 (fr.posPrivateMknBuf + 2 * k))
    (fun c v g => ⟨rfl, rfl, rfl⟩)
    (fun c g hc hb hp _ => by
      simp only [hb, hp]
      rw [u _ (by omega)]
      exact sget2_in_range _ _ (by omega))
  simp only [] at h1
  have key : ∀ f1 : Frame, f1.PrivateMknBuf = fr.PrivateMknBuf →
      f1.posPrivateMknBuf = fr.posPrivateMknBuf →
      ((if PrivateTagBytes = 16 ∧ average_WBData ≠ 0 then
          FORC4 (fun c f => assignRead (f.PrivateMknBuf.sget2 (u32 (f.posPrivateMknBuf + 2 * c + 8)))
            (fun v g => g.setWBC wb (d.GRGB_2_RGBG c)
              (Int.tdiv (g.self.icWBC wb (d.GRGB_2_RGBG c) + v) 2)) f) f1
        else .done f1).bind fun fr2 => Outcome.done (fr2.applyWBcorr d cx wb)) =
      .done (
        let x : Nat → Nat := fun k => fr.PrivateMknBuf.peek2 (fr.posPrivateMknBuf + 2 * k)
        let av : Nat → Frame → Frame := fun c g => g.setWBC wb (d.GRGB_2_RGBG c)
          (Int.tdiv (g.self.icWBC wb (d.GRGB_2_RGBG c) + x (c + 4)) 2)
        if PrivateTagBytes = 16 then av 3 (av 2 (av 1 (av 0 f1))) else f1) := by
    intro f1 hb hp
    by_cases h16 : PrivateTagBytes = 16
    · have hin' := hin16 h16
      have h2 := FORC4_reads f1
        (fun c f => f.PrivateMknBuf.sget2 (u32 (f.posPrivateMknBuf + 2 * c + 8)))
        (fun c v g => g.setWBC wb (d.GRGB_2_RGBG c)
          (Int.tdiv (g.self.icWBC wb (d.GRGB_2_RGBG c) + v) 2))
        (fun k => fr.PrivateMknBuf.peek2 (fr.posPrivateMknBuf + 2 * (k + 4)))
        (fun c v g => ⟨rfl, rfl, rfl⟩)
        (fun c g hc hb' hp' _ => by
          simp only [hb', hp', hb, hp]
          rw [u _ (by omega)]
          have e : fr.posPrivateMknBuf + 2 * c + 8 = fr.posPrivateMknBuf + 2 * (c + 4) := by omega
          rw [e]
          exact sget2_in_range _ _ (by omega))
      simp only [] at h2
      rw [if_pos ⟨h16, by decide⟩, h2]
      simp [Frame.applyWBcorr, hcorr, h16, Outcome.bind]
    · rw [if_neg (fun h => h16 h.1)]
      simp [Frame.applyWBcorr, hcorr, h16, Outcome.bind]
  unfold get_average_WB
  rw [h1, Outcome.bind_done]
  apply key <;> rfl

@[simp] theorem LibRaw.setWBC_order (self : LibRaw) (s c : Nat) (v : Int) :
    (self.setWBC s c v).order = self.order := rfl

theorem LibRaw.setWBC_apply (self : LibRaw) (s c : Nat) (v : Int) (s1 c1 : Nat) :
    (self.setWBC s c v).icWBC s1 c1 = if s1 = s ∧ c1 = c then v else self.icWBC s1 c1 := rfl

/-- C11: with no legacy correction active and `GRGB_2_RGBG` a permutation, the per-tag
white-balance decode of both dialects stores, for a record of declared length 16 holding
`x0 .. x3` followed by `x0' .. x3'`, the value `floor((x_c + x_c') / 2)` into the channel
`GRGB_2_RGBG(c)` of the slot, and for any other declared length the value `x_c`.  In the
embedded dialect the record has to lie inside the declared length of the buffer. -/
theorem WB_record_average (d : Decls) (cx : Ctx) (corr : Bool × WBcorr × WBcorr)
    (PrivateTagBytes wb : Nat) (fr : Frame) (self : LibRaw) (ifp : datastream) (len save : Nat)
    (hperm : d.GRGB_is_permutation)
    (hcx : cx.use_WBcorr_coeffs = false) (hcorr : corr.1 = false)
    (hlen : fr.PrivateMknBuf._len < 2 ^ 32)
    (hin : fr.posPrivateMknBuf + 8 ≤ fr.PrivateMknBuf._len)
    (hin16 : PrivateTagBytes = 16 → fr.posPrivateMknBuf + 16 ≤ fr.PrivateMknBuf._len) :
    (∃ f, get_average_WB d cx PrivateTagBytes wb fr = .done f ∧ ∀ c, c < 4 →
      f.self.icWBC wb (d.GRGB_2_RGBG c) =
        if PrivateTagBytes = 16 then
          (((fr.PrivateMknBuf.peek2 (fr.posPrivateMknBuf + 2 * c) +
            fr.PrivateMknBuf.peek2 (fr.posPrivateMknBuf + 2 * (c + 4))) / 2 : Nat) : Int)
        else (fr.PrivateMknBuf.peek2 (fr.posPrivateMknBuf + 2 * c) : Int)) ∧
    (∀ c, c < 4 →
      (self.pf_get_average_WB d corr ifp len wb save).icWBC wb (d.GRGB_2_RGBG c) =
        if len = 16 then
          (((ifp.get2 self.order (save + 2 * c) +
            ifp.get2 self.order (save + 2 * (c + 4))) / 2 : Nat) : Int)
        else (ifp.get2 self.order (save + 2 * c) : Int)) := by
  have n01 : d.GRGB_2_RGBG 0 ≠ d.GRGB_2_RGBG 1 := fun h => by
    have := hperm.2 0 1 (by omega) (by omega) h; omega
  have n02 : d.GRGB_2_RGBG 0 ≠ d.GRGB_2_RGBG 2 := fun h => by
    have := hperm.2 0 2 (by omega) (by omega) h; omega
  have n03 : d.GRGB_2_RGBG 0 ≠ d.GRGB_2_RGBG 3 := fun h => by
    have := hperm.2 0 3 (by omega) (by omega) h; omega
  have n12 : d.GRGB_2_RGBG 1 ≠ d.GRGB_2_RGBG 2 := fun h => by
    have := hperm.2 1 2 (by omega) (by omega) h; omega
  have n13 : d.GRGB_2_RGBG 1 ≠ d.GRGB_2_RGBG 3 := fun h => by
    have := hperm.2 1 3 (by omega) (by omega) h; omega
  have n23 : d.GRGB_2_RGBG 2 ≠ d.GRGB_2_RGBG 3 := fun h => by
    have := hperm.2 2 3 (by omega) (by omega) h; omega
  constructor
  · refine ⟨_, get_average_WB_done d cx PrivateTagBytes wb fr hcx hlen hin hin16, ?_⟩
    intro c hc
    by_cases h16 : PrivateTagBytes = 16
    · simp only [h16, if_true]
      interval_cases c <;>
        simp [Frame.setWBC_icWBC, n01, n02, n03, n12, n13, n23, n01.symm, n02.symm, n03.symm,
          n12.symm, n13.symm, n23.symm, tdiv_two_cast]
    · simp only [h16, if_false]
      interval_cases c <;>
        simp [Frame.setWBC_icWBC, n01, n02, n03, n12, n13, n23, n01.symm, n02.symm, n03.symm,
          n12.symm, n13.symm, n23.symm]
  · intro c hc
    by_cases h16 : len = 16
    · simp only [h16, if_true]
      interval_cases c <;>
        simp [LibRaw.pf_get_average_WB, LibRaw.read_WB_quad, LibRaw.average_WB_quad,
          LibRaw.average_WB_step, LibRaw.applyWBcorr, hcorr, average_WBData,
          LibRaw.setWBC_apply, n01, n02, n03, n12, n13, n23, n01.symm, n02.symm, n03.symm,
          n12.symm, n13.symm, n23.symm, tdiv_two_cast]
    · simp only [h16, if_false]
      interval_cases c <;>
        simp [LibRaw.pf_get_average_WB, LibRaw.read_WB_quad, LibRaw.applyWBcorr, hcorr,
          h16, LibRaw.setWBC_apply, n01, n02, n03, n12, n13, n23, n01.symm, n02.symm,
          n03.symm, n12.symm, n13.symm, n23.symm]

/-- The sample `GRGB_2_RGBG` is a permutation of the four channel positions. -/
theorem sampleDecls_permutation : sampleDecls.GRGB_is_permutation := by
  constructor
  · intro c hc
    interval_cases c <;> decide
  · intro a b ha hb
    interval_cases a <;> interval_cases b <;> decide

/-- C11, on the record `10, 20, 30, 40, 11, 21, 31, 41` of declared length 16: source
position 0 goes to channel 1 with the value `(10 + 11) / 2 = 10` in both dialects, and
source position 3 to channel 2 with `(40 + 41) / 2 = 40`. -/
theorem WB_record_average_witness :
    (∃ f, get_average_WB sampleDecls ⟨0x4949, false, .one, .one⟩ 16 9
        (sampleFrame_values [10, 20, 30, 40, 11, 21, 31, 41]) = .done f ∧
      f.self.icWBC 9 1 = 10 ∧ f.self.icWBC 9 2 = 40) ∧
    ((({ LibRaw.blank with order := 0x4949 }).pf_get_average_WB sampleDecls (false, .one, .one)
        (sampleFile_values [10, 20, 30, 40, 11, 21, 31, 41]) 16 9 0).icWBC 9 1 = 10 ∧
     (({ LibRaw.blank with order := 0x4949 }).pf_get_average_WB sampleDecls (false, .one, .one)
        (sampleFile_values [10, 20, 30, 40, 11, 21, 31, 41]) 16 9 0).icWBC 9 2 = 40) :=
  have h := WB_record_average sampleDecls ⟨0x4949, false, .one, .one⟩ (false, .one, .one) 16 9
    (sampleFrame_values [10, 20, 30, 40, 11, 21, 31, 41]) { LibRaw.blank with order := 0x4949 }
    (sampleFile_values [10, 20, 30, 40, 11, 21, 31, 41]) 16 0 sampleDecls_permutation rfl rfl
    (by decide) (by decide) (fun _ => by decide)
  ⟨h.1.elim fun f hf => ⟨f, hf.1, hf.2 0 (by decide), hf.2 3 (by decide)⟩,
   h.2 0 (by decide), h.2 3 (by decide)⟩

/-! ## The CCT section -/

theorem SameExceptWB_refl (a : LibRaw) : SameExceptWB a a := rfl

theorem SameExceptWB_trans {a b c : LibRaw} (h1 : SameExceptWB a b) (h2 : SameExceptWB b c) :
    SameExceptWB a c := by
  unfold SameExceptWB at *
  rw [h2, h1]

theorem SameExceptWB_setWBC (fr : Frame) (s c : Nat) (v : Int) :
    SameExceptWB fr.self (fr.setWBC s c v).self := rfl

theorem SameExceptWB_setCCT (fr : Frame) (i j : Nat) (v : Int) :
    SameExceptWB fr.self (fr.setCCT i j v).self := rfl

/-- The search for the end of the CCT section returns the first position whose value
differs from `Gval`, and nothing when none of its positions differs. -/
theorem cct_end_scan_first (b : checked_buffer_t) (Gval : Nat) (n p : Nat)
    (h : p + 6 * n ≤ b._len + 4) :
    ((∀ k, k < n → b.peek2 (p + 6 * k) = Gval) → cct_end_scan b Gval n p = .ok none) ∧
    (∀ k, k < n → (∀ j, j < k → b.peek2 (p + 6 * j) = Gval) → b.peek2 (p + 6 * k) ≠ Gval →
      cct_end_scan b Gval n p = .ok (some (p + 6 * k))) := by
  induction n generalizing p with
  | zero => exact ⟨fun _ => rfl, fun k hk => by omega⟩
  | succ n ih =>
    have hi := ih (p + 6) (by omega)
    constructor
    · intro hall
      unfold cct_end_scan
      rw [sget2_in_range b p (by omega)]
      have h0 := hall 0 (by omega)
      simp only [Nat.mul_zero, Nat.add_zero] at h0
      simp only [h0, ne_eq, not_true_eq_false, if_false]
      apply hi.1
      intro k hk
      have := hall (k + 1) (by omega)
      rwa [show p + 6 * (k + 1) = p + 6 + 6 * k by omega] at this
    · intro k hk hbefore hdiff
      unfold cct_end_scan
      rw [sget2_in_range b p (by omega)]
      cases k with
      | zero =>
        simp only [Nat.mul_zero, Nat.add_zero] at hdiff ⊢
        simp [hdiff]
      | succ k =>
        have h0 := hbefore 0 (by omega)
        simp only [Nat.mul_zero, Nat.add_zero] at h0
        simp only [h0, ne_eq, not_true_eq_false, if_false]
        rw [show p + 6 * (k + 1) = p + 6 + 6 * k by omega] at hdiff ⊢
        apply hi.2 k (by omega) _ hdiff
        intro j hj
        have := hbefore (j + 1) (by omega)
        rwa [show p + 6 * (j + 1) = p + 6 + 6 * j by omega] at this

/-- One iteration of the CCT loop whose entry lies inside the declared length. -/
theorem cct_fill_succ (d : Decls) (n iCCT : Nat) (fr : Frame)
    (h : fr.wb_section_offset + (iCCT + 1) * 6 ≤ fr.PrivateMknBuf._len)
    (hlen : fr.PrivateMknBuf._len < 2 ^ 32) :
    cct_fill d (n + 1) iCCT fr = cct_fill d n (iCCT + 1) (cct_fill_one d iCCT fr) := by
  have u : ∀ k, k ≤ 4 → u32 (fr.wb_section_offset + iCCT * 6 + k) =
      fr.wb_section_offset + iCCT * 6 + k := fun k hk => by
    unfold u32; exact Nat.mod_eq_of_lt (by omega)
  have u0 := u 0 (by omega)
  simp only [Nat.add_zero] at u0
  rw [cct_fill]
  simp only [Frame.setCCT, assignRead, Outcome.bind]
  rw [u 2 (by omega), sget2_in_range _ _ (by omega)]
  simp only []
  rw [u0, sget2_in_range _ _ (by omega)]
  simp only []
  rw [u 4 (by omega), sget2_in_range _ _ (by omega)]
  simp only [cct_fill_one, Frame.setCCT]

theorem cct_fill_one_buf (d : Decls) (i : Nat) (fr : Frame) :
    (cct_fill_one d i fr).PrivateMknBuf = fr.PrivateMknBuf := by
  simp only [cct_fill_one, Frame.setCCT]

theorem cct_fill_one_wbo (d : Decls) (i : Nat) (fr : Frame) :
    (cct_fill_one d i fr).wb_section_offset = fr.wb_section_offset := by
  simp only [cct_fill_one, Frame.setCCT]

theorem cct_fill_one_posWB (d : Decls) (i : Nat) (fr : Frame) :
    (cct_fill_one d i fr).posWB = fr.posWB := by
  simp only [cct_fill_one, Frame.setCCT]

theorem cct_fill_one_pos (d : Decls) (i : Nat) (fr : Frame) :
    (cct_fill_one d i fr).posPrivateMknBuf = fr.posPrivateMknBuf := by
  simp only [cct_fill_one, Frame.setCCT]

theorem cct_fill_one_same (d : Decls) (i : Nat) (fr : Frame) :
    SameExceptWB fr.self (cct_fill_one d i fr).self := by
  simp only [cct_fill_one, Frame.setCCT, SameExceptWB]

theorem cct_fill_one_icWBC (d : Decls) (i : Nat) (fr : Frame) :
    (cct_fill_one d i fr).self.icWBC = fr.self.icWBC := by
  simp only [cct_fill_one, Frame.setCCT]

/-- The CCT loop on entries that lie inside the declared length: it ends normally, writes
the entries `iCCT .. iCCT + n - 1` of `icWBCCTC` and leaves everything else as it was. -/
theorem cct_fill_values (d : Decls) (n iCCT : Nat) (fr : Frame)
    (h : fr.wb_section_offset + (iCCT + n) * 6 ≤ fr.PrivateMknBuf._len)
    (hlen : fr.PrivateMknBuf._len < 2 ^ 32) :
    ∃ f, cct_fill d n iCCT fr = .done f ∧ f.PrivateMknBuf = fr.PrivateMknBuf ∧
      f.wb_section_offset = fr.wb_section_offset ∧ f.posWB = fr.posWB ∧
      f.posPrivateMknBuf = fr.posPrivateMknBuf ∧
      SameExceptWB fr.self f.self ∧ f.self.icWBC = fr.self.icWBC ∧
      ∀ i c, f.self.icWBCCTC i c =
        if iCCT ≤ i ∧ i < iCCT + n ∧ c < 5 then
          cct_entry d fr.PrivateMknBuf fr.wb_section_offset i c
        else fr.self.icWBCCTC i c := by
  induction n generalizing iCCT fr with
  | zero =>
    refine ⟨fr, rfl, rfl, rfl, rfl, rfl, rfl, rfl, ?_⟩
    intro i c
    have : ¬ (iCCT ≤ i ∧ i < iCCT ∧ c < 5) := by omega
    simp [this]
  | succ n ih =>
    rw [cct_fill_succ d n iCCT fr (by omega) hlen]
    obtain ⟨f, e, hb, hw, hp, hpp, hs, hwb, hc⟩ := ih (iCCT + 1) (cct_fill_one d iCCT fr)
      (by rw [cct_fill_one_buf, cct_fill_one_wbo]; omega) (by rw [cct_fill_one_buf]; exact hlen)
    rw [cct_fill_one_buf] at hb
    rw [cct_fill_one_wbo] at hw
    rw [cct_fill_one_posWB] at hp
    rw [cct_fill_one_pos] at hpp
    rw [cct_fill_one_icWBC] at hwb
    refine ⟨f, e, hb, hw, hp, hpp, ?_, hwb, ?_⟩
    · exact SameExceptWB_trans (cct_fill_one_same d iCCT fr) hs
    · intro i c
      rw [hc i c]
      have hone : ∀ c, (cct_fill_one d iCCT fr).self.icWBCCTC i c =
          if i = iCCT ∧ c < 5 then cct_entry d fr.PrivateMknBuf fr.wb_section_offset i c
          else fr.self.icWBCCTC i c := by
        intro c
        by_cases hi : i = iCCT
        · subst hi
          by_cases hc5 : c < 5
          · interval_cases c <;> simp [cct_fill_one, Frame.setCCT, cct_entry]
          · have c0 : c ≠ 0 := by omega
            have c1 : c ≠ 1 := by omega
            have c2 : c ≠ 2 := by omega
            have c3 : c ≠ 3 := by omega
            have c4 : c ≠ 4 := by omega
            simp [cct_fill_one, Frame.setCCT, hc5, c0, c1, c2, c3, c4]
        · simp [cct_fill_one, Frame.setCCT, hi]
      rw [hone c, cct_fill_one_buf, cct_fill_one_wbo]
      by_cases hi : i = iCCT
      · subst hi
        have n1 : ¬ (i + 1 ≤ i ∧ i < i + 1 + n ∧ c < 5) := by omega
        by_cases hc5 : c < 5
        · have : i ≤ i ∧ i < i + (n + 1) ∧ c < 5 := by omega
          simp [n1, this, hc5]
        · have : ¬ (i ≤ i ∧ i < i + (n + 1) ∧ c < 5) := by omega
          simp [n1, this, hc5]
      · by_cases hr : iCCT + 1 ≤ i ∧ i < iCCT + 1 + n ∧ c < 5
        · have : iCCT ≤ i ∧ i < iCCT + (n + 1) ∧ c < 5 := by omega
          simp [hr, this, hi]
        · have : ¬ (iCCT ≤ i ∧ i < iCCT + (n + 1) ∧ c < 5) := by omega
          simp only [hr, this, hi, false_and, if_false]

/-- C16. The CCT stage behind the preset loop, with the five strides of its scan inside the
declared length.  The green value at each 6-byte stride is compared with the green value
of the first stride, at `p0 = posWB + 0xc0` (`+ 0x30` more for the 34-entry layouts).  When
no stride of the window differs, the stage ends normally and the object is untouched, so no
CCT entry is written.  When the first differing stride is stride `k`, at `p = p0 + 6 * k`,
the table start is `p - 31 * 6` (`p - 34 * 6` for the 34-entry layouts) and the 31 entries
are read from that start at 6-byte steps: the ladder value, red at `+2`, green at `+0`
into both green channels and blue at `+4`; entries from 31 on and `icWBC` are unchanged. -/
theorem cct_stage_run_length (d : Decls) (is34 : Bool) (f2 : Frame) (p0 : Nat)
    (hp0 : p0 = (if is34 then f2.posWB + 0x30 else f2.posWB) + 0xc0)
    (hlen : f2.PrivateMknBuf._len < 2 ^ 32)
    (hin : p0 + 26 ≤ f2.PrivateMknBuf._len) :
    ((∀ k, k < 5 → f2.PrivateMknBuf.peek2 (p0 + 6 * k) = f2.PrivateMknBuf.peek2 p0) →
      ∃ f, cct_stage d is34 f2 = .done f ∧ f.self = f2.self) ∧
    (∀ k start, k < 5 →
      (∀ j, j < k → f2.PrivateMknBuf.peek2 (p0 + 6 * j) = f2.PrivateMknBuf.peek2 p0) →
      f2.PrivateMknBuf.peek2 (p0 + 6 * k) ≠ f2.PrivateMknBuf.peek2 p0 →
      start = p0 + 6 * k - (if is34 then 34 * 6 else 31 * 6) →
      ∃ f, cct_stage d is34 f2 = .done f ∧ f.wb_section_offset = start ∧
        f.self.icWBC = f2.self.icWBC ∧
        (∀ i, i < 31 →
          f.self.icWBCCTC i 0 = d.FujiCCT_K i ∧
          f.self.icWBCCTC i 1 = f2.PrivateMknBuf.peek2 (start + i * 6 + 2) ∧
          f.self.icWBCCTC i 2 = f2.PrivateMknBuf.peek2 (start + i * 6) ∧
          f.self.icWBCCTC i 3 = f2.PrivateMknBuf.peek2 (start + i * 6 + 4) ∧
          f.self.icWBCCTC i 4 = f2.PrivateMknBuf.peek2 (start + i * 6)) ∧
        ∀ i c, 31 ≤ i → f.self.icWBCCTC i c = f2.self.icWBCCTC i c) := by
  have hscan := cct_end_scan_first f2.PrivateMknBuf (f2.PrivateMknBuf.peek2 p0) 5 p0 (by omega)
  constructor
  · intro hall
    refine ⟨{ f2 with posWB := p0 }, ?_, rfl⟩
    unfold cct_stage
    simp only [← hp0]
    rw [sget2_in_range _ _ (by omega)]
    simp only []
    rw [hscan.1 hall]
  · intro k start hk hbefore hdiff hstart
    have hk0 : k ≠ 0 := by
      intro h0
      subst h0
      exact hdiff rfl
    have hge : (if is34 then 34 * 6 else 31 * 6) ≤ p0 + 6 * k := by
      cases is34 <;> simp at hp0 ⊢ <;> omega
    have hu : u32 (p0 + 6 * k + (2 ^ 32 - (if is34 then 34 * 3 * 2 else 31 * 3 * 2))) = start := by
      unfold u32
      cases is34 <;> simp at hstart hge ⊢ <;> omega
    have hfit : start + (0 + 31) * 6 ≤ f2.PrivateMknBuf._len := by
      cases is34 <;> simp at hstart hge <;> omega
    obtain ⟨f, e, hb, hw, -, -, -, hwb, hc⟩ := cct_fill_values d 31 0
      { f2 with posWB := p0, wb_section_offset := start } hfit hlen
    refine ⟨f, ?_, hw, hwb, ?_, ?_⟩
    · unfold cct_stage
      simp only [← hp0]
      rw [sget2_in_range _ _ (by omega)]
      simp only []
      rw [hscan.2 k hk hbefore hdiff]
      simp only []
      rw [hu]
      exact e
    · intro i hi
      have hr : ∀ c, c < 5 → (0 ≤ i ∧ i < 0 + 31 ∧ c < 5) := fun c hc5 => by omega
      refine ⟨?_, ?_, ?_, ?_, ?_⟩
      · rw [hc i 0, if_pos (hr 0 (by omega))]; simp [cct_entry]
      · rw [hc i 1, if_pos (hr 1 (by omega))]; simp [cct_entry]
      · rw [hc i 2, if_pos (hr 2 (by omega))]; simp [cct_entry]
      · rw [hc i 3, if_pos (hr 3 (by omega))]; simp [cct_entry]
      · rw [hc i 4, if_pos (hr 4 (by omega))]; simp [cct_entry]
    · intro i c hi
      have hr : ¬ (0 ≤ i ∧ i < 0 + 31 ∧ c < 5) := by omega
      rw [hc i c, if_neg hr]

/-- C16, on the sample values: the green value 500 is at the byte offsets 192 and 198 and
777 at 204, so the table starts at `204 - 186 = 18` and entry 0 is the ladder value with
red 400, green 300 and blue 500. -/
theorem cct_stage_run_length_witness :
    ∃ f, cct_stage sampleDecls false (sampleFrame_values sampleValues_cct) = .done f ∧
      f.wb_section_offset = 18 ∧ f.self.icWBCCTC 0 0 = 2500 ∧ f.self.icWBCCTC 0 1 = 400 ∧
      f.self.icWBCCTC 0 2 = 300 ∧ f.self.icWBCCTC 0 3 = 500 ∧ f.self.icWBCCTC 0 4 = 300 :=
  ((cct_stage_run_length sampleDecls false (sampleFrame_values sampleValues_cct) 192 rfl
      (by decide) (by decide)).2 2 18 (by decide) (by decide) (by decide) rfl).elim
    fun f hf => ⟨f, hf.1, hf.2.1, (hf.2.2.2.1 0 (by decide)).1,
      (hf.2.2.2.1 0 (by decide)).2.1.trans (by decide),
      (hf.2.2.2.1 0 (by decide)).2.2.1.trans (by decide),
      (hf.2.2.2.1 0 (by decide)).2.2.2.1.trans (by decide),
      (hf.2.2.2.1 0 (by decide)).2.2.2.2.trans (by decide)⟩

/-- C12, the two handlers of tag `0x2f00` on the same payload, whose count field holds
`0x80000000`: `parseAdobeRAFMakernote` takes the unsigned minimum with 6 and decodes six
records into the slots `Custom1 .. Custom1 + 5`; `parse_fuji` stores the count in an `int`
first, takes the signed minimum, and decodes no record at all: the object is returned as
it was. -/
theorem pf_handle_2f00_count_0x80000000 :
    (∃ f, handle_2f00 sampleDecls ⟨0x4949, false, .one, .one⟩ 52
        (sampleFrame_values sampleValues_2f00) = .done f ∧
      f.self.icWBC 90 1 = 10 ∧ f.self.icWBC 95 1 = 15) ∧
    ({ LibRaw.blank with order := 0x4949 }).pf_handle_2f00 sampleDecls (false, .one, .one)
        (sampleFile_values sampleValues_2f00) 52 0 = { LibRaw.blank with order := 0x4949 } ∧
    (sampleFile_values sampleValues_2f00).get4 0x4949 0 = 0x80000000 := by
  refine ⟨?_, ?_, by decide⟩
  · exact ⟨_, rfl, by decide, by decide⟩
  · have h : (min (toInt32 ((sampleFile_values sampleValues_2f00).get4 0x4949 0)) 6).toNat = 0 := by
      decide
    unfold LibRaw.pf_handle_2f00
    simp only [h]
    rfl

/-- C13. The handler of tag `0x4000` of `parse_fuji`, for a permutation `GRGB_2_RGBG`: with
length 8 the black level of the channel that source position `c` maps to is the 16-bit
payload value `v_c`; with length 16 it is `(v_c + v_(c+4)) / 2`, the truncated mean of the
two sets. -/
theorem pf_black_levels (d : Decls) (self : LibRaw) (ifp : datastream) (save : Nat)
    (hG : d.GRGB_is_permutation) :
    (∀ c, c < 4 → (self.pf_handle_4000 d ifp 8 save).cblack (d.GRGB_2_RGBG c) =
        ifp.get2 self.order (save + 2 * c)) ∧
    (∀ c, c < 4 → (self.pf_handle_4000 d ifp 16 save).cblack (d.GRGB_2_RGBG c) =
        (ifp.get2 self.order (save + 2 * c) + ifp.get2 self.order (save + 2 * c + 8)) / 2) := by
  obtain ⟨hlt, hinj⟩ := hG
  have l0 := hlt 0 (by omega)
  have l1 := hlt 1 (by omega)
  have l2 := hlt 2 (by omega)
  have l3 := hlt 3 (by omega)
  have n01 : d.GRGB_2_RGBG 0 ≠ d.GRGB_2_RGBG 1 := fun h => by
    have := hinj 0 1 (by omega) (by omega) h; omega
  have n02 : d.GRGB_2_RGBG 0 ≠ d.GRGB_2_RGBG 2 := fun h => by
    have := hinj 0 2 (by omega) (by omega) h; omega
  have n03 : d.GRGB_2_RGBG 0 ≠ d.GRGB_2_RGBG 3 := fun h => by
    have := hinj 0 3 (by omega) (by omega) h; omega
  have n12 : d.GRGB_2_RGBG 1 ≠ d.GRGB_2_RGBG 2 := fun h => by
    have := hinj 1 2 (by omega) (by omega) h; omega
  have n13 : d.GRGB_2_RGBG 1 ≠ d.GRGB_2_RGBG 3 := fun h => by
    have := hinj 1 3 (by omega) (by omega) h; omega
  have n23 : d.GRGB_2_RGBG 2 ≠ d.GRGB_2_RGBG 3 := fun h => by
    have := hinj 2 3 (by omega) (by omega) h; omega
  constructor
  · intro c hc
    unfold LibRaw.pf_handle_4000
    simp only [Nat.reduceDiv, ↓reduceIte, Nat.add_one_ne_zero, Nat.succ_ne_zero,
      OfNat.ofNat_ne_zero, OfNat.zero_ne_ofNat, Nat.reduceEqDiff, eq_comm (a := 0)]
    interval_cases c <;> simp only [Nat.mul_zero, Nat.add_zero, Nat.reduceMul]
    · generalize d.GRGB_2_RGBG 0 = g0 at *
      interval_cases g0 <;> simp only [↓reduceIte, Nat.reduceEqDiff] <;> split_ifs <;> omega
    · generalize d.GRGB_2_RGBG 1 = g1 at *
      interval_cases g1 <;> simp only [↓reduceIte, Nat.reduceEqDiff] <;> split_ifs <;> omega
    · generalize d.GRGB_2_RGBG 2 = g2 at *
      interval_cases g2 <;> simp only [↓reduceIte, Nat.reduceEqDiff] <;> split_ifs <;> omega
    · generalize d.GRGB_2_RGBG 3 = g3 at *
      interval_cases g3 <;> simp only [↓reduceIte, Nat.reduceEqDiff]
  · intro c hc
    unfold LibRaw.pf_handle_4000
    simp only [Nat.reduceDiv, ↓reduceIte, Nat.add_one_ne_zero, Nat.succ_ne_zero,
      OfNat.ofNat_ne_zero, OfNat.zero_ne_ofNat, Nat.reduceEqDiff, eq_comm (a := 0)]
    interval_cases c <;> simp only [Nat.mul_zero, Nat.add_zero, Nat.reduceMul, Nat.reduceAdd,
      Nat.add_assoc]
    · generalize d.GRGB_2_RGBG 0 = g0 at *
      interval_cases g0 <;> simp only [↓reduceIte, Nat.reduceEqDiff] <;> split_ifs <;> omega
    · generalize d.GRGB_2_RGBG 1 = g1 at *
      interval_cases g1 <;> simp only [↓reduceIte, Nat.reduceEqDiff] <;> split_ifs <;> omega
    · generalize d.GRGB_2_RGBG 2 = g2 at *
      interval_cases g2 <;> simp only [↓reduceIte, Nat.reduceEqDiff] <;> split_ifs <;> omega
    · generalize d.GRGB_2_RGBG 3 = g3 at *
      interval_cases g3 <;> simp only [↓reduceIte, Nat.reduceEqDiff]

/-- C13, on the payload `1000, 1001, 1002, 1003, 1010, 1011, 1012, 1013`: source position 0
maps to channel 1, whose black level is 1000 when the declared length is 8 and
`(1000 + 1010) / 2 = 1005` when it is 16; source position 3 maps to channel 2. -/
theorem pf_black_levels_witness :
    (({ LibRaw.blank with order := 0x4949 }).pf_handle_4000 sampleDecls
        (sampleFile_values [1000, 1001, 1002, 1003, 1010, 1011, 1012, 1013]) 8 0).cblack 1 = 1000 ∧
    (({ LibRaw.blank with order := 0x4949 }).pf_handle_4000 sampleDecls
        (sampleFile_values [1000, 1001, 1002, 1003, 1010, 1011, 1012, 1013]) 16 0).cblack 1 = 1005 ∧
    (({ LibRaw.blank with order := 0x4949 }).pf_handle_4000 sampleDecls
        (sampleFile_values [1000, 1001, 1002, 1003, 1010, 1011, 1012, 1013]) 16 0).cblack 2 = 1008 :=
  have h := pf_black_levels sampleDecls { LibRaw.blank with order := 0x4949 }
    (sampleFile_values [1000, 1001, 1002, 1003, 1010, 1011, 1012, 1013]) 0 sampleDecls_permutation
  ⟨(h.1 0 (by decide)).trans (by decide), (h.2 0 (by decide)).trans (by decide),
   (h.2 3 (by decide)).trans (by decide)⟩

theorem SameExceptWB_gen {a b : LibRaw} (h : SameExceptWB a b) :
    b.RAFDataGeneration = a.RAFDataGeneration := by
  have h2 := congrArg LibRaw.RAFDataGeneration
    (show b = { a with icWBC := b.icWBC, icWBCCTC := b.icWBCCTC } from h)
  exact h2

theorem SameExceptWB_version {a b : LibRaw} (h : SameExceptWB a b) :
    b.RAFDataVersion = a.RAFDataVersion := by
  have h2 := congrArg LibRaw.RAFDataVersion
    (show b = { a with icWBC := b.icWBC, icWBCCTC := b.icWBCCTC } from h)
  exact h2

theorem LibRaw.setCCT_apply (s : LibRaw) (i k : Nat) (v : Int) (j c : Nat) :
    (s.setCCT i k v).icWBCCTC j c = if j = i ∧ c = k then v else s.icWBCCTC j c := rfl

@[simp] theorem LibRaw.setCCT_icWBC (s : LibRaw) (i k : Nat) (v : Int) :
    (s.setCCT i k v).icWBC = s.icWBC := rfl

@[simp] theorem LibRaw.setWBC_icWBCCTC (s : LibRaw) (i k : Nat) (v : Int) :
    (s.setWBC i k v).icWBCCTC = s.icWBCCTC := rfl

@[simp] theorem LibRaw.setCCT_order (s : LibRaw) (i k : Nat) (v : Int) :
    (s.setCCT i k v).order = s.order := rfl

@[simp] theorem LibRaw.setCCT_gen (s : LibRaw) (i k : Nat) (v : Int) :
    (s.setCCT i k v).RAFDataGeneration = s.RAFDataGeneration := rfl

@[simp] theorem LibRaw.setWBC_gen (s : LibRaw) (i k : Nat) (v : Int) :
    (s.setWBC i k v).RAFDataGeneration = s.RAFDataGeneration := rfl

@[simp] theorem LibRaw.setCCT_version (s : LibRaw) (i k : Nat) (v : Int) :
    (s.setCCT i k v).RAFDataVersion = s.RAFDataVersion := rfl

@[simp] theorem LibRaw.setWBC_version (s : LibRaw) (i k : Nat) (v : Int) :
    (s.setWBC i k v).RAFDataVersion = s.RAFDataVersion := rfl

/-- One record of the grid leaves the byte order, the generation and the version alone. -/
theorem LibRaw.fixed4096_store_fields (self : LibRaw) (d : Decls) (nWB tWB : Int)
    (wb : Nat → Int) (iCCT : Nat) :
    (self.fixed4096_store d nWB tWB wb iCCT).1.order = self.order ∧
    (self.fixed4096_store d nWB tWB wb iCCT).1.RAFDataGeneration = self.RAFDataGeneration ∧
    (self.fixed4096_store d nWB tWB wb iCCT).1.RAFDataVersion = self.RAFDataVersion := by
  unfold LibRaw.fixed4096_store
  by_cases h1 : tWB ≠ 0 ∧ iCCT < 64 <;> by_cases h2 : nWB ≠ 0x46 <;>
    cases h3 : Fuji_wb_list2_lookup d.Fuji_wb_list2 nWB <;>
    simp only [h1, h2, h3, ne_eq, if_true, if_false, not_true_eq_false, not_false_eq_true,
      and_self, and_true, true_and, false_and, LibRaw.setWBC_order, LibRaw.setCCT_order,
      LibRaw.setCCT_gen, LibRaw.setWBC_gen, LibRaw.setCCT_version, LibRaw.setWBC_version]

/-- What one record of the grid does to `icWBCCTC` and to `iCCT`. -/
theorem LibRaw.fixed4096_store_cct (self : LibRaw) (d : Decls) (nWB tWB : Int) (wb : Nat → Int)
    (iCCT : Nat) (h : iCCT < 64) :
    (self.fixed4096_store d nWB tWB wb iCCT).2 = (if tWB ≠ 0 then iCCT + 1 else iCCT) ∧
    ∀ j c, (self.fixed4096_store d nWB tWB wb iCCT).1.icWBCCTC j c =
      if tWB ≠ 0 ∧ j = iCCT ∧ c < 5 then cct_of_record (nWB, tWB, wb) c
      else self.icWBCCTC j c := by
  have key : ∀ j c, (((((self.setCCT iCCT 0 (float_of_int tWB)).setCCT iCCT 1
      (float_of_int (wb 0))).setCCT iCCT 2 (float_of_int (wb 1))).setCCT iCCT 3
      (float_of_int (wb 2))).setCCT iCCT 4 (float_of_int (wb 3))).icWBCCTC j c =
      if j = iCCT ∧ c < 5 then cct_of_record (nWB, tWB, wb) c else self.icWBCCTC j c := by
    intro j c
    simp only [LibRaw.setCCT_apply, cct_of_record]
    by_cases hj : j = iCCT
    · by_cases hc : c < 5
      · interval_cases c <;> simp [hj]
      · have c0 : c ≠ 0 := by omega
        have c1 : c ≠ 1 := by omega
        have c2 : c ≠ 2 := by omega
        have c3 : c ≠ 3 := by omega
        have c4 : c ≠ 4 := by omega
        simp only [hc, c0, c1, c2, c3, c4, and_false, if_false]
    · simp only [hj, false_and, if_false]
  unfold LibRaw.fixed4096_store
  by_cases h1 : tWB ≠ 0 <;> by_cases h2 : nWB ≠ 0x46 <;>
    cases h3 : Fuji_wb_list2_lookup d.Fuji_wb_list2 nWB <;>
    simp only [h, h1, h2, h3, ne_eq, if_true, if_false, not_true_eq_false, not_false_eq_true,
      and_true, true_and, false_and, LibRaw.setWBC_icWBCCTC, key, implies_true]

theorem fixed4096_fold_fields (d : Decls) (rs : List (Int × Int × (Nat → Int))) (i0 : Nat)
    (s : LibRaw) :
    (fixed4096_fold d rs i0 s).1.order = s.order ∧
    (fixed4096_fold d rs i0 s).1.RAFDataGeneration = s.RAFDataGeneration ∧
    (fixed4096_fold d rs i0 s).1.RAFDataVersion = s.RAFDataVersion := by
  induction rs generalizing i0 s with
  | nil => exact ⟨rfl, rfl, rfl⟩
  | cons r rest ih =>
    have h1 := s.fixed4096_store_fields d r.1 r.2.1 r.2.2 i0
    have h2 := ih (s.fixed4096_store d r.1 r.2.1 r.2.2 i0).2 (s.fixed4096_store d r.1 r.2.1 r.2.2 i0).1
    unfold fixed4096_fold
    exact ⟨h2.1.trans h1.1, h2.2.1.trans h1.2.1, h2.2.2.trans h1.2.2⟩

/-- The CCT entries after the stores of a list of records: the records with a non-zero
temperature, in order, from the index `i0` on; every other entry is as before. -/
theorem fixed4096_fold_cct (d : Decls) (rs : List (Int × Int × (Nat → Int))) (i0 : Nat)
    (s : LibRaw) (h : i0 + rs.length ≤ 64) :
    (fixed4096_fold d rs i0 s).2 = i0 + (rs.filter (fun r => decide (r.2.1 ≠ 0))).length ∧
    ∀ j c, (fixed4096_fold d rs i0 s).1.icWBCCTC j c =
      if i0 ≤ j ∧ j < i0 + (rs.filter (fun r => decide (r.2.1 ≠ 0))).length ∧ c < 5 then
        cct_of_record ((rs.filter (fun r => decide (r.2.1 ≠ 0))).getD (j - i0)
          (0, 0, fun _ => 0)) c
      else s.icWBCCTC j c := by
  induction rs generalizing i0 s with
  | nil =>
    refine ⟨rfl, fun j c => ?_⟩
    have : ¬ (i0 ≤ j ∧ j < i0 + 0 ∧ c < 5) := by omega
    simp only [List.filter_nil, List.length_nil, this, if_false]
    rfl
  | cons r rest ih =>
    simp only [List.length_cons] at h
    obtain ⟨h2, hc⟩ := s.fixed4096_store_cct d r.1 r.2.1 r.2.2 i0 (by omega)
    unfold fixed4096_fold
    by_cases ht : r.2.1 = 0
    · have hf : (r :: rest).filter (fun r => decide (r.2.1 ≠ 0)) =
          rest.filter (fun r => decide (r.2.1 ≠ 0)) := by
        simp [List.filter_cons, ht]
      rw [if_neg (not_not.mpr ht)] at h2
      have hc2 : ∀ j c, (s.fixed4096_store d r.1 r.2.1 r.2.2 i0).1.icWBCCTC j c =
          s.icWBCCTC j c := fun j c => by rw [hc j c, if_neg (fun hh => hh.1 ht)]
      rw [hf, h2]
      obtain ⟨e1, e2⟩ := ih i0 (s.fixed4096_store d r.1 r.2.1 r.2.2 i0).1 (by omega)
      refine ⟨e1, fun j c => ?_⟩
      rw [e2 j c, hc2 j c]
    · have hf : (r :: rest).filter (fun r => decide (r.2.1 ≠ 0)) =
          r :: rest.filter (fun r => decide (r.2.1 ≠ 0)) := by
        simp [List.filter_cons, ht]
      rw [if_pos ht] at h2
      have hc2 : ∀ j c, (s.fixed4096_store d r.1 r.2.1 r.2.2 i0).1.icWBCCTC j c =
          if j = i0 ∧ c < 5 then cct_of_record (r.1, r.2.1, r.2.2) c else s.icWBCCTC j c :=
        fun j c => by
          rw [hc j c]
          simp only [ne_eq, ht, not_false_eq_true, true_and]
      rw [hf, h2]
      obtain ⟨e1, e2⟩ := ih (i0 + 1) (s.fixed4096_store d r.1 r.2.1 r.2.2 i0).1 (by omega)
      refine ⟨by rw [e1, List.length_cons]; omega, fun j c => ?_⟩
      rw [e2 j c, hc2 j c, List.length_cons]
      by_cases hj : j = i0
      · subst hj
        have n1 : ¬ (j + 1 ≤ j ∧
            j < j + 1 + (rest.filter (fun r => decide (r.2.1 ≠ 0))).length ∧ c < 5) := by omega
        rw [if_neg n1]
        by_cases hc5 : c < 5
        · have p1 : j ≤ j ∧
              j < j + ((rest.filter (fun r => decide (r.2.1 ≠ 0))).length + 1) ∧ c < 5 := by
            omega
          rw [if_pos p1, if_pos ⟨rfl, hc5⟩, Nat.sub_self]
          rfl
        · have p1 : ¬ (j ≤ j ∧
              j < j + ((rest.filter (fun r => decide (r.2.1 ≠ 0))).length + 1) ∧ c < 5) := by
            omega
          have p2 : ¬ (j = j ∧ c < 5) := by omega
          rw [if_neg p1, if_neg p2]
      · have p2 : ¬ (j = i0 ∧ c < 5) := by omega
        rw [if_neg p2]
        by_cases hr : i0 + 1 ≤ j ∧
            j < i0 + 1 + (rest.filter (fun r => decide (r.2.1 ≠ 0))).length ∧ c < 5
        · have p1 : i0 ≤ j ∧
              j < i0 + ((rest.filter (fun r => decide (r.2.1 ≠ 0))).length + 1) ∧ c < 5 := by
            omega
          rw [if_pos hr, if_pos p1, show j - i0 = (j - (i0 + 1)) + 1 by omega]
          rfl
        · have p1 : ¬ (i0 ≤ j ∧
              j < i0 + ((rest.filter (fun r => decide (r.2.1 ≠ 0))).length + 1) ∧ c < 5) := by
            omega
          rw [if_neg hr, if_neg p1]

theorem sget4_in_range (b : checked_buffer_t) (offset : Nat) (h : offset + 4 ≤ b._len) :
    b.sget4 offset = .ok (b.peek4 offset) := by
  have h1 : ¬ (offset + 4 > b._len) := by omega
  simp [checked_buffer_t.sget4, checked_buffer_t.checkoffset, h1, checked_buffer_t.peek4]

/-- The grid loop of `parse_fuji` is the stores applied to the records it reads. -/
theorem pf_fixed4096_loop_eq (d : Decls) (ifp : datastream) (n iCCT p : Nat) (s : LibRaw) :
    pf_fixed4096_loop d ifp n iCCT p s =
      (fixed4096_fold d (grid_records (ifp.get4 s.order) n p) iCCT s).1 := by
  induction n generalizing iCCT p s with
  | zero => rfl
  | succ n ih =>
    have e : s.pf_fixed4096_record d ifp iCCT p =
        s.fixed4096_store d (grid_record (ifp.get4 s.order) p).1
          (grid_record (ifp.get4 s.order) p).2.1 (grid_record (ifp.get4 s.order) p).2.2 iCCT := rfl
    unfold pf_fixed4096_loop grid_records fixed4096_fold
    rw [ih, e, (s.fixed4096_store_fields d _ _ _ iCCT).1]

/-- One record of the grid in `parseAdobeRAFMakernote` whose 24 bytes lie inside the
declared length. -/
theorem fixed4096_record_in_range (d : Decls) (iCCT : Nat) (fr : Frame)
    (h : fr.posWB + 24 ≤ fr.PrivateMknBuf._len) :
    fixed4096_record d iCCT fr = .done
      ({ fr with
          self := (fr.self.fixed4096_store d (grid_record fr.PrivateMknBuf.peek4 fr.posWB).1
            (grid_record fr.PrivateMknBuf.peek4 fr.posWB).2.1
            (grid_record fr.PrivateMknBuf.peek4 fr.posWB).2.2 iCCT).1,
          posWB := fr.posWB + 24 },
       (fr.self.fixed4096_store d (grid_record fr.PrivateMknBuf.peek4 fr.posWB).1
            (grid_record fr.PrivateMknBuf.peek4 fr.posWB).2.1
            (grid_record fr.PrivateMknBuf.peek4 fr.posWB).2.2 iCCT).2) := by
  unfold fixed4096_record
  simp only []
  rw [sget4_in_range _ _ (by omega), sget4_in_range _ _ (by omega),
    sget4_in_range _ _ (by omega), sget4_in_range _ _ (by omega),
    sget4_in_range _ _ (by omega), sget4_in_range _ _ (by omega)]
  rfl

/-- The grid loop of `parseAdobeRAFMakernote` on records inside the declared length ends
normally with the stores applied to the records it reads. -/
theorem fixed4096_loop_eq (d : Decls) (n iCCT : Nat) (fr : Frame)
    (h : fr.posWB + 24 * n ≤ fr.PrivateMknBuf._len) :
    ∃ f, fixed4096_loop d n iCCT fr = .done f ∧
      f.self = (fixed4096_fold d (grid_records fr.PrivateMknBuf.peek4 n fr.posWB) iCCT
        fr.self).1 := by
  induction n generalizing iCCT fr with
  | zero => exact ⟨fr, rfl, rfl⟩
  | succ n ih =>
    unfold fixed4096_loop grid_records fixed4096_fold
    rw [fixed4096_record_in_range d iCCT fr (by omega), Outcome.bind_done]
    exact ih _ _ (by show fr.posWB + 24 + 24 * n ≤ fr.PrivateMknBuf._len; omega)

theorem fixed4096_loop_eq_at (d : Decls) (n iCCT : Nat) (fr : Frame) (g : Nat → Nat) (p : Nat)
    (s0 : LibRaw) (hg : fr.PrivateMknBuf.peek4 = g) (hp : fr.posWB = p) (hs : fr.self = s0)
    (h : p + 24 * n ≤ fr.PrivateMknBuf._len) :
    ∃ f, fixed4096_loop d n iCCT fr = .done f ∧
      f.self = (fixed4096_fold d (grid_records g n p) iCCT s0).1 := by
  subst hg hp hs
  exact fixed4096_loop_eq d n iCCT fr h

/-- One record of the grid in `parseAdobeRAFMakernote` either raises at one of its reads,
with the object untouched, or stores the fields it has read. -/
theorem fixed4096_record_cases (d : Decls) (iCCT : Nat) (fr : Frame) :
    fixed4096_record d iCCT fr = .raised fr.self ∨
    ∃ nWB tWB wb, fixed4096_record d iCCT fr =
      .done (fixed4096_store d nWB tWB wb iCCT { fr with posWB := fr.posWB + 24 }) := by
  unfold fixed4096_record
  simp only []
  cases fr.PrivateMknBuf.sget4 fr.posWB with
  | error _ => exact Or.inl rfl
  | ok nWB =>
  cases fr.PrivateMknBuf.sget4 (fr.posWB + 4) with
  | error _ => exact Or.inl rfl
  | ok tWB =>
  cases fr.PrivateMknBuf.sget4 (fr.posWB + 8) with
  | error _ => exact Or.inl rfl
  | ok w0 =>
  cases fr.PrivateMknBuf.sget4 (fr.posWB + 12) with
  | error _ => exact Or.inl rfl
  | ok w1 =>
  cases fr.PrivateMknBuf.sget4 (fr.posWB + 16) with
  | error _ => exact Or.inl rfl
  | ok w3 =>
  cases fr.PrivateMknBuf.sget4 (fr.posWB + 20) with
  | error _ => exact Or.inl rfl
  | ok w2 => exact Or.inr ⟨_, _, _, rfl⟩

theorem fixed4096_loop_fields (d : Decls) (n iCCT : Nat) (fr : Frame) :
    (fixed4096_loop d n iCCT fr).obj.RAFDataGeneration = fr.self.RAFDataGeneration ∧
    (fixed4096_loop d n iCCT fr).obj.RAFDataVersion = fr.self.RAFDataVersion := by
  induction n generalizing iCCT fr with
  | zero => exact ⟨rfl, rfl⟩
  | succ n ih =>
    unfold fixed4096_loop
    rcases fixed4096_record_cases d iCCT fr with h | ⟨nWB, tWB, wb, h⟩
    · rw [h]
      exact ⟨rfl, rfl⟩
    · rw [h, Outcome.bind_done]
      have h2 := ih (fixed4096_store d nWB tWB wb iCCT { fr with posWB := fr.posWB + 24 }).2
        (fixed4096_store d nWB tWB wb iCCT { fr with posWB := fr.posWB + 24 }).1
      have h3 := LibRaw.fixed4096_store_fields fr.self d nWB tWB wb iCCT
      exact ⟨h2.1.trans h3.2.1, h2.2.trans h3.2.2⟩

/-- C17. In both dialects the handler of tag `0xc000` on a record of declared length 4096
ends with the generation 4096, for every payload and whether or not a read fails, and with
`RAFDataVersion` as it was: `guess_RAFDataGeneration`, which sets both fields, is not
applied. -/
theorem c000_length_4096_is_Fixed4096 (d : Decls) (fr : Frame) (self : LibRaw)
    (ifp : datastream) (save : Nat) :
    (handle_c000 d 4096 fr).obj.RAFDataGeneration = 4096 ∧
    (handle_c000 d 4096 fr).obj.RAFDataVersion = fr.self.RAFDataVersion ∧
    handle_c000 d 4096 fr = fixed4096_block d (fr.setOrders 0x4949) ∧
    (self.pf_handle_c000 d ifp 4096 save).RAFDataGeneration = 4096 ∧
    (self.pf_handle_c000 d ifp 4096 save).RAFDataVersion = self.RAFDataVersion := by
  have e : handle_c000 d 4096 fr = fixed4096_block d (fr.setOrders 0x4949) := by
    simp [handle_c000]
  have h := fixed4096_loop_fields d 42 0
    { fr.setOrders 0x4949 with
      self := { (fr.setOrders 0x4949).self with RAFDataGeneration := 4096 },
      posWB := u32 ((fr.setOrders 0x4949).posPrivateMknBuf + 0x200) }
  have p : self.pf_handle_c000 d ifp 4096 save =
      { pf_fixed4096_loop d ifp 42 0 (save + 0x200)
          { self with order := 0x4949, RAFDataGeneration := 4096 } with order := self.order } := by
    simp [LibRaw.pf_handle_c000]
  have q := fixed4096_fold_fields d
    (grid_records (ifp.get4 0x4949) 42 (save + 0x200)) 0
    { self with order := 0x4949, RAFDataGeneration := 4096 }
  refine ⟨?_, ?_, e, ?_, ?_⟩
  · rw [e]; exact h.1
  · rw [e]; exact h.2
  · rw [p, pf_fixed4096_loop_eq]; exact q.2.1
  · rw [p, pf_fixed4096_loop_eq]; exact q.2.2

/-- The conversion `float(n)` is exact up to `2 ^ 24` in magnitude. -/
theorem float_of_int_small (v : Int) (h : v.natAbs ≤ 2 ^ 24) : float_of_int v = v := by
  have key : round_bits v.natAbs (dropped_bits 8 v.natAbs) = v.natAbs := by
    rcases Nat.lt_or_ge v.natAbs (2 ^ 24) with h1 | h1
    · have e : dropped_bits 8 v.natAbs = 0 := by
        unfold dropped_bits
        rw [if_pos h1]
      rw [e]
      unfold round_bits
      have n1 : ¬ (2 * (v.natAbs % 2 ^ 0) > 2 ^ 0 ∨
          (2 * (v.natAbs % 2 ^ 0) = 2 ^ 0 ∧ v.natAbs / 2 ^ 0 % 2 = 1)) := by
        simp [Nat.mod_one]
      rw [if_neg n1]
      simp
    · have e : v.natAbs = 2 ^ 24 := Nat.le_antisymm h h1
      rw [e]
      decide
  unfold float_of_int
  rw [key]
  exact Int.sign_mul_natAbs v

set_option maxRecDepth 100000 in
/-- C18, counterexample: the first record of the grid has the temperature `0x01000001`
(16777217) and the green value `0x01000003` (16777219).  Both decoders store
`float(tWB)` and `float(wb[1])`, and these are 16777216 and 16777220: the entry is not
`(temp, r << 1, g, b << 1, g-dup)` in these two fields.  The fields `r << 1 = 16777218`,
`b << 1 = 10` and `g-dup = 7` are stored as they are. -/
theorem fixed4096_cct_entry_is_rounded :
    toInt32 (sampleFile_grid_wide.get4 0x4949 0x204) = 16777217 ∧
    toInt32 (sampleFile_grid_wide.get4 0x4949 0x20c) = 16777219 ∧
    (LibRaw.blank.pf_handle_c000 sampleDecls sampleFile_grid_wide 4096 0).icWBCCTC 0 0
      = 16777216 ∧
    (LibRaw.blank.pf_handle_c000 sampleDecls sampleFile_grid_wide 4096 0).icWBCCTC 0 2
      = 16777220 ∧
    (LibRaw.blank.pf_handle_c000 sampleDecls sampleFile_grid_wide 4096 0).icWBCCTC 0 1
      = 16777218 ∧
    (LibRaw.blank.pf_handle_c000 sampleDecls sampleFile_grid_wide 4096 0).icWBCCTC 0 3 = 10 ∧
    (LibRaw.blank.pf_handle_c000 sampleDecls sampleFile_grid_wide 4096 0).icWBCCTC 0 4 = 7 ∧
    (handle_c000 sampleDecls 4096 sampleFrame_grid_wide).isRaised = false ∧
    (handle_c000 sampleDecls 4096 sampleFrame_grid_wide).obj.icWBCCTC 0 0 = 16777216 ∧
    (handle_c000 sampleDecls 4096 sampleFrame_grid_wide).obj.icWBCCTC 0 2 = 16777220 := by
  refine ⟨by decide, by decide, by decide, by decide, by decide, by decide, by decide,
    by decide, by decide, by decide⟩

/-- C18 (amended).  The decode of a tag `0xc000` record of declared length 4096 in both
dialects (for `parseAdobeRAFMakernote` with the 42 records inside the declared length): the
entries of `icWBCCTC` from index 0 on are exactly the records with a non-zero temperature
among the 42 records of 24 bytes from payload `+ 0x200`, in record order and whatever their
preset id; every entry behind them is as before, so their number is the number of such
records.  A record read as the fields `presetId, temp, r, g, g-dup, b` gives the entry
`(float(temp), float(r << 1), float(g), float(b << 1), float(g-dup))`, each field taken as
a C `int` and converted to single precision; the conversion returns the value itself up to
`2 ^ 24` in magnitude. -/
theorem fixed4096_cct_sequence (d : Decls) (self : LibRaw) (ifp : datastream) (save : Nat)
    (fr : Frame) (hin : fr.posPrivateMknBuf + 0x200 + 42 * 24 ≤ fr.PrivateMknBuf._len)
    (hlen : fr.PrivateMknBuf._len < 2 ^ 32) :
    (∀ j c, (self.pf_handle_c000 d ifp 4096 save).icWBCCTC j c =
      if j < (grid_cct (ifp.get4 0x4949) (save + 0x200)).length ∧ c < 5 then
        cct_of_record ((grid_cct (ifp.get4 0x4949) (save + 0x200)).getD j (0, 0, fun _ => 0)) c
      else self.icWBCCTC j c) ∧
    (∃ f, handle_c000 d 4096 fr = .done f ∧
      ∀ j c, f.self.icWBCCTC j c =
        if j < (grid_cct (fr.PrivateMknBuf.set_order 0x4949).peek4
            (fr.posPrivateMknBuf + 0x200)).length ∧ c < 5 then
          cct_of_record ((grid_cct (fr.PrivateMknBuf.set_order 0x4949).peek4
            (fr.posPrivateMknBuf + 0x200)).getD j (0, 0, fun _ => 0)) c
        else fr.self.icWBCCTC j c) ∧
    (∀ (get4 : Nat → Nat) (p : Nat),
      (grid_record get4 p).1 = toInt32 (get4 p) ∧
      cct_of_record (grid_record get4 p) 0 = float_of_int (toInt32 (get4 (p + 4))) ∧
      cct_of_record (grid_record get4 p) 1 = float_of_int (toInt32 (u32 (2 * get4 (p + 8)))) ∧
      cct_of_record (grid_record get4 p) 2 = float_of_int (toInt32 (get4 (p + 12))) ∧
      cct_of_record (grid_record get4 p) 3 =
        float_of_int (toInt32 (u32 (2 * get4 (p + 20)))) ∧
      cct_of_record (grid_record get4 p) 4 = float_of_int (toInt32 (get4 (p + 16)))) ∧
    (∀ v : Int, v.natAbs ≤ 2 ^ 24 → float_of_int v = v) ∧
    (grid_cct (ifp.get4 0x4949) (save + 0x200)).length ≤ 42 := by
  have hlen42 : ∀ (get4 : Nat → Nat) (n p : Nat), (grid_records get4 n p).length = n := by
    intro get4 n
    induction n with
    | zero => intro p; rfl
    | succ n ih => intro p; simp [grid_records, ih]
  refine ⟨?_, ?_, fun get4 p => ⟨rfl, rfl, rfl, rfl, rfl, rfl⟩, float_of_int_small, ?_⟩
  · have p : self.pf_handle_c000 d ifp 4096 save =
        { pf_fixed4096_loop d ifp 42 0 (save + 0x200)
            { self with order := 0x4949, RAFDataGeneration := 4096 } with
          order := self.order } := by
      simp [LibRaw.pf_handle_c000]
    intro j c
    rw [p, pf_fixed4096_loop_eq]
    have q := (fixed4096_fold_cct d (grid_records (ifp.get4 0x4949) 42 (save + 0x200)) 0
      { self with order := 0x4949, RAFDataGeneration := 4096 }
      (by rw [hlen42]; omega)).2 j c
    simp only [Nat.zero_le, true_and, Nat.zero_add, Nat.sub_zero] at q
    exact q
  · have e : handle_c000 d 4096 fr = fixed4096_block d (fr.setOrders 0x4949) := by
      simp [handle_c000]
    have hu : u32 (fr.posPrivateMknBuf + 0x200) = fr.posPrivateMknBuf + 0x200 := by
      unfold u32
      exact Nat.mod_eq_of_lt (by omega)
    obtain ⟨f, hf, hs⟩ := fixed4096_loop_eq_at d 42 0
      { fr.setOrders 0x4949 with
        self := { (fr.setOrders 0x4949).self with RAFDataGeneration := 4096 },
        posWB := fr.posPrivateMknBuf + 0x200 }
      (fr.PrivateMknBuf.set_order 0x4949).peek4 (fr.posPrivateMknBuf + 0x200)
      { fr.self with order := 0x4949, RAFDataGeneration := 4096 } rfl rfl rfl
      (by show fr.posPrivateMknBuf + 0x200 + 24 * 42 ≤ fr.PrivateMknBuf._len; omega)
    refine ⟨f, ?_, fun j c => ?_⟩
    · rw [e]
      unfold fixed4096_block
      rw [show (fr.setOrders 0x4949).posPrivateMknBuf = fr.posPrivateMknBuf from rfl, hu]
      exact hf
    · rw [hs]
      have q := (fixed4096_fold_cct d
        (grid_records (fr.PrivateMknBuf.set_order 0x4949).peek4 42 (fr.posPrivateMknBuf + 0x200))
        0 { fr.self with order := 0x4949, RAFDataGeneration := 4096 }
        (by rw [hlen42]; omega)).2 j c
      simp only [Nat.zero_le, true_and, Nat.zero_add, Nat.sub_zero] at q
      unfold grid_cct
      exact q
  · unfold grid_cct
    have h42 := List.length_filter_le (fun r => decide (r.2.1 ≠ 0))
      (grid_records (ifp.get4 0x4949) 42 (save + 0x200))
    rw [hlen42] at h42
    exact h42

/-- C18, on the sample grid: the only record with a non-zero temperature is the second one,
which carries the preset id `0x46`; both dialects produce the single CCT entry
`(5000, 200, 300, 400, 301)` and leave entry 1 at zero. -/
theorem fixed4096_cct_sequence_witness :
    (∃ f, handle_c000 sampleDecls 4096 sampleFrame_grid = .done f ∧
      f.self.icWBCCTC 0 0 = 5000 ∧ f.self.icWBCCTC 0 1 = 200 ∧ f.self.icWBCCTC 0 2 = 300 ∧
      f.self.icWBCCTC 0 3 = 400 ∧ f.self.icWBCCTC 0 4 = 301 ∧ f.self.icWBCCTC 1 0 = 0) ∧
    (LibRaw.blank.pf_handle_c000 sampleDecls sampleFile_grid 4096 0).icWBCCTC 0 0 = 5000 ∧
    (LibRaw.blank.pf_handle_c000 sampleDecls sampleFile_grid 4096 0).icWBCCTC 0 1 = 200 ∧
    (LibRaw.blank.pf_handle_c000 sampleDecls sampleFile_grid 4096 0).icWBCCTC 0 3 = 400 ∧
    (LibRaw.blank.pf_handle_c000 sampleDecls sampleFile_grid 4096 0).icWBCCTC 1 0 = 0 :=
  have h := fixed4096_cct_sequence sampleDecls LibRaw.blank sampleFile_grid 0 sampleFrame_grid
    (by decide) (by decide)
  ⟨h.2.1.elim fun f hf => ⟨f, hf.1, (hf.2 0 0).trans (by decide), (hf.2 0 1).trans (by decide),
      (hf.2 0 2).trans (by decide), (hf.2 0 3).trans (by decide), (hf.2 0 4).trans (by decide),
      (hf.2 1 0).trans (by decide)⟩,
   (h.1 0 0).trans (by decide), (h.1 0 1).trans (by decide), (h.1 0 3).trans (by decide),
   (h.1 1 0).trans (by decide)⟩

/-- What one record of the grid does to `icWBC`. -/
theorem LibRaw.fixed4096_store_icWBC (self : LibRaw) (d : Decls) (nWB tWB : Int)
    (wb : Nat → Int) (iCCT : Nat) :
    (nWB = 0x46 → (self.fixed4096_store d nWB tWB wb iCCT).1.icWBC = self.icWBC) ∧
    (Fuji_wb_list2_lookup d.Fuji_wb_list2 nWB = none →
      (self.fixed4096_store d nWB tWB wb iCCT).1.icWBC = self.icWBC) ∧
    (∀ slot, nWB ≠ 0x46 → Fuji_wb_list2_lookup d.Fuji_wb_list2 nWB = some slot →
      ∀ s c, (self.fixed4096_store d nWB tWB wb iCCT).1.icWBC s c =
        if s = slot.toNat ∧ c < 4 then wb c else self.icWBC s c) := by
  have key : ∀ (x : LibRaw) (slot : Int) (s c : Nat),
      ((((x.setWBC slot.toNat 0 (wb 0)).setWBC slot.toNat 1 (wb 1)).setWBC slot.toNat 2
        (wb 2)).setWBC slot.toNat 3 (wb 3)).icWBC s c =
      if s = slot.toNat ∧ c < 4 then wb c else x.icWBC s c := by
    intro x slot s c
    simp only [LibRaw.setWBC_apply]
    by_cases hs : s = slot.toNat
    · by_cases hc : c < 4
      · interval_cases c <;> simp [hs]
      · have c0 : c ≠ 0 := by omega
        have c1 : c ≠ 1 := by omega
        have c2 : c ≠ 2 := by omega
        have c3 : c ≠ 3 := by omega
        simp only [hc, c0, c1, c2, c3, and_false, if_false]
    · simp only [hs, false_and, if_false]
  unfold LibRaw.fixed4096_store
  refine ⟨fun h2 => ?_, fun h3 => ?_, fun slot h2 h3 s c => ?_⟩
  · by_cases h1 : tWB ≠ 0 ∧ iCCT < 64 <;>
      simp only [h1, h2, ne_eq, if_true, if_false, not_true_eq_false, not_false_eq_true,
        and_self, and_true, true_and, false_and, LibRaw.setCCT_icWBC]
  · by_cases h1 : tWB ≠ 0 ∧ iCCT < 64 <;> by_cases h2 : nWB ≠ 0x46 <;>
      simp only [h1, h2, h3, ne_eq, if_true, if_false, not_true_eq_false, not_false_eq_true,
        and_self, and_true, true_and, false_and, LibRaw.setCCT_icWBC]
  · by_cases h1 : tWB ≠ 0 ∧ iCCT < 64 <;>
      simp only [h1, h2, h3, ne_eq, if_true, if_false, not_true_eq_false, not_false_eq_true,
        and_self, and_true, true_and, false_and, key, LibRaw.setCCT_icWBC]

set_option maxRecDepth 20000 in
/-- C19, counterexample: the first record of the sample grid has the preset id 1, which is
not the sentinel and which `Fuji_wb_list2` maps to slot 9, and the raw values `r = 10` and
`b = 30`; after the decode, in both dialects, slot 9 holds `20` in channel 0 and `60` in
channel 2: the doubled values, not the raw ones. -/
theorem fixed4096_slot_is_not_raw :
    toInt32 (sampleFile_grid.get4 0x4949 0x200) = 1 ∧
    Fuji_wb_list2_lookup sampleDecls.Fuji_wb_list2 1 = some 9 ∧
    sampleFile_grid.get4 0x4949 0x208 = 10 ∧ sampleFile_grid.get4 0x4949 0x214 = 30 ∧
    (LibRaw.blank.pf_handle_c000 sampleDecls sampleFile_grid 4096 0).icWBC 9 0 = 20 ∧
    (LibRaw.blank.pf_handle_c000 sampleDecls sampleFile_grid 4096 0).icWBC 9 2 = 60 ∧
    (handle_c000 sampleDecls 4096 sampleFrame_grid).obj.icWBC 9 0 = 20 ∧
    (handle_c000 sampleDecls 4096 sampleFrame_grid).obj.icWBC 9 2 = 60 ∧
    (handle_c000 sampleDecls 4096 sampleFrame_grid).isRaised = false := by
  decide

/-- C19, amended: in the decode of the grid, in both dialects (for
`parseAdobeRAFMakernote` with the record inside the declared length), a record whose
preset id is not the sentinel `0x46` and matches an entry of `Fuji_wb_list2` stores into
the matched slot the same array `wb` that goes into the CCT entry: `r << 1` in channel 0,
`g` in channel 1, `b << 1` in channel 2 and `g-dup` in channel 3, each field taken as a C
`int`.  A record with the sentinel preset id leaves `icWBC` as it is. -/
theorem fixed4096_slot_is_doubled (d : Decls) (self : LibRaw) (ifp : datastream)
    (iCCT p : Nat) (fr : Frame) (hin : fr.posWB + 24 ≤ fr.PrivateMknBuf._len) :
    (∀ slot, toInt32 (ifp.get4 self.order p) ≠ 0x46 →
      Fuji_wb_list2_lookup d.Fuji_wb_list2 (toInt32 (ifp.get4 self.order p)) = some slot →
      (self.pf_fixed4096_record d ifp iCCT p).1.icWBC slot.toNat 0 =
        toInt32 (u32 (2 * ifp.get4 self.order (p + 8))) ∧
      (self.pf_fixed4096_record d ifp iCCT p).1.icWBC slot.toNat 1 =
        toInt32 (ifp.get4 self.order (p + 12)) ∧
      (self.pf_fixed4096_record d ifp iCCT p).1.icWBC slot.toNat 2 =
        toInt32 (u32 (2 * ifp.get4 self.order (p + 20))) ∧
      (self.pf_fixed4096_record d ifp iCCT p).1.icWBC slot.toNat 3 =
        toInt32 (ifp.get4 self.order (p + 16))) ∧
    (toInt32 (ifp.get4 self.order p) = 0x46 →
      (self.pf_fixed4096_record d ifp iCCT p).1.icWBC = self.icWBC) ∧
    (∃ r, fixed4096_record d iCCT fr = .done r ∧
      (∀ slot, toInt32 (fr.PrivateMknBuf.peek4 fr.posWB) ≠ 0x46 →
        Fuji_wb_list2_lookup d.Fuji_wb_list2 (toInt32 (fr.PrivateMknBuf.peek4 fr.posWB)) =
          some slot →
        r.1.self.icWBC slot.toNat 0 =
          toInt32 (u32 (2 * fr.PrivateMknBuf.peek4 (fr.posWB + 8))) ∧
        r.1.self.icWBC slot.toNat 1 = toInt32 (fr.PrivateMknBuf.peek4 (fr.posWB + 12)) ∧
        r.1.self.icWBC slot.toNat 2 =
          toInt32 (u32 (2 * fr.PrivateMknBuf.peek4 (fr.posWB + 20))) ∧
        r.1.self.icWBC slot.toNat 3 = toInt32 (fr.PrivateMknBuf.peek4 (fr.posWB + 16))) ∧
      (toInt32 (fr.PrivateMknBuf.peek4 fr.posWB) = 0x46 → r.1.self.icWBC = fr.self.icWBC)) := by
  have hpf := self.fixed4096_store_icWBC d (grid_record (ifp.get4 self.order) p).1
    (grid_record (ifp.get4 self.order) p).2.1 (grid_record (ifp.get4 self.order) p).2.2 iCCT
  have had := fr.self.fixed4096_store_icWBC d (grid_record fr.PrivateMknBuf.peek4 fr.posWB).1
    (grid_record fr.PrivateMknBuf.peek4 fr.posWB).2.1
    (grid_record fr.PrivateMknBuf.peek4 fr.posWB).2.2 iCCT
  refine ⟨fun slot h1 h2 => ?_, fun h1 => hpf.1 h1, ?_⟩
  · have h := hpf.2.2 slot h1 h2 slot.toNat
    exact ⟨(h 0).trans (by simp [grid_record, fixed4096_wb]),
      (h 1).trans (by simp [grid_record, fixed4096_wb]),
      (h 2).trans (by simp [grid_record, fixed4096_wb]),
      (h 3).trans (by simp [grid_record, fixed4096_wb])⟩
  · refine ⟨_, fixed4096_record_in_range d iCCT fr hin, fun slot h1 h2 => ?_, fun h1 => had.1 h1⟩
    have h := had.2.2 slot h1 h2 slot.toNat
    exact ⟨(h 0).trans (by simp [grid_record, fixed4096_wb]),
      (h 1).trans (by simp [grid_record, fixed4096_wb]),
      (h 2).trans (by simp [grid_record, fixed4096_wb]),
      (h 3).trans (by simp [grid_record, fixed4096_wb])⟩

/-- C19, on the sample grid: the record at `0x200` (preset id 1, slot 9, raw values
`10, 25, 26, 30`) stores `20, 25, 60, 26` into slot 9, and the record at `0x218`, which
carries the sentinel, leaves `icWBC` as it is. -/
theorem fixed4096_slot_is_doubled_witness :
    (({ LibRaw.blank with order := 0x4949 }).pf_fixed4096_record sampleDecls sampleFile_grid
        0 0x200).1.icWBC 9 0 = 20 ∧
    (({ LibRaw.blank with order := 0x4949 }).pf_fixed4096_record sampleDecls sampleFile_grid
        0 0x200).1.icWBC 9 2 = 60 ∧
    (({ LibRaw.blank with order := 0x4949 }).pf_fixed4096_record sampleDecls sampleFile_grid
        0 0x218).1.icWBC = LibRaw.blank.icWBC :=
  have h := fixed4096_slot_is_doubled sampleDecls { LibRaw.blank with order := 0x4949 }
    sampleFile_grid 0 0x200 sampleFrame_grid (by decide)
  have h2 := fixed4096_slot_is_doubled sampleDecls { LibRaw.blank with order := 0x4949 }
    sampleFile_grid 0 0x218 sampleFrame_grid (by decide)
  ⟨(h.1 9 (by decide) (by decide)).1.trans (by decide),
   (h.1 9 (by decide) (by decide)).2.2.1.trans (by decide), h2.2.1 (by decide)⟩

/-- C20, counterexample: a block of 74 bytes whose byte-order mark is `0x1234` and whose
directory offset points behind the buffer.  The read of the directory length at that offset
leaves the buffer and raises before the byte-order mark is tested: the function does not
return normally. -/
theorem bad_mark_block_raises :
    checked_buffer_t.sget2 ⟨0x4d4d, bytesOf sampleBlock_badmark_far, 74 + 1024⟩ 0 = .ok 0x1234 ∧
    checked_buffer_t.sget4 ⟨0x4d4d, bytesOf sampleBlock_badmark_far, 74 + 1024⟩ 2
      = .ok 0xffffff00 ∧
    (checked_buffer_t.sget4 ⟨0x4d4d, bytesOf sampleBlock_badmark_far, 74 + 1024⟩
      (u32 (0xffffff00 + 6))).toOption = none ∧
    (LibRaw.blank.parseAdobeRAFMakernote sampleDecls 0 74
      (bytesOf sampleBlock_badmark_far)).isRaised = true := by
  refine ⟨by decide, by decide, by decide, by decide⟩

/-- C20 (amended).  For a block whose length passes the test of the function: when the
directory header is read and its entry count is greater than 1000, or its byte-order mark is
neither `0x4d4d` nor `0x4949`, `parseAdobeRAFMakernote` returns normally before the record
loop; when a read of the directory header leaves the buffer, which happens before the
byte-order mark is tested, the function is left by the exception.  In both cases the object
is the one after the block was loaded, so no white-balance slot, black level, CCT entry,
`cam_mul` entry or generation field is modified. -/
theorem bad_directory_yields_no_records (self : LibRaw) (d : Decls)
    (shot_select PrivateMknLength : Nat) (data : Nat → UInt8)
    (hlen : PrivateMknLength ≥ 0x36 ∧ PrivateMknLength < 10240000) :
    (∀ po ifd n, read_directory ⟨0x4d4d, data, PrivateMknLength + 1024⟩ PrivateMknLength
        (max 0 (min shot_select 1)) = .ok (po, ifd, n) →
      (n > 1000 ∨ (po ≠ 0x4d4d ∧ po ≠ 0x4949)) →
      self.parseAdobeRAFMakernote d shot_select PrivateMknLength data =
        .done (self.load_block data)) ∧
    (∀ e, read_directory ⟨0x4d4d, data, PrivateMknLength + 1024⟩ PrivateMknLength
        (max 0 (min shot_select 1)) = .error e →
      self.parseAdobeRAFMakernote d shot_select PrivateMknLength data =
        .raised (self.load_block data)) ∧
    (self.load_block data).icWBC = self.icWBC ∧
    (self.load_block data).BlackLevel = self.BlackLevel ∧
    (self.load_block data).icWBCCTC = self.icWBCCTC ∧
    (self.load_block data).cam_mul = self.cam_mul ∧
    (self.load_block data).RAFDataGeneration = self.RAFDataGeneration ∧
    (self.load_block data).RAFDataVersion = self.RAFDataVersion := by
  refine ⟨fun po ifd n hdir hbad => ?_, fun e hdir => ?_, rfl, rfl, rfl, rfl, rfl, rfl⟩
  · unfold LibRaw.parseAdobeRAFMakernote
    simp only [hlen, and_self, if_true]
    rw [hdir]
    simp only [hbad, if_true]
  · unfold LibRaw.parseAdobeRAFMakernote
    simp only [hlen, and_self, if_true]
    rw [hdir]

/-- C20, on a block whose directory declares 1024 entries and on a block whose byte-order
mark is `0x1234` and whose header is read: both return normally with the black levels
untouched, although a record of tag `0x4000` follows the header.  On the block with the
mark `0x1234` whose directory offset points behind the buffer the function is left by the
exception, with the black levels untouched as well. -/
theorem bad_directory_yields_no_records_witness :
    (∃ s, LibRaw.blank.parseAdobeRAFMakernote sampleDecls 0 74 (bytesOf sampleBlock_many) =
        .done s ∧ s.BlackLevel 0 = 0) ∧
    (∃ s, LibRaw.blank.parseAdobeRAFMakernote sampleDecls 0 74
        (bytesOf ([0x12, 0x34] ++ sampleBlock_black.drop 2)) = .done s ∧ s.BlackLevel 0 = 0) ∧
    (∃ s, LibRaw.blank.parseAdobeRAFMakernote sampleDecls 0 74
        (bytesOf sampleBlock_badmark_far) = .raised s ∧ s.BlackLevel 0 = 0) :=
  ⟨⟨_, (bad_directory_yields_no_records LibRaw.blank sampleDecls 0 74 (bytesOf sampleBlock_many)
      (by decide)).1 0x4949 0x36 1024 (by decide) (by decide), by decide⟩,
   ⟨_, (bad_directory_yields_no_records LibRaw.blank sampleDecls 0 74
      (bytesOf ([0x12, 0x34] ++ sampleBlock_black.drop 2)) (by decide)).1 0x1234 0x36 1
      (by decide) (by decide), by decide⟩,
   ⟨_, (bad_directory_yields_no_records LibRaw.blank sampleDecls 0 74
      (bytesOf sampleBlock_badmark_far) (by decide)).2.1 Exn.OutOfRange (by decide), by decide⟩⟩

/-! ## The structured block on a validated table -/

/-- The triple read inside the declared length: it ends normally, writes the four channels
of its slot and leaves everything else as it was. -/
theorem read_WB_triple_values (wb : Nat) (fr : Frame)
    (h : fr.posWB + 6 ≤ fr.PrivateMknBuf._len) :
    ∃ f, read_WB_triple wb fr = .done f ∧ f.PrivateMknBuf = fr.PrivateMknBuf ∧
      f.posPrivateMknBuf = fr.posPrivateMknBuf ∧
      f.wb_section_offset = fr.wb_section_offset ∧ f.posWB = fr.posWB ∧
      SameExceptWB fr.self f.self ∧ f.self.icWBCCTC = fr.self.icWBCCTC ∧
      ∀ s c, f.self.icWBC s c =
        if s = wb ∧ c < 4 then triple_entry fr.PrivateMknBuf fr.posWB c
        else fr.self.icWBC s c := by
  unfold read_WB_triple
  rw [sget2_in_range _ _ (by omega)]
  simp only [assignRead, Outcome.bind, Frame.setWBC]
  rw [sget2_in_range _ _ (by simpa using (by omega : fr.posWB + 2 + 2 ≤ fr.PrivateMknBuf._len))]
  simp only []
  rw [sget2_in_range _ _ (by simpa using (by omega : fr.posWB + 4 + 2 ≤ fr.PrivateMknBuf._len))]
  refine ⟨_, rfl, rfl, rfl, rfl, rfl, rfl, rfl, ?_⟩
  intro s c
  simp only [triple_entry]
  by_cases hs : s = wb
  · by_cases hc : c < 4
    · interval_cases c <;> simp [hs]
    · have c0 : c ≠ 0 := by omega
      have c1 : c ≠ 1 := by omega
      have c2 : c ≠ 2 := by omega
      have c3 : c ≠ 3 := by omega
      simp only [hc, c0, c1, c2, c3, and_false, if_false]
  · simp only [hs, false_and, if_false]

/-- The marker scan over positions that lie inside the declared length: it ends normally
and can change `icWBC` only. -/
theorem marker_scan_done (d : Decls) (n : Nat) (fr : Frame)
    (h : fr.posWB + n + 15 ≤ fr.PrivateMknBuf._len) :
    ∃ f, marker_scan d n fr = .done f ∧ f.PrivateMknBuf = fr.PrivateMknBuf ∧
      f.posPrivateMknBuf = fr.posPrivateMknBuf ∧
      f.wb_section_offset = fr.wb_section_offset ∧
      SameExceptWB fr.self f.self ∧ f.self.icWBCCTC = fr.self.icWBCCTC := by
  induction n generalizing fr with
  | zero => exact ⟨fr, rfl, rfl, rfl, rfl, rfl, rfl⟩
  | succ n ih =>
    unfold marker_scan
    have hc : fr.PrivateMknBuf.checkoffset (fr.posWB + 12) = .ok () := by
      have : ¬ (fr.posWB + 12 > fr.PrivateMknBuf._len) := by omega
      simp [checked_buffer_t.checkoffset, this]
    rw [hc, sget2_in_range _ _ (by omega)]
    simp only [andAlso, test1]
    cases is_TSNERDTS fr.PrivateMknBuf fr.posWB with
    | false =>
      simp only []
      obtain ⟨f, e, hb, hp, hw, hs, hcc⟩ := ih { fr with posWB := fr.posWB + 1 }
        (by show fr.posWB + 1 + n + 15 ≤ fr.PrivateMknBuf._len; omega)
      exact ⟨f, e, hb, hp, hw, hs, hcc⟩
    | true =>
      simp only []
      cases decide (fr.PrivateMknBuf.peek2 (fr.posWB + 10) > 125) with
      | false =>
        simp only []
        obtain ⟨f, e, hb, hp, hw, hs, hcc⟩ := ih { fr with posWB := fr.posWB + 1 }
          (by show fr.posWB + 1 + n + 15 ≤ fr.PrivateMknBuf._len; omega)
        exact ⟨f, e, hb, hp, hw, hs, hcc⟩
      | true =>
        simp only []
        obtain ⟨f, e, hb, hp, hw, -, hs, hcc, -⟩ := read_WB_triple_values d.LIBRAW_WBI_Auto
          { fr with posWB := fr.posWB + 10 }
          (by show fr.posWB + 10 + 6 ≤ fr.PrivateMknBuf._len; omega)
        exact ⟨f, e, hb, hp, hw, hs, hcc⟩

/-- The preset loop over a table without repetitions that lies inside the declared length:
it ends normally, entry `i` of the table receives the triple at `posWB + 6 * i`, and the
slots outside the table and everything else are as before. -/
theorem preset_loop_values (l : List Nat) (fr : Frame) (hn : l.Nodup)
    (h : fr.posWB + 6 * l.length ≤ fr.PrivateMknBuf._len) :
    ∃ f, preset_loop l fr = .done f ∧ f.PrivateMknBuf = fr.PrivateMknBuf ∧
      f.posPrivateMknBuf = fr.posPrivateMknBuf ∧
      f.wb_section_offset = fr.wb_section_offset ∧ f.posWB = fr.posWB + 6 * l.length ∧
      SameExceptWB fr.self f.self ∧ f.self.icWBCCTC = fr.self.icWBCCTC ∧
      (∀ i (hi : i < l.length) c, c < 4 →
        f.self.icWBC (l.get ⟨i, hi⟩) c = triple_entry fr.PrivateMknBuf (fr.posWB + 6 * i) c) ∧
      (∀ s c, s ∉ l → f.self.icWBC s c = fr.self.icWBC s c) := by
  induction l generalizing fr with
  | nil =>
    refine ⟨fr, rfl, rfl, rfl, rfl, rfl, rfl, rfl, ?_, fun _ _ _ => rfl⟩
    intro i hi
    simp at hi
  | cons wb rest ih =>
    simp only [List.length_cons] at h
    obtain ⟨hwb, hrest⟩ := List.nodup_cons.mp hn
    obtain ⟨f1, e1, b1, q1, w1, p1, s1, c1, v1⟩ := read_WB_triple_values wb fr (by omega)
    obtain ⟨f2, e2, b2, q2, w2, p2, s2, c2, v2, o2⟩ := ih { f1 with posWB := f1.posWB + 6 } hrest
      (by show f1.posWB + 6 + 6 * rest.length ≤ f1.PrivateMknBuf._len; rw [b1, p1]; omega)
    have b2' : f2.PrivateMknBuf = f1.PrivateMknBuf := b2
    have q2' : f2.posPrivateMknBuf = f1.posPrivateMknBuf := q2
    have w2' : f2.wb_section_offset = f1.wb_section_offset := w2
    have p2' : f2.posWB = f1.posWB + 6 + 6 * rest.length := p2
    have s2' : SameExceptWB f1.self f2.self := s2
    have c2' : f2.self.icWBCCTC = f1.self.icWBCCTC := c2
    have v2' : ∀ i (hi : i < rest.length) c, c < 4 → f2.self.icWBC (rest.get ⟨i, hi⟩) c =
        triple_entry f1.PrivateMknBuf (f1.posWB + 6 + 6 * i) c := v2
    have o2' : ∀ s c, s ∉ rest → f2.self.icWBC s c = f1.self.icWBC s c := o2
    refine ⟨f2, ?_, b2'.trans b1, q2'.trans q1, w2'.trans w1, ?_, SameExceptWB_trans s1 s2',
      c2'.trans c1, ?_, ?_⟩
    · unfold preset_loop
      rw [e1, Outcome.bind_done]
      exact e2
    · rw [p2', p1, List.length_cons]
      omega
    · intro i hi c hc
      cases i with
      | zero =>
        show f2.self.icWBC wb c = _
        rw [o2' wb c hwb, v1 wb c, if_pos ⟨rfl, hc⟩]
        rfl
      | succ i =>
        have hi2 : i < rest.length := by
          simp only [List.length_cons] at hi
          omega
        show f2.self.icWBC (rest.get ⟨i, hi2⟩) c = _
        rw [v2' i hi2 c hc, b1, p1, show fr.posWB + 6 + 6 * i = fr.posWB + 6 * (i + 1) by omega]
    · intro s c hs
      have hs1 : s ≠ wb := fun e => hs (e ▸ List.mem_cons_self _ _)
      have hs2 : s ∉ rest := fun e => hs (List.mem_cons_of_mem _ e)
      rw [o2' s c hs2, v1 s c, if_neg (fun hh => hs1 hh.1)]

theorem SameExceptWB_model {a b : LibRaw} (h : SameExceptWB a b) : b.model = a.model := by
  have h2 := congrArg LibRaw.model
    (show b = { a with icWBC := b.icWBC, icWBCCTC := b.icWBCCTC } from h)
  exact h2

/-- The CCT stage with the five strides of its scan inside the declared length ends
normally and touches `icWBCCTC` only: the ladder goes into the first 31 entries when a
stride differs from the first one, and nothing is written when none does. -/
theorem cct_stage_done (d : Decls) (is34 : Bool) (f2 : Frame) (p0 : Nat)
    (hp0 : p0 = (if is34 then f2.posWB + 0x30 else f2.posWB) + 0xc0)
    (hlen : f2.PrivateMknBuf._len < 2 ^ 32)
    (hin : p0 + 26 ≤ f2.PrivateMknBuf._len) :
    ∃ f, cct_stage d is34 f2 = .done f ∧ SameExceptWB f2.self f.self ∧
      f.self.icWBC = f2.self.icWBC ∧
      ((∃ k, k < 5 ∧ f2.PrivateMknBuf.peek2 (p0 + 6 * k) ≠ f2.PrivateMknBuf.peek2 p0) →
        ∀ i, i < 31 → f.self.icWBCCTC i 0 = d.FujiCCT_K i) ∧
      ((∀ k, k < 5 → f2.PrivateMknBuf.peek2 (p0 + 6 * k) = f2.PrivateMknBuf.peek2 p0) →
        f.self.icWBCCTC = f2.self.icWBCCTC) := by
  have hscan := cct_end_scan_first f2.PrivateMknBuf (f2.PrivateMknBuf.peek2 p0) 5 p0 (by omega)
  by_cases hall : ∀ k, k < 5 → f2.PrivateMknBuf.peek2 (p0 + 6 * k) = f2.PrivateMknBuf.peek2 p0
  · refine ⟨{ f2 with posWB := p0 }, ?_, rfl, rfl, ?_, fun _ => rfl⟩
    · unfold cct_stage
      simp only [← hp0]
      rw [sget2_in_range _ _ (by omega)]
      simp only []
      rw [hscan.1 hall]
    · rintro ⟨k, hk, hne⟩
      exact absurd (hall k hk) hne
  · have hex : ∃ k, k < 5 ∧
        f2.PrivateMknBuf.peek2 (p0 + 6 * k) ≠ f2.PrivateMknBuf.peek2 p0 := by
      by_contra hno
      apply hall
      intro k hk
      by_contra hne
      exact hno ⟨k, hk, hne⟩
    obtain ⟨hk, hdiff⟩ := Nat.find_spec hex
    have hbefore : ∀ j, j < Nat.find hex →
        f2.PrivateMknBuf.peek2 (p0 + 6 * j) = f2.PrivateMknBuf.peek2 p0 := by
      intro j hj
      by_contra hne
      exact Nat.find_min hex hj ⟨by omega, hne⟩
    have hk0 : Nat.find hex ≠ 0 := by
      intro h0
      rw [h0] at hdiff
      exact hdiff rfl
    generalize Nat.find hex = k at hk hdiff hbefore hk0
    have hu : u32 (p0 + 6 * k + (2 ^ 32 - (if is34 then 34 * 3 * 2 else 31 * 3 * 2))) =
        p0 + 6 * k - (if is34 then 34 * 6 else 31 * 6) := by
      unfold u32
      cases is34 <;> simp at hp0 ⊢ <;> omega
    have hfit : p0 + 6 * k - (if is34 then 34 * 6 else 31 * 6) + (0 + 31) * 6 ≤
        f2.PrivateMknBuf._len := by
      cases is34 <;> simp at hp0 ⊢ <;> omega
    obtain ⟨f, e, -, -, -, -, hs, hwb, hc⟩ := cct_fill_values d 31 0
      { f2 with posWB := p0,
                wb_section_offset := p0 + 6 * k - (if is34 then 34 * 6 else 31 * 6) } hfit hlen
    refine ⟨f, ?_, hs, hwb, ?_, ?_⟩
    · unfold cct_stage
      simp only [← hp0]
      rw [sget2_in_range _ _ (by omega)]
      simp only []
      rw [hscan.2 k hk hbefore hdiff]
      simp only []
      rw [hu]
      exact e
    · intro _ i hi
      have hr : 0 ≤ i ∧ i < 0 + 31 ∧ 0 < 5 := by omega
      rw [hc i 0, if_pos hr]
      simp [cct_entry]
    · intro hall2
      exact absurd hall2 hall

/-- The structured block up to its test, for a payload classified as generation 3 with
the version `0x0259` and a window accepted at `0x1370`: the test is true, the offset is
`0x1370`, and of the object only `icWBC` and the classification have changed. -/
theorem locate_wb_table_0259 (d : Decls) (PrivateTagBytes : Nat) (F : Frame)
    (hb01 : F.self.sget2 (F.PrivateMknBuf.data F.posPrivateMknBuf) = 0)
    (hb23 : F.self.sget2 (fun i => F.PrivateMknBuf.data F.posPrivateMknBuf (2 + i)) = 0x0259)
    (hmark : F.self.sget4 (fun i => F.PrivateMknBuf.data F.posPrivateMknBuf (4 + i)) ≠
      0x53545257)
    (hWB : F.PrivateMknBuf.isWB (F.posPrivateMknBuf + 0x1370) = .ok true)
    (hscan : PrivateTagBytes - 16 + 15 ≤ F.PrivateMknBuf._len)
    (hin : F.posPrivateMknBuf + 0x1370 ≤ F.PrivateMknBuf._len)
    (hlen : F.PrivateMknBuf._len < 2 ^ 32) :
    ∃ f, locate_wb_table d PrivateTagBytes F = .done (f, is34 f.self, true) ∧
      f.PrivateMknBuf = F.PrivateMknBuf ∧ f.posPrivateMknBuf = F.posPrivateMknBuf ∧
      f.wb_section_offset = 0x1370 ∧ f.self.RAFDataGeneration = 3 ∧
      f.self.RAFDataVersion = 0x0259 ∧ f.self.model = F.self.model ∧
      f.self.icWBCCTC = F.self.icWBCCTC := by
  have hg : F.guess =
      { F with self := { F.self with RAFDataGeneration := 3, RAFDataVersion := 0x0259 } } := by
    unfold Frame.guess
    rw [guess_RAFDataGeneration_eq_rule]
    simp [RAFData_rule, hb01, hb23, hmark]
  obtain ⟨f2, e2, hb, hp, hw, hs, hcc⟩ := marker_scan_done d (PrivateTagBytes - 16)
    { F.guess with posWB := 0 }
    (by show 0 + (PrivateTagBytes - 16) + 15 ≤ F.PrivateMknBuf._len; omega)
  have hb' : f2.PrivateMknBuf = F.PrivateMknBuf := hb
  have hp' : f2.posPrivateMknBuf = F.posPrivateMknBuf := hp
  have hv : f2.self.RAFDataVersion = 0x0259 := by
    rw [SameExceptWB_version hs, hg]
  have hgen : f2.self.RAFDataGeneration = 3 := by
    rw [SameExceptWB_gen hs, hg]
  have hm : f2.self.model = F.self.model := by
    rw [SameExceptWB_model hs, hg]
  have hc' : f2.self.icWBCCTC = F.self.icWBCCTC := by
    rw [hcc, hg]
  have hres : resolve_wb_section_offset f2 = .ok 0x1370 := by
    simp [resolve_wb_section_offset, version_keyed_offset, hv]
  have hu8 : u32 (F.posPrivateMknBuf + 8) = F.posPrivateMknBuf + 8 := by
    unfold u32
    exact Nat.mod_eq_of_lt (by omega)
  have hu : u32 (f2.posPrivateMknBuf + 0x1370) = F.posPrivateMknBuf + 0x1370 := by
    rw [hp']
    unfold u32
    exact Nat.mod_eq_of_lt (by omega)
  have hck : F.PrivateMknBuf.checkoffset (F.posPrivateMknBuf + 8) = .ok () := by
    have : ¬ (F.posPrivateMknBuf + 8 > F.PrivateMknBuf._len) := by omega
    simp [checked_buffer_t.checkoffset, this]
  refine ⟨{ f2 with wb_section_offset := 0x1370 }, ?_, hb', hp', rfl, hgen, hv, hm, hc'⟩
  unfold locate_wb_table
  rw [hu8, hck]
  simp only []
  rw [e2, Outcome.bind_done]
  show (match resolve_wb_section_offset f2 with
    | .error _ => Outcome.raised f2.self
    | .ok wbo =>
      match andAlso (.ok (decide (wbo ≠ 0)))
          (f2.PrivateMknBuf.isWB (u32 (f2.posPrivateMknBuf + wbo))) with
      | .error _ => Outcome.raised f2.self
      | .ok valid => Outcome.done ({ f2 with wb_section_offset := wbo }, is34 f2.self, valid)) = _
  rw [hres]
  show (match andAlso (.ok (decide (0x1370 ≠ 0)))
          (f2.PrivateMknBuf.isWB (u32 (f2.posPrivateMknBuf + 0x1370))) with
      | .error _ => Outcome.raised f2.self
      | .ok valid => Outcome.done ({ f2 with wb_section_offset := 0x1370 }, is34 f2.self, valid)) = _
  rw [hu, hb', hWB]
  rfl

/-- The structured block on a payload classified as generation 3 with the version `0x0259`
and a window accepted at `0x1370`, with the marker scan, the preset table and the scan
for the end of the CCT section inside the declared length. -/
theorem structured_block_0259 (d : Decls) (PrivateTagBytes : Nat) (F : Frame) (p0 : Nat)
    (hb01 : F.self.sget2 (F.PrivateMknBuf.data F.posPrivateMknBuf) = 0)
    (hb23 : F.self.sget2 (fun i => F.PrivateMknBuf.data F.posPrivateMknBuf (2 + i)) = 0x0259)
    (hmark : F.self.sget4 (fun i => F.PrivateMknBuf.data F.posPrivateMknBuf (4 + i)) ≠
      0x53545257)
    (hWB : F.PrivateMknBuf.isWB (F.posPrivateMknBuf + 0x1370) = .ok true)
    (hscan : PrivateTagBytes - 16 + 15 ≤ F.PrivateMknBuf._len)
    (hlen : F.PrivateMknBuf._len < 2 ^ 32) (hnodup : d.Fuji_wb_list1.Nodup)
    (hp0 : p0 = F.posPrivateMknBuf + 0x1370 + 6 * d.Fuji_wb_list1.length +
      (if is34 { F.self with RAFDataVersion := 0x0259 } then 0x30 else 0) + 0xc0)
    (hfit : p0 + 26 ≤ F.PrivateMknBuf._len) :
    ∃ f, structured_block d PrivateTagBytes F = .done f ∧ f.self.RAFDataGeneration = 3 ∧
      f.self.RAFDataVersion = 0x0259 ∧
      (∀ i (hi : i < d.Fuji_wb_list1.length) c, c < 4 →
        f.self.icWBC (d.Fuji_wb_list1.get ⟨i, hi⟩) c =
          triple_entry F.PrivateMknBuf (F.posPrivateMknBuf + 0x1370 + 6 * i) c) ∧
      ((∃ k, k < 5 ∧ F.PrivateMknBuf.peek2 (p0 + 6 * k) ≠ F.PrivateMknBuf.peek2 p0) →
        ∀ i, i < 31 → f.self.icWBCCTC i 0 = d.FujiCCT_K i) ∧
      ((∀ k, k < 5 → F.PrivateMknBuf.peek2 (p0 + 6 * k) = F.PrivateMknBuf.peek2 p0) →
        f.self.icWBCCTC = F.self.icWBCCTC) := by
  obtain ⟨f3, e3, b3, q3, w3, g3, v3, m3, c3⟩ := locate_wb_table_0259 d PrivateTagBytes F
    hb01 hb23 hmark hWB hscan (by omega) hlen
  have hi34 : is34 f3.self = is34 { F.self with RAFDataVersion := 0x0259 } := by
    simp only [is34, v3, m3]
  have hu : u32 (f3.posPrivateMknBuf + f3.wb_section_offset) = F.posPrivateMknBuf + 0x1370 := by
    rw [q3, w3]
    unfold u32
    exact Nat.mod_eq_of_lt (by omega)
  obtain ⟨f4, e4, b4, -, -, p4, s4, c4, val4, -⟩ := preset_loop_values d.Fuji_wb_list1
    { f3 with posWB := F.posPrivateMknBuf + 0x1370 } hnodup
    (by show F.posPrivateMknBuf + 0x1370 + 6 * d.Fuji_wb_list1.length ≤ f3.PrivateMknBuf._len
        rw [b3]; omega)
  have b4' : f4.PrivateMknBuf = F.PrivateMknBuf := (show f4.PrivateMknBuf = f3.PrivateMknBuf from
    b4).trans b3
  have p4' : f4.posWB = F.posPrivateMknBuf + 0x1370 + 6 * d.Fuji_wb_list1.length := p4
  have s4' : SameExceptWB f3.self f4.self := s4
  have c4' : f4.self.icWBCCTC = f3.self.icWBCCTC := c4
  have val4' : ∀ i (hi : i < d.Fuji_wb_list1.length) c, c < 4 →
      f4.self.icWBC (d.Fuji_wb_list1.get ⟨i, hi⟩) c =
        triple_entry f3.PrivateMknBuf (F.posPrivateMknBuf + 0x1370 + 6 * i) c := val4
  obtain ⟨f5, e5, s5, wb5, l5, n5⟩ := cct_stage_done d (is34 f3.self) f4 p0
    (by rw [hi34, p4', hp0]; split_ifs <;> omega) (by rw [b4']; exact hlen)
    (by rw [b4']; exact hfit)
  rw [b4'] at l5 n5
  refine ⟨f5, ?_, ?_, ?_, ?_, l5, ?_⟩
  · unfold structured_block
    rw [e3, Outcome.bind_done]
    simp only [if_true]
    unfold decode_wb_table
    have hv0 : ¬ (f3.self.RAFDataVersion = 0) := by rw [v3]; decide
    rw [if_neg hv0, Outcome.bind_done, hu, e4, Outcome.bind_done]
    exact e5
  · rw [SameExceptWB_gen s5, SameExceptWB_gen s4', g3]
  · rw [SameExceptWB_version s5, SameExceptWB_version s4', v3]
  · intro i hi c hc
    rw [wb5, val4' i hi c hc, b3]
  · intro hall
    rw [n5 hall, c4', c3]

theorem handle_c000_structured (d : Decls) (PrivateTagBytes : Nat) (fr : Frame)
    (h : PrivateTagBytes ≠ 4096) :
    handle_c000 d PrivateTagBytes fr = structured_block d PrivateTagBytes (fr.setOrders 0x4949) := by
  simp [handle_c000, h]

/-- C15, counterexample: a payload of length 8192 with `b01 = 0`, `b23 = 0x0259`, no marker
and a window accepted by `isWB` at `0x1370`, in which the green values of the five strides
of the scan for the end of the CCT section are all equal: the decode ends normally with
generation 3, but no CCT entry is written; entry 0 keeps the kelvin value 0 where the
ladder has 2500. -/
theorem c000_0259_without_cct :
    ((sampleFrame_0259 [100, 200, 300, 100, 400, 500]).PrivateMknBuf.set_order 0x4949).peek2 0
      = 0 ∧
    ((sampleFrame_0259 [100, 200, 300, 100, 400, 500]).PrivateMknBuf.set_order 0x4949).peek2 2
      = 0x0259 ∧
    ((sampleFrame_0259 [100, 200, 300, 100, 400, 500]).PrivateMknBuf.set_order 0x4949).peek4 4
      ≠ 0x53545257 ∧
    ((sampleFrame_0259 [100, 200, 300, 100, 400, 500]).PrivateMknBuf.set_order 0x4949).isWB
      0x1370 = .ok true ∧
    sampleDecls.FujiCCT_K 0 = 2500 ∧
    ∃ f, handle_c000 sampleDecls 8192 (sampleFrame_0259 [100, 200, 300, 100, 400, 500]) =
        .done f ∧
      f.self.RAFDataGeneration = 3 ∧ f.self.icWBC 9 0 = 200 ∧ f.self.icWBCCTC 0 0 = 0 := by
  refine ⟨by decide, by decide, by decide, by decide, by decide, ?_⟩
  obtain ⟨f, e, g, -, w, -, n⟩ := structured_block_0259 sampleDecls 8192
    ((sampleFrame_0259 [100, 200, 300, 100, 400, 500]).setOrders 0x4949) 5204
    (by decide) (by decide) (by decide) (by decide) (by decide) (by decide) (by decide)
    (by decide) (by decide)
  refine ⟨f, ?_, g, ?_, ?_⟩
  · rw [handle_c000_structured _ _ _ (by decide)]
    exact e
  · exact (w 0 (by decide) 0 (by decide)).trans (by decide)
  · rw [n (by decide)]
    rfl

/-- C15, amended: for a tag `0xc000` record of length 8192 whose payload has `b01 = 0`,
`b23 = 0x0259`, no marker `WRTS`, and a window accepted by `isWB` at payload `+ 0x1370`,
with the payload inside the declared length and a preset table `Fuji_wb_list1` without
repetitions (of at most 400 entries): the decode ends normally with generation 3 and
version `0x0259`; entry `i` of `Fuji_wb_list1` receives the triple at
`payload + 0x1370 + 6 * i` (first value into the green channels 1 and 3, second into red,
third into blue); and the kelvin values of the first 31 CCT entries are the ladder
`FujiCCT_K[0..30]` when one of the five strides of the scan behind the table differs from
the first one.  When none differs, no CCT entry is written. -/
theorem c000_0259_decode (d : Decls) (fr : Frame) (p0 : Nat)
    (hb01 : (fr.PrivateMknBuf.set_order 0x4949).peek2 fr.posPrivateMknBuf = 0)
    (hb23 : (fr.PrivateMknBuf.set_order 0x4949).peek2 (fr.posPrivateMknBuf + 2) = 0x0259)
    (hmark : (fr.PrivateMknBuf.set_order 0x4949).peek4 (fr.posPrivateMknBuf + 4) ≠ 0x53545257)
    (hWB : (fr.PrivateMknBuf.set_order 0x4949).isWB (fr.posPrivateMknBuf + 0x1370) = .ok true)
    (hin : fr.posPrivateMknBuf + 8192 ≤ fr.PrivateMknBuf._len)
    (hlen : fr.PrivateMknBuf._len < 2 ^ 32)
    (hnodup : d.Fuji_wb_list1.Nodup) (hN : d.Fuji_wb_list1.length ≤ 400)
    (hp0 : p0 = fr.posPrivateMknBuf + 0x1370 + 6 * d.Fuji_wb_list1.length +
      (if is34 { fr.self with RAFDataVersion := 0x0259 } then 0x30 else 0) + 0xc0) :
    ∃ f, handle_c000 d 8192 fr = .done f ∧ f.self.RAFDataGeneration = 3 ∧
      f.self.RAFDataVersion = 0x0259 ∧
      (∀ i (hi : i < d.Fuji_wb_list1.length),
        f.self.icWBC (d.Fuji_wb_list1.get ⟨i, hi⟩) 1 =
          (fr.PrivateMknBuf.set_order 0x4949).peek2 (fr.posPrivateMknBuf + 0x1370 + 6 * i) ∧
        f.self.icWBC (d.Fuji_wb_list1.get ⟨i, hi⟩) 3 =
          (fr.PrivateMknBuf.set_order 0x4949).peek2 (fr.posPrivateMknBuf + 0x1370 + 6 * i) ∧
        f.self.icWBC (d.Fuji_wb_list1.get ⟨i, hi⟩) 0 =
          (fr.PrivateMknBuf.set_order 0x4949).peek2 (fr.posPrivateMknBuf + 0x1370 + 6 * i + 2) ∧
        f.self.icWBC (d.Fuji_wb_list1.get ⟨i, hi⟩) 2 =
          (fr.PrivateMknBuf.set_order 0x4949).peek2
            (fr.posPrivateMknBuf + 0x1370 + 6 * i + 4)) ∧
      ((∃ k, k < 5 ∧ (fr.PrivateMknBuf.set_order 0x4949).peek2 (p0 + 6 * k) ≠
          (fr.PrivateMknBuf.set_order 0x4949).peek2 p0) →
        ∀ i, i < 31 → f.self.icWBCCTC i 0 = d.FujiCCT_K i) ∧
      ((∀ k, k < 5 → (fr.PrivateMknBuf.set_order 0x4949).peek2 (p0 + 6 * k) =
          (fr.PrivateMknBuf.set_order 0x4949).peek2 p0) →
        f.self.icWBCCTC = fr.self.icWBCCTC) := by
  have e23 : (fun i => (fr.setOrders 0x4949).PrivateMknBuf.data
      (fr.setOrders 0x4949).posPrivateMknBuf (2 + i)) =
      (fr.PrivateMknBuf.set_order 0x4949).data (fr.posPrivateMknBuf + 2) := by
    funext i
    simp [checked_buffer_t.data, Frame.setOrders, checked_buffer_t.set_order, Nat.add_assoc]
  have e47 : (fun i => (fr.setOrders 0x4949).PrivateMknBuf.data
      (fr.setOrders 0x4949).posPrivateMknBuf (4 + i)) =
      (fr.PrivateMknBuf.set_order 0x4949).data (fr.posPrivateMknBuf + 4) := by
    funext i
    simp [checked_buffer_t.data, Frame.setOrders, checked_buffer_t.set_order, Nat.add_assoc]
  have h23 : (fr.setOrders 0x4949).self.sget2 (fun i => (fr.setOrders 0x4949).PrivateMknBuf.data
      (fr.setOrders 0x4949).posPrivateMknBuf (2 + i)) = 0x0259 := by
    rw [e23]
    exact hb23
  have h47 : (fr.setOrders 0x4949).self.sget4 (fun i => (fr.setOrders 0x4949).PrivateMknBuf.data
      (fr.setOrders 0x4949).posPrivateMknBuf (4 + i)) ≠ 0x53545257 := by
    rw [e47]
    exact hmark
  have hfit : p0 + 26 ≤ fr.PrivateMknBuf._len := by
    rw [hp0]
    split_ifs <;> omega
  obtain ⟨f, e, g, v, w, l, n⟩ := structured_block_0259 d 8192 (fr.setOrders 0x4949) p0
    hb01 h23 h47 hWB (by show 8192 - 16 + 15 ≤ fr.PrivateMknBuf._len; omega) hlen hnodup hp0
    hfit
  refine ⟨f, ?_, g, v, ?_, l, n⟩
  · rw [handle_c000_structured _ _ _ (by decide)]
    exact e
  · intro i hi
    refine ⟨?_, ?_, ?_, ?_⟩
    · rw [w i hi 1 (by omega)]
      rfl
    · rw [w i hi 3 (by omega)]
      rfl
    · rw [w i hi 0 (by omega)]
      rfl
    · rw [w i hi 2 (by omega)]
      rfl

/-- C15, on the sample payload whose second stride of the scan holds a different green
value: generation 3, the first two preset slots (9 and 11) from the triples
`100, 200, 300` and `100, 400, 500`, and kelvin values from the ladder. -/
theorem c000_0259_decode_witness :
    ∃ f, handle_c000 sampleDecls 8192 (sampleFrame_0259 sampleValues_cct_0259) = .done f ∧
      f.self.RAFDataGeneration = 3 ∧ f.self.icWBC 9 1 = 100 ∧ f.self.icWBC 9 0 = 200 ∧
      f.self.icWBC 11 2 = 500 ∧ f.self.icWBCCTC 0 0 = 2500 ∧ f.self.icWBCCTC 30 0 = 10000 :=
  (c000_0259_decode sampleDecls (sampleFrame_0259 sampleValues_cct_0259) 5204 (by decide)
      (by decide) (by decide) (by decide) (by decide) (by decide) (by decide) (by decide)
      (by decide)).elim
    fun f hf => ⟨f, hf.1, hf.2.1, (hf.2.2.2.1 0 (by decide)).1.trans (by decide),
      (hf.2.2.2.1 0 (by decide)).2.2.1.trans (by decide),
      (hf.2.2.2.1 1 (by decide)).2.2.2.trans (by decide),
      hf.2.2.2.2.1 ⟨1, by decide, by decide⟩ 0 (by decide),
      hf.2.2.2.2.1 ⟨1, by decide, by decide⟩ 30 (by decide)⟩

/-! ## The tag table -/

/-- The marker scan over positions inside the declared length: it stops at the first
position where the marker is found and the value ten bytes behind it exceeds 125, and
reads the Auto triple from there; with no such position it runs to the end. -/
theorem marker_scan_first (d : Decls) (n : Nat) (fr : Frame)
    (h : fr.posWB + n + 15 ≤ fr.PrivateMknBuf._len) :
    (∀ k, k < n →
      (is_TSNERDTS fr.PrivateMknBuf (fr.posWB + k) = true ∧
        fr.PrivateMknBuf.peek2 (fr.posWB + k + 10) > 125) →
      (∀ j, j < k → ¬ (is_TSNERDTS fr.PrivateMknBuf (fr.posWB + j) = true ∧
        fr.PrivateMknBuf.peek2 (fr.posWB + j + 10) > 125)) →
      marker_scan d n fr =
        read_WB_triple d.LIBRAW_WBI_Auto { fr with posWB := fr.posWB + k + 10 }) ∧
    ((∀ j, j < n → ¬ (is_TSNERDTS fr.PrivateMknBuf (fr.posWB + j) = true ∧
        fr.PrivateMknBuf.peek2 (fr.posWB + j + 10) > 125)) →
      marker_scan d n fr = .done { fr with posWB := fr.posWB + n }) := by
  induction n generalizing fr with
  | zero => exact ⟨fun k hk => by omega, fun _ => rfl⟩
  | succ n ih =>
    have hc : fr.PrivateMknBuf.checkoffset (fr.posWB + 12) = .ok () := by
      have : ¬ (fr.posWB + 12 > fr.PrivateMknBuf._len) := by omega
      simp [checked_buffer_t.checkoffset, this]
    have hi : (∀ k, k < n →
        (is_TSNERDTS fr.PrivateMknBuf (fr.posWB + 1 + k) = true ∧
          fr.PrivateMknBuf.peek2 (fr.posWB + 1 + k + 10) > 125) →
        (∀ j, j < k → ¬ (is_TSNERDTS fr.PrivateMknBuf (fr.posWB + 1 + j) = true ∧
          fr.PrivateMknBuf.peek2 (fr.posWB + 1 + j + 10) > 125)) →
        marker_scan d n { fr with posWB := fr.posWB + 1 } =
          read_WB_triple d.LIBRAW_WBI_Auto { fr with posWB := fr.posWB + 1 + k + 10 }) ∧
      ((∀ j, j < n → ¬ (is_TSNERDTS fr.PrivateMknBuf (fr.posWB + 1 + j) = true ∧
          fr.PrivateMknBuf.peek2 (fr.posWB + 1 + j + 10) > 125)) →
        marker_scan d n { fr with posWB := fr.posWB + 1 } =
          .done { fr with posWB := fr.posWB + 1 + n }) :=
      ih { fr with posWB := fr.posWB + 1 }
        (by show fr.posWB + 1 + n + 15 ≤ fr.PrivateMknBuf._len; omega)
    have hstep : ¬ (is_TSNERDTS fr.PrivateMknBuf fr.posWB = true ∧
        fr.PrivateMknBuf.peek2 (fr.posWB + 10) > 125) →
        marker_scan d (n + 1) fr = marker_scan d n { fr with posWB := fr.posWB + 1 } := by
      intro hq
      rw [marker_scan, hc, sget2_in_range _ _ (by omega)]
      simp only [andAlso, test1]
      cases hm : is_TSNERDTS fr.PrivateMknBuf fr.posWB with
      | false => rfl
      | true =>
        simp only []
        have hg : decide (fr.PrivateMknBuf.peek2 (fr.posWB + 10) > 125) = false := by
          rw [decide_eq_false_iff_not]
          intro hgt
          exact hq ⟨hm, hgt⟩
        rw [hg]
    have hhit : (is_TSNERDTS fr.PrivateMknBuf fr.posWB = true ∧
        fr.PrivateMknBuf.peek2 (fr.posWB + 10) > 125) →
        marker_scan d (n + 1) fr =
          read_WB_triple d.LIBRAW_WBI_Auto { fr with posWB := fr.posWB + 10 } := by
      intro hq
      rw [marker_scan, hc, sget2_in_range _ _ (by omega)]
      simp only [andAlso, test1]
      rw [hq.1]
      simp only []
      rw [decide_eq_true hq.2]
    constructor
    · intro k hk hq hbefore
      cases k with
      | zero => exact hhit hq
      | succ k =>
        have h0 := hbefore 0 (by omega)
        rw [hstep h0]
        have e1 : ∀ j, fr.posWB + (j + 1) = fr.posWB + 1 + j := fun j => by omega
        rw [e1 k] at hq ⊢
        refine hi.1 k (by omega) hq ?_
        intro j hj
        have := hbefore (j + 1) (by omega)
        rwa [e1 j] at this
    · intro hnone
      have h0 := hnone 0 (by omega)
      rw [hstep h0]
      have e1 : ∀ j, fr.posWB + (j + 1) = fr.posWB + 1 + j := fun j => by omega
      rw [hi.2 (fun j hj => by
        have := hnone (j + 1) (by omega)
        rwa [e1 j] at this)]
      rw [show fr.posWB + 1 + n = fr.posWB + (n + 1) by omega]

/-- C25. The marker scan of the structured block over `n` positions from 0, all inside the
declared length.  When `p` is the lowest position whose 8 bytes are `TSNERDTS` and whose
guard value (the 16-bit value at `p + 10`) exceeds 125, the scan ends there: both green
channels of the Auto slot get the value at `p + 10`, red the value at `p + 12`, blue the
value at `p + 14`, and no other slot changes; lower occurrences with a guard of at most 125
are passed over and later occurrences are never reached.  With no such position the scan
leaves the object as it was. -/
theorem marker_scan_takes_lowest (d : Decls) (n : Nat) (fr : Frame)
    (h : n + 15 ≤ fr.PrivateMknBuf._len) :
    (∀ p, p < n → is_TSNERDTS fr.PrivateMknBuf p = true → fr.PrivateMknBuf.peek2 (p + 10) > 125 →
      (∀ q, q < p → ¬ (is_TSNERDTS fr.PrivateMknBuf q = true ∧
        fr.PrivateMknBuf.peek2 (q + 10) > 125)) →
      ∃ f, marker_scan d n { fr with posWB := 0 } = .done f ∧
        f.self.icWBC d.LIBRAW_WBI_Auto 1 = fr.PrivateMknBuf.peek2 (p + 10) ∧
        f.self.icWBC d.LIBRAW_WBI_Auto 3 = fr.PrivateMknBuf.peek2 (p + 10) ∧
        f.self.icWBC d.LIBRAW_WBI_Auto 0 = fr.PrivateMknBuf.peek2 (p + 12) ∧
        f.self.icWBC d.LIBRAW_WBI_Auto 2 = fr.PrivateMknBuf.peek2 (p + 14) ∧
        ∀ s c, s ≠ d.LIBRAW_WBI_Auto → f.self.icWBC s c = fr.self.icWBC s c) ∧
    ((∀ q, q < n → ¬ (is_TSNERDTS fr.PrivateMknBuf q = true ∧
        fr.PrivateMknBuf.peek2 (q + 10) > 125)) →
      ∃ f, marker_scan d n { fr with posWB := 0 } = .done f ∧ f.self = fr.self) := by
  have hs := marker_scan_first d n { fr with posWB := 0 }
    (by show 0 + n + 15 ≤ fr.PrivateMknBuf._len; omega)
  have z : ∀ k, (0 : Nat) + k = k := Nat.zero_add
  constructor
  · intro p hp hm hg hbefore
    have e := hs.1 p hp (by simp only [z]; exact ⟨hm, hg⟩)
      (fun j hj => by simp only [z]; exact hbefore j hj)
    obtain ⟨f, e1, -, -, -, -, -, -, v⟩ := read_WB_triple_values d.LIBRAW_WBI_Auto
      { fr with posWB := p + 10 } (by show p + 10 + 6 ≤ fr.PrivateMknBuf._len; omega)
    have e2 : marker_scan d n { fr with posWB := 0 } = .done f := by
      rw [e]
      simp only [z]
      exact e1
    refine ⟨f, e2, ?_, ?_, ?_, ?_, ?_⟩
    · rw [v, if_pos ⟨rfl, by omega⟩]; rfl
    · rw [v, if_pos ⟨rfl, by omega⟩]; rfl
    · rw [v, if_pos ⟨rfl, by omega⟩]; rfl
    · rw [v, if_pos ⟨rfl, by omega⟩]; rfl
    · intro s c hsne
      rw [v, if_neg (fun hh => hsne hh.1)]
  · intro hnone
    refine ⟨_, hs.2 (fun j hj => by simp only [z]; exact hnone j hj), rfl⟩

/-- C25, on the sample buffer with three occurrences of the marker: the one at 0 has the
guard 100 and is passed over, the one at 20 is taken (green 300, red 600, blue 700), the
one at 40 has no effect. -/
theorem marker_scan_takes_lowest_witness :
    ∃ f, marker_scan sampleDecls 48 { sampleFrame_markers with posWB := 0 } = .done f ∧
      f.self.icWBC 82 1 = 300 ∧ f.self.icWBC 82 3 = 300 ∧ f.self.icWBC 82 0 = 600 ∧
      f.self.icWBC 82 2 = 700 :=
  ((marker_scan_takes_lowest sampleDecls 48 sampleFrame_markers (by decide)).1 20 (by decide)
      (by decide) (by decide) (by decide)).elim
    fun f hf => ⟨f, hf.1, hf.2.1.trans (by decide), hf.2.2.1.trans (by decide),
      hf.2.2.2.1.trans (by decide), hf.2.2.2.2.1.trans (by decide)⟩

/-- C26, counterexample: the marker is at position 0, the 16-bit value right behind it (at
8) is 200 and exceeds the threshold, but the value at 10 is 100: the scan does not take
the occurrence and the Auto slot stays as it was, where the values following the one at 8
are `100, 600, 700`. -/
theorem marker_guard_is_not_at_8 :
    is_TSNERDTS sampleFrame_guard.PrivateMknBuf 0 = true ∧
    sampleFrame_guard.PrivateMknBuf.peek2 8 = 200 ∧
    sampleFrame_guard.PrivateMknBuf.peek2 10 = 100 ∧
    ∃ f, marker_scan sampleDecls 4 { sampleFrame_guard with posWB := 0 } = .done f ∧
      f.self.icWBC 82 1 = 0 ∧ f.self.icWBC 82 0 = 0 ∧ f.self.icWBC 82 2 = 0 := by
  refine ⟨by decide, by decide, by decide, _, rfl, by decide, by decide, by decide⟩

/-- One position of the marker scan, inside the declared length: the occurrence is taken
when the 8 bytes are the marker and the value ten bytes behind its start exceeds 125;
otherwise the scan goes on at the next position.  No other byte enters the decision. -/
theorem marker_scan_step (d : Decls) (n : Nat) (fr : Frame)
    (h : fr.posWB + 16 ≤ fr.PrivateMknBuf._len) :
    marker_scan d (n + 1) fr =
      if is_TSNERDTS fr.PrivateMknBuf fr.posWB = true ∧
          fr.PrivateMknBuf.peek2 (fr.posWB + 10) > 125 then
        read_WB_triple d.LIBRAW_WBI_Auto { fr with posWB := fr.posWB + 10 }
      else marker_scan d n { fr with posWB := fr.posWB + 1 } := by
  have hc : fr.PrivateMknBuf.checkoffset (fr.posWB + 12) = .ok () := by
    have : ¬ (fr.posWB + 12 > fr.PrivateMknBuf._len) := by omega
    simp [checked_buffer_t.checkoffset, this]
  by_cases hq : is_TSNERDTS fr.PrivateMknBuf fr.posWB = true ∧
      fr.PrivateMknBuf.peek2 (fr.posWB + 10) > 125
  · rw [if_pos hq, marker_scan, hc, sget2_in_range _ _ (by omega)]
    simp only [andAlso, test1]
    rw [hq.1]
    simp only []
    rw [decide_eq_true hq.2]
  · rw [if_neg hq, marker_scan, hc, sget2_in_range _ _ (by omega)]
    simp only [andAlso, test1]
    cases hm : is_TSNERDTS fr.PrivateMknBuf fr.posWB with
    | false => rfl
    | true =>
      simp only []
      have hg : decide (fr.PrivateMknBuf.peek2 (fr.posWB + 10) > 125) = false := by
        rw [decide_eq_false_iff_not]
        intro hgt
        exact hq ⟨hm, hgt⟩
      rw [hg]

/-- The marker scan passes over the positions that do not qualify: after `k` of them it is
the scan of the remaining positions from position `k` on. -/
theorem marker_scan_skip (d : Decls) (k n : Nat) (fr : Frame) (hk : k ≤ n)
    (h : fr.posWB + n + 15 ≤ fr.PrivateMknBuf._len)
    (hnone : ∀ j, j < k → ¬ (is_TSNERDTS fr.PrivateMknBuf (fr.posWB + j) = true ∧
      fr.PrivateMknBuf.peek2 (fr.posWB + j + 10) > 125)) :
    marker_scan d n fr = marker_scan d (n - k) { fr with posWB := fr.posWB + k } := by
  induction k generalizing n fr with
  | zero => rfl
  | succ k ih =>
    obtain ⟨m, rfl⟩ : ∃ m, n = m + 1 := ⟨n - 1, by omega⟩
    have h0 := hnone 0 (by omega)
    rw [Nat.add_zero] at h0
    rw [marker_scan_step d m fr (by omega), if_neg h0]
    rw [ih m { fr with posWB := fr.posWB + 1 } (by omega)
      (by show fr.posWB + 1 + m + 15 ≤ fr.PrivateMknBuf._len; omega)
      (fun j hj => by
        have := hnone (j + 1) (by omega)
        rwa [show fr.posWB + (j + 1) = fr.posWB + 1 + j by omega] at this)]
    rw [show m + 1 - (k + 1) = m - k by omega]
    show marker_scan d (m - k) { fr with posWB := fr.posWB + 1 + k } = _
    rw [show fr.posWB + 1 + k = fr.posWB + (k + 1) by omega]

/-- C26 (amended).  The marker scan over `n` positions from 0, all inside the declared
length, at a position `p` that holds the marker and has no qualifying position below it.
The decision at `p` is made by the 16-bit value at `p + 10` alone, the value at `p + 8` does
not enter it: the step at `p` takes the occurrence when the value at `p + 10` exceeds 125
and goes on at `p + 1` otherwise.  When it exceeds 125 the scan ends normally with both
green channels of the Auto slot holding that same value (the guard is the first value of
the triple, so the stored green exceeds 125), red the value at `p + 12` and blue the value
at `p + 14`; every other field of the object and every other slot is as before.  When it
is at most 125 the occurrence is passed over, whatever the value at `p + 8`: the scan is the
scan of the positions from `p + 1` on. -/
theorem marker_guard_is_green (d : Decls) (n : Nat) (fr : Frame) (p : Nat)
    (h : n + 15 ≤ fr.PrivateMknBuf._len) (hp : p < n)
    (hm : is_TSNERDTS fr.PrivateMknBuf p = true)
    (hbefore : ∀ q, q < p → ¬ (is_TSNERDTS fr.PrivateMknBuf q = true ∧
      fr.PrivateMknBuf.peek2 (q + 10) > 125)) :
    marker_scan d n { fr with posWB := 0 } = marker_scan d (n - p) { fr with posWB := p } ∧
    marker_scan d (n - p) { fr with posWB := p } =
      (if fr.PrivateMknBuf.peek2 (p + 10) > 125 then
        read_WB_triple d.LIBRAW_WBI_Auto { fr with posWB := p + 10 }
      else marker_scan d (n - (p + 1)) { fr with posWB := p + 1 }) ∧
    (fr.PrivateMknBuf.peek2 (p + 10) > 125 →
      ∃ f, marker_scan d n { fr with posWB := 0 } = .done f ∧
        f.self.icWBC d.LIBRAW_WBI_Auto 1 = fr.PrivateMknBuf.peek2 (p + 10) ∧
        f.self.icWBC d.LIBRAW_WBI_Auto 3 = fr.PrivateMknBuf.peek2 (p + 10) ∧
        f.self.icWBC d.LIBRAW_WBI_Auto 0 = fr.PrivateMknBuf.peek2 (p + 12) ∧
        f.self.icWBC d.LIBRAW_WBI_Auto 2 = fr.PrivateMknBuf.peek2 (p + 14) ∧
        f.self.icWBC d.LIBRAW_WBI_Auto 1 > 125 ∧
        SameExceptWB fr.self f.self ∧
        ∀ s c, s ≠ d.LIBRAW_WBI_Auto → f.self.icWBC s c = fr.self.icWBC s c) ∧
    (fr.PrivateMknBuf.peek2 (p + 10) ≤ 125 →
      marker_scan d n { fr with posWB := 0 } =
        marker_scan d (n - (p + 1)) { fr with posWB := p + 1 }) := by
  have z : ∀ k, (0 : Nat) + k = k := Nat.zero_add
  have hskip : marker_scan d n { fr with posWB := 0 } =
      marker_scan d (n - p) { fr with posWB := p } := by
    rw [marker_scan_skip d p n { fr with posWB := 0 } (by omega)
      (by show 0 + n + 15 ≤ fr.PrivateMknBuf._len; omega)
      (fun j hj => by
        show ¬ (is_TSNERDTS fr.PrivateMknBuf (0 + j) = true ∧
          fr.PrivateMknBuf.peek2 (0 + j + 10) > 125)
        rw [z]
        exact hbefore j hj)]
    show marker_scan d (n - p) { fr with posWB := 0 + p } = _
    rw [z]
  have hstep : marker_scan d (n - p) { fr with posWB := p } =
      (if fr.PrivateMknBuf.peek2 (p + 10) > 125 then
        read_WB_triple d.LIBRAW_WBI_Auto { fr with posWB := p + 10 }
      else marker_scan d (n - (p + 1)) { fr with posWB := p + 1 }) := by
    obtain ⟨m, hm1⟩ : ∃ m, n - p = m + 1 := ⟨n - p - 1, by omega⟩
    rw [hm1, marker_scan_step d m { fr with posWB := p }
      (by show p + 16 ≤ fr.PrivateMknBuf._len; omega)]
    rw [show n - (p + 1) = m by omega]
    by_cases hg : fr.PrivateMknBuf.peek2 (p + 10) > 125
    · rw [if_pos hg, if_pos ⟨hm, hg⟩]
    · rw [if_neg hg, if_neg (fun hq => hg hq.2)]
  refine ⟨hskip, hstep, fun hg => ?_, fun hle => ?_⟩
  · obtain ⟨f, e1, -, -, -, -, hsame, -, v⟩ := read_WB_triple_values d.LIBRAW_WBI_Auto
      { fr with posWB := p + 10 } (by show p + 10 + 6 ≤ fr.PrivateMknBuf._len; omega)
    have g1 : f.self.icWBC d.LIBRAW_WBI_Auto 1 = fr.PrivateMknBuf.peek2 (p + 10) := by
      rw [v, if_pos ⟨rfl, by omega⟩]; rfl
    refine ⟨f, ?_, g1, ?_, ?_, ?_, ?_, hsame, ?_⟩
    · rw [hskip, hstep, if_pos hg]
      exact e1
    · rw [v, if_pos ⟨rfl, by omega⟩]; rfl
    · rw [v, if_pos ⟨rfl, by omega⟩]; rfl
    · rw [v, if_pos ⟨rfl, by omega⟩]; rfl
    · rw [g1]
      exact_mod_cast hg
    · intro s c hsne
      rw [v, if_neg (fun hh => hsne hh.1)]
  · rw [hskip, hstep, if_neg (by omega)]

/-- C26, on the sample buffer with three occurrences of the marker, each with the value 0
at `p + 8`.  The occurrence at 0 has the value 100 at `p + 10` and is passed over; the one
at 20 has 300 there and is taken: green is 300, the guard value itself, red 600 and blue
700. -/
theorem marker_guard_is_green_witness :
    sampleFrame_markers.PrivateMknBuf.peek2 8 = 0 ∧
    sampleFrame_markers.PrivateMknBuf.peek2 28 = 0 ∧
    marker_scan sampleDecls 48 { sampleFrame_markers with posWB := 0 } =
      marker_scan sampleDecls 47 { sampleFrame_markers with posWB := 1 } ∧
    ∃ f, marker_scan sampleDecls 48 { sampleFrame_markers with posWB := 0 } = .done f ∧
      f.self.icWBC 82 1 = 300 ∧ f.self.icWBC 82 3 = 300 ∧ f.self.icWBC 82 0 = 600 ∧
      f.self.icWBC 82 2 = 700 :=
  ⟨by decide, by decide,
   (marker_guard_is_green sampleDecls 48 sampleFrame_markers 0 (by decide) (by decide)
      (by decide) (by decide)).2.2.2 (by decide),
   ((marker_guard_is_green sampleDecls 48 sampleFrame_markers 20 (by decide) (by decide)
      (by decide) (by decide)).2.2.1 (by decide)).elim
    fun f hf => ⟨f, hf.1, hf.2.1.trans (by decide), hf.2.2.1.trans (by decide),
      hf.2.2.2.1.trans (by decide), hf.2.2.2.2.1.trans (by decide)⟩⟩

/-! ## The directory header -/

/-- C21, counterexample: shot-select is requested, the pointer to the alternate directory
is present (8, at `0x4a`), the alternate directory stays inside the block
(`0x4a + 8 <= 82`) and declares 1024 entries.  The decoder does not fall back to the
primary directory: it returns with no record decoded, and the black levels of the primary
directory's record stay unread.  With an alternate length of 256, which leaves the block,
the primary directory is iterated and its black levels are read. -/
theorem shot_select_many_entries_no_fallback :
    shot_select_logic ⟨0x4d4d, bytesOf (sampleBlock_shots [0, 0, 0, 8] [0, 0, 4, 0]), 82 + 1024⟩
      82 1 = .ok (0x4a, 1) ∧
    read_directory ⟨0x4d4d, bytesOf (sampleBlock_shots [0, 0, 0, 8] [0, 0, 4, 0]), 82 + 1024⟩
      82 1 = .ok (0x4949, 0x4a, 1024) ∧
    (LibRaw.blank.parseAdobeRAFMakernote sampleDecls 1 82
      (bytesOf (sampleBlock_shots [0, 0, 0, 8] [0, 0, 4, 0]))).isRaised = false ∧
    (LibRaw.blank.parseAdobeRAFMakernote sampleDecls 1 82
      (bytesOf (sampleBlock_shots [0, 0, 0, 8] [0, 0, 4, 0]))).final.BlackLevel 0 = 0 ∧
    (LibRaw.blank.parseAdobeRAFMakernote sampleDecls 1 82
      (bytesOf (sampleBlock_shots [0, 0, 1, 0] [0, 0, 4, 0]))).final.BlackLevel 0 = 4 ∧
    (LibRaw.blank.parseAdobeRAFMakernote sampleDecls 1 82
      (bytesOf (sampleBlock_shots [0, 0, 1, 0] [0, 0, 4, 0]))).final.BlackLevel 1 = 1001 := by
  decide

/-- C21, amended: with shot-select requested, the pointer to the alternate directory present
and the block longer than twice the primary directory length, the only test of the
alternate directory is the bounds test.  When alternate start plus length exceeds the block
length, the logic falls back to the primary directory and clears the flag, and the records
of the primary directory are iterated.  Otherwise the alternate directory is selected
whatever its entry count, and an entry count above 1000 makes the decoder return with no
record decoded. -/
theorem shot_select_fallback (self : LibRaw) (d : Decls) (shot_select PrivateMknLength : Nat)
    (data : Nat → UInt8) (po v l z alen : Nat)
    (hshot : 1 ≤ shot_select)
    (hlen : PrivateMknLength ≥ 0x36 ∧ PrivateMknLength < 10240000)
    (hpo : (⟨0x4d4d, data, PrivateMknLength + 1024⟩ : checked_buffer_t).sget2 0 = .ok po)
    (hv : (⟨0x4d4d, data, PrivateMknLength + 1024⟩ : checked_buffer_t).sget4 2 = .ok v)
    (hl : (⟨0x4d4d, data, PrivateMknLength + 1024⟩ : checked_buffer_t).sget4 (u32 (v + 6)) =
      .ok l)
    (hz : (⟨0x4d4d, data, PrivateMknLength + 1024⟩ : checked_buffer_t).sget4
      (u32 (u32 (v + 6) + l + 4)) = .ok z)
    (hz0 : z ≠ 0) (hL : PrivateMknLength > u32 (l * 2))
    (ha : (⟨0x4d4d, data, PrivateMknLength + 1024⟩ : checked_buffer_t).sget4
      (u32 (u32 (v + 6) + u32 (l + 4))) = .ok alen) :
    (u32 (u32 (u32 (v + 6) + u32 (l + 4)) + alen) > PrivateMknLength →
      shot_select_logic ⟨0x4d4d, data, PrivateMknLength + 1024⟩ PrivateMknLength
        (max 0 (min shot_select 1)) = .ok (u32 (v + 6), 0) ∧
      ∀ n, (⟨0x4d4d, data, PrivateMknLength + 1024⟩ : checked_buffer_t).sget4
          (u32 (u32 (v + 6) + 4)) = .ok n →
        n ≤ 1000 → (po = 0x4d4d ∨ po = 0x4949) →
        self.parseAdobeRAFMakernote d shot_select PrivateMknLength data =
          match record_loop d (block_ctx self po) n
              (first_frame self PrivateMknLength data (u32 (v + 6))) with
          | .done fr => .done fr.self
          | .raised s => .raised s) ∧
    (¬ u32 (u32 (u32 (v + 6) + u32 (l + 4)) + alen) > PrivateMknLength →
      shot_select_logic ⟨0x4d4d, data, PrivateMknLength + 1024⟩ PrivateMknLength
        (max 0 (min shot_select 1)) = .ok (u32 (u32 (v + 6) + u32 (l + 4)), 1) ∧
      ∀ n, (⟨0x4d4d, data, PrivateMknLength + 1024⟩ : checked_buffer_t).sget4
          (u32 (u32 (u32 (v + 6) + u32 (l + 4)) + 4)) = .ok n →
        n > 1000 →
        self.parseAdobeRAFMakernote d shot_select PrivateMknLength data =
          .done (self.load_block data)) := by
  have hF : max 0 (min shot_select 1) = 1 := by omega
  have hc : (if z = 0 then 0 else 1) = 1 ∧ PrivateMknLength > u32 (l * 2) := by
    simp [hz0, hL]
  constructor
  · intro hout
    refine ⟨?_, fun n hn hn1000 hpo2 => ?_⟩
    · simp only [shot_select_logic, hF, hv, hl, hz, ha, bind, Except.bind, pure, Except.pure,
        hc, hout, and_self, if_true]
    · have hdir : read_directory ⟨0x4d4d, data, PrivateMknLength + 1024⟩ PrivateMknLength 1 =
          .ok (po, u32 (v + 6), n) := by
        simp only [read_directory, hpo, hv, hl, hz, ha, bind, Except.bind, pure, Except.pure,
          hc, hout, and_self, if_true, hn]
      have hgood : ¬ (n > 1000 ∨ (po ≠ 0x4d4d ∧ po ≠ 0x4949)) := by
        rcases hpo2 with h | h <;> simp [h] <;> omega
      unfold LibRaw.parseAdobeRAFMakernote
      simp only [hlen, and_self, if_true, hF]
      rw [hdir]
      simp only [hgood, if_false]
  · intro hin
    refine ⟨?_, fun n hn hn1000 => ?_⟩
    · simp only [shot_select_logic, hF, hv, hl, hz, ha, bind, Except.bind, pure, Except.pure,
        hc, hin, and_self, if_true, if_false]
    · have hdir : read_directory ⟨0x4d4d, data, PrivateMknLength + 1024⟩ PrivateMknLength 1 =
          .ok (po, u32 (u32 (v + 6) + u32 (l + 4)), n) := by
        simp only [read_directory, hpo, hv, hl, hz, ha, bind, Except.bind, pure, Except.pure,
          hc, hin, and_self, if_true, if_false, hn]
      unfold LibRaw.parseAdobeRAFMakernote
      simp only [hlen, and_self, if_true, hF]
      rw [hdir]
      simp only [hn1000, true_or, if_true]

/-- C21, on the sample block with two directories: with an alternate length of 256 the
alternate directory leaves the block of 82 bytes, the flag is cleared and the record of the
primary directory is decoded; with an alternate length of 8 and 1024 alternate entries the
decoder returns with nothing decoded. -/
theorem shot_select_fallback_witness :
    shot_select_logic ⟨0x4d4d, bytesOf (sampleBlock_shots [0, 0, 1, 0] [0, 0, 4, 0]), 82 + 1024⟩
      82 (max 0 (min 1 1)) = .ok (0x36, 0) ∧
    LibRaw.blank.parseAdobeRAFMakernote sampleDecls 1 82
        (bytesOf (sampleBlock_shots [0, 0, 0, 8] [0, 0, 4, 0])) =
      .done (LibRaw.blank.load_block (bytesOf (sampleBlock_shots [0, 0, 0, 8] [0, 0, 4, 0]))) :=
  ⟨((shot_select_fallback LibRaw.blank sampleDecls 1 82
      (bytesOf (sampleBlock_shots [0, 0, 1, 0] [0, 0, 4, 0])) 0x4949 0x30 16 256 256
      (by decide) (by decide) (by decide) (by decide) (by decide) (by decide) (by decide)
      (by decide) (by decide)).1 (by decide)).1,
   ((shot_select_fallback LibRaw.blank sampleDecls 1 82
      (bytesOf (sampleBlock_shots [0, 0, 0, 8] [0, 0, 4, 0])) 0x4949 0x30 16 8 8
      (by decide) (by decide) (by decide) (by decide) (by decide) (by decide) (by decide)
      (by decide) (by decide)).2 (by decide)).2 1024 (by decide) (by decide)⟩

/-! ## The record header -/

/-- C22. One iteration of the record loop, from any frame (whatever byte orders an earlier
record left behind) whose 4 header bytes lie inside the declared length: the result does
not depend on the byte orders on entry; the tag ID is `256 * byte0 + byte1` and the length
`256 * byte2 + byte3` of the header, that is big-endian; and the handler is entered at the
payload, 4 bytes on, with the buffer and the global byte order both set to the block's
declared order `PrivateOrder`. -/
theorem record_header_big_endian (d : Decls) (cx : Ctx) (fr : Frame) (o : Nat)
    (h : fr.posPrivateMknBuf + 4 ≤ fr.PrivateMknBuf._len)
    (hlen : fr.PrivateMknBuf._len < 2 ^ 32) :
    one_record d cx (fr.setOrders o) = one_record d cx fr ∧
    one_record d cx fr =
      (dispatch d cx
        (256 * (fr.PrivateMknBuf._data fr.posPrivateMknBuf).toNat +
          (fr.PrivateMknBuf._data (fr.posPrivateMknBuf + 1)).toNat)
        (256 * (fr.PrivateMknBuf._data (fr.posPrivateMknBuf + 2)).toNat +
          (fr.PrivateMknBuf._data (fr.posPrivateMknBuf + 3)).toNat)
        (fr.at_payload cx.PrivateOrder)).bind (fun f3 => .done { f3 with
          posPrivateMknBuf := u32 (f3.posPrivateMknBuf +
            (256 * (fr.PrivateMknBuf._data (fr.posPrivateMknBuf + 2)).toNat +
              (fr.PrivateMknBuf._data (fr.posPrivateMknBuf + 3)).toNat)) }) ∧
    (fr.at_payload cx.PrivateOrder).PrivateMknBuf._order = cx.PrivateOrder ∧
    (fr.at_payload cx.PrivateOrder).self.order = cx.PrivateOrder ∧
    (fr.at_payload cx.PrivateOrder).posPrivateMknBuf = fr.posPrivateMknBuf + 4 ∧
    (fr.at_payload cx.PrivateOrder).PrivateMknBuf._data = fr.PrivateMknBuf._data := by
  have hu2 : u32 (fr.posPrivateMknBuf + 2) = fr.posPrivateMknBuf + 2 := by
    unfold u32
    exact Nat.mod_eq_of_lt (by omega)
  have hu4 : u32 (fr.posPrivateMknBuf + 4) = fr.posPrivateMknBuf + 4 := by
    unfold u32
    exact Nat.mod_eq_of_lt (by omega)
  have h1 : (fr.setOrders 0x4d4d).PrivateMknBuf.sget2 (fr.setOrders 0x4d4d).posPrivateMknBuf =
      .ok (256 * (fr.PrivateMknBuf._data fr.posPrivateMknBuf).toNat +
        (fr.PrivateMknBuf._data (fr.posPrivateMknBuf + 1)).toNat) := by
    rw [sget2_in_range _ _ (by show fr.posPrivateMknBuf + 2 ≤ fr.PrivateMknBuf._len; omega)]
    simp [checked_buffer_t.peek2, libraw_sget2_static, Frame.setOrders,
      checked_buffer_t.set_order, checked_buffer_t.data]
  have h2 : (fr.setOrders 0x4d4d).PrivateMknBuf.sget2
      (u32 ((fr.setOrders 0x4d4d).posPrivateMknBuf + 2)) =
      .ok (256 * (fr.PrivateMknBuf._data (fr.posPrivateMknBuf + 2)).toNat +
        (fr.PrivateMknBuf._data (fr.posPrivateMknBuf + 3)).toNat) := by
    rw [show (fr.setOrders 0x4d4d).posPrivateMknBuf = fr.posPrivateMknBuf from rfl, hu2,
      sget2_in_range _ _ (by show fr.posPrivateMknBuf + 2 + 2 ≤ fr.PrivateMknBuf._len; omega)]
    simp [checked_buffer_t.peek2, libraw_sget2_static, Frame.setOrders,
      checked_buffer_t.set_order, checked_buffer_t.data, Nat.add_assoc]
  refine ⟨rfl, ?_, rfl, rfl, ?_, rfl⟩
  · unfold one_record
    simp only []
    rw [h1]
    simp only []
    rw [h2]
  · show u32 (fr.posPrivateMknBuf + 4) = fr.posPrivateMknBuf + 4
    exact hu4

/-- C22, on the second record of the sample block with the marker, reached with both byte
orders little-endian after the tag `0xc000` record: the header bytes `40 00 00 08` are
the tag `0x4000` and the length 8, and the payload is read little-endian, the declared
order of the block. -/
theorem record_header_big_endian_witness :
    ∃ f, one_record sampleDecls ⟨0x4949, false, .one, .one⟩
        { sampleFrame_marker with posPrivateMknBuf := 186 } = .done f ∧
      f.self.BlackLevel 0 = 4 ∧ f.self.BlackLevel 1 = 1001 ∧ f.posPrivateMknBuf = 198 :=
  ⟨_, ((record_header_big_endian sampleDecls ⟨0x4949, false, .one, .one⟩
      { sampleFrame_marker with posPrivateMknBuf := 186 } 0x4949 (by decide)
      (by decide)).2.1).trans rfl, by decide, by decide, by decide⟩

/-! ## The record loop of `parse_fuji` -/

@[simp] theorem LibRaw.read_WB_quad_order (s : LibRaw) (d : Decls) (ifp : datastream)
    (wb p : Nat) : (s.read_WB_quad d ifp wb p).order = s.order := by
  simp only [LibRaw.read_WB_quad, LibRaw.setWBC_order]

@[simp] theorem LibRaw.average_WB_quad_order (s : LibRaw) (d : Decls) (ifp : datastream)
    (wb p : Nat) : (s.average_WB_quad d ifp wb p).order = s.order := by
  simp only [LibRaw.average_WB_quad, LibRaw.average_WB_step, LibRaw.setWBC_order]

@[simp] theorem LibRaw.applyWBcorr_order (s : LibRaw) (d : Decls)
    (corr : Bool × WBcorr × WBcorr) (wb : Nat) : (s.applyWBcorr d corr wb).order = s.order := by
  unfold LibRaw.applyWBcorr
  split_ifs <;> simp only [LibRaw.setWBC_order]

@[simp] theorem LibRaw.pf_get_average_WB_order (s : LibRaw) (d : Decls)
    (corr : Bool × WBcorr × WBcorr) (ifp : datastream) (len wb save : Nat) :
    (s.pf_get_average_WB d corr ifp len wb save).order = s.order := by
  unfold LibRaw.pf_get_average_WB
  simp only [LibRaw.applyWBcorr_order]
  split_ifs <;> simp only [LibRaw.average_WB_quad_order, LibRaw.read_WB_quad_order]

theorem pf_custom_WB_loop_order (d : Decls) (corr : Bool × WBcorr × WBcorr) (ifp : datastream)
    (len : Nat) (nWBs : Int) (n wb_ind p : Nat) (s : LibRaw) :
    (pf_custom_WB_loop d corr ifp len nWBs n wb_ind p s).order = s.order := by
  induction n generalizing wb_ind p s with
  | zero => rfl
  | succ n ih =>
    unfold pf_custom_WB_loop
    simp only []
    rw [ih, LibRaw.applyWBcorr_order]
    split_ifs <;> simp only [LibRaw.average_WB_quad_order, LibRaw.read_WB_quad_order]

@[simp] theorem LibRaw.pf_handle_2f00_order (s : LibRaw) (d : Decls)
    (corr : Bool × WBcorr × WBcorr) (ifp : datastream) (len save : Nat) :
    (s.pf_handle_2f00 d corr ifp len save).order = s.order := by
  unfold LibRaw.pf_handle_2f00
  exact pf_custom_WB_loop_order _ _ _ _ _ _ _ _ _

@[simp] theorem LibRaw.pf_handle_4000_order (s : LibRaw) (d : Decls) (ifp : datastream)
    (len save : Nat) : (s.pf_handle_4000 d ifp len save).order = s.order := by
  unfold LibRaw.pf_handle_4000
  lift_lets
  intro setBL setCB s0 s1 s2
  have h2 : s2.order = s.order := by
    show (if s1.BlackLevel 0 = 8 then _ else s1).order = s.order
    split_ifs <;> rfl
  split_ifs
  · exact h2
  · exact h2
  · exact h2

@[simp] theorem LibRaw.pf_handle_c000_order (s : LibRaw) (d : Decls) (ifp : datastream)
    (len save : Nat) : (s.pf_handle_c000 d ifp len save).order = s.order := rfl

theorem pf_first_chain_order (d : Decls) (corr : Bool × WBcorr × WBcorr) (ifp : datastream)
    (tag len save : Nat) (st : FujiState) :
    (pf_first_chain d corr ifp tag len save st).self.order = st.self.order := by
  unfold pf_first_chain
  lift_lets
  intros
  by_cases h1 : tag = 0x0100
  · rw [if_pos h1]
  rw [if_neg h1]
  by_cases h2 : tag = 0x0110 ∧ st.raw_inset_present
  · rw [if_pos h2]
  rw [if_neg h2]
  by_cases h3 : tag = 0x0111 ∧ st.raw_inset_present
  · rw [if_pos h3]
  rw [if_neg h3]
  by_cases h4 : tag = 0x0115 ∧ st.raw_inset_present
  · rw [if_pos h4]
    split_ifs <;> rfl
  rw [if_neg h4]
  by_cases h5 : tag = 0x0121
  · rw [if_pos h5]
  rw [if_neg h5]
  by_cases h6 : tag = 0x0130
  · rw [if_pos h6]
  rw [if_neg h6]
  by_cases h7 : tag = 0x0131
  · rw [if_pos h7]
  rw [if_neg h7]
  by_cases h8 : tag = 0x2ff0
  · rw [if_pos h8]
    exact LibRaw.pf_get_average_WB_order _ _ _ _ _ _ _
  rw [if_neg h8]
  by_cases h9 : tag = 0x4000 ∧ (len = 8 ∨ len = 16)
  · rw [if_pos h9]
    exact LibRaw.pf_handle_4000_order _ _ _ _ _
  rw [if_neg h9]
  by_cases h10 : tag = 0x9200
  · rw [if_pos h10]
  rw [if_neg h10]
  by_cases h11 : tag = 0x9650
  · rw [if_pos h11]
  rw [if_neg h11]

theorem pf_second_chain_order (d : Decls) (corr : Bool × WBcorr × WBcorr) (ifp : datastream)
    (tag len save : Nat) (s : LibRaw) :
    (pf_second_chain d corr ifp tag len save s).order = s.order := by
  unfold pf_second_chain
  split_ifs
  · cases tag2wb_lookup (tag2wbtable d) tag with
    | none => rfl
    | some wb => exact LibRaw.pf_get_average_WB_order _ _ _ _ _ _ _
  · exact LibRaw.pf_handle_2f00_order _ _ _ _ _ _
  · rfl
  · rfl

theorem pf_one_record_order (d : Decls) (corr : Bool × WBcorr × WBcorr) (ifp : datastream)
    (st : FujiState) : (pf_one_record d corr ifp st).self.order = st.self.order := by
  unfold pf_one_record
  simp only []
  rw [pf_second_chain_order, pf_first_chain_order]

theorem pf_one_record_pos (d : Decls) (corr : Bool × WBcorr × WBcorr) (ifp : datastream)
    (st : FujiState) :
    (pf_one_record d corr ifp st).pos = st.pos + 4 + ifp.get2 st.self.order (st.pos + 2) := rfl

theorem pf_record_loop_succ (d : Decls) (corr : Bool × WBcorr × WBcorr) (ifp : datastream)
    (k : Nat) (st : FujiState) :
    pf_record_loop d corr ifp (k + 1) st =
      pf_one_record d corr ifp (pf_record_loop d corr ifp k st) := by
  induction k generalizing st with
  | zero => rfl
  | succ k ih =>
    rw [pf_record_loop, ih]
    rfl

theorem pf_record_loop_order (d : Decls) (corr : Bool × WBcorr × WBcorr) (ifp : datastream)
    (k : Nat) (st : FujiState) :
    (pf_record_loop d corr ifp k st).self.order = st.self.order := by
  induction k with
  | zero => rfl
  | succ k ih => rw [pf_record_loop_succ, pf_one_record_order, ih]

/-- C23. The record loop of `parse_fuji`, started in any state `st` (`parse_fuji` starts it
at the file position `offset + 4`, behind the entry count).  The header of record `k` is
read at the position `p_k` the loop has after `k` records, its length `len_k` at
`p_k + 2`, in the byte order the loop was entered with, which no handler changes; the
header ends at `s_k = p_k + 4`, and the next header is read at `s_k + len_k`, whatever the
handler of record `k` has read.  Hence `p_k` is the start position plus the sum of
`4 + len_i` over `i < k`. -/
theorem pf_record_positions (d : Decls) (corr : Bool × WBcorr × WBcorr) (ifp : datastream)
    (st : FujiState) (k : Nat) :
    (pf_record_loop d corr ifp k st).self.order = st.self.order ∧
    pf_record_loop d corr ifp (k + 1) st =
      pf_one_record d corr ifp (pf_record_loop d corr ifp k st) ∧
    (pf_record_loop d corr ifp (k + 1) st).pos =
      ((pf_record_loop d corr ifp k st).pos + 4) +
        ifp.get2 st.self.order ((pf_record_loop d corr ifp k st).pos + 2) ∧
    (pf_record_loop d corr ifp k st).pos =
      st.pos + (Finset.range k).sum (fun i =>
        4 + ifp.get2 st.self.order ((pf_record_loop d corr ifp i st).pos + 2)) := by
  have hstep : ∀ j, (pf_record_loop d corr ifp (j + 1) st).pos =
      ((pf_record_loop d corr ifp j st).pos + 4) +
        ifp.get2 st.self.order ((pf_record_loop d corr ifp j st).pos + 2) := by
    intro j
    rw [pf_record_loop_succ, pf_one_record_pos, pf_record_loop_order]
  refine ⟨pf_record_loop_order d corr ifp k st, pf_record_loop_succ d corr ifp k st, hstep k,
    ?_⟩
  induction k with
  | zero => simp [pf_record_loop]
  | succ k ih =>
    rw [hstep k, Finset.sum_range_succ, ih]
    omega

/-! ## The structured block on an unclassified payload -/

/-- The table decode behind a successful validation, with the Auto triple in front of the
table, the preset table and the scan for the end of the CCT section inside the declared
length: it ends normally, touches `icWBC` and `icWBCCTC` only, and entry `i` of
`Fuji_wb_list1` holds the triple at `posPrivateMknBuf + wb_section_offset + 6 * i`. -/
theorem decode_wb_table_values (d : Decls) (i34 : Bool) (f3 : Frame)
    (hnodup : d.Fuji_wb_list1.Nodup) (hlen : f3.PrivateMknBuf._len < 2 ^ 32)
    (hw6 : 6 ≤ f3.posPrivateMknBuf + f3.wb_section_offset)
    (hfit : f3.posPrivateMknBuf + f3.wb_section_offset + 6 * d.Fuji_wb_list1.length +
      0x30 + 0xc0 + 26 ≤ f3.PrivateMknBuf._len) :
    ∃ f, decode_wb_table d i34 f3 = .done f ∧ SameExceptWB f3.self f.self ∧
      ∀ i (hi : i < d.Fuji_wb_list1.length) c, c < 4 →
        f.self.icWBC (d.Fuji_wb_list1.get ⟨i, hi⟩) c =
          triple_entry f3.PrivateMknBuf
            (f3.posPrivateMknBuf + f3.wb_section_offset + 6 * i) c := by
  have hu : u32 (f3.posPrivateMknBuf + f3.wb_section_offset) =
      f3.posPrivateMknBuf + f3.wb_section_offset := by
    unfold u32
    exact Nat.mod_eq_of_lt (by omega)
  have hu6 : u32 (f3.posPrivateMknBuf + f3.wb_section_offset + (2 ^ 32 - 6)) =
      f3.posPrivateMknBuf + f3.wb_section_offset - 6 := by
    unfold u32
    omega
  have hstage : ∃ f1, (if f3.self.RAFDataVersion = 0 then
      read_WB_triple d.LIBRAW_WBI_Auto
        { f3 with posWB := u32 (f3.posPrivateMknBuf + f3.wb_section_offset + (2 ^ 32 - 6)) }
      else Outcome.done f3) = .done f1 ∧ f1.PrivateMknBuf = f3.PrivateMknBuf ∧
      f1.posPrivateMknBuf = f3.posPrivateMknBuf ∧
      f1.wb_section_offset = f3.wb_section_offset ∧ SameExceptWB f3.self f1.self := by
    by_cases hv : f3.self.RAFDataVersion = 0
    · rw [if_pos hv, hu6]
      obtain ⟨f1, e1, b1, q1, w1, -, s1, -, -⟩ := read_WB_triple_values d.LIBRAW_WBI_Auto
        { f3 with posWB := f3.posPrivateMknBuf + f3.wb_section_offset - 6 }
        (by show f3.posPrivateMknBuf + f3.wb_section_offset - 6 + 6 ≤ f3.PrivateMknBuf._len
            omega)
      exact ⟨f1, e1, b1, q1, w1, s1⟩
    · rw [if_neg hv]
      exact ⟨f3, rfl, rfl, rfl, rfl, rfl⟩
  obtain ⟨f1, e1, b1, q1, w1, s1⟩ := hstage
  obtain ⟨f4, e4, b4, -, -, p4, s4, -, val4, -⟩ := preset_loop_values d.Fuji_wb_list1
    { f1 with posWB := f3.posPrivateMknBuf + f3.wb_section_offset } hnodup
    (by show f3.posPrivateMknBuf + f3.wb_section_offset + 6 * d.Fuji_wb_list1.length ≤
          f1.PrivateMknBuf._len
        rw [b1]; omega)
  have b4' : f4.PrivateMknBuf = f3.PrivateMknBuf :=
    (show f4.PrivateMknBuf = f1.PrivateMknBuf from b4).trans b1
  have p4' : f4.posWB = f3.posPrivateMknBuf + f3.wb_section_offset +
      6 * d.Fuji_wb_list1.length := p4
  have s4' : SameExceptWB f1.self f4.self := s4
  have val4' : ∀ i (hi : i < d.Fuji_wb_list1.length) c, c < 4 →
      f4.self.icWBC (d.Fuji_wb_list1.get ⟨i, hi⟩) c =
        triple_entry f1.PrivateMknBuf
          (f3.posPrivateMknBuf + f3.wb_section_offset + 6 * i) c := val4
  obtain ⟨f5, e5, s5, wb5, -, -⟩ := cct_stage_done d i34 f4
    ((if i34 then f4.posWB + 0x30 else f4.posWB) + 0xc0) rfl (by rw [b4']; exact hlen)
    (by rw [b4', p4']; split_ifs <;> omega)
  refine ⟨f5, ?_, SameExceptWB_trans s1 (SameExceptWB_trans s4' s5), ?_⟩
  · unfold decode_wb_table
    have hp1 : u32 (f1.posPrivateMknBuf + f1.wb_section_offset) =
        f3.posPrivateMknBuf + f3.wb_section_offset := by rw [q1, w1, hu]
    rw [e1, Outcome.bind_done, hp1, e4, Outcome.bind_done]
    exact e5
  · intro i hi c hc
    rw [wb5, val4' i hi c hc, b1]

/-- An unclassified payload leaves the object as it was. -/
theorem guess_unclassified (F : Frame)
    (hb01 : F.self.sget2 (F.PrivateMknBuf.data F.posPrivateMknBuf) ≠ 0)
    (hun : F.self.sget2 (fun i => F.PrivateMknBuf.data F.posPrivateMknBuf (2 + i)) ≠ 0 ∨
      F.self.sget2 (F.PrivateMknBuf.data F.posPrivateMknBuf) = 10000) :
    F.guess = F := by
  unfold Frame.guess
  rw [guess_RAFDataGeneration_eq_rule]
  unfold RAFData_rule
  have h1 : ¬ (F.self.sget2 (F.PrivateMknBuf.data F.posPrivateMknBuf) ≠ 0 ∧
      F.self.sget2 (fun i => F.PrivateMknBuf.data F.posPrivateMknBuf (2 + i)) = 0 ∧
      F.self.sget2 (F.PrivateMknBuf.data F.posPrivateMknBuf) < 10000) := by
    rcases hun with h | h
    · exact fun hh => h hh.2.1
    · rw [h]; omega
  have h2 : ¬ (F.self.sget2 (F.PrivateMknBuf.data F.posPrivateMknBuf) > 10000 ∧
      F.self.sget2 (fun i => F.PrivateMknBuf.data F.posPrivateMknBuf (2 + i)) = 0) := by
    rcases hun with h | h
    · exact fun hh => h hh.2
    · rw [h]; omega
  rw [if_neg h1, if_neg h2, if_neg hb01]

/-- The structured block up to its test, for a payload that the classifier leaves
unclassified, an object without a RAFData version and with the model `X100F`, and a window
accepted at `0x1370`: the model chain supplies the offset and the test is true. -/
theorem locate_wb_table_unclassified (d : Decls) (PrivateTagBytes : Nat) (F : Frame)
    (hg : F.guess = F) (hv : F.self.RAFDataVersion = 0) (hm : F.self.model = cstr "X100F")
    (hWB : F.PrivateMknBuf.isWB (F.posPrivateMknBuf + 0x1370) = .ok true)
    (hscan : PrivateTagBytes - 16 + 15 ≤ F.PrivateMknBuf._len)
    (hin : F.posPrivateMknBuf + 0x1370 ≤ F.PrivateMknBuf._len)
    (hlen : F.PrivateMknBuf._len < 2 ^ 32) :
    ∃ f, locate_wb_table d PrivateTagBytes F = .done (f, is34 f.self, true) ∧
      f.PrivateMknBuf = F.PrivateMknBuf ∧ f.posPrivateMknBuf = F.posPrivateMknBuf ∧
      f.wb_section_offset = 0x1370 ∧ SameExceptWB F.self f.self := by
  obtain ⟨f2, e2, hb, hp, hw, hs, -⟩ := marker_scan_done d (PrivateTagBytes - 16)
    { F.guess with posWB := 0 }
    (by show 0 + (PrivateTagBytes - 16) + 15 ≤ F.PrivateMknBuf._len; omega)
  have hb' : f2.PrivateMknBuf = F.PrivateMknBuf := hb
  have hp' : f2.posPrivateMknBuf = F.posPrivateMknBuf := hp
  have hs' : SameExceptWB F.self f2.self := by
    have h0 : SameExceptWB F.guess.self f2.self := hs
    rwa [hg] at h0
  have hv2 : f2.self.RAFDataVersion = 0 := by rw [SameExceptWB_version hs', hv]
  have hm2 : f2.self.model = cstr "X100F" := by rw [SameExceptWB_model hs', hm]
  have hu : u32 (f2.posPrivateMknBuf + 0x1370) = F.posPrivateMknBuf + 0x1370 := by
    rw [hp']
    unfold u32
    exact Nat.mod_eq_of_lt (by omega)
  have hmk : model_keyed_offset f2 =
      pickWB f2.PrivateMknBuf f2.posPrivateMknBuf [0x1370] f2.wb_section_offset := by
    unfold model_keyed_offset
    simp only [hm2]
    rfl
  have hres : resolve_wb_section_offset f2 = .ok 0x1370 := by
    have hvk : version_keyed_offset f2 = none := by
      simp [version_keyed_offset, hv2]
    unfold resolve_wb_section_offset
    rw [hvk]
    simp only []
    rw [hmk]
    unfold pickWB
    rw [hu, hb', hWB]
  have hu8 : u32 (F.posPrivateMknBuf + 8) = F.posPrivateMknBuf + 8 := by
    unfold u32
    exact Nat.mod_eq_of_lt (by omega)
  have hck : F.PrivateMknBuf.checkoffset (F.posPrivateMknBuf + 8) = .ok () := by
    have : ¬ (F.posPrivateMknBuf + 8 > F.PrivateMknBuf._len) := by omega
    simp [checked_buffer_t.checkoffset, this]
  refine ⟨{ f2 with wb_section_offset := 0x1370 }, ?_, hb', hp', rfl, hs'⟩
  unfold locate_wb_table
  rw [hu8, hck]
  simp only []
  rw [e2, Outcome.bind_done]
  show (match resolve_wb_section_offset f2 with
    | .error _ => Outcome.raised f2.self
    | .ok wbo =>
      match andAlso (.ok (decide (wbo ≠ 0)))
          (f2.PrivateMknBuf.isWB (u32 (f2.posPrivateMknBuf + wbo))) with
      | .error _ => Outcome.raised f2.self
      | .ok valid => Outcome.done ({ f2 with wb_section_offset := wbo }, is34 f2.self, valid)) = _
  rw [hres]
  show (match andAlso (.ok (decide (0x1370 ≠ 0)))
          (f2.PrivateMknBuf.isWB (u32 (f2.posPrivateMknBuf + 0x1370))) with
      | .error _ => Outcome.raised f2.self
      | .ok valid => Outcome.done ({ f2 with wb_section_offset := 0x1370 }, is34 f2.self, valid)) = _
  rw [hu, hb', hWB]
  rfl

/-- The structured block on an unclassified payload, for an object without a RAFData
version and with the model `X100F`, and a window accepted at `0x1370`: the block ends
normally, the classification is as before and the preset table is decoded. -/
theorem structured_block_unclassified (d : Decls) (PrivateTagBytes : Nat) (F : Frame)
    (hg : F.guess = F) (hv : F.self.RAFDataVersion = 0) (hm : F.self.model = cstr "X100F")
    (hWB : F.PrivateMknBuf.isWB (F.posPrivateMknBuf + 0x1370) = .ok true)
    (hscan : PrivateTagBytes - 16 + 15 ≤ F.PrivateMknBuf._len)
    (hlen : F.PrivateMknBuf._len < 2 ^ 32) (hnodup : d.Fuji_wb_list1.Nodup)
    (hfit : F.posPrivateMknBuf + 0x1370 + 6 * d.Fuji_wb_list1.length + 0x30 + 0xc0 + 26 ≤
      F.PrivateMknBuf._len) :
    ∃ f, structured_block d PrivateTagBytes F = .done f ∧ SameExceptWB F.self f.self ∧
      ∀ i (hi : i < d.Fuji_wb_list1.length) c, c < 4 →
        f.self.icWBC (d.Fuji_wb_list1.get ⟨i, hi⟩) c =
          triple_entry F.PrivateMknBuf (F.posPrivateMknBuf + 0x1370 + 6 * i) c := by
  obtain ⟨f3, e3, b3, q3, w3, s3⟩ := locate_wb_table_unclassified d PrivateTagBytes F hg hv hm
    hWB hscan (by omega) hlen
  obtain ⟨f, e, s, val⟩ := decode_wb_table_values d (is34 f3.self) f3 hnodup
    (by rw [b3]; exact hlen) (by rw [q3, w3]; omega) (by rw [b3, q3, w3]; exact hfit)
  rw [b3, q3, w3] at val
  refine ⟨f, ?_, SameExceptWB_trans s3 s, val⟩
  unfold structured_block
  rw [e3, Outcome.bind_done]
  simp only [if_true]
  exact e

/-- C24, counterexample: the payload starts with `b01 = 1` and `b23 = 1`, which the
classifier leaves unclassified (the generation stays 0), yet the structured block runs: the
model chain supplies the offset `0x1370` for the model `X100F`, `isWB` accepts the window
there, and the preset table is decoded from the block (slot 9 gets green 100, red 200,
blue 300; slot 11 gets red 400). -/
theorem unclassified_block_is_decoded :
    ((sampleFrame_unclassified.setOrders 0x4949).guess.self.RAFDataGeneration = 0) ∧
    ((sampleFrame_unclassified.setOrders 0x4949).guess = sampleFrame_unclassified.setOrders 0x4949) ∧
    ∃ f, handle_c000 sampleDecls 8192 sampleFrame_unclassified = .done f ∧
      f.self.RAFDataGeneration = 0 ∧ f.self.icWBC 9 1 = 100 ∧ f.self.icWBC 9 0 = 200 ∧
      f.self.icWBC 9 2 = 300 ∧ f.self.icWBC 11 0 = 400 := by
  have hg : (sampleFrame_unclassified.setOrders 0x4949).guess =
      sampleFrame_unclassified.setOrders 0x4949 :=
    guess_unclassified _ (by decide) (Or.inl (by decide))
  obtain ⟨f, e, s, val⟩ := structured_block_unclassified sampleDecls 8192
    (sampleFrame_unclassified.setOrders 0x4949) hg rfl rfl (by decide) (by decide) (by decide)
    (by decide) (by decide)
  refine ⟨by rw [hg]; rfl, hg, f, ?_, ?_, ?_, ?_, ?_, ?_⟩
  · rw [handle_c000_structured _ _ _ (by decide)]
    exact e
  · rw [SameExceptWB_gen s]
    rfl
  · exact (val 0 (by decide) 1 (by decide)).trans (by decide)
  · exact (val 0 (by decide) 0 (by decide)).trans (by decide)
  · exact (val 0 (by decide) 2 (by decide)).trans (by decide)
  · exact (val 1 (by decide) 0 (by decide)).trans (by decide)

/-- C24, amended: the structured block of a tag `0xc000` record (length other than 4096)
is entered whatever the classifier says.  For a payload it leaves unclassified (`b01` not
zero, and `b23` not zero or `b01 = 10000`) the generation and the version stay as they
were, and the offset chain runs on them: with no RAFData version, the model `X100F` and a
window accepted by `isWB` at payload `+ 0x1370`, the decode ends normally and entry `i` of
`Fuji_wb_list1` receives the triple at `payload + 0x1370 + 6 * i`. -/
theorem unclassified_block_still_decodes (d : Decls) (PrivateTagBytes : Nat) (fr : Frame)
    (h4096 : PrivateTagBytes ≠ 4096)
    (hb01 : (fr.PrivateMknBuf.set_order 0x4949).peek2 fr.posPrivateMknBuf ≠ 0)
    (hun : (fr.PrivateMknBuf.set_order 0x4949).peek2 (fr.posPrivateMknBuf + 2) ≠ 0 ∨
      (fr.PrivateMknBuf.set_order 0x4949).peek2 fr.posPrivateMknBuf = 10000)
    (hv : fr.self.RAFDataVersion = 0) (hm : fr.self.model = cstr "X100F")
    (hWB : (fr.PrivateMknBuf.set_order 0x4949).isWB (fr.posPrivateMknBuf + 0x1370) = .ok true)
    (hscan : PrivateTagBytes - 16 + 15 ≤ fr.PrivateMknBuf._len)
    (hlen : fr.PrivateMknBuf._len < 2 ^ 32) (hnodup : d.Fuji_wb_list1.Nodup)
    (hfit : fr.posPrivateMknBuf + 0x1370 + 6 * d.Fuji_wb_list1.length + 0x30 + 0xc0 + 26 ≤
      fr.PrivateMknBuf._len) :
    (fr.setOrders 0x4949).guess = fr.setOrders 0x4949 ∧
    ∃ f, handle_c000 d PrivateTagBytes fr = .done f ∧
      f.self.RAFDataGeneration = fr.self.RAFDataGeneration ∧ f.self.RAFDataVersion = 0 ∧
      ∀ i (hi : i < d.Fuji_wb_list1.length),
        f.self.icWBC (d.Fuji_wb_list1.get ⟨i, hi⟩) 1 =
          (fr.PrivateMknBuf.set_order 0x4949).peek2 (fr.posPrivateMknBuf + 0x1370 + 6 * i) ∧
        f.self.icWBC (d.Fuji_wb_list1.get ⟨i, hi⟩) 3 =
          (fr.PrivateMknBuf.set_order 0x4949).peek2 (fr.posPrivateMknBuf + 0x1370 + 6 * i) ∧
        f.self.icWBC (d.Fuji_wb_list1.get ⟨i, hi⟩) 0 =
          (fr.PrivateMknBuf.set_order 0x4949).peek2 (fr.posPrivateMknBuf + 0x1370 + 6 * i + 2) ∧
        f.self.icWBC (d.Fuji_wb_list1.get ⟨i, hi⟩) 2 =
          (fr.PrivateMknBuf.set_order 0x4949).peek2
            (fr.posPrivateMknBuf + 0x1370 + 6 * i + 4) := by
  have e23 : (fun i => (fr.setOrders 0x4949).PrivateMknBuf.data
      (fr.setOrders 0x4949).posPrivateMknBuf (2 + i)) =
      (fr.PrivateMknBuf.set_order 0x4949).data (fr.posPrivateMknBuf + 2) := by
    funext i
    simp [checked_buffer_t.data, Frame.setOrders, checked_buffer_t.set_order, Nat.add_assoc]
  have hg : (fr.setOrders 0x4949).guess = fr.setOrders 0x4949 := by
    apply guess_unclassified (fr.setOrders 0x4949) hb01
    rcases hun with h | h
    · left
      rw [e23]
      exact h
    · right
      exact h
  obtain ⟨f, e, s, val⟩ := structured_block_unclassified d PrivateTagBytes
    (fr.setOrders 0x4949) hg hv hm hWB hscan hlen hnodup hfit
  refine ⟨hg, f, ?_, ?_, ?_, ?_⟩
  · rw [handle_c000_structured _ _ _ h4096]
    exact e
  · rw [SameExceptWB_gen s]
    rfl
  · rw [SameExceptWB_version s]
    exact hv
  · intro i hi
    refine ⟨?_, ?_, ?_, ?_⟩
    · rw [val i hi 1 (by omega)]
      rfl
    · rw [val i hi 3 (by omega)]
      rfl
    · rw [val i hi 0 (by omega)]
      rfl
    · rw [val i hi 2 (by omega)]
      rfl

/-- C24, on the sample frame with the unclassified payload: the decode ends normally, the
generation stays 0 and slot 9 holds the first triple of the table. -/
theorem unclassified_block_still_decodes_witness :
    ∃ f, handle_c000 sampleDecls 8192 sampleFrame_unclassified = .done f ∧
      f.self.RAFDataGeneration = 0 ∧ f.self.icWBC 9 1 = 100 ∧ f.self.icWBC 9 0 = 200 :=
  (unclassified_block_still_decodes sampleDecls 8192 sampleFrame_unclassified (by decide)
      (by decide) (Or.inl (by decide)) rfl rfl (by decide) (by decide) (by decide) (by decide)
      (by decide)).2.elim
    fun f hf => ⟨f, hf.1, hf.2.1, (hf.2.2.2 0 (by decide)).1.trans (by decide),
      (hf.2.2.2 0 (by decide)).2.2.1.trans (by decide)⟩

/-! ## The global byte order -/

theorem KeepsOrder_done (f : Frame) (ord : Nat) (h : f.self.order = ord) :
    KeepsOrder (.done f) ord := by
  intro g hg
  cases hg
  exact h

theorem KeepsOrder_raised (s : LibRaw) (ord : Nat) : KeepsOrder (.raised s) ord := by
  intro g hg
  cases hg

theorem KeepsOrder_bind (o : Outcome Frame) (g : Frame → Outcome Frame) (ord : Nat)
    (h1 : KeepsOrder o ord) (h2 : ∀ f, f.self.order = ord → KeepsOrder (g f) ord) :
    KeepsOrder (o.bind g) ord := by
  cases o with
  | raised s => exact KeepsOrder_raised s ord
  | done f => exact h2 f (h1 f rfl)

theorem KeepsOrder_assignRead (r : Except Exn Nat) (w : Nat → Frame → Frame) (fr : Frame)
    (ord : Nat) (hw : ∀ v, (w v fr).self.order = ord) :
    KeepsOrder (assignRead r w fr) ord := by
  cases r with
  | error e => exact KeepsOrder_raised _ ord
  | ok v => exact KeepsOrder_done _ ord (hw v)

theorem KeepsOrder_FORC4 (body : Nat → Frame → Outcome Frame) (fr : Frame) (ord : Nat)
    (hfr : fr.self.order = ord)
    (hb : ∀ c f, f.self.order = ord → KeepsOrder (body c f) ord) :
    KeepsOrder (FORC4 body fr) ord := by
  unfold FORC4
  exact KeepsOrder_bind _ _ ord (KeepsOrder_bind _ _ ord (KeepsOrder_bind _ _ ord
    (hb 0 fr hfr) (hb 1)) (hb 2)) (hb 3)

@[simp] theorem Frame.setWBC_self_order (fr : Frame) (s c : Nat) (v : Int) :
    (fr.setWBC s c v).self.order = fr.self.order := rfl

@[simp] theorem Frame.setCCT_self_order (fr : Frame) (s c : Nat) (v : Int) :
    (fr.setCCT s c v).self.order = fr.self.order := rfl

@[simp] theorem Frame.setBlackLevel_order (fr : Frame) (i v : Nat) :
    (fr.setBlackLevel i v).self.order = fr.self.order := rfl

@[simp] theorem Frame.setCamMul_order (fr : Frame) (c : Nat) (v : Int) :
    (fr.setCamMul c v).self.order = fr.self.order := rfl

@[simp] theorem Frame.applyWBcorr_self_order (d : Decls) (cx : Ctx) (wb : Nat) (fr : Frame) :
    (fr.applyWBcorr d cx wb).self.order = fr.self.order := by
  unfold Frame.applyWBcorr
  split_ifs <;> rfl

theorem get_average_WB_keeps (d : Decls) (cx : Ctx) (n wb : Nat) (fr : Frame) :
    KeepsOrder (get_average_WB d cx n wb fr) fr.self.order := by
  unfold get_average_WB
  refine KeepsOrder_bind _ _ _ (KeepsOrder_FORC4 _ _ _ rfl fun c f hf =>
    KeepsOrder_assignRead _ _ _ _ fun v => hf) fun f1 h1 => ?_
  refine KeepsOrder_bind _ _ _ ?_ fun f2 h2 => KeepsOrder_done _ _ (by
    rw [Frame.applyWBcorr_self_order]; exact h2)
  split_ifs
  · exact KeepsOrder_FORC4 _ _ _ h1 fun c f hf => KeepsOrder_assignRead _ _ _ _ fun v => hf
  · exact KeepsOrder_done _ _ h1

theorem custom_WB_record_keeps (d : Decls) (cx : Ctx) (n nWBs wb : Nat) (fr : Frame) :
    KeepsOrder (custom_WB_record d cx n nWBs wb fr) fr.self.order := by
  unfold custom_WB_record
  refine KeepsOrder_bind _ _ _ (KeepsOrder_FORC4 _ _ _ rfl fun c f hf =>
    KeepsOrder_assignRead _ _ _ _ fun v => hf) fun f1 h1 => ?_
  refine KeepsOrder_bind _ _ _ ?_ fun f2 h2 => KeepsOrder_done _ _ (by
    show (f2.applyWBcorr d cx wb).self.order = _
    rw [Frame.applyWBcorr_self_order]; exact h2)
  split_ifs
  · exact KeepsOrder_FORC4 _ _ _ h1 fun c f hf => KeepsOrder_assignRead _ _ _ _ fun v => hf
  · exact KeepsOrder_done _ _ h1

theorem custom_WB_loop_keeps (d : Decls) (cx : Ctx) (n nWBs k wb : Nat) (fr : Frame) :
    KeepsOrder (custom_WB_loop d cx n nWBs k wb fr) fr.self.order := by
  induction k generalizing wb fr with
  | zero => exact KeepsOrder_done _ _ rfl
  | succ k ih =>
    unfold custom_WB_loop
    exact KeepsOrder_bind _ _ _ (custom_WB_record_keeps d cx n nWBs wb fr) fun f hf => by
      rw [← hf]
      exact ih (wb + 1) f

theorem handle_2f00_keeps (d : Decls) (cx : Ctx) (n : Nat) (fr : Frame) :
    KeepsOrder (handle_2f00 d cx n fr) fr.self.order := by
  unfold handle_2f00
  cases fr.PrivateMknBuf.sget4 fr.posPrivateMknBuf with
  | error e => exact KeepsOrder_raised _ _
  | ok v => exact custom_WB_loop_keeps d cx n _ _ _ _

theorem handle_2ff0_keeps (d : Decls) (cx : Ctx) (n : Nat) (fr : Frame) :
    KeepsOrder (handle_2ff0 d cx n fr) fr.self.order := by
  unfold handle_2ff0
  exact KeepsOrder_bind _ _ _ (get_average_WB_keeps d cx n _ fr) fun f hf =>
    KeepsOrder_FORC4 _ _ _ hf fun c g hg => KeepsOrder_done _ _ hg

theorem handle_4000_keeps (d : Decls) (n : Nat) (fr : Frame) :
    KeepsOrder (handle_4000 d n fr) fr.self.order := by
  unfold handle_4000
  refine KeepsOrder_bind _ _ _ (KeepsOrder_FORC4 _ _ _ rfl fun c f hf =>
    KeepsOrder_assignRead _ _ _ _ fun v => hf) fun f1 h1 => ?_
  split_ifs
  · exact KeepsOrder_FORC4 _ _ _ h1 fun c f hf => KeepsOrder_assignRead _ _ _ _ fun v => hf
  · exact KeepsOrder_done _ _ h1

theorem handle_9650_keeps (fr : Frame) : KeepsOrder (handle_9650 fr) fr.self.order := by
  unfold handle_9650
  cases fr.PrivateMknBuf.sget2 fr.posPrivateMknBuf with
  | error e => exact KeepsOrder_raised _ _
  | ok a =>
    cases fr.PrivateMknBuf.sget2 (u32 (fr.posPrivateMknBuf + 2)) with
    | error e => exact KeepsOrder_raised _ _
    | ok b => exact KeepsOrder_done _ _ rfl

theorem read_WB_triple_keeps (wb : Nat) (fr : Frame) :
    KeepsOrder (read_WB_triple wb fr) fr.self.order := by
  unfold read_WB_triple
  exact KeepsOrder_bind _ _ _ (KeepsOrder_assignRead _ _ _ _ fun v => rfl)
    fun f1 h1 => KeepsOrder_bind _ _ _ (KeepsOrder_assignRead _ _ _ _ fun v => h1)
    fun f2 h2 => KeepsOrder_assignRead _ _ _ _ fun v => h2

theorem marker_scan_keeps (d : Decls) (n : Nat) (fr : Frame) :
    KeepsOrder (marker_scan d n fr) fr.self.order := by
  induction n generalizing fr with
  | zero => exact KeepsOrder_done _ _ rfl
  | succ n ih =>
    unfold marker_scan
    cases fr.PrivateMknBuf.checkoffset (fr.posWB + 12) with
    | error e => exact KeepsOrder_raised _ _
    | ok u =>
      simp only []
      cases andAlso (.ok (is_TSNERDTS fr.PrivateMknBuf fr.posWB))
          (test1 (fun g => decide (g > 125)) (fr.PrivateMknBuf.sget2 (fr.posWB + 10))) with
      | error e => exact KeepsOrder_raised _ _
      | ok found =>
        cases found with
        | true => exact read_WB_triple_keeps _ { fr with posWB := fr.posWB + 10 }
        | false => exact ih { fr with posWB := fr.posWB + 1 }

theorem preset_loop_keeps (l : List Nat) (fr : Frame) :
    KeepsOrder (preset_loop l fr) fr.self.order := by
  induction l generalizing fr with
  | nil => exact KeepsOrder_done _ _ rfl
  | cons wb rest ih =>
    unfold preset_loop
    exact KeepsOrder_bind _ _ _ (read_WB_triple_keeps wb fr) fun f hf => by
      rw [← hf]
      exact ih { f with posWB := f.posWB + 6 }

theorem cct_fill_keeps (d : Decls) (n iCCT : Nat) (fr : Frame) :
    KeepsOrder (cct_fill d n iCCT fr) fr.self.order := by
  induction n generalizing iCCT fr with
  | zero => exact KeepsOrder_done _ _ rfl
  | succ n ih =>
    unfold cct_fill
    exact KeepsOrder_bind _ _ _ (KeepsOrder_assignRead _ _ _ _ fun v => rfl)
      fun f1 h1 => KeepsOrder_bind _ _ _ (KeepsOrder_assignRead _ _ _ _ fun v => h1)
      fun f2 h2 => KeepsOrder_bind _ _ _ (KeepsOrder_assignRead _ _ _ _ fun v => h2)
      fun f3 h3 => by
        rw [← h3]
        exact ih (iCCT + 1) f3

theorem cct_stage_keeps (d : Decls) (is34 : Bool) (fr : Frame) :
    KeepsOrder (cct_stage d is34 fr) fr.self.order := by
  unfold cct_stage
  simp only []
  split
  · exact KeepsOrder_raised _ _
  · split
    · exact KeepsOrder_raised _ _
    · exact KeepsOrder_done _ _ rfl
    · exact cct_fill_keeps d 31 0 _

theorem decode_wb_table_keeps (d : Decls) (is34 : Bool) (fr : Frame) :
    KeepsOrder (decode_wb_table d is34 fr) fr.self.order := by
  unfold decode_wb_table
  refine KeepsOrder_bind _ _ _ ?_ fun f1 h1 => KeepsOrder_bind _ _ _ ?_ fun f2 h2 => ?_
  · split_ifs
    · exact read_WB_triple_keeps _ _
    · exact KeepsOrder_done _ _ rfl
  · rw [← h1]
    exact preset_loop_keeps _ { f1 with posWB := u32 (f1.posPrivateMknBuf + f1.wb_section_offset) }
  · rw [← h2]
    exact cct_stage_keeps d is34 f2

theorem guess_RAFDataGeneration_order (s : LibRaw) (p : Nat → UInt8) :
    (s.guess_RAFDataGeneration p).1.order = s.order := by
  rw [guess_RAFDataGeneration_eq_rule]
  unfold RAFData_rule
  split_ifs <;> rfl

theorem structured_block_keeps (d : Decls) (n : Nat) (fr : Frame) :
    KeepsOrder (structured_block d n fr) fr.self.order := by
  have hloc : ∀ r, locate_wb_table d n fr = .done r → r.1.self.order = fr.self.order := by
    intro r hr
    unfold locate_wb_table at hr
    cases hc : fr.PrivateMknBuf.checkoffset (u32 (fr.posPrivateMknBuf + 8)) with
    | error e => rw [hc] at hr; cases hr
    | ok u =>
      rw [hc] at hr
      simp only [] at hr
      have hm := marker_scan_keeps d (n - 16) { fr.guess with posWB := 0 }
      cases hs : marker_scan d (n - 16) { fr.guess with posWB := 0 } with
      | raised s => rw [hs] at hr; cases hr
      | done f2 =>
        rw [hs, Outcome.bind_done] at hr
        have h2 : f2.self.order = fr.self.order :=
          (hm f2 hs).trans (guess_RAFDataGeneration_order _ _)
        cases hres : resolve_wb_section_offset f2 with
        | error e => rw [hres] at hr; cases hr
        | ok wbo =>
          rw [hres] at hr
          simp only [] at hr
          cases hv : andAlso (.ok (decide (wbo ≠ 0)))
              (f2.PrivateMknBuf.isWB (u32 (f2.posPrivateMknBuf + wbo))) with
          | error e => rw [hv] at hr; cases hr
          | ok valid =>
            rw [hv] at hr
            cases hr
            exact h2
  unfold structured_block
  cases hl : locate_wb_table d n fr with
  | raised s => exact KeepsOrder_raised _ _
  | done r =>
    rw [Outcome.bind_done]
    have h := hloc r hl
    split_ifs
    · rw [← h]
      exact decode_wb_table_keeps d _ _
    · exact KeepsOrder_done _ _ h

theorem fixed4096_loop_keeps (d : Decls) (n iCCT : Nat) (fr : Frame) :
    KeepsOrder (fixed4096_loop d n iCCT fr) fr.self.order := by
  induction n generalizing iCCT fr with
  | zero => exact KeepsOrder_done _ _ rfl
  | succ n ih =>
    unfold fixed4096_loop
    rcases fixed4096_record_cases d iCCT fr with h | ⟨nWB, tWB, wb, h⟩
    · rw [h]
      exact KeepsOrder_raised _ _
    · rw [h, Outcome.bind_done]
      have h3 := (LibRaw.fixed4096_store_fields fr.self d nWB tWB wb iCCT).1
      have h4 := ih (fixed4096_store d nWB tWB wb iCCT { fr with posWB := fr.posWB + 24 }).2
        (fixed4096_store d nWB tWB wb iCCT { fr with posWB := fr.posWB + 24 }).1
      intro f hf
      exact (h4 f hf).trans h3

theorem handle_c000_keeps (d : Decls) (n : Nat) (fr : Frame) :
    KeepsOrder (handle_c000 d n fr) 0x4949 := by
  unfold handle_c000
  simp only []
  split_ifs
  · exact structured_block_keeps d n (fr.setOrders 0x4949)
  · exact fixed4096_loop_keeps d 42 0 _

theorem dispatch_keeps (d : Decls) (cx : Ctx) (tag n : Nat) (fr : Frame) :
    KeepsOrder (dispatch d cx tag n fr) (order_after_record fr.self.order tag n) := by
  unfold dispatch order_after_record
  by_cases h1 : tag ≥ 0x2000 ∧ tag ≤ 0x2410
  · have hn : ¬ (tag = 0xc000 ∧ n > 3 ∧ n < 10240000) := by omega
    rw [if_pos h1, if_neg hn]
    cases tag2wb_lookup (tag2wbtable d) tag with
    | none => exact KeepsOrder_done _ _ rfl
    | some wb => exact get_average_WB_keeps d cx n wb fr
  rw [if_neg h1]
  by_cases h2 : tag = 0x2f00
  · have hn : ¬ (tag = 0xc000 ∧ n > 3 ∧ n < 10240000) := by omega
    rw [if_pos h2, if_neg hn]
    exact handle_2f00_keeps d cx n fr
  rw [if_neg h2]
  by_cases h3 : tag = 0x2ff0
  · have hn : ¬ (tag = 0xc000 ∧ n > 3 ∧ n < 10240000) := by omega
    rw [if_pos h3, if_neg hn]
    exact handle_2ff0_keeps d cx n fr
  rw [if_neg h3]
  by_cases h4 : tag = 0x4000 ∧ (n = 8 ∨ n = 16)
  · have hn : ¬ (tag = 0xc000 ∧ n > 3 ∧ n < 10240000) := by omega
    rw [if_pos h4, if_neg hn]
    exact handle_4000_keeps d n fr
  rw [if_neg h4]
  by_cases h5 : tag = 0x9650
  · have hn : ¬ (tag = 0xc000 ∧ n > 3 ∧ n < 10240000) := by omega
    rw [if_pos h5, if_neg hn]
    exact handle_9650_keeps fr
  rw [if_neg h5]
  by_cases h6 : tag = 0xc000 ∧ n > 3 ∧ n < 10240000
  · rw [if_pos h6, if_pos h6]
    exact handle_c000_keeps d n fr
  · rw [if_neg h6, if_neg h6]
    exact KeepsOrder_done _ _ rfl

theorem Outcome.bind_assoc {α β γ : Type} (o : Outcome α) (f : α → Outcome β)
    (g : β → Outcome γ) : (o.bind f).bind g = o.bind fun a => (f a).bind g := by
  cases o <;> rfl

/-- The record loop over `n + 1` records is the loop over `n` records followed by one more
record. -/
theorem record_loop_snoc (d : Decls) (cx : Ctx) (n : Nat) (fr : Frame) :
    record_loop d cx (n + 1) fr = (record_loop d cx n fr).bind (one_record d cx) := by
  induction n generalizing fr with
  | zero =>
    simp only [record_loop, Outcome.bind_done]
    cases h : one_record d cx fr <;> rfl
  | succ n ih =>
    rw [record_loop, record_loop, Outcome.bind_assoc]
    congr 1
    funext f
    exact ih f

/-- A record that ends normally has a header that was read, and the byte order it ends with
is the one its payload was decoded in. -/
theorem one_record_order (d : Decls) (cx : Ctx) (fr f : Frame)
    (h : one_record d cx fr = .done f) :
    ∃ tag bytes,
      (fr.setOrders 0x4d4d).PrivateMknBuf.sget2 fr.posPrivateMknBuf = .ok tag ∧
      (fr.setOrders 0x4d4d).PrivateMknBuf.sget2 (u32 (fr.posPrivateMknBuf + 2)) = .ok bytes ∧
      f.self.order = order_after_record cx.PrivateOrder tag bytes := by
  have hpos : (fr.setOrders 0x4d4d).posPrivateMknBuf = fr.posPrivateMknBuf := rfl
  unfold one_record at h
  simp only [hpos] at h
  cases ht : (fr.setOrders 0x4d4d).PrivateMknBuf.sget2 fr.posPrivateMknBuf with
  | error e => rw [ht] at h; cases h
  | ok tag =>
    rw [ht] at h
    simp only [] at h
    cases hb : (fr.setOrders 0x4d4d).PrivateMknBuf.sget2 (u32 (fr.posPrivateMknBuf + 2)) with
    | error e => rw [hb] at h; cases h
    | ok bytes =>
      rw [hb] at h
      simp only [] at h
      refine ⟨tag, bytes, rfl, rfl, ?_⟩
      have hk := dispatch_keeps d cx tag bytes (fr.at_payload cx.PrivateOrder)
      cases hd : dispatch d cx tag bytes (fr.at_payload cx.PrivateOrder) with
      | raised s => rw [hd] at h; cases h
      | done f3 =>
        rw [hd, Outcome.bind_done] at h
        cases h
        exact hk f3 hd

/-- C29, counterexample: entered with the byte order `0x4949` and a block length of 0 (too
short to be decoded), `parseAdobeRAFMakernote` returns with the byte order `0x4d4d`; entered
with `0x4d4d` and the sample block of one `0x4000` record whose byte-order mark is `II`, it
returns with `0x4949`. -/
theorem adobe_order_is_not_restored :
    (({ LibRaw.blank with order := 0x4949 } : LibRaw).parseAdobeRAFMakernote sampleDecls 0 0
      (bytesOf [])).isRaised = false ∧
    (({ LibRaw.blank with order := 0x4949 } : LibRaw).parseAdobeRAFMakernote sampleDecls 0 0
      (bytesOf [])).final.order = 0x4d4d ∧
    (({ LibRaw.blank with order := 0x4d4d } : LibRaw).parseAdobeRAFMakernote sampleDecls 0 74
      (bytesOf sampleBlock_black)).isRaised = false ∧
    (({ LibRaw.blank with order := 0x4d4d } : LibRaw).parseAdobeRAFMakernote sampleDecls 0 74
      (bytesOf sampleBlock_black)).final.order = 0x4949 := by
  decide

/-- C29 (amended): `parseAdobeRAFMakernote` does not restore the global byte order; on a
normal return the order is determined by the block alone.  It is `0x4d4d` when no record was
iterated (block length outside `0x36 ≤ length < 10240000`, directory rejected, no entries).
Otherwise the loop reached the last record, whose header was read, and the order is the one
that record's payload was decoded in: `0x4949` for tag `0xc000` with `3 < length < 10240000`,
else the block's own `PrivateOrder`. -/
theorem adobe_order_on_return (self : LibRaw) (d : Decls) (shot_select PrivateMknLength : Nat)
    (data : Nat → UInt8)
    (h : (self.parseAdobeRAFMakernote d shot_select PrivateMknLength data).isRaised = false) :
    (¬ (PrivateMknLength ≥ 0x36 ∧ PrivateMknLength < 10240000) →
      (self.parseAdobeRAFMakernote d shot_select PrivateMknLength data).final.order = 0x4d4d) ∧
    ∀ PrivateOrder ifd_start PrivateEntries,
      PrivateMknLength ≥ 0x36 ∧ PrivateMknLength < 10240000 →
      read_directory ⟨0x4d4d, data, PrivateMknLength + 1024⟩ PrivateMknLength
        (max 0 (min shot_select 1)) = .ok (PrivateOrder, ifd_start, PrivateEntries) →
      ((PrivateEntries > 1000 ∨ (PrivateOrder ≠ 0x4d4d ∧ PrivateOrder ≠ 0x4949) ∨
          PrivateEntries = 0) →
        (self.parseAdobeRAFMakernote d shot_select PrivateMknLength data).final.order
          = 0x4d4d) ∧
      (¬ (PrivateEntries > 1000 ∨ (PrivateOrder ≠ 0x4d4d ∧ PrivateOrder ≠ 0x4949) ∨
          PrivateEntries = 0) →
        ∃ fk PrivateTagID PrivateTagBytes,
          record_loop d (block_ctx self PrivateOrder) (PrivateEntries - 1)
            (first_frame self PrivateMknLength data ifd_start) = .done fk ∧
          (fk.setOrders 0x4d4d).PrivateMknBuf.sget2 fk.posPrivateMknBuf = .ok PrivateTagID ∧
          (fk.setOrders 0x4d4d).PrivateMknBuf.sget2 (u32 (fk.posPrivateMknBuf + 2)) =
            .ok PrivateTagBytes ∧
          (self.parseAdobeRAFMakernote d shot_select PrivateMknLength data).final.order =
            order_after_record PrivateOrder PrivateTagID PrivateTagBytes) := by
  constructor
  · intro hlen
    unfold LibRaw.parseAdobeRAFMakernote
    simp only []
    rw [if_neg hlen]
    rfl
  · intro po ifd n hlen hdir
    unfold LibRaw.parseAdobeRAFMakernote at h ⊢
    simp only [] at h ⊢
    rw [if_pos hlen, hdir] at h ⊢
    simp only [] at h ⊢
    constructor
    · intro hno
      by_cases hrej : n > 1000 ∨ (po ≠ 0x4d4d ∧ po ≠ 0x4949)
      · rw [if_pos hrej]
        rfl
      · rw [if_neg hrej]
        have h0 : n = 0 := by tauto
        subst h0
        rfl
    · intro hyes
      have hrej : ¬ (n > 1000 ∨ (po ≠ 0x4d4d ∧ po ≠ 0x4949)) := by tauto
      have hn : n = (n - 1) + 1 := by
        have : n ≠ 0 := by tauto
        omega
      rw [if_neg hrej] at h ⊢
      generalize n - 1 = k at hn ⊢
      subst hn
      rw [record_loop_snoc] at h ⊢
      cases hk : record_loop d (block_ctx self po) k (first_frame self PrivateMknLength data ifd) with
      | raised s => rw [hk] at h; cases h
      | done fk =>
        rw [hk] at h
        rw [Outcome.bind_done] at h ⊢
        cases h1 : one_record d (block_ctx self po) fk with
        | raised s => rw [h1] at h; cases h
        | done f =>
          obtain ⟨tag, bytes, ht, hb, ho⟩ := one_record_order d (block_ctx self po) fk f h1
          exact ⟨fk, tag, bytes, rfl, ht, hb, ho⟩

/-- C29 (amended), on the sample block with the single record of tag `0x4000`, entered with
the byte order `0x4d4d`. -/
theorem adobe_order_on_return_witness :
    (({ LibRaw.blank with order := 0x4d4d } : LibRaw).parseAdobeRAFMakernote sampleDecls 0 74
      (bytesOf sampleBlock_black)).isRaised = false ∧
    ∃ fk PrivateTagID PrivateTagBytes,
      record_loop sampleDecls (block_ctx { LibRaw.blank with order := 0x4d4d } 0x4949) (1 - 1)
        (first_frame { LibRaw.blank with order := 0x4d4d } 74 (bytesOf sampleBlock_black) 0x36)
        = .done fk ∧
      (fk.setOrders 0x4d4d).PrivateMknBuf.sget2 fk.posPrivateMknBuf = .ok PrivateTagID ∧
      (fk.setOrders 0x4d4d).PrivateMknBuf.sget2 (u32 (fk.posPrivateMknBuf + 2)) =
        .ok PrivateTagBytes ∧
      (({ LibRaw.blank with order := 0x4d4d } : LibRaw).parseAdobeRAFMakernote sampleDecls 0 74
        (bytesOf sampleBlock_black)).final.order =
        order_after_record 0x4949 PrivateTagID PrivateTagBytes :=
  ⟨by decide,
   ((adobe_order_on_return { LibRaw.blank with order := 0x4d4d } sampleDecls 0 74
      (bytesOf sampleBlock_black) (by decide)).2 0x4949 0x36 1 (by decide) (by decide)).2
      (by decide)⟩

/-- C28, counterexample: a second run from the output of the first does not leave the
output as it was.  On the sample block (and the sample file) with one record of tag `0x9650`
and the values `a = 1`, `b = 1`, the exposure calibration shift is 1 after the first run and
2 after the second.  On the sample block of the model `S2Pro` with one Auto white-balance
record of four values 1000, the first run (entered with an empty model string) stores red
1000 and blue 1000; the second run finds the model the first run stored, applies the legacy
correction and stores red 900 and blue 884. -/
theorem second_run_changes_output :
    (LibRaw.blank.parseAdobeRAFMakernote sampleDecls 0 70
      (bytesOf sampleBlock_9650)).isRaised = false ∧
    ((LibRaw.blank.parseAdobeRAFMakernote sampleDecls 0 70
      (bytesOf sampleBlock_9650)).final.parseAdobeRAFMakernote sampleDecls 0 70
      (bytesOf sampleBlock_9650)).isRaised = false ∧
    (LibRaw.blank.parseAdobeRAFMakernote sampleDecls 0 70
      (bytesOf sampleBlock_9650)).final.ExposureCalibrationShift.exact = some 1 ∧
    ((LibRaw.blank.parseAdobeRAFMakernote sampleDecls 0 70
      (bytesOf sampleBlock_9650)).final.parseAdobeRAFMakernote sampleDecls 0 70
      (bytesOf sampleBlock_9650)).final.ExposureCalibrationShift.exact = some 2 ∧
    (({ LibRaw.blank with order := 0x4d4d } : LibRaw).parse_fuji sampleDecls sampleFile_9650
      0).ExposureCalibrationShift.exact = some 1 ∧
    ((({ LibRaw.blank with order := 0x4d4d } : LibRaw).parse_fuji sampleDecls sampleFile_9650
      0).parse_fuji sampleDecls sampleFile_9650 0).ExposureCalibrationShift.exact = some 2 ∧
    (LibRaw.blank.parseAdobeRAFMakernote sampleDecls_corr 0 74
      (bytesOf sampleBlock_legacy)).isRaised = false ∧
    ((LibRaw.blank.parseAdobeRAFMakernote sampleDecls_corr 0 74
      (bytesOf sampleBlock_legacy)).final.parseAdobeRAFMakernote sampleDecls_corr 0 74
      (bytesOf sampleBlock_legacy)).isRaised = false ∧
    (LibRaw.blank.parseAdobeRAFMakernote sampleDecls_corr 0 74
      (bytesOf sampleBlock_legacy)).final.icWBC 82 0 = 1000 ∧
    (LibRaw.blank.parseAdobeRAFMakernote sampleDecls_corr 0 74
      (bytesOf sampleBlock_legacy)).final.icWBC 82 2 = 1000 ∧
    ((LibRaw.blank.parseAdobeRAFMakernote sampleDecls_corr 0 74
      (bytesOf sampleBlock_legacy)).final.parseAdobeRAFMakernote sampleDecls_corr 0 74
      (bytesOf sampleBlock_legacy)).final.icWBC 82 0 = 900 ∧
    ((LibRaw.blank.parseAdobeRAFMakernote sampleDecls_corr 0 74
      (bytesOf sampleBlock_legacy)).final.parseAdobeRAFMakernote sampleDecls_corr 0 74
      (bytesOf sampleBlock_legacy)).final.icWBC 82 2 = 884 := by
  refine ⟨by decide, by decide, by decide, by decide, by decide, by decide, by decide,
    by decide, by decide, by decide, by decide, by decide⟩

/-- The handler of tag `0x9650` of `parseAdobeRAFMakernote` on a record whose two values were
read: the frame it ends with. -/
theorem handle_9650_done (fr : Frame) (h : (handle_9650 fr).isRaised = false) :
    ∃ a b, fr.PrivateMknBuf.sget2 fr.posPrivateMknBuf = .ok a ∧
      fr.PrivateMknBuf.sget2 (u32 (fr.posPrivateMknBuf + 2)) = .ok b ∧
      handle_9650 fr = .done { fr with self := { fr.self with
        ExpoMidPointShift := .quot (toShort a) (max 1 b),
        ExposureCalibrationShift :=
          .sum fr.self.ExposureCalibrationShift (.quot (toShort a) (max 1 b)) } } := by
  unfold handle_9650 at h ⊢
  cases ha : fr.PrivateMknBuf.sget2 fr.posPrivateMknBuf with
  | error e => rw [ha] at h; cases h
  | ok a =>
    cases hb : fr.PrivateMknBuf.sget2 (u32 (fr.posPrivateMknBuf + 2)) with
    | error e => rw [ha, hb] at h; cases h
    | ok b => exact ⟨a, b, rfl, rfl, rfl⟩

/-- The first chain of `parse_fuji` on a record of tag `0x9650`. -/
theorem pf_first_chain_9650 (d : Decls) (corr : Bool × WBcorr × WBcorr) (ifp : datastream)
    (len save : Nat) (st : FujiState) :
    pf_first_chain d corr ifp 0x9650 len save st =
      { st with self := { st.self with
          ExpoMidPointShift := .quot (toShort (ifp.get2 st.self.order save))
            (max 1 (ifp.get2 st.self.order (save + 2))),
          ExposureCalibrationShift := .sum st.self.ExposureCalibrationShift
            (.quot (toShort (ifp.get2 st.self.order save))
              (max 1 (ifp.get2 st.self.order (save + 2)))) } } := by
  unfold pf_first_chain
  simp

/-- The second chain of `parse_fuji` on a record of tag `0x9650` changes nothing. -/
theorem pf_second_chain_9650 (d : Decls) (corr : Bool × WBcorr × WBcorr) (ifp : datastream)
    (len save : Nat) (self : LibRaw) :
    pf_second_chain d corr ifp 0x9650 len save self = self := by
  unfold pf_second_chain
  simp

/-- The decision tree of the classifier run on its own output gives the same output. -/
theorem RAFData_rule_idem (b01 b23 : Nat) (w : Bool) (s : LibRaw) :
    RAFData_rule b01 b23 w (RAFData_rule b01 b23 w s).1 = RAFData_rule b01 b23 w s := by
  unfold RAFData_rule
  by_cases h1 : b01 ≠ 0 ∧ b23 = 0 ∧ b01 < 10000
  · simp only [if_pos h1]
  · simp only [if_neg h1]
    by_cases h2 : b01 > 10000 ∧ b23 = 0
    · simp only [if_pos h2]
    · simp only [if_neg h2]
      by_cases h3 : b01 = 0
      · simp only [if_pos h3]
        cases w <;> rfl
      · simp only [if_neg h3]

/-- C28 (amended): the decoders carry state from one run to the next, so a second run on the
same bytes need not leave the output as it was.  For the cited code this holds.  The handler
of tag `0x9650` of `parseAdobeRAFMakernote`, run again at the same record from the object it
left, ends normally again, stores the same `ExpoMidPointShift` and changes one field: it adds
that shift once more to `ExposureCalibrationShift`.  So does the record of tag `0x9650` in
`parse_fuji`.  `guess_RAFDataGeneration`, run again on the same bytes from its own output,
returns the same object and the same offset. -/
theorem second_run_of_9650_and_guess (d : Decls) (corr : Bool × WBcorr × WBcorr)
    (ifp : datastream) (st : FujiState) (fr : Frame) (s : LibRaw) (p : Nat → UInt8)
    (h1 : (handle_9650 fr).isRaised = false)
    (h2 : ifp.get2 st.self.order st.pos = 0x9650) :
    ((handle_9650 { fr with self := (handle_9650 fr).obj }).isRaised = false ∧
      (handle_9650 { fr with self := (handle_9650 fr).obj }).obj =
        { (handle_9650 fr).obj with
          ExposureCalibrationShift :=
            .sum (handle_9650 fr).obj.ExposureCalibrationShift
              (handle_9650 fr).obj.ExpoMidPointShift }) ∧
    pf_one_record d corr ifp { st with self := (pf_one_record d corr ifp st).self } =
      { pf_one_record d corr ifp st with
        self := { (pf_one_record d corr ifp st).self with
          ExposureCalibrationShift :=
            .sum (pf_one_record d corr ifp st).self.ExposureCalibrationShift
              (pf_one_record d corr ifp st).self.ExpoMidPointShift } } ∧
    (s.guess_RAFDataGeneration p).1.guess_RAFDataGeneration p = s.guess_RAFDataGeneration p := by
  refine ⟨?_, ?_, ?_⟩
  · obtain ⟨a, b, ha, hb, hd⟩ := handle_9650_done fr h1
    rw [hd]
    simp only [Outcome.obj]
    unfold handle_9650
    simp only [ha, hb]
    refine ⟨?_, ?_⟩ <;> first | rfl | trivial
  · have e1 : pf_one_record d corr ifp st =
        { st with
          self := { st.self with
            ExpoMidPointShift := .quot (toShort (ifp.get2 st.self.order (st.pos + 4)))
              (max 1 (ifp.get2 st.self.order (st.pos + 4 + 2))),
            ExposureCalibrationShift := .sum st.self.ExposureCalibrationShift
              (.quot (toShort (ifp.get2 st.self.order (st.pos + 4)))
                (max 1 (ifp.get2 st.self.order (st.pos + 4 + 2)))) },
          pos := st.pos + 4 + ifp.get2 st.self.order (st.pos + 2) } := by
      unfold pf_one_record
      simp only [h2, pf_first_chain_9650, pf_second_chain_9650]
    rw [e1]
    unfold pf_one_record
    simp only [h2, pf_first_chain_9650, pf_second_chain_9650]
  · rw [guess_RAFDataGeneration_eq_rule, guess_RAFDataGeneration_eq_rule]
    have ho : (RAFData_rule (s.sget2 p) (s.sget2 (fun i => p (2 + i)))
        (s.sget4 (fun i => p (4 + i)) == 0x53545257) s).1.order = s.order := by
      unfold RAFData_rule
      split_ifs <;> rfl
    have e2 : ∀ q, (RAFData_rule (s.sget2 p) (s.sget2 (fun i => p (2 + i)))
        (s.sget4 (fun i => p (4 + i)) == 0x53545257) s).1.sget2 q = s.sget2 q := by
      intro q
      have g : ∀ t : LibRaw, t.order = s.order → t.sget2 q = s.sget2 q := fun t ht => by
        unfold LibRaw.sget2
        rw [ht]
      exact g _ ho
    have e4 : ∀ q, (RAFData_rule (s.sget2 p) (s.sget2 (fun i => p (2 + i)))
        (s.sget4 (fun i => p (4 + i)) == 0x53545257) s).1.sget4 q = s.sget4 q := by
      intro q
      have g : ∀ t : LibRaw, t.order = s.order → t.sget4 q = s.sget4 q := fun t ht => by
        unfold LibRaw.sget4
        rw [ht]
      exact g _ ho
    rw [e2, e2, e4]
    exact RAFData_rule_idem _ _ _ s

/-- C28 (amended), on the sample frame and the sample file with one record of tag `0x9650`. -/
theorem second_run_of_9650_and_guess_witness :
    (handle_9650 sampleFrame_9650).isRaised = false ∧
    sampleFile_9650.get2 0x4d4d 4 = 0x9650 ∧
    (handle_9650 { sampleFrame_9650 with self := (handle_9650 sampleFrame_9650).obj }).obj
      = { (handle_9650 sampleFrame_9650).obj with
          ExposureCalibrationShift :=
            .sum (handle_9650 sampleFrame_9650).obj.ExposureCalibrationShift
              (handle_9650 sampleFrame_9650).obj.ExpoMidPointShift } ∧
    (handle_9650 sampleFrame_9650).obj.ExposureCalibrationShift.exact = some 1 ∧
    (handle_9650 { sampleFrame_9650 with
      self := (handle_9650 sampleFrame_9650).obj }).obj.ExposureCalibrationShift.exact
      = some 2 :=
  ⟨by decide, by decide,
   (second_run_of_9650_and_guess sampleDecls (false, .one, .one) sampleFile_9650
      ⟨{ LibRaw.blank with order := 0x4d4d }, 4, false⟩ sampleFrame_9650 LibRaw.blank
      (bytesOf []) (by decide) (by decide)).1.2,
   by decide, by decide⟩

/-! ## Termination -/

/-- A pass of the thumbnail loop that continues moves the file position forward by at least
two bytes. -/
theorem APP_body_next (ifp : datastream) (s : LibRaw) (p q : Nat)
    (h : APP_body ifp s p = .next q) : p + 2 ≤ q := by
  unfold APP_body at h
  simp only [] at h
  split_ifs at h
  cases h
  omega

/-- A pass of the thumbnail loop at a tag other than `0xFFE1` and `0xFFE2` is a `break`. -/
theorem APP_body_stop (ifp : datastream) (s : LibRaw) (p : Nat)
    (h : ifp.get2 s.order p ≠ 0xFFE1 ∧ ifp.get2 s.order p ≠ 0xFFE2) :
    APP_body ifp s p = .stop s := by
  unfold APP_body
  simp only []
  rw [if_pos h]

/-- The 16-bit value that `get2` yields in the order `0x4a4a` when the read does not lie
inside the file is not an APP tag: its low byte is `0xff`. -/
theorem get2_at_eof (ifp : datastream) (heof : ifp.at_eof_ff) (p : Nat)
    (hp : ifp.size < p + 2) :
    ifp.get2 0x4a4a p ≠ 0xFFE1 ∧ ifp.get2 0x4a4a p ≠ 0xFFE2 := by
  have h1 : ifp.bytes (p + 1) = 0xff := heof (p + 1) (by omega)
  have h0 := UInt8.toNat_lt_size (ifp.bytes (p + 0))
  have e : (0xff : UInt8).toNat = 255 := by decide
  have h2 : ifp.get2 0x4a4a p = 256 * (ifp.bytes (p + 0)).toNat + 255 := by
    unfold datastream.get2 libraw_sget2_static
    rw [if_neg (by decide)]
    show 256 * (ifp.bytes (p + 0)).toNat + (ifp.bytes (p + 1)).toNat = _
    rw [h1, e]
  rw [h2]
  constructor <;> omega

/-- With enough passes the thumbnail loop ends: the position moves forward by at least two
bytes per pass and a read that leaves the file is a `break`. -/
theorem APP_loop_ends (ifp : datastream) (heof : ifp.at_eof_ff) (s : LibRaw)
    (hs : s.order = 0x4a4a) (fuel p : Nat) (h : ifp.size < p + 2 * fuel + 1) :
    ∃ r, APP_loop ifp (fuel + 1) s p = some r := by
  induction fuel generalizing p with
  | zero =>
    have hstop := APP_body_stop ifp s p (by rw [hs]; exact get2_at_eof ifp heof p (by omega))
    exact ⟨s, by rw [APP_loop, hstop]⟩
  | succ f ih =>
    rw [APP_loop]
    cases hb : APP_body ifp s p with
    | stop t => exact ⟨t, rfl⟩
    | next q =>
      have hq := APP_body_next ifp s p q hb
      exact ih q (by omega)

/-- More passes than needed do not change the result of the thumbnail loop. -/
theorem APP_loop_mono (ifp : datastream) (s r : LibRaw) (fuel k p : Nat)
    (h : APP_loop ifp fuel s p = some r) : APP_loop ifp (fuel + k) s p = some r := by
  induction fuel generalizing p with
  | zero => cases h
  | succ f ih =>
    have e : f + 1 + k = (f + k) + 1 := by omega
    rw [e, APP_loop]
    rw [APP_loop] at h
    cases hb : APP_body ifp s p with
    | stop t => rw [hb] at h; exact h
    | next q => rw [hb] at h; exact ih q h

/-- C30: the three decoders terminate on a finite input.  The record loop of
`parseAdobeRAFMakernote` runs `PrivateEntries` passes and only when the count is at most 1000
(a larger count returns before the loop); the record loop of `parse_fuji` is not entered for
a count above 255.  In the loop of `parse_fuji_thumbnail` a pass that continues moves the
file position forward by at least two bytes, a tag other than `0xFFE1` and `0xFFE2` ends the
loop, the value read where the file has ended is such a tag, and `size / 2 + 1` passes are
enough for the function to return, with the same result for every larger number. -/
theorem decoders_terminate (self : LibRaw) (d : Decls) (shot_select PrivateMknLength : Nat)
    (data : Nat → UInt8) (ifp : datastream) (offset : Nat) (heof : ifp.at_eof_ff) :
    (∀ PrivateOrder ifd_start PrivateEntries,
      PrivateMknLength ≥ 0x36 ∧ PrivateMknLength < 10240000 →
      read_directory ⟨0x4d4d, data, PrivateMknLength + 1024⟩ PrivateMknLength
        (max 0 (min shot_select 1)) = .ok (PrivateOrder, ifd_start, PrivateEntries) →
      (1000 < PrivateEntries →
        self.parseAdobeRAFMakernote d shot_select PrivateMknLength data =
          .done (self.load_block data)) ∧
      (PrivateEntries ≤ 1000 → PrivateOrder = 0x4d4d ∨ PrivateOrder = 0x4949 →
        (self.parseAdobeRAFMakernote d shot_select PrivateMknLength data).final =
          (record_loop d (block_ctx self PrivateOrder) PrivateEntries
            (first_frame self PrivateMknLength data ifd_start)).obj)) ∧
    (255 < ifp.get4 self.order offset → self.parse_fuji d ifp offset = self) ∧
    (∀ s p q, APP_body ifp s p = .next q → p + 2 ≤ q) ∧
    (∀ s p, ifp.get2 s.order p ≠ 0xFFE1 ∧ ifp.get2 s.order p ≠ 0xFFE2 →
      APP_body ifp s p = .stop s) ∧
    (∀ p, ifp.size < p + 2 →
      ifp.get2 0x4a4a p ≠ 0xFFE1 ∧ ifp.get2 0x4a4a p ≠ 0xFFE2) ∧
    ∃ r, ∀ fuel, ifp.size / 2 + 1 ≤ fuel →
      self.parse_fuji_thumbnail ifp offset fuel = some r := by
  refine ⟨fun po ifd n hlen hdir => ⟨fun hn => ?_, fun hn hpo => ?_⟩, fun h => ?_,
    fun s p q h => APP_body_next ifp s p q h, fun s p h => APP_body_stop ifp s p h,
    fun p hp => get2_at_eof ifp heof p hp, ?_⟩
  · unfold LibRaw.parseAdobeRAFMakernote
    simp only []
    rw [if_pos hlen, hdir]
    simp only []
    rw [if_pos (Or.inl hn)]
  · have hgood : ¬ (n > 1000 ∨ (po ≠ 0x4d4d ∧ po ≠ 0x4949)) := by
      rcases hpo with h | h <;> simp [h] <;> omega
    unfold LibRaw.parseAdobeRAFMakernote
    simp only []
    rw [if_pos hlen, hdir]
    simp only []
    rw [if_neg hgood]
    cases record_loop d (block_ctx self po) n (first_frame self PrivateMknLength data ifd) <;> rfl
  · unfold LibRaw.parse_fuji
    simp only []
    rw [if_pos h]
  · by_cases hsoi : ifp.get2 0x4a4a offset = 0xFFD8
    · obtain ⟨r, hr⟩ := APP_loop_ends ifp heof { self with order := 0x4a4a } rfl
        (ifp.size / 2) (offset + 2) (by omega)
      refine ⟨{ r with order := self.order }, fun fuel hf => ?_⟩
      have e : fuel = (ifp.size / 2 + 1) + (fuel - (ifp.size / 2 + 1)) := by omega
      unfold LibRaw.parse_fuji_thumbnail
      simp only []
      rw [if_pos hsoi, e, APP_loop_mono ifp _ r _ _ _ hr]
      rfl
    · refine ⟨{ ({ self with order := 0x4a4a } : LibRaw) with order := self.order },
        fun fuel _ => ?_⟩
      unfold LibRaw.parse_fuji_thumbnail
      simp only []
      rw [if_neg hsoi]
      rfl

/-- C30, on the sample thumbnail that ends inside a chain of APP segments: the function
returns with six passes or more; two passes are not enough and three are (two segments and
the read behind the file). -/
theorem decoders_terminate_witness :
    sampleFile_thumb_cut.at_eof_ff ∧
    (∃ r, ∀ fuel, sampleFile_thumb_cut.size / 2 + 1 ≤ fuel →
      LibRaw.blank.parse_fuji_thumbnail sampleFile_thumb_cut 0 fuel = some r) ∧
    (LibRaw.blank.parse_fuji_thumbnail sampleFile_thumb_cut 0 2).isSome = false ∧
    (LibRaw.blank.parse_fuji_thumbnail sampleFile_thumb_cut 0 3).isSome = true :=
  ⟨fun p hp => by
      have h : ¬ p < 10 := by
        have : sampleFile_thumb_cut.size = 10 := rfl
        omega
      simp only [sampleFile_thumb_cut, if_neg h],
   (decoders_terminate LibRaw.blank sampleDecls 0 0 (bytesOf []) sampleFile_thumb_cut 0
      (fun p hp => by
        have h : ¬ p < 10 := by
          have : sampleFile_thumb_cut.size = 10 := rfl
          omega
        simp only [sampleFile_thumb_cut, if_neg h])).2.2.2.2.2,
   by decide, by decide⟩

/-- C31, the two handlers of tag `0x2f00` on the same payload (count 1, one record of four
values 1000) with the legacy correction of the S2Pro family active and `Custom1 = 90`.
`parse_fuji` decodes the record into slot 90 and applies the correction to slot
`Custom1 + wb_ind = 180`: slot 90 keeps the uncorrected red and blue 1000, and slot 180,
which held 500, gets red 450 and blue 442.  `parseAdobeRAFMakernote` corrects the slot it
has decoded (red 900, blue 884) and leaves slot 180 as it was. -/
theorem pf_handle_2f00_corrects_other_slot :
    WBcorr_setup (cstr "S2Pro") = (true, .R_S2Pro, .B_S2Pro) ∧
    sampleDecls_corr.LIBRAW_WBI_Custom1 = 90 ∧
    (sampleObject_slot180.pf_handle_2f00 sampleDecls_corr (WBcorr_setup (cstr "S2Pro"))
      (sampleFile_values sampleValues_custom) 12 0).icWBC 90 0 = 1000 ∧
    (sampleObject_slot180.pf_handle_2f00 sampleDecls_corr (WBcorr_setup (cstr "S2Pro"))
      (sampleFile_values sampleValues_custom) 12 0).icWBC 90 2 = 1000 ∧
    (sampleObject_slot180.pf_handle_2f00 sampleDecls_corr (WBcorr_setup (cstr "S2Pro"))
      (sampleFile_values sampleValues_custom) 12 0).icWBC 180 0 = 450 ∧
    (sampleObject_slot180.pf_handle_2f00 sampleDecls_corr (WBcorr_setup (cstr "S2Pro"))
      (sampleFile_values sampleValues_custom) 12 0).icWBC 180 2 = 442 ∧
    (handle_2f00 sampleDecls_corr ⟨0x4949, true, .R_S2Pro, .B_S2Pro⟩ 12
      { sampleFrame_values sampleValues_custom with self := sampleObject_slot180 }).isRaised
        = false ∧
    (handle_2f00 sampleDecls_corr ⟨0x4949, true, .R_S2Pro, .B_S2Pro⟩ 12
      { sampleFrame_values sampleValues_custom with self := sampleObject_slot180 }).obj.icWBC
        90 0 = 900 ∧
    (handle_2f00 sampleDecls_corr ⟨0x4949, true, .R_S2Pro, .B_S2Pro⟩ 12
      { sampleFrame_values sampleValues_custom with self := sampleObject_slot180 }).obj.icWBC
        90 2 = 884 ∧
    (handle_2f00 sampleDecls_corr ⟨0x4949, true, .R_S2Pro, .B_S2Pro⟩ 12
      { sampleFrame_values sampleValues_custom with self := sampleObject_slot180 }).obj.icWBC
        180 0 = 500 := by
  refine ⟨by decide, by decide, by decide, by decide, by decide, by decide, by decide,
    by decide, by decide, by decide⟩

/-- The handler of tag `0x4000` of `parseAdobeRAFMakernote` on a record of 16 bytes inside
the declared length: the frame it ends with. -/
theorem handle_4000_done16 (d : Decls) (fr : Frame) (hlen : fr.PrivateMknBuf._len < 2 ^ 32)
    (hin : fr.posPrivateMknBuf + 16 ≤ fr.PrivateMknBuf._len) :
    handle_4000 d 16 fr =
      .done (
        let x : Nat → Nat := fun k => fr.PrivateMknBuf.peek2 (fr.posPrivateMknBuf + 2 * k)
        let f1 := ((((fr.setBlackLevel 0 8).setBlackLevel (d.GRGB_2_RGBG 0 + 1)
          (x 0)).setBlackLevel (d.GRGB_2_RGBG 1 + 1) (x 1)).setBlackLevel (d.GRGB_2_RGBG 2 + 1)
          (x 2)).setBlackLevel (d.GRGB_2_RGBG 3 + 1) (x 3)
        (((f1.setBlackLevel (d.GRGB_2_RGBG 0 + 5) (x 4)).setBlackLevel (d.GRGB_2_RGBG 1 + 5)
          (x 5)).setBlackLevel (d.GRGB_2_RGBG 2 + 5) (x 6)).setBlackLevel (d.GRGB_2_RGBG 3 + 5)
          (x 7)) := by
  have u : ∀ n, n + 2 ≤ fr.PrivateMknBuf._len → u32 n = n := fun n hn => by
    unfold u32; exact Nat.mod_eq_of_lt (by omega)
  have h1 := FORC4_reads (fr.setBlackLevel 0 (16 / 2))
    (fun c f => f.PrivateMknBuf.sget2 (u32 (f.posPrivateMknBuf + 2 * c)))
    (fun c v g => g.setBlackLevel (d.GRGB_2_RGBG c + 1) v)
    (fun k => fr.PrivateMknBuf.peek2 (fr.posPrivateMknBuf + 2 * k))
    (fun c v g => ⟨rfl, rfl, rfl⟩)
    (fun c g hc hb hp _ => by
      have hb2 : g.PrivateMknBuf = fr.PrivateMknBuf := hb
      have hp2 : g.posPrivateMknBuf = fr.posPrivateMknBuf := hp
      simp only [hb2, hp2]
      rw [u _ (by omega)]
      exact sget2_in_range _ _ (by omega))
  have h2 := FORC4_reads
    ((((((fr.setBlackLevel 0 (16 / 2)).setBlackLevel (d.GRGB_2_RGBG 0 + 1)
      (fr.PrivateMknBuf.peek2 (fr.posPrivateMknBuf + 2 * 0))).setBlackLevel (d.GRGB_2_RGBG 1 + 1)
      (fr.PrivateMknBuf.peek2 (fr.posPrivateMknBuf + 2 * 1))).setBlackLevel (d.GRGB_2_RGBG 2 + 1)
      (fr.PrivateMknBuf.peek2 (fr.posPrivateMknBuf + 2 * 2))).setBlackLevel (d.GRGB_2_RGBG 3 + 1)
      (fr.PrivateMknBuf.peek2 (fr.posPrivateMknBuf + 2 * 3))))
    (fun c f => f.PrivateMknBuf.sget2 (u32 (f.posPrivateMknBuf + 2 * c + 8)))
    (fun c v g => g.setBlackLevel (d.GRGB_2_RGBG c + 5) v)
    (fun k => fr.PrivateMknBuf.peek2 (fr.posPrivateMknBuf + 2 * (k + 4)))
    (fun c v g => ⟨rfl, rfl, rfl⟩)
    (fun c g hc hb hp _ => by
      have hb2 : g.PrivateMknBuf = fr.PrivateMknBuf := hb
      have hp2 : g.posPrivateMknBuf = fr.posPrivateMknBuf := hp
      simp only [hb2, hp2]
      rw [u _ (by omega)]
      have e : fr.posPrivateMknBuf + 2 * c + 8 = fr.posPrivateMknBuf + 2 * (c + 4) := by omega
      rw [e]
      exact sget2_in_range _ _ (by omega))
  unfold handle_4000
  simp only []
  rw [h1, Outcome.bind_done]
  have h8 : (((((fr.setBlackLevel 0 (16 / 2)).setBlackLevel (d.GRGB_2_RGBG 0 + 1)
      (fr.PrivateMknBuf.peek2 (fr.posPrivateMknBuf + 2 * 0))).setBlackLevel (d.GRGB_2_RGBG 1 + 1)
      (fr.PrivateMknBuf.peek2 (fr.posPrivateMknBuf + 2 * 1))).setBlackLevel (d.GRGB_2_RGBG 2 + 1)
      (fr.PrivateMknBuf.peek2 (fr.posPrivateMknBuf + 2 * 2))).setBlackLevel (d.GRGB_2_RGBG 3 + 1)
      (fr.PrivateMknBuf.peek2 (fr.posPrivateMknBuf + 2 * 3))).self.BlackLevel 0 = 8 := by
    simp [Frame.setBlackLevel]
  rw [if_pos h8, h2]

/-- The `BlackLevel` entries that the handler of tag `0x4000` of `parse_fuji` stores for a
record of 16 bytes. -/
theorem pf_handle_4000_BlackLevel16 (d : Decls) (self : LibRaw) (ifp : datastream) (save : Nat)
    (hG : d.GRGB_is_permutation) :
    (self.pf_handle_4000 d ifp 16 save).BlackLevel 0 = 8 ∧
    ∀ c, c < 4 →
      (self.pf_handle_4000 d ifp 16 save).BlackLevel (d.GRGB_2_RGBG c + 1) =
        ifp.get2 self.order (save + 2 * c) ∧
      (self.pf_handle_4000 d ifp 16 save).BlackLevel (d.GRGB_2_RGBG c + 5) =
        ifp.get2 self.order (save + 2 * c + 8) := by
  obtain ⟨hlt, hinj⟩ := hG
  have l0 := hlt 0 (by omega)
  have l1 := hlt 1 (by omega)
  have l2 := hlt 2 (by omega)
  have l3 := hlt 3 (by omega)
  have n01 : d.GRGB_2_RGBG 0 ≠ d.GRGB_2_RGBG 1 := fun h => by
    have := hinj 0 1 (by omega) (by omega) h; omega
  have n02 : d.GRGB_2_RGBG 0 ≠ d.GRGB_2_RGBG 2 := fun h => by
    have := hinj 0 2 (by omega) (by omega) h; omega
  have n03 : d.GRGB_2_RGBG 0 ≠ d.GRGB_2_RGBG 3 := fun h => by
    have := hinj 0 3 (by omega) (by omega) h; omega
  have n12 : d.GRGB_2_RGBG 1 ≠ d.GRGB_2_RGBG 2 := fun h => by
    have := hinj 1 2 (by omega) (by omega) h; omega
  have n13 : d.GRGB_2_RGBG 1 ≠ d.GRGB_2_RGBG 3 := fun h => by
    have := hinj 1 3 (by omega) (by omega) h; omega
  have n23 : d.GRGB_2_RGBG 2 ≠ d.GRGB_2_RGBG 3 := fun h => by
    have := hinj 2 3 (by omega) (by omega) h; omega
  have hBL : (self.pf_handle_4000 d ifp 16 save).BlackLevel = fun k =>
      if k = d.GRGB_2_RGBG 3 + 5 then ifp.get2 self.order (save + 14)
      else if k = d.GRGB_2_RGBG 2 + 5 then ifp.get2 self.order (save + 12)
      else if k = d.GRGB_2_RGBG 1 + 5 then ifp.get2 self.order (save + 10)
      else if k = d.GRGB_2_RGBG 0 + 5 then ifp.get2 self.order (save + 8)
      else if k = d.GRGB_2_RGBG 3 + 1 then ifp.get2 self.order (save + 6)
      else if k = d.GRGB_2_RGBG 2 + 1 then ifp.get2 self.order (save + 4)
      else if k = d.GRGB_2_RGBG 1 + 1 then ifp.get2 self.order (save + 2)
      else if k = d.GRGB_2_RGBG 0 + 1 then ifp.get2 self.order save
      else if k = 0 then 8 else self.BlackLevel k := by
    unfold LibRaw.pf_handle_4000
    simp only [Nat.reduceDiv, ↓reduceIte, Nat.add_one_ne_zero, Nat.succ_ne_zero,
      OfNat.ofNat_ne_zero, OfNat.zero_ne_ofNat, Nat.reduceEqDiff, eq_comm (a := 0)]
  rw [hBL]
  refine ⟨?_, fun c hc => ?_⟩
  · simp only []
    repeat (first | rw [if_pos rfl] | rw [if_pos trivial] | rw [if_neg (by omega)])
  · interval_cases c <;> simp only [Nat.mul_zero, Nat.add_zero, Nat.reduceMul, Nat.reduceAdd,
      Nat.add_assoc] <;> constructor <;>
      repeat (first | rw [if_pos rfl] | rw [if_pos trivial] | rw [if_neg (by omega)])

/-- A 16-bit read of the file and of the buffer over the same two bytes in the same order. -/
theorem get2_eq_peek2 (ifp : datastream) (b : checked_buffer_t) (o p q : Nat)
    (ho : o = b._order) (h0 : ifp.bytes (p + 0) = b._data (q + 0))
    (h1 : ifp.bytes (p + 1) = b._data (q + 1)) : ifp.get2 o p = b.peek2 q := by
  unfold datastream.get2 checked_buffer_t.peek2 libraw_sget2_static checked_buffer_t.data
  simp only [ho, h0, h1]

theorem Frame.setBlackLevel_apply (fr : Frame) (i v k : Nat) :
    (fr.setBlackLevel i v).self.BlackLevel k = if k = i then v else fr.self.BlackLevel k := rfl

theorem Frame.setBlackLevel_cblack (fr : Frame) (i v : Nat) :
    (fr.setBlackLevel i v).self.cblack = fr.self.cblack := rfl

theorem SameExceptBlackLevel_refl (a : LibRaw) : SameExceptBlackLevel a a := rfl

theorem SameExceptBlackLevel_trans {a b c : LibRaw} (h1 : SameExceptBlackLevel a b)
    (h2 : SameExceptBlackLevel b c) : SameExceptBlackLevel a c := by
  unfold SameExceptBlackLevel at *
  rw [h2, h1]

theorem SameExceptBlackLevel_set (fr : Frame) (i v : Nat) :
    SameExceptBlackLevel fr.self (fr.setBlackLevel i v).self := rfl

/-- C32, counterexample: on the sample payload of 16 bytes (the sets `1000, 1001, 1002,
1003` and `1010, 1011, 1012, 1013`) the handler of `parseAdobeRAFMakernote` stores the two
sets in `BlackLevel[1..8]` and computes no mean: `cblack` stays 0 in every channel, where
`parse_fuji` stores the means 1006, 1005, 1008, 1007. -/
theorem adobe_black_levels_have_no_mean :
    (handle_4000 sampleDecls 16 (sampleFrame_values sampleValues_black16)).isRaised = false ∧
    (handle_4000 sampleDecls 16 (sampleFrame_values sampleValues_black16)).obj.BlackLevel 1
      = 1001 ∧
    (handle_4000 sampleDecls 16 (sampleFrame_values sampleValues_black16)).obj.BlackLevel 5
      = 1011 ∧
    (∀ c, c < 4 →
      (handle_4000 sampleDecls 16 (sampleFrame_values sampleValues_black16)).obj.cblack c = 0) ∧
    (({ LibRaw.blank with order := 0x4949 } : LibRaw).pf_handle_4000 sampleDecls
      (sampleFile_values sampleValues_black16) 16 0).cblack 0 = 1006 ∧
    (({ LibRaw.blank with order := 0x4949 } : LibRaw).pf_handle_4000 sampleDecls
      (sampleFile_values sampleValues_black16) 16 0).cblack 1 = 1005 ∧
    (({ LibRaw.blank with order := 0x4949 } : LibRaw).pf_handle_4000 sampleDecls
      (sampleFile_values sampleValues_black16) 16 0).cblack 2 = 1008 ∧
    (({ LibRaw.blank with order := 0x4949 } : LibRaw).pf_handle_4000 sampleDecls
      (sampleFile_values sampleValues_black16) 16 0).cblack 3 = 1007 := by
  refine ⟨by decide, by decide, by decide, ?_, by decide, by decide, by decide, by decide⟩
  intro c hc
  interval_cases c <;> decide

/-- C32 (amended): in the embedded dialect a tag `0x4000` record of length 16 whose bytes lie
inside the declared length stores the two sets and computes no mean.  `BlackLevel[0]` is 8,
the entry `GRGB_2_RGBG(c) + 1` gets value `c` of the first set and the entry
`GRGB_2_RGBG(c) + 5` value `c` of the second set, for a permutation `GRGB_2_RGBG`; no other
field changes, so `cblack` is as it was.  These entries are the ones the standalone dialect
stores for the same 16 payload bytes read in the same byte order; the mean of the two sets is
computed by the standalone dialect only. -/
theorem adobe_black_levels_stored (d : Decls) (fr : Frame) (self : LibRaw) (ifp : datastream)
    (save : Nat) (hG : d.GRGB_is_permutation) (hlen : fr.PrivateMknBuf._len < 2 ^ 32)
    (hin : fr.posPrivateMknBuf + 16 ≤ fr.PrivateMknBuf._len)
    (ho : self.order = fr.PrivateMknBuf._order)
    (hbytes : ∀ i, i < 16 →
      ifp.bytes (save + i) = fr.PrivateMknBuf._data (fr.posPrivateMknBuf + i)) :
    ∃ f, handle_4000 d 16 fr = .done f ∧
      SameExceptBlackLevel fr.self f.self ∧
      f.self.cblack = fr.self.cblack ∧
      f.self.BlackLevel 0 = 8 ∧
      ∀ c, c < 4 →
        f.self.BlackLevel (d.GRGB_2_RGBG c + 1) =
          fr.PrivateMknBuf.peek2 (fr.posPrivateMknBuf + 2 * c) ∧
        f.self.BlackLevel (d.GRGB_2_RGBG c + 5) =
          fr.PrivateMknBuf.peek2 (fr.posPrivateMknBuf + 2 * c + 8) ∧
        (self.pf_handle_4000 d ifp 16 save).BlackLevel (d.GRGB_2_RGBG c + 1) =
          f.self.BlackLevel (d.GRGB_2_RGBG c + 1) ∧
        (self.pf_handle_4000 d ifp 16 save).BlackLevel (d.GRGB_2_RGBG c + 5) =
          f.self.BlackLevel (d.GRGB_2_RGBG c + 5) := by
  have hpf := pf_handle_4000_BlackLevel16 d self ifp save hG
  obtain ⟨hlt, hinj⟩ := hG
  have l0 := hlt 0 (by omega)
  have l1 := hlt 1 (by omega)
  have l2 := hlt 2 (by omega)
  have l3 := hlt 3 (by omega)
  have n01 : d.GRGB_2_RGBG 0 ≠ d.GRGB_2_RGBG 1 := fun h => by
    have := hinj 0 1 (by omega) (by omega) h; omega
  have n02 : d.GRGB_2_RGBG 0 ≠ d.GRGB_2_RGBG 2 := fun h => by
    have := hinj 0 2 (by omega) (by omega) h; omega
  have n03 : d.GRGB_2_RGBG 0 ≠ d.GRGB_2_RGBG 3 := fun h => by
    have := hinj 0 3 (by omega) (by omega) h; omega
  have n12 : d.GRGB_2_RGBG 1 ≠ d.GRGB_2_RGBG 2 := fun h => by
    have := hinj 1 2 (by omega) (by omega) h; omega
  have n13 : d.GRGB_2_RGBG 1 ≠ d.GRGB_2_RGBG 3 := fun h => by
    have := hinj 1 3 (by omega) (by omega) h; omega
  have n23 : d.GRGB_2_RGBG 2 ≠ d.GRGB_2_RGBG 3 := fun h => by
    have := hinj 2 3 (by omega) (by omega) h; omega
  refine ⟨_, handle_4000_done16 d fr hlen hin, ?_, ?_, ?_, fun c hc => ?_⟩
  · exact SameExceptBlackLevel_trans (SameExceptBlackLevel_trans (SameExceptBlackLevel_trans
      (SameExceptBlackLevel_trans (SameExceptBlackLevel_trans (SameExceptBlackLevel_trans
      (SameExceptBlackLevel_trans (SameExceptBlackLevel_trans
      (SameExceptBlackLevel_set _ _ _) (SameExceptBlackLevel_set _ _ _))
      (SameExceptBlackLevel_set _ _ _)) (SameExceptBlackLevel_set _ _ _))
      (SameExceptBlackLevel_set _ _ _)) (SameExceptBlackLevel_set _ _ _))
      (SameExceptBlackLevel_set _ _ _)) (SameExceptBlackLevel_set _ _ _))
      (SameExceptBlackLevel_set _ _ _)
  · simp only [Frame.setBlackLevel_cblack]
  · simp only [Frame.setBlackLevel_apply]
    repeat (first | rw [if_pos rfl] | rw [if_pos trivial] | rw [if_neg (by omega)])
  · have e1 : ifp.get2 self.order (save + 2 * c) =
        fr.PrivateMknBuf.peek2 (fr.posPrivateMknBuf + 2 * c) :=
      get2_eq_peek2 ifp _ _ _ _ ho
        (by
          have := hbytes (2 * c + 0) (by omega)
          rw [← Nat.add_assoc, ← Nat.add_assoc] at this
          exact this)
        (by
          have := hbytes (2 * c + 1) (by omega)
          rw [← Nat.add_assoc, ← Nat.add_assoc] at this
          exact this)
    have e2 : ifp.get2 self.order (save + 2 * c + 8) =
        fr.PrivateMknBuf.peek2 (fr.posPrivateMknBuf + 2 * c + 8) :=
      get2_eq_peek2 ifp _ _ _ _ ho
        (by
          have := hbytes (2 * c + 8 + 0) (by omega)
          rw [← Nat.add_assoc, ← Nat.add_assoc, ← Nat.add_assoc, ← Nat.add_assoc] at this
          exact this)
        (by
          have := hbytes (2 * c + 8 + 1) (by omega)
          rw [← Nat.add_assoc, ← Nat.add_assoc, ← Nat.add_assoc, ← Nat.add_assoc] at this
          exact this)
    suffices hAc : _ ∧ _ from ⟨hAc.1, hAc.2, ((hpf.2 c hc).1.trans e1).trans hAc.1.symm,
      ((hpf.2 c hc).2.trans e2).trans hAc.2.symm⟩
    simp only [Frame.setBlackLevel_apply]
    interval_cases c <;> simp only [Nat.mul_zero, Nat.add_zero, Nat.reduceMul,
      Nat.reduceAdd, Nat.add_assoc] <;> constructor <;>
      repeat (first | rw [if_pos rfl] | rw [if_pos trivial] | rw [if_neg (by omega)])

/-- C32 (amended), on the sample payload of 16 bytes. -/
theorem adobe_black_levels_stored_witness :
    sampleDecls.GRGB_is_permutation ∧
    ∃ f, handle_4000 sampleDecls 16 (sampleFrame_values sampleValues_black16) = .done f ∧
      f.self.cblack = (sampleFrame_values sampleValues_black16).self.cblack ∧
      f.self.BlackLevel 0 = 8 :=
  ⟨sampleDecls_permutation,
   (adobe_black_levels_stored sampleDecls (sampleFrame_values sampleValues_black16)
      { LibRaw.blank with order := 0x4949 } (sampleFile_values sampleValues_black16) 0
      sampleDecls_permutation (by decide) (by decide) rfl (fun _ _ => rfl)).imp
    fun _ h => ⟨h.1, h.2.2.1, h.2.2.2.1⟩⟩

/-- C35. The table decode behind a preset table that lies, with the scan window behind it,
inside the declared length.  The preset loop ends at `e`, the payload start plus the
resolved offset plus 6 bytes per preset; the scan for the end of the CCT section starts at
`p0 = e + 0xc0` (`e + 0xf0` for the 34-entry layouts) and compares the green value of each
6-byte stride with the one at `p0`.  Either no stride differs and no CCT table is decoded, or
the first differing stride is stride `k` with `1 <= k <= 4` (never the first one), the
subtraction `p0 + 6 * k - 186` (`- 204`) does not underflow, and the table starts at
`e + 6 + 6 * k` (`e + 36 + 6 * k`), behind the end of the preset table. -/
theorem cct_start_is_behind_presets (d : Decls) (is34 : Bool) (f1 : Frame) (e p0 : Nat)
    (he : e = f1.posPrivateMknBuf + f1.wb_section_offset + 6 * d.Fuji_wb_list1.length)
    (hp0 : p0 = (if is34 then e + 0x30 else e) + 0xc0)
    (hlen : f1.PrivateMknBuf._len < 2 ^ 32)
    (hin : p0 + 26 ≤ f1.PrivateMknBuf._len) :
    ∃ f2, preset_loop d.Fuji_wb_list1
        { f1 with posWB := u32 (f1.posPrivateMknBuf + f1.wb_section_offset) } = .done f2 ∧
      f2.posWB = e ∧
      (((∀ k, k < 5 → f1.PrivateMknBuf.peek2 (p0 + 6 * k) = f1.PrivateMknBuf.peek2 p0) ∧
          cct_stage d is34 f2 = .done { f2 with posWB := p0 }) ∨
        ∃ k, 1 ≤ k ∧ k ≤ 4 ∧
          (∀ j, j < k → f1.PrivateMknBuf.peek2 (p0 + 6 * j) = f1.PrivateMknBuf.peek2 p0) ∧
          f1.PrivateMknBuf.peek2 (p0 + 6 * k) ≠ f1.PrivateMknBuf.peek2 p0 ∧
          (if is34 then 34 * 3 * 2 else 31 * 3 * 2) ≤ p0 + 6 * k ∧
          p0 + 6 * k - (if is34 then 34 * 3 * 2 else 31 * 3 * 2) =
            e + (if is34 then 36 else 6) + 6 * k ∧
          e < p0 + 6 * k - (if is34 then 34 * 3 * 2 else 31 * 3 * 2) ∧
          cct_stage d is34 f2 = cct_fill d 31 0
            { f2 with posWB := p0,
                      wb_section_offset := e + (if is34 then 36 else 6) + 6 * k }) := by
  have hle : e ≤ p0 := by cases is34 <;> simp at hp0 <;> omega
  have hu : u32 (f1.posPrivateMknBuf + f1.wb_section_offset) =
      f1.posPrivateMknBuf + f1.wb_section_offset := by
    unfold u32
    exact Nat.mod_eq_of_lt (by omega)
  obtain ⟨f2, e2, b2, w2, p2⟩ := preset_loop_done d.Fuji_wb_list1
    { f1 with posWB := u32 (f1.posPrivateMknBuf + f1.wb_section_offset) }
    (by show u32 (f1.posPrivateMknBuf + f1.wb_section_offset) + 6 * d.Fuji_wb_list1.length ≤
          f1.PrivateMknBuf._len
        rw [hu]; omega)
  have b2' : f2.PrivateMknBuf = f1.PrivateMknBuf := b2
  have p2' : f2.posWB = e := by
    rw [p2, he]
    show u32 (f1.posPrivateMknBuf + f1.wb_section_offset) + 6 * d.Fuji_wb_list1.length = _
    rw [hu]
  have hp0' : p0 = (if is34 then f2.posWB + 0x30 else f2.posWB) + 0xc0 := by rw [p2']; exact hp0
  refine ⟨f2, e2, p2', ?_⟩
  have hscan := cct_end_scan_first f1.PrivateMknBuf (f1.PrivateMknBuf.peek2 p0) 5 p0 (by omega)
  have hnone : cct_end_scan f1.PrivateMknBuf (f1.PrivateMknBuf.peek2 p0) 5 p0 = .ok none →
      cct_stage d is34 f2 = .done { f2 with posWB := p0 } := by
    intro hr
    unfold cct_stage
    simp only [← hp0', b2']
    rw [sget2_in_range _ _ (by omega)]
    simp only []
    rw [hr]
  have hsome : ∀ q s,
      cct_end_scan f1.PrivateMknBuf (f1.PrivateMknBuf.peek2 p0) 5 p0 = .ok (some q) →
      u32 (q + (2 ^ 32 - (if is34 then 34 * 3 * 2 else 31 * 3 * 2))) = s →
      cct_stage d is34 f2 = cct_fill d 31 0 { f2 with posWB := p0, wb_section_offset := s } := by
    intro q s hr hs
    unfold cct_stage
    simp only [← hp0', b2']
    rw [sget2_in_range _ _ (by omega)]
    simp only []
    rw [hr]
    simp only []
    rw [hs]
  by_cases hall : ∀ k, k < 5 → f1.PrivateMknBuf.peek2 (p0 + 6 * k) = f1.PrivateMknBuf.peek2 p0
  · left
    exact ⟨hall, hnone (hscan.1 hall)⟩
  · right
    have hex : ∃ k, k < 5 ∧
        f1.PrivateMknBuf.peek2 (p0 + 6 * k) ≠ f1.PrivateMknBuf.peek2 p0 := by
      by_contra hno
      apply hall
      intro k hk
      by_contra hne
      exact hno ⟨k, hk, hne⟩
    have hk := Nat.find_spec hex
    have hmin : ∀ j, j < Nat.find hex →
        f1.PrivateMknBuf.peek2 (p0 + 6 * j) = f1.PrivateMknBuf.peek2 p0 := by
      intro j hj
      by_contra hne
      exact Nat.find_min hex hj ⟨by omega, hne⟩
    have hk0 : Nat.find hex ≠ 0 := by
      intro h0
      rw [h0] at hk
      exact hk.2 rfl
    have hge : (if is34 then 34 * 3 * 2 else 31 * 3 * 2) ≤ p0 + 6 * Nat.find hex := by
      cases is34 <;> simp at hp0 ⊢ <;> omega
    have heq : p0 + 6 * Nat.find hex - (if is34 then 34 * 3 * 2 else 31 * 3 * 2) =
        e + (if is34 then 36 else 6) + 6 * Nat.find hex := by
      cases is34 <;> simp at hp0 ⊢ <;> omega
    have hu2 : u32 (p0 + 6 * Nat.find hex + (2 ^ 32 - (if is34 then 34 * 3 * 2 else 31 * 3 * 2)))
        = e + (if is34 then 36 else 6) + 6 * Nat.find hex := by
      rw [← heq]
      unfold u32
      cases is34 <;> simp at hge ⊢ <;> omega
    refine ⟨Nat.find hex, by omega, by omega, hmin, hk.2, hge, heq, ?_, ?_⟩
    · rw [heq]
      cases is34 <;> simp <;> omega
    · exact hsome _ _ (hscan.2 _ hk.1 hmin hk.2) hu2

/-- C35, on the sample values with an empty preset table at offset 0: the green value 500 is
at the byte offsets 192 and 198 and 777 at 204, so stride 2 is the first that differs and the
CCT table starts at `0 + 6 + 12 = 18`. -/
theorem cct_start_is_behind_presets_witness :
    ∃ f2, preset_loop [] { sampleFrame_values sampleValues_cct with posWB := u32 (0 + 0) }
        = .done f2 ∧
      f2.posWB = 0 ∧
      (((∀ k, k < 5 → (sampleFrame_values sampleValues_cct).PrivateMknBuf.peek2 (192 + 6 * k) =
            (sampleFrame_values sampleValues_cct).PrivateMknBuf.peek2 192) ∧
          cct_stage sampleDecls false f2 = .done { f2 with posWB := 192 }) ∨
        ∃ k, 1 ≤ k ∧ k ≤ 4 ∧
          (∀ j, j < k → (sampleFrame_values sampleValues_cct).PrivateMknBuf.peek2 (192 + 6 * j) =
            (sampleFrame_values sampleValues_cct).PrivateMknBuf.peek2 192) ∧
          (sampleFrame_values sampleValues_cct).PrivateMknBuf.peek2 (192 + 6 * k) ≠
            (sampleFrame_values sampleValues_cct).PrivateMknBuf.peek2 192 ∧
          (if false then 34 * 3 * 2 else 31 * 3 * 2) ≤ 192 + 6 * k ∧
          192 + 6 * k - (if false then 34 * 3 * 2 else 31 * 3 * 2) =
            0 + (if false then 36 else 6) + 6 * k ∧
          0 < 192 + 6 * k - (if false then 34 * 3 * 2 else 31 * 3 * 2) ∧
          cct_stage sampleDecls false f2 = cct_fill sampleDecls 31 0
            { f2 with posWB := 192,
                      wb_section_offset := 0 + (if false then 36 else 6) + 6 * k }) :=
  cct_start_is_behind_presets { sampleDecls with Fuji_wb_list1 := [] } false
    (sampleFrame_values sampleValues_cct) 0 192 rfl rfl (by decide) (by decide)

/-! ## What the classifier leaves for the offset lookup -/

theorem WritesWBOnly_done (f : Frame) (a : LibRaw) (h : SameExceptWB a f.self) :
    WritesWBOnly (.done f) a := by
  intro g hg
  cases hg
  exact h

theorem WritesWBOnly_raised (s a : LibRaw) : WritesWBOnly (.raised s) a := by
  intro g hg
  cases hg

theorem WritesWBOnly_bind (o : Outcome Frame) (g : Frame → Outcome Frame) (a : LibRaw)
    (h1 : WritesWBOnly o a) (h2 : ∀ f, SameExceptWB a f.self → WritesWBOnly (g f) a) :
    WritesWBOnly (o.bind g) a := by
  cases o with
  | raised s => exact WritesWBOnly_raised s a
  | done f => exact h2 f (h1 f rfl)

theorem WritesWBOnly_assignRead (r : Except Exn Nat) (w : Nat → Frame → Frame) (fr : Frame)
    (a : LibRaw) (hw : ∀ v, SameExceptWB a (w v fr).self) :
    WritesWBOnly (assignRead r w fr) a := by
  cases r with
  | error e => exact WritesWBOnly_raised _ a
  | ok v => exact WritesWBOnly_done _ a (hw v)

theorem read_WB_triple_writes (wb : Nat) (fr : Frame) (a : LibRaw)
    (h : SameExceptWB a fr.self) : WritesWBOnly (read_WB_triple wb fr) a := by
  unfold read_WB_triple
  exact WritesWBOnly_bind _ _ _
    (WritesWBOnly_assignRead _ _ _ _ fun v =>
      SameExceptWB_trans h (SameExceptWB_trans (SameExceptWB_setWBC _ _ _ _)
        (SameExceptWB_setWBC _ _ _ _)))
    fun f1 h1 => WritesWBOnly_bind _ _ _
      (WritesWBOnly_assignRead _ _ _ _ fun v => SameExceptWB_trans h1 (SameExceptWB_setWBC _ _ _ _))
      fun f2 h2 => WritesWBOnly_assignRead _ _ _ _ fun v =>
        SameExceptWB_trans h2 (SameExceptWB_setWBC _ _ _ _)

theorem marker_scan_writes (d : Decls) (n : Nat) (fr : Frame) (a : LibRaw)
    (h : SameExceptWB a fr.self) : WritesWBOnly (marker_scan d n fr) a := by
  induction n generalizing fr with
  | zero => exact WritesWBOnly_done _ _ h
  | succ n ih =>
    unfold marker_scan
    cases fr.PrivateMknBuf.checkoffset (fr.posWB + 12) with
    | error e => exact WritesWBOnly_raised _ _
    | ok u =>
      simp only []
      cases andAlso (.ok (is_TSNERDTS fr.PrivateMknBuf fr.posWB))
          (test1 (fun g => decide (g > 125)) (fr.PrivateMknBuf.sget2 (fr.posWB + 10))) with
      | error e => exact WritesWBOnly_raised _ _
      | ok found =>
        cases found with
        | true => exact read_WB_triple_writes _ { fr with posWB := fr.posWB + 10 } a h
        | false => exact ih { fr with posWB := fr.posWB + 1 } h

/-- C33. `guess_RAFDataGeneration` on a block start of the Gen1 rule (`b01` not zero and
below 10000, `b23 = 0`) writes the generation 1 and nothing else, so the version is the one
stored before the call; on a block start that no rule classifies it returns the object as it
was, generation and version included.  In the structured block the offset lookup runs on the
frame the marker scan ends with, and there the version is still the one the object had when
the record was entered: for instance an earlier version `0x4500` resolves the offset
`0x13ac`. -/
theorem guess_keeps_version_for_lookup (self : LibRaw) (p : Nat → UInt8) (d : Decls)
    (n : Nat) (fr : Frame) :
    (self.sget2 p ≠ 0 ∧ self.sget2 (fun i => p (2 + i)) = 0 ∧ self.sget2 p < 10000 →
      (self.guess_RAFDataGeneration p).1 = { self with RAFDataGeneration := 1 } ∧
      (self.guess_RAFDataGeneration p).1.RAFDataVersion = self.RAFDataVersion) ∧
    (self.sget2 p ≠ 0 ∧ (self.sget2 (fun i => p (2 + i)) ≠ 0 ∨ self.sget2 p = 10000) →
      (self.guess_RAFDataGeneration p).1 = self ∧
      (self.guess_RAFDataGeneration p).1.RAFDataVersion = self.RAFDataVersion ∧
      (self.guess_RAFDataGeneration p).1.RAFDataGeneration = self.RAFDataGeneration) ∧
    (fr.self.sget2 (fr.PrivateMknBuf.data fr.posPrivateMknBuf) ≠ 0 ∧
      ((fr.self.sget2 (fun i => fr.PrivateMknBuf.data fr.posPrivateMknBuf (2 + i)) = 0 ∧
        fr.self.sget2 (fr.PrivateMknBuf.data fr.posPrivateMknBuf) < 10000) ∨
       (fr.self.sget2 (fun i => fr.PrivateMknBuf.data fr.posPrivateMknBuf (2 + i)) ≠ 0 ∨
        fr.self.sget2 (fr.PrivateMknBuf.data fr.posPrivateMknBuf) = 10000)) →
      (marker_scan d (n - 16) { fr.guess with posWB := 0 }).isRaised = false →
      ∃ f2, marker_scan d (n - 16) { fr.guess with posWB := 0 } = .done f2 ∧
        f2.self.RAFDataVersion = fr.self.RAFDataVersion ∧
        (fr.self.RAFDataVersion = 0x4500 → resolve_wb_section_offset f2 = .ok 0x13ac)) := by
  have hgen1 : ∀ (s : LibRaw) (q : Nat → UInt8),
      s.sget2 q ≠ 0 ∧ s.sget2 (fun i => q (2 + i)) = 0 ∧ s.sget2 q < 10000 →
      (s.guess_RAFDataGeneration q).1 = { s with RAFDataGeneration := 1 } := by
    intro s q h
    rw [guess_RAFDataGeneration_eq_rule]
    unfold RAFData_rule
    rw [if_pos h]
  have hun : ∀ (s : LibRaw) (q : Nat → UInt8),
      s.sget2 q ≠ 0 ∧ (s.sget2 (fun i => q (2 + i)) ≠ 0 ∨ s.sget2 q = 10000) →
      (s.guess_RAFDataGeneration q).1 = s := by
    intro s q h
    rw [guess_RAFDataGeneration_eq_rule]
    unfold RAFData_rule
    have h1 : ¬ (s.sget2 q ≠ 0 ∧ s.sget2 (fun i => q (2 + i)) = 0 ∧ s.sget2 q < 10000) := by
      rcases h.2 with h2 | h2
      · exact fun hh => h2 hh.2.1
      · rw [h2]; omega
    have h2 : ¬ (s.sget2 q > 10000 ∧ s.sget2 (fun i => q (2 + i)) = 0) := by
      rcases h.2 with h2 | h2
      · exact fun hh => h2 hh.2
      · rw [h2]; omega
    rw [if_neg h1, if_neg h2, if_neg h.1]
  refine ⟨fun h => ?_, fun h => ?_, fun h hok => ?_⟩
  · have e := hgen1 self p h
    exact ⟨e, by rw [e]⟩
  · have e := hun self p h
    exact ⟨e, by rw [e], by rw [e]⟩
  · have hv : fr.guess.self.RAFDataVersion = fr.self.RAFDataVersion := by
      unfold Frame.guess
      rcases h.2 with h2 | h2
      · show (fr.self.guess_RAFDataGeneration _).1.RAFDataVersion = _
        rw [hgen1 _ _ ⟨h.1, h2⟩]
      · show (fr.self.guess_RAFDataGeneration _).1.RAFDataVersion = _
        rw [hun _ _ ⟨h.1, h2⟩]
    have hw := marker_scan_writes d (n - 16) { fr.guess with posWB := 0 } fr.guess.self
      (SameExceptWB_refl _)
    cases hm : marker_scan d (n - 16) { fr.guess with posWB := 0 } with
    | raised s => rw [hm] at hok; cases hok
    | done f2 =>
      have hv2 : f2.self.RAFDataVersion = fr.self.RAFDataVersion :=
        (SameExceptWB_version (hw f2 hm)).trans hv
      refine ⟨f2, rfl, hv2, fun h45 => ?_⟩
      unfold resolve_wb_section_offset version_keyed_offset
      simp only []
      rw [if_pos (hv2.trans h45)]

/-- C33, on the sample frame whose payload starts with `64 00 00 00` and whose object holds
the version `0x4500`: the Gen1 rule applies and the lookup resolves `0x13ac`. -/
theorem guess_keeps_version_for_lookup_witness :
    (sampleFrame_gen1.self.guess_RAFDataGeneration (bytesOf [100, 0, 0, 0])).1.RAFDataVersion
      = 0x4500 ∧
    ∃ f2, marker_scan sampleDecls (32 - 16) { sampleFrame_gen1.guess with posWB := 0 }
        = .done f2 ∧
      f2.self.RAFDataVersion = 0x4500 ∧ resolve_wb_section_offset f2 = .ok 0x13ac :=
  ⟨((guess_keeps_version_for_lookup sampleFrame_gen1.self (bytesOf [100, 0, 0, 0]) sampleDecls
      32 sampleFrame_gen1).1 (by decide)).2,
   ((guess_keeps_version_for_lookup sampleFrame_gen1.self (bytesOf [100, 0, 0, 0]) sampleDecls
      32 sampleFrame_gen1).2.2 (by decide) (by decide)).imp
    fun _ h => ⟨h.1, h.2.1, h.2.2 rfl⟩⟩

/-- The triple read does not use the payload start. -/
theorem read_WB_triple_payload (wb : Nat) (fr : Frame) (q : Nat) :
    read_WB_triple wb { fr with posPrivateMknBuf := q } =
      (read_WB_triple wb fr).bind (fun f => .done { f with posPrivateMknBuf := q }) := by
  unfold read_WB_triple
  cases h1 : fr.PrivateMknBuf.sget2 fr.posWB with
  | error e => rfl
  | ok v1 =>
    simp only [assignRead, Outcome.bind]
    cases h2 : fr.PrivateMknBuf.sget2 (fr.posWB + 2) with
    | error e => simp only [Frame.setWBC, h2]
    | ok v2 =>
      simp only [Frame.setWBC, h2]
      cases h3 : fr.PrivateMknBuf.sget2 (fr.posWB + 4) with
      | error e => rfl
      | ok v3 => rfl

/-- The marker scan does not use the payload start: the positions it visits are positions
of the whole buffer. -/
theorem marker_scan_payload (d : Decls) (n : Nat) (fr : Frame) (q : Nat) :
    marker_scan d n { fr with posPrivateMknBuf := q } =
      (marker_scan d n fr).bind (fun f => .done { f with posPrivateMknBuf := q }) := by
  induction n generalizing fr with
  | zero => rfl
  | succ n ih =>
    unfold marker_scan
    simp only []
    cases fr.PrivateMknBuf.checkoffset (fr.posWB + 12) with
    | error e => rfl
    | ok u =>
      simp only []
      cases andAlso (.ok (is_TSNERDTS fr.PrivateMknBuf fr.posWB))
          (test1 (fun g => decide (g > 125)) (fr.PrivateMknBuf.sget2 (fr.posWB + 10))) with
      | error e => rfl
      | ok found =>
        cases found with
        | true => exact read_WB_triple_payload _ { fr with posWB := fr.posWB + 10 } q
        | false => exact ih { fr with posWB := fr.posWB + 1 }

/-- C34. The marker scan of a tag `0xc000` record of length `PrivateTagBytes`, with its reads
inside the declared length, visits the positions `0 <= p < PrivateTagBytes - 16` of the whole
buffer: it gives the same result for every payload start.  A marker with a guard above 125
at the lowest such position is taken, also when it lies in front of the payload; when no
position below `PrivateTagBytes - 16` qualifies, the scan leaves the object as it was,
whatever lies at the positions from `PrivateTagBytes - 16` on, inside the payload or not. -/
theorem marker_scan_is_absolute (d : Decls) (PrivateTagBytes : Nat) (fr : Frame)
    (h : PrivateTagBytes - 16 + 15 ≤ fr.PrivateMknBuf._len) :
    (∀ q, marker_scan d (PrivateTagBytes - 16) { fr with posPrivateMknBuf := q, posWB := 0 } =
      (marker_scan d (PrivateTagBytes - 16) { fr with posWB := 0 }).bind
        (fun f => .done { f with posPrivateMknBuf := q })) ∧
    (∀ p, p < PrivateTagBytes - 16 → is_TSNERDTS fr.PrivateMknBuf p = true →
      fr.PrivateMknBuf.peek2 (p + 10) > 125 →
      (∀ j, j < p → ¬ (is_TSNERDTS fr.PrivateMknBuf j = true ∧
        fr.PrivateMknBuf.peek2 (j + 10) > 125)) →
      ∃ f, marker_scan d (PrivateTagBytes - 16) { fr with posWB := 0 } = .done f ∧
        f.self.icWBC d.LIBRAW_WBI_Auto 1 = fr.PrivateMknBuf.peek2 (p + 10) ∧
        f.self.icWBC d.LIBRAW_WBI_Auto 0 = fr.PrivateMknBuf.peek2 (p + 12) ∧
        f.self.icWBC d.LIBRAW_WBI_Auto 2 = fr.PrivateMknBuf.peek2 (p + 14)) ∧
    ((∀ j, j < PrivateTagBytes - 16 → ¬ (is_TSNERDTS fr.PrivateMknBuf j = true ∧
        fr.PrivateMknBuf.peek2 (j + 10) > 125)) →
      ∃ f, marker_scan d (PrivateTagBytes - 16) { fr with posWB := 0 } = .done f ∧
        f.self = fr.self) := by
  have hs := marker_scan_first d (PrivateTagBytes - 16) { fr with posWB := 0 }
    (by show 0 + (PrivateTagBytes - 16) + 15 ≤ fr.PrivateMknBuf._len; omega)
  have z : ∀ k, (0 : Nat) + k = k := Nat.zero_add
  refine ⟨fun q => marker_scan_payload d _ { fr with posWB := 0 } q, ?_, ?_⟩
  · intro p hp hm hg hbefore
    have e := hs.1 p hp (by simp only [z]; exact ⟨hm, hg⟩)
      (fun j hj => by simp only [z]; exact hbefore j hj)
    obtain ⟨f, e1, -, -, -, -, -, -, v⟩ := read_WB_triple_values d.LIBRAW_WBI_Auto
      { fr with posWB := p + 10 } (by show p + 10 + 6 ≤ fr.PrivateMknBuf._len; omega)
    have e2 : marker_scan d (PrivateTagBytes - 16) { fr with posWB := 0 } = .done f := by
      rw [e]
      simp only [z]
      exact e1
    refine ⟨f, e2, ?_, ?_, ?_⟩
    · rw [v, if_pos ⟨rfl, by omega⟩]; rfl
    · rw [v, if_pos ⟨rfl, by omega⟩]; rfl
    · rw [v, if_pos ⟨rfl, by omega⟩]; rfl
  · intro hnone
    exact ⟨_, hs.2 (fun j hj => by simp only [z]; exact hnone j hj), rfl⟩

/-- C34, on two sample buffers with the payload of a record of length 40 at offset 24, so
that the positions 0 to 23 are visited.  A marker at position 4, in front of the payload, is
taken (green 300, red 600, blue 700); a marker at position 30, inside the payload, is not
reached and the object stays as it was. -/
theorem marker_scan_is_absolute_witness :
    (4 + 16 ≤ sampleFrame_before.posPrivateMknBuf ∧
      ∃ f, marker_scan sampleDecls (40 - 16) { sampleFrame_before with posWB := 0 } = .done f ∧
        f.self.icWBC 82 1 = 300 ∧ f.self.icWBC 82 0 = 600 ∧ f.self.icWBC 82 2 = 700) ∧
    (is_TSNERDTS sampleFrame_inside.PrivateMknBuf 30 = true ∧
      sampleFrame_inside.PrivateMknBuf.peek2 (30 + 10) > 125 ∧
      sampleFrame_inside.posPrivateMknBuf ≤ 30 ∧
      30 + 16 ≤ sampleFrame_inside.posPrivateMknBuf + 40 ∧
      ∃ f, marker_scan sampleDecls (40 - 16) { sampleFrame_inside with posWB := 0 } = .done f ∧
        f.self = sampleFrame_inside.self) :=
  ⟨⟨by decide,
    ((marker_scan_is_absolute sampleDecls 40 sampleFrame_before (by decide)).2.1 4 (by decide)
      (by decide) (by decide) (by decide)).imp
      fun _ h => ⟨h.1, h.2.1.trans (by decide), h.2.2.1.trans (by decide),
        h.2.2.2.trans (by decide)⟩⟩,
   ⟨by decide, by decide, by decide, by decide,
    (marker_scan_is_absolute sampleDecls 40 sampleFrame_inside (by decide)).2.2 (by decide)⟩⟩

/-- A 32-bit read of the file and of the buffer over the same four bytes in the same
order. -/
theorem get4_eq_peek4 (ifp : datastream) (b : checked_buffer_t) (o p q : Nat)
    (ho : o = b._order) (h : ∀ i, i < 4 → ifp.bytes (p + i) = b._data (q + i)) :
    ifp.get4 o p = b.peek4 q := by
  unfold datastream.get4 checked_buffer_t.peek4 libraw_sget4_static checked_buffer_t.data
  simp only [ho, h 0 (by omega), h 1 (by omega), h 2 (by omega), h 3 (by omega)]

/-- The records of a grid depend on the 32-bit values at its six fields per record only. -/
theorem grid_records_congr (g1 g2 : Nat → Nat) (n p1 p2 : Nat)
    (h : ∀ j, j < 6 * n → g1 (p1 + 4 * j) = g2 (p2 + 4 * j)) :
    grid_records g1 n p1 = grid_records g2 n p2 := by
  induction n generalizing p1 p2 with
  | zero => rfl
  | succ n ih =>
    unfold grid_records
    have e : grid_record g1 p1 = grid_record g2 p2 := by
      unfold grid_record
      have h0 := h 0 (by omega)
      have h1 := h 1 (by omega)
      have h2 := h 2 (by omega)
      have h3 := h 3 (by omega)
      have h4 := h 4 (by omega)
      have h5 := h 5 (by omega)
      simp only [Nat.mul_zero, Nat.add_zero, Nat.mul_one, Nat.reduceMul] at h0 h1 h2 h3 h4 h5
      rw [h0, h1, h2, h3, h4, h5]
    rw [e]
    congr 1
    apply ih
    intro j hj
    have := h (j + 6) (by omega)
    have e1 : p1 + 24 + 4 * j = p1 + 4 * (j + 6) := by omega
    have e2 : p2 + 24 + 4 * j = p2 + 4 * (j + 6) := by omega
    rw [e1, e2]
    exact this

/-- C36. The handlers of tag `0xc000` of the two dialects on a record of declared length
4096 over the same payload bytes, started on the same object, with the grid inside the
declared length of the buffer.  `parseAdobeRAFMakernote` ends normally, and the object it
ends with is the one `parse_fuji` ends with except for the global byte order, which
`parse_fuji` restores and `parseAdobeRAFMakernote` leaves at `0x4949`: the generation is
4096 in both, and every entry of `icWBCCTC` and every slot of `icWBC` is the same. -/
theorem fixed4096_dialects_agree (d : Decls) (fr : Frame) (ifp : datastream) (save : Nat)
    (hlen : fr.PrivateMknBuf._len < 2 ^ 32)
    (hin : fr.posPrivateMknBuf + 0x200 + 24 * 42 ≤ fr.PrivateMknBuf._len)
    (hbytes : ∀ i, i < 0x200 + 24 * 42 →
      ifp.bytes (save + i) = fr.PrivateMknBuf._data (fr.posPrivateMknBuf + i)) :
    ∃ f, handle_c000 d 4096 fr = .done f ∧
      f.self = { fr.self.pf_handle_c000 d ifp 4096 save with order := 0x4949 } ∧
      f.self.RAFDataGeneration = 4096 ∧
      (fr.self.pf_handle_c000 d ifp 4096 save).RAFDataGeneration = 4096 ∧
      f.self.icWBCCTC = (fr.self.pf_handle_c000 d ifp 4096 save).icWBCCTC ∧
      f.self.icWBC = (fr.self.pf_handle_c000 d ifp 4096 save).icWBC := by
  have e : handle_c000 d 4096 fr = fixed4096_block d (fr.setOrders 0x4949) := by
    simp [handle_c000]
  have hu : u32 (fr.posPrivateMknBuf + 0x200) = fr.posPrivateMknBuf + 0x200 := by
    unfold u32
    exact Nat.mod_eq_of_lt (by omega)
  have hrec : grid_records (fr.PrivateMknBuf.set_order 0x4949).peek4 42
      (fr.posPrivateMknBuf + 0x200) =
      grid_records (ifp.get4 0x4949) 42 (save + 0x200) := by
    apply grid_records_congr
    intro j hj
    symm
    refine get4_eq_peek4 ifp (fr.PrivateMknBuf.set_order 0x4949) 0x4949 _ _ rfl ?_
    intro i hi
    show ifp.bytes _ = fr.PrivateMknBuf._data _
    have := hbytes (0x200 + 4 * j + i) (by omega)
    rw [← Nat.add_assoc, ← Nat.add_assoc, ← Nat.add_assoc, ← Nat.add_assoc] at this
    exact this
  obtain ⟨f, hf, hs⟩ := fixed4096_loop_eq_at d 42 0
    { fr.setOrders 0x4949 with
      self := { (fr.setOrders 0x4949).self with RAFDataGeneration := 4096 },
      posWB := u32 ((fr.setOrders 0x4949).posPrivateMknBuf + 0x200) }
    (fr.PrivateMknBuf.set_order 0x4949).peek4 (fr.posPrivateMknBuf + 0x200)
    { fr.self with order := 0x4949, RAFDataGeneration := 4096 } rfl hu rfl hin
  have p : fr.self.pf_handle_c000 d ifp 4096 save =
      { pf_fixed4096_loop d ifp 42 0 (save + 0x200)
          { fr.self with order := 0x4949, RAFDataGeneration := 4096 } with
        order := fr.self.order } := by
    simp [LibRaw.pf_handle_c000]
  have q := fixed4096_fold_fields d
    (grid_records (ifp.get4 0x4949) 42 (save + 0x200)) 0
    { fr.self with order := 0x4949, RAFDataGeneration := 4096 }
  have hpf := pf_fixed4096_loop_eq d ifp 42 0 (save + 0x200)
    { fr.self with order := 0x4949, RAFDataGeneration := 4096 }
  have hpf2 : pf_fixed4096_loop d ifp 42 0 (save + 0x200)
      { fr.self with order := 0x4949, RAFDataGeneration := 4096 } =
      (fixed4096_fold d (grid_records (ifp.get4 0x4949) 42 (save + 0x200)) 0
        { fr.self with order := 0x4949, RAFDataGeneration := 4096 }).1 := hpf
  rw [hrec] at hs
  generalize (fixed4096_fold d (grid_records (ifp.get4 0x4949) 42 (save + 0x200)) 0
    { fr.self with order := 0x4949, RAFDataGeneration := 4096 }).1 = X at hs hpf2 q
  rw [p, hpf2]
  have hX : X = { X with order := 0x4949 } := by
    have := q.1
    cases X
    simp only [LibRaw.mk.injEq, and_true, true_and] at this ⊢
    exact this
  refine ⟨f, e.trans hf, ?_, ?_, ?_, ?_, ?_⟩
  · rw [hs]
    exact hX
  · rw [hs]; exact q.2.1
  · exact q.2.1
  · rw [hs]
  · rw [hs]

/-- C36, on the sample grid: both handlers end with the same tables. -/
theorem fixed4096_dialects_agree_witness :
    ∃ f, handle_c000 sampleDecls 4096 sampleFrame_grid = .done f ∧
      f.self.RAFDataGeneration = 4096 ∧
      f.self.icWBCCTC =
        (sampleFrame_grid.self.pf_handle_c000 sampleDecls sampleFile_grid 4096 0).icWBCCTC ∧
      f.self.icWBC =
        (sampleFrame_grid.self.pf_handle_c000 sampleDecls sampleFile_grid 4096 0).icWBC :=
  (fixed4096_dialects_agree sampleDecls sampleFrame_grid sampleFile_grid 0 (by decide)
    (by decide) (fun _ _ => rfl)).imp
    fun _ h => ⟨h.1, h.2.2.1, h.2.2.2.2.1, h.2.2.2.2.2⟩

/-- C37. The table decode behind a successful validation, with the triple in front of the
table, the preset table and the scan for the end of the CCT section inside the declared
length, for a preset list without repetition that does not name the Auto slot.  With the
version 0 the Auto slot is written from the 6 bytes in front of the table: both green
channels from the value at `offset - 6`, red from `offset - 4`, blue from `offset - 2`,
whatever the slot held before (an Auto value of the marker scan is replaced).  With a version
other than 0 the Auto slot is as it was in every channel. -/
theorem table_decode_auto (d : Decls) (i34 : Bool) (f3 : Frame)
    (hnodup : d.Fuji_wb_list1.Nodup) (hauto : d.LIBRAW_WBI_Auto ∉ d.Fuji_wb_list1)
    (hlen : f3.PrivateMknBuf._len < 2 ^ 32)
    (hw6 : 6 ≤ f3.posPrivateMknBuf + f3.wb_section_offset)
    (hfit : f3.posPrivateMknBuf + f3.wb_section_offset + 6 * d.Fuji_wb_list1.length +
      0x30 + 0xc0 + 26 ≤ f3.PrivateMknBuf._len) :
    ∃ f, decode_wb_table d i34 f3 = .done f ∧
      (f3.self.RAFDataVersion = 0 →
        f.self.icWBC d.LIBRAW_WBI_Auto 1 =
          f3.PrivateMknBuf.peek2 (f3.posPrivateMknBuf + f3.wb_section_offset - 6) ∧
        f.self.icWBC d.LIBRAW_WBI_Auto 3 =
          f3.PrivateMknBuf.peek2 (f3.posPrivateMknBuf + f3.wb_section_offset - 6) ∧
        f.self.icWBC d.LIBRAW_WBI_Auto 0 =
          f3.PrivateMknBuf.peek2 (f3.posPrivateMknBuf + f3.wb_section_offset - 4) ∧
        f.self.icWBC d.LIBRAW_WBI_Auto 2 =
          f3.PrivateMknBuf.peek2 (f3.posPrivateMknBuf + f3.wb_section_offset - 2)) ∧
      (f3.self.RAFDataVersion ≠ 0 →
        ∀ c, f.self.icWBC d.LIBRAW_WBI_Auto c = f3.self.icWBC d.LIBRAW_WBI_Auto c) := by
  have hu : u32 (f3.posPrivateMknBuf + f3.wb_section_offset) =
      f3.posPrivateMknBuf + f3.wb_section_offset := by
    unfold u32
    exact Nat.mod_eq_of_lt (by omega)
  have hu6 : u32 (f3.posPrivateMknBuf + f3.wb_section_offset + (2 ^ 32 - 6)) =
      f3.posPrivateMknBuf + f3.wb_section_offset - 6 := by
    unfold u32
    omega
  have hstage : ∃ f1, (if f3.self.RAFDataVersion = 0 then
      read_WB_triple d.LIBRAW_WBI_Auto
        { f3 with posWB := u32 (f3.posPrivateMknBuf + f3.wb_section_offset + (2 ^ 32 - 6)) }
      else Outcome.done f3) = .done f1 ∧ f1.PrivateMknBuf = f3.PrivateMknBuf ∧
      f1.posPrivateMknBuf = f3.posPrivateMknBuf ∧
      f1.wb_section_offset = f3.wb_section_offset ∧
      (f3.self.RAFDataVersion = 0 → ∀ c, c < 4 → f1.self.icWBC d.LIBRAW_WBI_Auto c =
        triple_entry f3.PrivateMknBuf (f3.posPrivateMknBuf + f3.wb_section_offset - 6) c) ∧
      (f3.self.RAFDataVersion ≠ 0 → f1.self = f3.self) := by
    by_cases hv : f3.self.RAFDataVersion = 0
    · rw [if_pos hv, hu6]
      obtain ⟨f1, e1, b1, q1, w1, -, -, -, v1⟩ := read_WB_triple_values d.LIBRAW_WBI_Auto
        { f3 with posWB := f3.posPrivateMknBuf + f3.wb_section_offset - 6 }
        (by show f3.posPrivateMknBuf + f3.wb_section_offset - 6 + 6 ≤ f3.PrivateMknBuf._len
            omega)
      refine ⟨f1, e1, b1, q1, w1, fun _ c hc => ?_, fun hne => absurd hv hne⟩
      rw [v1, if_pos ⟨rfl, hc⟩]
    · rw [if_neg hv]
      exact ⟨f3, rfl, rfl, rfl, rfl, fun h0 => absurd h0 hv, fun _ => rfl⟩
  obtain ⟨f1, e1, b1, q1, w1, a1, n1⟩ := hstage
  obtain ⟨f4, e4, b4, -, -, p4, -, -, -, o4⟩ := preset_loop_values d.Fuji_wb_list1
    { f1 with posWB := f3.posPrivateMknBuf + f3.wb_section_offset } hnodup
    (by show f3.posPrivateMknBuf + f3.wb_section_offset + 6 * d.Fuji_wb_list1.length ≤
          f1.PrivateMknBuf._len
        rw [b1]; omega)
  have b4' : f4.PrivateMknBuf = f3.PrivateMknBuf :=
    (show f4.PrivateMknBuf = f1.PrivateMknBuf from b4).trans b1
  have p4' : f4.posWB = f3.posPrivateMknBuf + f3.wb_section_offset +
      6 * d.Fuji_wb_list1.length := p4
  have o4' : ∀ c, f4.self.icWBC d.LIBRAW_WBI_Auto c = f1.self.icWBC d.LIBRAW_WBI_Auto c :=
    fun c => o4 d.LIBRAW_WBI_Auto c hauto
  obtain ⟨f5, e5, -, wb5, -, -⟩ := cct_stage_done d i34 f4
    ((if i34 then f4.posWB + 0x30 else f4.posWB) + 0xc0) rfl (by rw [b4']; exact hlen)
    (by rw [b4', p4']; split_ifs <;> omega)
  have hval : ∀ c, f5.self.icWBC d.LIBRAW_WBI_Auto c = f1.self.icWBC d.LIBRAW_WBI_Auto c :=
    fun c => by rw [wb5]; exact o4' c
  refine ⟨f5, ?_, fun hv => ?_, fun hv c => ?_⟩
  · unfold decode_wb_table
    have hp1 : u32 (f1.posPrivateMknBuf + f1.wb_section_offset) =
        f3.posPrivateMknBuf + f3.wb_section_offset := by rw [q1, w1, hu]
    rw [e1, Outcome.bind_done, hp1, e4, Outcome.bind_done]
    exact e5
  · have h1 := a1 hv 1 (by omega)
    have h3 := a1 hv 3 (by omega)
    have h0 := a1 hv 0 (by omega)
    have h2 := a1 hv 2 (by omega)
    have e4 : f3.posPrivateMknBuf + f3.wb_section_offset - 6 + 2 =
        f3.posPrivateMknBuf + f3.wb_section_offset - 4 := by omega
    have e2 : f3.posPrivateMknBuf + f3.wb_section_offset - 6 + 4 =
        f3.posPrivateMknBuf + f3.wb_section_offset - 2 := by omega
    refine ⟨?_, ?_, ?_, ?_⟩
    · rw [hval, h1]; rfl
    · rw [hval, h3]; rfl
    · rw [hval, h0, ← e4]; rfl
    · rw [hval, h2, ← e2]; rfl
  · rw [hval, n1 hv]

/-- C37, on the sample frame with the version 0, the Auto slot preset to 7 and the triple
`111, 222, 333` in front of the table at offset 6: the Auto slot ends with green 111, red 222
and blue 333. -/
theorem table_decode_auto_witness :
    sampleFrame_auto.self.icWBC 82 1 = 7 ∧
    ∃ f, decode_wb_table sampleDecls false sampleFrame_auto = .done f ∧
      f.self.icWBC 82 1 = 111 ∧ f.self.icWBC 82 3 = 111 ∧ f.self.icWBC 82 0 = 222 ∧
      f.self.icWBC 82 2 = 333 :=
  ⟨by decide,
   (table_decode_auto sampleDecls false sampleFrame_auto (by decide) (by decide) (by decide)
      (by decide) (by decide)).imp
    fun _ h => ⟨h.1, (h.2.1 rfl).1.trans (by decide), (h.2.1 rfl).2.1.trans (by decide),
      (h.2.1 rfl).2.2.1.trans (by decide), (h.2.1 rfl).2.2.2.trans (by decide)⟩⟩

/-- The first chain of `parse_fuji` on a record of tag `0x0131`. -/
theorem pf_first_chain_0131 (d : Decls) (corr : Bool × WBcorr × WBcorr) (ifp : datastream)
    (len save : Nat) (st : FujiState) :
    pf_first_chain d corr ifp 0x0131 len save st =
      { st with self := { st.self with
          filters := 9,
          xtrans_abs := fun k =>
            if k < 36 then (max 0 (min (ifp.fgetc (save + (35 - k))) 2)).toNat
            else st.self.xtrans_abs k } } := by
  unfold pf_first_chain
  simp

/-- The second chain of `parse_fuji` on a record of tag `0x0131` changes nothing. -/
theorem pf_second_chain_0131 (d : Decls) (corr : Bool × WBcorr × WBcorr) (ifp : datastream)
    (len save : Nat) (self : LibRaw) :
    pf_second_chain d corr ifp 0x0131 len save self = self := by
  unfold pf_second_chain
  simp

/-- C38. One pass of the record loop of `parse_fuji` over a record of tag `0x0131`, for every
file and every state: `filters` is 9, each of the 36 entries of the layout table is 0, 1 or
2, and the entry at the flat index `35 - c` is the value `fgetc` returns for byte `c` of the
payload (the byte, or `-1` where the file has ended) clamped to `[0, 2]`. -/
theorem xtrans_layout_is_clamped (d : Decls) (corr : Bool × WBcorr × WBcorr) (ifp : datastream)
    (st : FujiState) (h : ifp.get2 st.self.order st.pos = 0x0131) :
    (pf_one_record d corr ifp st).self.filters = 9 ∧
    (∀ k, k < 36 → (pf_one_record d corr ifp st).self.xtrans_abs k ≤ 2) ∧
    (∀ c, c < 36 →
      (((pf_one_record d corr ifp st).self.xtrans_abs (35 - c) : Nat) : Int) =
        max 0 (min (ifp.fgetc (st.pos + 4 + c)) 2)) := by
  have e : (pf_one_record d corr ifp st).self =
      { st.self with
          filters := 9,
          xtrans_abs := fun k =>
            if k < 36 then (max 0 (min (ifp.fgetc (st.pos + 4 + (35 - k))) 2)).toNat
            else st.self.xtrans_abs k } := by
    unfold pf_one_record
    simp only [h, pf_first_chain_0131, pf_second_chain_0131]
  rw [e]
  refine ⟨rfl, fun k hk => ?_, fun c hc => ?_⟩
  · show (if k < 36 then (max 0 (min (ifp.fgetc (st.pos + 4 + (35 - k))) 2)).toNat
        else st.self.xtrans_abs k) ≤ 2
    rw [if_pos hk]
    omega
  · show (((if 35 - c < 36 then (max 0 (min (ifp.fgetc (st.pos + 4 + (35 - (35 - c)))) 2)).toNat
        else st.self.xtrans_abs (35 - c)) : Nat) : Int) = _
    rw [if_pos (by omega)]
    have e2 : 35 - (35 - c) = c := by omega
    rw [e2]
    omega

/-- C38, on the sample file that ends after five payload bytes `0, 1, 2, 3, 200`: the entries
35 down to 31 are 0, 1, 2, 2, 2 and the entry 30, whose byte lies behind the end of the file,
is 0. -/
theorem xtrans_layout_is_clamped_witness :
    sampleFile_xtrans.get2 0x4d4d 0 = 0x0131 ∧
    sampleFile_xtrans.fgetc 9 = -1 ∧
    (pf_one_record sampleDecls (false, .one, .one) sampleFile_xtrans
      ⟨{ LibRaw.blank with order := 0x4d4d }, 0, false⟩).self.xtrans_abs 35 = 0 ∧
    (pf_one_record sampleDecls (false, .one, .one) sampleFile_xtrans
      ⟨{ LibRaw.blank with order := 0x4d4d }, 0, false⟩).self.xtrans_abs 32 = 2 ∧
    (pf_one_record sampleDecls (false, .one, .one) sampleFile_xtrans
      ⟨{ LibRaw.blank with order := 0x4d4d }, 0, false⟩).self.xtrans_abs 31 = 2 ∧
    (pf_one_record sampleDecls (false, .one, .one) sampleFile_xtrans
      ⟨{ LibRaw.blank with order := 0x4d4d }, 0, false⟩).self.xtrans_abs 30 = 0 ∧
    ∀ k, k < 36 →
      (pf_one_record sampleDecls (false, .one, .one) sampleFile_xtrans
        ⟨{ LibRaw.blank with order := 0x4d4d }, 0, false⟩).self.xtrans_abs k ≤ 2 :=
  ⟨by decide, by decide, by decide, by decide, by decide, by decide,
   (xtrans_layout_is_clamped sampleDecls (false, .one, .one) sampleFile_xtrans
      ⟨{ LibRaw.blank with order := 0x4d4d }, 0, false⟩ (by decide)).2.1⟩

/-! ## The black-level folding step of `scale_colors` -/

/-- The guard of the folding step holds exactly when `filters > 1000` and `cblack[4]` and
`cblack[5]` are each 1 or 2. -/
theorem fold_guard_iff (filters : Nat) (cblack : Nat → Nat) (h32 : ∀ k, cblack k < 2 ^ 32) :
    fold_guard filters cblack ↔
      (filters > 1000 ∧ (cblack 4 = 1 ∨ cblack 4 = 2) ∧ (cblack 5 = 1 ∨ cblack 5 = 2)) := by
  have h4 := h32 4
  have h5 := h32 5
  unfold fold_guard u32
  constructor
  · rintro ⟨hf, a, b⟩
    refine ⟨hf, ?_, ?_⟩ <;> omega
  · rintro ⟨hf, a, b⟩
    refine ⟨hf, ?_, ?_⟩ <;> omega

/-- The index of a pass with both divisors 1 or 2 lies in `6 .. 9`. -/
theorem fold_index_range (cb : Nat → Nat) (c : Nat) (hc : c < 4)
    (h4 : cb 4 = 1 ∨ cb 4 = 2) (h5 : cb 5 = 1 ∨ cb 5 = 2) :
    ∃ i, fold_index cb c = some i ∧ 6 ≤ i ∧ i ≤ 9 ∧
      i = 6 + c / 2 % cb 4 * cb 5 + c % 2 % cb 5 := by
  have hne : ¬ (cb 4 = 0 ∨ cb 5 = 0) := by omega
  unfold fold_index
  rw [if_neg hne]
  refine ⟨_, rfl, ?_⟩
  unfold u32
  rcases h4 with h4 | h4 <;> rcases h5 with h5 | h5 <;> rw [h4, h5] <;>
    interval_cases c <;> decide

/-- The passes of the folding loop for a macro `FC` with values below 4: no pass touches
`cblack[4 ..]`, so no pass computes a remainder by zero. -/
theorem fold_passes_keep (FC : Nat → Nat → Nat) (hFC : ∀ r c, FC r c < 4) (n : Nat)
    (hn : n ≤ 4) (cblack : Nat → Nat)
    (h4 : cblack 4 = 1 ∨ cblack 4 = 2) (h5 : cblack 5 = 1 ∨ cblack 5 = 2) :
    ∃ cb, fold_passes FC n cblack = some cb ∧ ∀ k, 4 ≤ k → cb k = cblack k := by
  induction n with
  | zero => exact ⟨cblack, rfl, fun _ _ => rfl⟩
  | succ n ih =>
    obtain ⟨cb, e, hk⟩ := ih (by omega)
    obtain ⟨i, hi, -, -, -⟩ := fold_index_range cb n (by omega)
      (by rw [hk 4 (by omega)]; exact h4) (by rw [hk 5 (by omega)]; exact h5)
    refine ⟨fun k => if k = FC (n / 2) (n % 2) then u32 (cb k + cb i) else cb k, ?_, ?_⟩
    · unfold fold_passes
      rw [e]
      show fold_step FC n cb = _
      unfold fold_step
      rw [hi]
      rfl
    · intro k hk4
      have := hFC (n / 2) (n % 2)
      show (if k = FC (n / 2) (n % 2) then u32 (cb k + cb i) else cb k) = cblack k
      rw [if_neg (by omega)]
      exact hk k hk4

/-- C39. The folding step of `scale_colors` on an array of unsigned 32-bit values, for a
macro `FC` with values below 4.  The step runs exactly when `filters > 1000` and `cblack[4]`
and `cblack[5]` are each 1 or 2.  It never computes a remainder by zero: before every pass
`c = 0 .. 3` the two divisors are still the values of `cblack[4]` and `cblack[5]` on entry,
and the index `6 + c / 2 % cblack[4] * cblack[5] + c % 2 % cblack[5]` lies in `6 .. 9`.
After the step `cblack[4] = cblack[5] = 0`; when the step does not run the array is as it
was. -/
theorem scale_colors_fold_is_safe (FC : Nat → Nat → Nat) (filters : Nat) (cblack : Nat → Nat)
    (hFC : ∀ r c, FC r c < 4) (h32 : ∀ k, cblack k < 2 ^ 32) :
    (fold_guard filters cblack ↔
      (filters > 1000 ∧ (cblack 4 = 1 ∨ cblack 4 = 2) ∧ (cblack 5 = 1 ∨ cblack 5 = 2))) ∧
    (fold_guard filters cblack →
      (∀ c, c < 4 → ∃ cb i, fold_passes FC c cblack = some cb ∧
        cb 4 = cblack 4 ∧ cb 5 = cblack 5 ∧ cb 4 ≠ 0 ∧ cb 5 ≠ 0 ∧
        fold_index cb c = some i ∧ 6 ≤ i ∧ i ≤ 9) ∧
      ∃ cb, scale_colors_fold FC filters cblack = some cb ∧ cb 4 = 0 ∧ cb 5 = 0) ∧
    (¬ fold_guard filters cblack → scale_colors_fold FC filters cblack = some cblack) := by
  have hiff := fold_guard_iff filters cblack h32
  refine ⟨hiff, fun hg => ?_, fun hg => ?_⟩
  · obtain ⟨-, h4, h5⟩ := hiff.mp hg
    constructor
    · intro c hc
      obtain ⟨cb, e, hk⟩ := fold_passes_keep FC hFC c (by omega) cblack h4 h5
      have e4 := hk 4 (by omega)
      have e5 := hk 5 (by omega)
      obtain ⟨i, hi, h6, h9, -⟩ := fold_index_range cb c hc (by rw [e4]; exact h4)
        (by rw [e5]; exact h5)
      exact ⟨cb, i, e, e4, e5, by omega, by omega, hi, h6, h9⟩
    · obtain ⟨cb, e, -⟩ := fold_passes_keep FC hFC 4 (by omega) cblack h4 h5
      refine ⟨fun k => if k = 4 ∨ k = 5 then 0 else cb k, ?_, ?_, ?_⟩
      · unfold scale_colors_fold
        rw [if_pos hg, e]
        rfl
      · show (if (4 : Nat) = 4 ∨ (4 : Nat) = 5 then 0 else cb 4) = 0
        rw [if_pos (Or.inl rfl)]
      · show (if (5 : Nat) = 4 ∨ (5 : Nat) = 5 then 0 else cb 5) = 0
        rw [if_pos (Or.inr rfl)]
  · unfold scale_colors_fold
    rw [if_neg hg]

/-- C39, on the sample array with a `2 x 2` pattern and the filter pattern `0x94949494`: the
step runs, the pattern values 1, 2, 3, 4 are added to the levels of the channels 0, 1, 1, 2
that this `FC` names for the four positions, and `cblack[4] = cblack[5] = 0` afterwards. -/
theorem scale_colors_fold_is_safe_witness :
    (∀ r c, sampleFC 0x94949494 r c < 4) ∧ (∀ k, sampleCblack k < 2 ^ 32) ∧
    fold_guard 0x94949494 sampleCblack ∧
    (∃ cb, scale_colors_fold (sampleFC 0x94949494) 0x94949494 sampleCblack = some cb ∧
      cb 4 = 0 ∧ cb 5 = 0) ∧
    ((scale_colors_fold (sampleFC 0x94949494) 0x94949494 sampleCblack).map
      fun cb => (List.range 10).map cb) = some [101, 105, 104, 100, 0, 0, 1, 2, 3, 4] :=
  have hFC : ∀ r c, sampleFC 0x94949494 r c < 4 := fun r c =>
    Nat.lt_of_le_of_lt Nat.and_le_right (by decide)
  have h32 : ∀ k, sampleCblack k < 2 ^ 32 := fun k => by
    unfold sampleCblack
    split_ifs <;> omega
  ⟨hFC, h32, by decide,
   ((scale_colors_fold_is_safe (sampleFC 0x94949494) 0x94949494 sampleCblack hFC h32).2.1
      (by decide)).2,
   by decide⟩

/-! ## The layout of the generated ICC profile -/

/-- The layout is the same for every output colour space: the test `output_color == 5`
changes word 4 of the header only. -/
theorem convert_to_rgb_layout_cases (output_color : Nat) :
    convert_to_rgb_layout output_color = convert_to_rgb_layout 5 ∨
    convert_to_rgb_layout output_color = convert_to_rgb_layout 1 := by
  by_cases h : output_color = 5
  · left
    rw [h]
  · right
    unfold convert_to_rgb_layout
    simp only [if_neg h]
    rfl

/-- C40. For every output colour space, the layout loop of `convert_to_rgb` records the
data offsets 252, 288, 348, 368, 388, 404, 420, 436, 456 and 476 for the ten tags and leaves
the lengths as they were; it ends with `oprof[0] = 496`, below the allocation of
`phead[0] = 1024` bytes.  The first offset is `132 + 12 * 10`, every offset is a multiple of
4, each following offset is the one before plus the length before it rounded up to a
multiple of 4, and no tag reaches into the next one. -/
theorem icc_layout_offsets (output_color : Nat) :
    (List.range 10).map (tag_offset output_color) =
      [252, 288, 348, 368, 388, 404, 420, 436, 456, 476] ∧
    (List.range 10).map (tag_length output_color) = [36, 60, 20, 20, 14, 14, 14, 20, 20, 20] ∧
    (convert_to_rgb_layout output_color).1 0 = 496 ∧
    (convert_to_rgb_layout output_color).1 0 < phead.getD 0 0 ∧
    tag_offset output_color 0 = 132 + 12 * pbody.getD 0 0 ∧
    (∀ i, i < 10 → tag_offset output_color i % 4 = 0) ∧
    (∀ i, i < 9 → tag_offset output_color (i + 1) =
      tag_offset output_color i + (tag_length output_color i + 3) / 4 * 4) ∧
    (∀ i, i < 9 →
      tag_offset output_color i + tag_length output_color i ≤ tag_offset output_color (i + 1)) ∧
    tag_offset output_color 9 + tag_length output_color 9 ≤
      (convert_to_rgb_layout output_color).1 0 := by
  have key : ∀ L : (Nat → Nat) × List Nat,
      (L = convert_to_rgb_layout 5 ∨ L = convert_to_rgb_layout 1) →
      (List.range 10).map (fun i => L.2.getD (i * 3 + 2) 0) =
        [252, 288, 348, 368, 388, 404, 420, 436, 456, 476] ∧
      (List.range 10).map (fun i => L.2.getD (i * 3 + 3) 0) =
        [36, 60, 20, 20, 14, 14, 14, 20, 20, 20] ∧
      L.1 0 = 496 ∧
      L.1 0 < phead.getD 0 0 ∧
      L.2.getD (0 * 3 + 2) 0 = 132 + 12 * pbody.getD 0 0 ∧
      (∀ i, i < 10 → L.2.getD (i * 3 + 2) 0 % 4 = 0) ∧
      (∀ i, i < 9 → L.2.getD ((i + 1) * 3 + 2) 0 =
        L.2.getD (i * 3 + 2) 0 + (L.2.getD (i * 3 + 3) 0 + 3) / 4 * 4) ∧
      (∀ i, i < 9 →
        L.2.getD (i * 3 + 2) 0 + L.2.getD (i * 3 + 3) 0 ≤ L.2.getD ((i + 1) * 3 + 2) 0) ∧
      L.2.getD (9 * 3 + 2) 0 + L.2.getD (9 * 3 + 3) 0 ≤ L.1 0 := by
    rintro L (rfl | rfl) <;> decide!
  exact key _ (convert_to_rgb_layout_cases output_color)
